import Mathlib

/-!
C-TDD-Lab: shallow embedding of the firmware core.

The firmware keeps its state in file-scope `static` variables.  The embedding
gathers those variables in one record, `Machine`, and turns every C function
into a function on that record.  `EFM_ASSERT(false)` stops the program, so a
function that can reach an assertion returns a `Run`: either `done` with the
return value and the new state, or `halted` with the state at the assertion.

Machine integers are natural numbers reduced explicitly: `unsigned int` and
`uint32_t` are 32 bits wide, `uint8_t` and `char` are 8 bits wide.

The peripherals are the environment of the code.  Register writes of the I2C
peripheral are kept as a log; of the LEUART peripheral the model keeps the
interrupt-enable bits, the latched frame flags and the receive block, and
`leuart_rx_byte` describes how its receiver turns an arriving byte into the
causes that `LEUART0_IRQHandler` serves.
-/

namespace CTDDLab

/-! ## Machine integers -/

/-- Number of values of a `uint32_t` (and of `unsigned int` on the target). -/
def U32 : Nat := 4294967296

/-- Number of values of a `uint8_t` (and of `char`, unsigned on the target). -/
def U8 : Nat := 256

/-- Subtraction of two `uint32_t` values, as C computes it (modulo 2^32). -/
def sub32 (a b : Nat) : Nat := (a + U32 - b % U32) % U32

/-- Length of the C string stored in `s`: the bytes before the first NUL. -/
def strlen (s : List Nat) : Nat := (s.takeWhile (fun c => c != 0)).length

/-! ## sleep_routines.h / sleep_routines.c : data -/

def EM0 : Nat := 0
def EM1 : Nat := 1
def EM2 : Nat := 2
def EM3 : Nat := 3
def EM4 : Nat := 4
def MAX_ENERGY_MODES : Nat := 5

/-- The array `static unsigned int lowest_energy_mode[MAX_ENERGY_MODES]`. -/
structure EnergyModes where
  em0 : Nat
  em1 : Nat
  em2 : Nat
  em3 : Nat
  em4 : Nat
deriving DecidableEq, Repr

/-- Read `lowest_energy_mode[i]`.  An index outside 0..4 reads memory that the
model does not represent; it is taken as 0. -/
def EnergyModes.get (a : EnergyModes) (i : Nat) : Nat :=
  match i with
  | 0 => a.em0
  | 1 => a.em1
  | 2 => a.em2
  | 3 => a.em3
  | 4 => a.em4
  | _ => 0

/-- Write `lowest_energy_mode[i] = v` (only reached with `i < MAX_ENERGY_MODES`). -/
def EnergyModes.set (a : EnergyModes) (i v : Nat) : EnergyModes :=
  match i with
  | 0 => { a with em0 := v }
  | 1 => { a with em1 := v }
  | 2 => { a with em2 := v }
  | 3 => { a with em3 := v }
  | 4 => { a with em4 := v }
  | _ => a

/-! ## i2c.h : data -/

/-- The enum `I2C_States`. -/
inductive I2C_States where
  | INITIALIZE
  | MEASURE
  | RESTART
  | MSB_LISTEN
  | LSB_LISTEN
  | STOP
deriving DecidableEq, Repr

def READ : Nat := 1
def WRITE : Nat := 0
def I2C_EM_BLOCK : Nat := EM2

/-- One write to a register of the I2C peripheral, in program order: one of
the commands written to `CMD`, or a value written to `TXDATA`. -/
inductive I2C_RegWrite where
  | I2C_CMD_START
  | I2C_CMD_STOP
  | I2C_CMD_ACK
  | I2C_CMD_NACK
  | TXDATA (v : Nat)
deriving DecidableEq, Repr

/-- The struct `I2C_PAYLOAD`.  `data` is the destination pointer kept as an
address; the word it points to is `Machine.si7021_data`, the only destination
the repository ever passes. -/
structure I2C_PAYLOAD where
  i2c_state : I2C_States
  cmd : Nat
  read : Bool
  data : Nat
  device_address : Nat
  bytes : Nat
  event : Nat
deriving DecidableEq, Repr

/-- The struct `I2C_PAYLOAD_INIT`. -/
structure I2C_PAYLOAD_INIT where
  cmd : Nat
  read : Bool
  data : Nat
  device_address : Nat
  bytes : Nat
deriving DecidableEq, Repr

/-! ## leuart.h : data -/

/-- The enum `LEUART_States`. -/
inductive LEUART_States where
  | LEUART_INITIALIZE
  | SEND_DATA
  | FINISH_WAIT
deriving DecidableEq, Repr

/-- The enum `LEUART_RXStates` (spelling of the source kept).  `invalid v` is
an object of this type holding a value `v` that is none of the enumerators,
which a store past the end of `rx_message` can leave in `rx_state`; the
`switch` statements take their `default` branch on it. -/
inductive LEUART_RXStates where
  | WAIT
  | RECIEVE_DATA
  | RESET
  | invalid (v : Nat)
deriving DecidableEq, Repr

/-- The value of an object of type `LEUART_RXStates` once its first byte has
been set to `b`, the other bytes, if the type has more than one, being zero as
they are for every enumerator: WAIT is 0, RECIEVE_DATA is 1, RESET is 2. -/
def LEUART_RXStates.ofByte (b : Nat) : LEUART_RXStates :=
  if b = 0 then LEUART_RXStates.WAIT
  else if b = 1 then LEUART_RXStates.RECIEVE_DATA
  else if b = 2 then LEUART_RXStates.RESET
  else LEUART_RXStates.invalid b

def LEUART_TX_EM : Nat := EM3
def LEUART_RX_EM : Nat := EM3

/-- The start-of-frame byte, the character `>`. -/
def RX_STARTFRAME : Nat := 62

/-- The end-of-frame byte, the character `;`. -/
def RX_SIGFRAME : Nat := 59

/-- The struct `LEUART_PAYLOAD`; `message` and `rx_message` are `char[80]`. -/
structure LEUART_PAYLOAD where
  message_len : Nat
  message : List Nat
  rx_message : List Nat
  rx_state : LEUART_RXStates
  index : Nat
  rx_index : Nat
  state : LEUART_States
  txbusy : Bool
  rxbusy : Bool
deriving DecidableEq, Repr

/-- The part of the LEUART peripheral that the driver reads or writes: the
five interrupt-enable bits it uses, the two latched frame flags, the receive
block, the bytes written to `TXDATA` in program order, and the loopback bit
of `CTRL`. -/
structure LEUART_HW where
  ien_txbl : Bool
  ien_txc : Bool
  ien_sigf : Bool
  ien_startf : Bool
  ien_rxdatav : Bool
  if_txc : Bool
  if_sigf : Bool
  if_startf : Bool
  rxblock : Bool
  sfubrx : Bool
  startframe : Nat
  sigframe : Nat
  txdata : List Nat
  loopbk : Bool
deriving DecidableEq, Repr

/-- The causes that `LEUART0_IRQHandler` finds in `IF & IEN`. -/
structure LEUART_Flags where
  txbl : Bool
  txc : Bool
  sigf : Bool
  startf : Bool
  rxdatav : Bool
deriving DecidableEq, Repr

/-! ## ble.h : data -/

def CIRC_TEST : Bool := true
def CIRC_OPER : Bool := false
def CSIZE : Nat := 64

/-- The struct `BLE_CIRCULAR_BUF`; `cbuf` is `char[64]`. -/
structure BLE_CIRCULAR_BUF where
  cbuf : List Nat
  size_mask : Nat
  size : Nat
  read_ptr : Nat
  write_ptr : Nat
deriving DecidableEq, Repr

/-! ## letimer.h : data -/

def LETIMER_EM : Nat := EM4
def DISABLE_LETIMER : Bool := false
def ENABLE_LETIMER : Bool := true

/-- The bits `LETIMER_IF_COMP0`, `LETIMER_IF_COMP1` and `LETIMER_IF_UF` of the
interrupt registers of the timer; the bits of `IEN` and `IFC` sit at the same
positions. -/
def LETIMER_IF_COMP0 : Nat := 1
def LETIMER_IF_COMP1 : Nat := 2
def LETIMER_IF_UF : Nat := 4

/-- The part of the LETIMER0 peripheral that the driver reads or writes: the
`RUNNING` bit of `STATUS`, the registers `IF` and `IEN`, and the values written
to `IFC` in program order. -/
structure LETIMER_HW where
  running : Bool
  IF : Nat
  IEN : Nat
  IFC : List Nat
deriving DecidableEq, Repr

/-! ## The whole state -/

/-- All file-scope state of the firmware core, plus two records of what the
code did: `posted` lists the arguments of the `add_scheduled_event` calls in
order, and `rx_oob` lists the indices of writes to `rx_message` that fell
outside its 80 bytes.  `test_str` is the array `test_struct.test_str[3][64]` of
ble.c, row after row, and `result_str` the array `test_struct.result_str` that
follows it in memory; `led1` is the output pin of LED1. -/
structure Machine where
  irq_enabled : Bool
  lowest_energy_mode : EnergyModes
  event_scheduled : Nat
  posted : List Nat
  i2c_payload : I2C_PAYLOAD
  si7021_data : Nat
  i2c_regs : List I2C_RegWrite
  rx_done_evt : Nat
  tx_done_evt : Nat
  leuart_payload : LEUART_PAYLOAD
  leuart_hw : LEUART_HW
  rx_oob : List Nat
  ble_cbuf : BLE_CIRCULAR_BUF
  result_str : List Nat
  test_str : List Nat
  is_celsius : Bool
  letimer_hw : LETIMER_HW
  scheduled_comp0_evt : Nat
  scheduled_comp1_evt : Nat
  scheduled_uf_evt : Nat
  led1 : Bool
deriving DecidableEq, Repr

/-- Outcome of running a C function: it returned `a` in state `m`, or it
reached a failing `EFM_ASSERT` in state `m` and the program stopped there. -/
inductive Run (α : Type) where
  | done (a : α) (m : Machine)
  | halted (m : Machine)
deriving DecidableEq, Repr

/-- Sequencing: the rest of the function runs only if the first part returned. -/
def Run.bind {α β : Type} (r : Run α) (f : α → Machine → Run β) : Run β :=
  match r with
  | Run.done a m => f a m
  | Run.halted m => Run.halted m

/-- The macro `EFM_ASSERT(expr)`: stop the program when `expr` is false. -/
def EFM_ASSERT (expr : Bool) (m : Machine) : Run Unit :=
  if expr then Run.done () m else Run.halted m

/-- The intrinsic `__disable_irq()`. -/
def disable_irq (m : Machine) : Machine := { m with irq_enabled := false }

/-- The intrinsic `__enable_irq()`. -/
def enable_irq (m : Machine) : Machine := { m with irq_enabled := true }

/-! ## scheduler.c -/

/-- The function `add_scheduled_event`: `event_scheduled |= event`. -/
def add_scheduled_event (event : Nat) (m : Machine) : Machine :=
  let m1 := disable_irq m
  let m2 := { m1 with event_scheduled := m1.event_scheduled ||| event,
                      posted := m1.posted ++ [event] }
  enable_irq m2

/-- The function `get_scheduled_events`. -/
def get_scheduled_events (m : Machine) : Nat := m.event_scheduled

/-! ## sleep_routines.c -/

/-- The function `sleep_open`: every counter is set to 0. -/
def sleep_open (m : Machine) : Machine :=
  { m with lowest_energy_mode := { em0 := 0, em1 := 0, em2 := 0, em3 := 0, em4 := 0 } }

/-- The function `sleep_block_mode`: increment, then assert the count is below 10. -/
def sleep_block_mode (EM : Nat) (m : Machine) : Run Unit :=
  let m1 := disable_irq m
  let m2 := if EM < MAX_ENERGY_MODES then
      { m1 with lowest_energy_mode :=
          m1.lowest_energy_mode.set EM ((m1.lowest_energy_mode.get EM + 1) % U32) }
    else m1
  (EFM_ASSERT (decide (m2.lowest_energy_mode.get EM < 10)) m2).bind
    (fun _ m3 => Run.done () (enable_irq m3))

/-- The function `sleep_unblock_mode`: decrement an `unsigned int`, then assert
the count is `>= 0`. -/
def sleep_unblock_mode (EM : Nat) (m : Machine) : Run Unit :=
  let m1 := disable_irq m
  let m2 := if EM < MAX_ENERGY_MODES then
      { m1 with lowest_energy_mode :=
          m1.lowest_energy_mode.set EM (sub32 (m1.lowest_energy_mode.get EM) 1) }
    else m1
  (EFM_ASSERT (decide (m2.lowest_energy_mode.get EM ≥ 0)) m2).bind
    (fun _ m3 => Run.done () (enable_irq m3))

/-- The function `enter_sleep`, returning the depth of the sleep state it
enters (`EMU_EnterEM1`, `EMU_EnterEM2` or `EMU_EnterEM3`), or `none` when it
returns without sleeping. -/
def enter_sleep (m : Machine) : Option Nat :=
  if m.lowest_energy_mode.get EM0 > 0 then none
  else if m.lowest_energy_mode.get EM1 > 0 then none
  else if m.lowest_energy_mode.get EM2 > 0 then some EM1
  else if m.lowest_energy_mode.get EM3 > 0 then some EM2
  else some EM3

/-! ## i2c.c -/

/-- The function `i2c_ack`, the handler of the acknowledge cause. -/
def i2c_ack (m : Machine) : Run Unit :=
  match m.i2c_payload.i2c_state with
  | I2C_States.INITIALIZE =>
      Run.done () { m with
        i2c_payload := { m.i2c_payload with i2c_state := I2C_States.MEASURE },
        i2c_regs := m.i2c_regs ++ [I2C_RegWrite.TXDATA m.i2c_payload.cmd] }
  | I2C_States.MEASURE =>
      Run.done () { m with
        i2c_payload := { m.i2c_payload with i2c_state := I2C_States.RESTART },
        i2c_regs := m.i2c_regs ++ [I2C_RegWrite.I2C_CMD_START,
          I2C_RegWrite.TXDATA (((m.i2c_payload.device_address <<< 1) % U32) ||| READ)] }
  | I2C_States.RESTART =>
      Run.done () { m with
        i2c_payload := { m.i2c_payload with i2c_state := I2C_States.MSB_LISTEN } }
  | I2C_States.MSB_LISTEN => EFM_ASSERT false m
  | I2C_States.LSB_LISTEN => EFM_ASSERT false m
  | I2C_States.STOP => EFM_ASSERT false m

/-- The function `i2c_nack`, the handler of the not-acknowledge cause. -/
def i2c_nack (m : Machine) : Run Unit :=
  match m.i2c_payload.i2c_state with
  | I2C_States.INITIALIZE => EFM_ASSERT false m
  | I2C_States.MEASURE => EFM_ASSERT false m
  | I2C_States.RESTART =>
      Run.done () { m with
        i2c_payload := { m.i2c_payload with i2c_state := I2C_States.RESTART },
        i2c_regs := m.i2c_regs ++ [I2C_RegWrite.I2C_CMD_START,
          I2C_RegWrite.TXDATA (((m.i2c_payload.device_address <<< 1) % U32) ||| READ)] }
  | I2C_States.LSB_LISTEN => EFM_ASSERT false m
  | I2C_States.MSB_LISTEN => EFM_ASSERT false m
  | I2C_States.STOP => EFM_ASSERT false m

/-- The function `i2c_rxdatav`, the handler of the byte-received cause;
`rxdata` is the value the read of the `RXDATA` register returns. -/
def i2c_rxdatav (rxdata : Nat) (m : Machine) : Run Unit :=
  match m.i2c_payload.i2c_state with
  | I2C_States.INITIALIZE => EFM_ASSERT false m
  | I2C_States.MEASURE => EFM_ASSERT false m
  | I2C_States.RESTART => EFM_ASSERT false m
  | I2C_States.MSB_LISTEN =>
      Run.done () { m with
        si7021_data := (rxdata <<< 8) % U32,
        i2c_regs := m.i2c_regs ++ [I2C_RegWrite.I2C_CMD_ACK],
        i2c_payload := { m.i2c_payload with i2c_state := I2C_States.LSB_LISTEN } }
  | I2C_States.LSB_LISTEN =>
      Run.done () { m with
        si7021_data := m.si7021_data ||| rxdata,
        i2c_payload := { m.i2c_payload with i2c_state := I2C_States.STOP },
        i2c_regs := m.i2c_regs ++ [I2C_RegWrite.I2C_CMD_NACK, I2C_RegWrite.I2C_CMD_STOP] }
  | I2C_States.STOP => EFM_ASSERT false m

/-- The function `i2c_mstop`, the handler of the transaction-stop cause. -/
def i2c_mstop (m : Machine) : Run Unit :=
  match m.i2c_payload.i2c_state with
  | I2C_States.INITIALIZE => EFM_ASSERT false m
  | I2C_States.MEASURE => EFM_ASSERT false m
  | I2C_States.RESTART => EFM_ASSERT false m
  | I2C_States.LSB_LISTEN => EFM_ASSERT false m
  | I2C_States.MSB_LISTEN => EFM_ASSERT false m
  | I2C_States.STOP =>
      let m1 := { m with
        i2c_payload := { m.i2c_payload with i2c_state := I2C_States.INITIALIZE } }
      let m2 := add_scheduled_event m1.i2c_payload.event m1
      sleep_unblock_mode I2C_EM_BLOCK m2

/-- The function `i2c_start`; `bus_idle` is what the read of the peripheral's
`STATE` register shows: whether the bus is idle. -/
def i2c_start (param : I2C_PAYLOAD_INIT) (bus_idle : Bool) (m : Machine) : Run Unit :=
  (EFM_ASSERT bus_idle m).bind fun _ m0 =>
  (sleep_block_mode I2C_EM_BLOCK m0).bind fun _ m1 =>
  let p := { m1.i2c_payload with
    device_address := param.device_address,
    data := param.data,
    i2c_state := I2C_States.INITIALIZE,
    read := param.read,
    bytes := param.bytes,
    cmd := param.cmd }
  Run.done () { m1 with
    i2c_payload := p,
    i2c_regs := m1.i2c_regs ++ [I2C_RegWrite.I2C_CMD_START,
      I2C_RegWrite.TXDATA (((p.device_address <<< 1) % U32) ||| WRITE)] }

/-- The four interrupt causes of the I2C line; byte-received carries the value
the `RXDATA` register holds. -/
inductive I2C_Cause where
  | ack
  | nack
  | rxdatav (rxdata : Nat)
  | mstop
deriving DecidableEq, Repr

/-- One interrupt with a single pending cause: `I2C0_IRQHandler` calls the
handler of that cause. -/
def i2c_cause (c : I2C_Cause) (m : Machine) : Run Unit :=
  match c with
  | I2C_Cause.ack => i2c_ack m
  | I2C_Cause.nack => i2c_nack m
  | I2C_Cause.rxdatav rxdata => i2c_rxdatav rxdata m
  | I2C_Cause.mstop => i2c_mstop m

/-- A succession of interrupts, one cause each, delivered in order; a halt
ends the run. -/
def i2c_causes (cs : List I2C_Cause) (m : Machine) : Run Unit :=
  match cs with
  | [] => Run.done () m
  | c :: rest => (i2c_cause c m).bind fun _ m1 => i2c_causes rest m1

/-! ## leuart.c -/

/-- Store `src` at the start of the array `dst`.  The C code does not stop at
the end of `dst`: a source longer than `dst` runs on into what follows the
array in memory.  That is outside the model, which keeps the part that fits;
what is stated of a copy is stated for sources that fit. -/
def overwrite (dst src : List Nat) : List Nat :=
  (src ++ dst.drop src.length).take dst.length

/-- The call `strcpy(dst, src)` on distinct arrays: the bytes of `src` before
its first NUL, then a NUL. -/
def strcpy (dst src : List Nat) : List Nat :=
  overwrite dst (src.takeWhile (fun c => c != 0) ++ [0])

/-- The call `strcpy(buf, buf+1)` of `leuart_sigf`, a forward byte copy inside
one array: `buf[i] = buf[i+1]` for i = 0, 1, ... up to and including the first
NUL copied.  A read past the end of the array yields NUL: the copy gets that
far only when `leuart_sigf` has stored its terminator at index 80 or above;
stored at index 80, the terminator is the byte read there, and stored above,
the state is one that `rx_message_store` does not model. -/
def strcpy_shift (fuel i : Nat) (buf : List Nat) : List Nat :=
  match fuel with
  | 0 => buf
  | fuel1 + 1 =>
      let c := buf.getD (i + 1) 0
      let buf1 := buf.set i c
      if c = 0 then buf1 else strcpy_shift fuel1 (i + 1) buf1

/-- The assignment `payload.rx_message[i] = v`, which the code makes without
comparing `i` with the size of the array.  `LEUART_PAYLOAD` declares `rx_state`
right after `rx_message[80]`, and the offset of the array in the struct, 84, is
a multiple of 4, so index 80 is the first byte of `rx_state`: on the
little-endian target a store there makes `rx_state` hold the byte stored.
Every store at an index of 80 or more is recorded in `rx_oob`.  A store at an
index above 80 reaches what lies behind that byte (the rest of `rx_state` or
padding, depending on the size the compiler gives the enum, then `index`,
`rx_index`, `state`, ...): its effect is not modelled, and a state in which
`rx_oob` holds an index above 80 no longer stands for the memory of the
program. -/
def rx_message_store (i v : Nat) (m : Machine) : Machine :=
  if i < 80 then
    { m with leuart_payload :=
        { m.leuart_payload with rx_message := m.leuart_payload.rx_message.set i (v % U8) } }
  else if i = 80 then
    { m with
      leuart_payload :=
        { m.leuart_payload with rx_state := LEUART_RXStates.ofByte (v % U8) },
      rx_oob := m.rx_oob ++ [i] }
  else { m with rx_oob := m.rx_oob ++ [i] }

/-- The function `leuart_rxdatav`; `rxdata` is the value the read of the
`RXDATA` register returns. -/
def leuart_rxdatav (rxdata : Nat) (m : Machine) : Run Unit :=
  match m.leuart_payload.rx_state with
  | LEUART_RXStates.WAIT => EFM_ASSERT false m
  | LEUART_RXStates.RECIEVE_DATA =>
      let m1 := rx_message_store m.leuart_payload.rx_index rxdata m
      Run.done () { m1 with leuart_payload :=
        { m1.leuart_payload with rx_index := (m1.leuart_payload.rx_index + 1) % U32 } }
  | LEUART_RXStates.RESET =>
      let m1 := { m with
        leuart_payload := { m.leuart_payload with rxbusy := false },
        leuart_hw := { m.leuart_hw with rxblock := true } }
      let m2 := { m1 with
        leuart_payload := { m1.leuart_payload with rx_state := LEUART_RXStates.WAIT } }
      Run.done () (add_scheduled_event m2.rx_done_evt m2)
  | LEUART_RXStates.invalid _ => EFM_ASSERT false m

/-- The function `leuart_sigf`, the handler of the end-frame cause. -/
def leuart_sigf (m : Machine) : Run Unit :=
  let m0 := { m with leuart_hw := { m.leuart_hw with if_sigf := false } }
  match m0.leuart_payload.rx_state with
  | LEUART_RXStates.WAIT => EFM_ASSERT false m0
  | LEUART_RXStates.RECIEVE_DATA =>
      let m1 := { m0 with
        leuart_payload := { m0.leuart_payload with rx_state := LEUART_RXStates.RESET } }
      let m2 := rx_message_store m1.leuart_payload.rx_index 0 m1
      let m3 := { m2 with leuart_payload :=
        { m2.leuart_payload with
            rx_message := strcpy_shift 80 0 m2.leuart_payload.rx_message } }
      Run.done () { m3 with leuart_hw :=
        { m3.leuart_hw with if_startf := false, ien_startf := true, ien_sigf := false } }
  | LEUART_RXStates.RESET => EFM_ASSERT false m0
  | LEUART_RXStates.invalid _ => EFM_ASSERT false m0

/-- The function `leuart_startf`, the handler of the start-frame cause. -/
def leuart_startf (m : Machine) : Run Unit :=
  let m0 := { m with leuart_hw := { m.leuart_hw with if_startf := false } }
  match m0.leuart_payload.rx_state with
  | LEUART_RXStates.WAIT =>
      let m1 := { m0 with
        leuart_payload :=
          { m0.leuart_payload with rx_state := LEUART_RXStates.RECIEVE_DATA, rxbusy := true },
        leuart_hw :=
          { m0.leuart_hw with if_sigf := false, ien_startf := false, ien_sigf := true } }
      Run.done () { m1 with leuart_payload := { m1.leuart_payload with rx_index := 0 } }
  | LEUART_RXStates.RECIEVE_DATA => EFM_ASSERT false m0
  | LEUART_RXStates.RESET => EFM_ASSERT false m0
  | LEUART_RXStates.invalid _ => EFM_ASSERT false m0

/-- The function `leuart_txbl`, the handler of the byte-ready cause. -/
def leuart_txbl (m : Machine) : Run Unit :=
  match m.leuart_payload.state with
  | LEUART_States.LEUART_INITIALIZE => EFM_ASSERT false m
  | LEUART_States.SEND_DATA =>
      if m.leuart_payload.index < m.leuart_payload.message_len then
        let m1 := { m with
          leuart_hw := { m.leuart_hw with
            txdata := m.leuart_hw.txdata ++ [m.leuart_payload.message.getD m.leuart_payload.index 0] },
          leuart_payload := { m.leuart_payload with
            index := (m.leuart_payload.index + 1) % U32 } }
        if m1.leuart_payload.index ≥ m1.leuart_payload.message_len then
          Run.done () { m1 with
            leuart_payload := { m1.leuart_payload with state := LEUART_States.FINISH_WAIT },
            leuart_hw := { m1.leuart_hw with ien_txbl := false, ien_txc := true } }
        else Run.done () m1
      else EFM_ASSERT false m
  | LEUART_States.FINISH_WAIT => EFM_ASSERT false m

/-- The function `leuart_txc`, the handler of the transmit-complete cause. -/
def leuart_txc (m : Machine) : Run Unit :=
  match m.leuart_payload.state with
  | LEUART_States.LEUART_INITIALIZE => EFM_ASSERT false m
  | LEUART_States.SEND_DATA => EFM_ASSERT false m
  | LEUART_States.FINISH_WAIT =>
      let m1 := { m with leuart_hw := { m.leuart_hw with if_txc := false } }
      let m2 := add_scheduled_event m1.tx_done_evt m1
      (sleep_unblock_mode LEUART_RX_EM m2).bind fun _ m3 =>
      Run.done () { m3 with leuart_payload :=
        { m3.leuart_payload with txbusy := false, state := LEUART_States.LEUART_INITIALIZE } }

/-- The function `LEUART0_IRQHandler`: `flags` is `IF & IEN` as read on
entry and `rxdata` the content of the receive register.  The causes are
served in the order of the source. -/
def LEUART0_IRQHandler (flags : LEUART_Flags) (rxdata : Nat) (m : Machine) : Run Unit :=
  let m0 := disable_irq m
  let m1 := { m0 with leuart_hw := { m0.leuart_hw with
    if_txc := m0.leuart_hw.if_txc && !flags.txc,
    if_sigf := m0.leuart_hw.if_sigf && !flags.sigf,
    if_startf := m0.leuart_hw.if_startf && !flags.startf } }
  (if flags.txbl then leuart_txbl m1 else Run.done () m1).bind fun _ m2 =>
  (if flags.txc then leuart_txc m2 else Run.done () m2).bind fun _ m3 =>
  (if flags.sigf then leuart_sigf m3 else Run.done () m3).bind fun _ m4 =>
  (if flags.startf then leuart_startf m4 else Run.done () m4).bind fun _ m5 =>
  (if flags.rxdatav then leuart_rxdatav rxdata m5 else Run.done () m5).bind fun _ m6 =>
  Run.done () (enable_irq m6)

/-- The function `leuart_start`; `string` is the memory at the pointer. -/
def leuart_start (string : List Nat) (string_len : Nat) (m : Machine) : Run Unit :=
  (sleep_block_mode LEUART_TX_EM m).bind fun _ m1 =>
  Run.done () { m1 with
    leuart_payload := { m1.leuart_payload with
      txbusy := true,
      message_len := string_len,
      message := strcpy m1.leuart_payload.message string,
      index := 0,
      state := LEUART_States.SEND_DATA },
    leuart_hw := { m1.leuart_hw with ien_txbl := true } }

/-- The function `leuart_tx_busy`. -/
def leuart_tx_busy (m : Machine) : Bool := m.leuart_payload.txbusy

/-- The receiver of the LEUART peripheral taking one byte off the line while
the transmitter raises no cause.  A byte equal to `STARTFRAME` latches the
start-frame flag and, with `SFUBRX` set, lifts the receive block; a byte equal
to `SIGFRAME` latches the end-frame flag; the byte reaches the receive
register unless the receiver is blocked.  If a pending cause is enabled the
interrupt handler runs. -/
def leuart_rx_byte (b : Nat) (m : Machine) : Run Unit :=
  let hw := m.leuart_hw
  let start := decide (b = hw.startframe)
  let hw1 := { hw with
    if_startf := hw.if_startf || start,
    rxblock := hw.rxblock && !(start && hw.sfubrx),
    if_sigf := hw.if_sigf || decide (b = hw.sigframe) }
  let m1 := { m with leuart_hw := hw1 }
  let flags : LEUART_Flags :=
    { txbl := false, txc := false,
      sigf := hw1.if_sigf && hw1.ien_sigf,
      startf := hw1.if_startf && hw1.ien_startf,
      rxdatav := !hw1.rxblock && hw1.ien_rxdatav }
  if flags.sigf || flags.startf || flags.rxdatav then LEUART0_IRQHandler flags b m1
  else Run.done () m1

/-- A stream of bytes arriving on the line, one after the other. -/
def leuart_rx_bytes (bs : List Nat) (m : Machine) : Run Unit :=
  match bs with
  | [] => Run.done () m
  | b :: rest => (leuart_rx_byte b m).bind fun _ m1 => leuart_rx_bytes rest m1

/-! ## ble.c -/

/-- The function `ble_circ_space`: `read_ptr + size - write_ptr` in 32-bit
arithmetic, returned as `uint8_t`. -/
def ble_circ_space (m : Machine) : Nat :=
  (sub32 ((m.ble_cbuf.read_ptr + m.ble_cbuf.size) % U32) m.ble_cbuf.write_ptr) % U8

/-- The function `update_circ_wrtindex`. -/
def update_circ_wrtindex (update_by : Nat) (m : Machine) : Machine :=
  { m with ble_cbuf := { m.ble_cbuf with
      write_ptr := ((m.ble_cbuf.write_ptr + update_by) % U32) % m.ble_cbuf.size } }

/-- The function `update_circ_readindex`. -/
def update_circ_readindex (update_by : Nat) (m : Machine) : Machine :=
  { m with ble_cbuf := { m.ble_cbuf with
      read_ptr := ((m.ble_cbuf.read_ptr + update_by) % U32) % m.ble_cbuf.size } }

/-- The function `ble_circ_init`. -/
def ble_circ_init (m : Machine) : Machine :=
  { m with ble_cbuf := { m.ble_cbuf with
      read_ptr := 0, write_ptr := 0, size := CSIZE, size_mask := 0 } }

/-- The copy loop of `ble_circ_push`: `n` iterations starting at index `i`,
each doing `cbuf[(write_ptr+i) % size] = string[i-1]`. -/
def ble_circ_push_loop (string : List Nat) (write_ptr size : Nat) (n i : Nat)
    (cbuf : List Nat) : List Nat :=
  match n with
  | 0 => cbuf
  | n1 + 1 =>
      ble_circ_push_loop string write_ptr size n1 (i + 1)
        (cbuf.set (((write_ptr + i) % U32) % size) (string.getD (i - 1) 0))

/-- The function `ble_circ_push`; `string` is the memory at the pointer. -/
def ble_circ_push (string : List Nat) (m : Machine) : Run Unit :=
  let packet_size := (strlen string + 1) % U8
  (if packet_size > ble_circ_space m then EFM_ASSERT false m else Run.done () m).bind
  fun _ m0 =>
  let cbuf1 := m0.ble_cbuf.cbuf.set m0.ble_cbuf.write_ptr packet_size
  let cbuf2 := ble_circ_push_loop string m0.ble_cbuf.write_ptr m0.ble_cbuf.size
    (packet_size - 1) 1 cbuf1
  Run.done () (update_circ_wrtindex packet_size
    { m0 with ble_cbuf := { m0.ble_cbuf with cbuf := cbuf2 } })

/-- The function `ble_circ_pop`.  The local array `print_str` is the list of
the bytes copied out of the buffer followed by the NUL the code appends. -/
def ble_circ_pop (test : Bool) (m : Machine) : Run Bool :=
  let filled := (sub32 m.ble_cbuf.size (ble_circ_space m)) % U8
  if filled = 0 then Run.done true m
  else if leuart_tx_busy m then Run.done true m
  else
    let string_length := (m.ble_cbuf.cbuf.getD m.ble_cbuf.read_ptr 0 + U8 - 1) % U8
    (if string_length + 1 > filled then EFM_ASSERT false m else Run.done () m).bind
    fun _ m0 =>
    let print_str := (List.range string_length).map
      (fun i => m0.ble_cbuf.cbuf.getD (((m0.ble_cbuf.read_ptr + 1 + i) % U32) % m0.ble_cbuf.size) 0)
      ++ [0]
    let m1 := update_circ_readindex (string_length + 1) m0
    if test then
      Run.done false { m1 with
        result_str := overwrite m1.result_str (print_str.take string_length) }
    else
      (leuart_start print_str (strlen print_str) m1).bind fun _ m2 => Run.done false m2

/-- The function `ble_write`: push the string, then try to pop. -/
def ble_write (string : List Nat) (m : Machine) : Run Unit :=
  (ble_circ_push string m).bind fun _ m1 =>
  (ble_circ_pop CIRC_OPER m1).bind fun _ m2 => Run.done () m2

/-! ## Runs of several calls, and the state at reset -/

/-- The state when `main` is entered: C zero-initialises every `static`
variable, the peripheral registers hold their reset value 0, and interrupts
are enabled. -/
def boot : Machine :=
  { irq_enabled := true,
    lowest_energy_mode := { em0 := 0, em1 := 0, em2 := 0, em3 := 0, em4 := 0 },
    event_scheduled := 0,
    posted := [],
    i2c_payload := { i2c_state := I2C_States.INITIALIZE, cmd := 0, read := false, data := 0,
                     device_address := 0, bytes := 0, event := 0 },
    si7021_data := 0,
    i2c_regs := [],
    rx_done_evt := 0,
    tx_done_evt := 0,
    leuart_payload := { message_len := 0, message := List.replicate 80 0,
                        rx_message := List.replicate 80 0,
                        rx_state := LEUART_RXStates.WAIT, index := 0, rx_index := 0,
                        state := LEUART_States.LEUART_INITIALIZE,
                        txbusy := false, rxbusy := false },
    leuart_hw := { ien_txbl := false, ien_txc := false, ien_sigf := false,
                   ien_startf := false, ien_rxdatav := false, if_txc := false,
                   if_sigf := false, if_startf := false, rxblock := false,
                   sfubrx := false, startframe := 0, sigframe := 0, txdata := [],
                   loopbk := false },
    rx_oob := [],
    ble_cbuf := { cbuf := List.replicate 64 0, size_mask := 0, size := 0,
                  read_ptr := 0, write_ptr := 0 },
    result_str := List.replicate 64 0,
    test_str := List.replicate 192 0,
    is_celsius := false,
    letimer_hw := { running := false, IF := 0, IEN := 0, IFC := [] },
    scheduled_comp0_evt := 0,
    scheduled_comp1_evt := 0,
    scheduled_uf_evt := 0,
    led1 := false }

/-- The reset state with the energy counters set to `a`. -/
def boot_with_counters (a : EnergyModes) : Machine := { boot with lowest_energy_mode := a }

/-- A call of `sleep_block_mode` or of `sleep_unblock_mode`. -/
inductive SleepOp where
  | block
  | unblock
deriving DecidableEq, Repr

/-- A succession of block and unblock calls on the depth `d`. -/
def sleep_ops (d : Nat) (ops : List SleepOp) (m : Machine) : Run Unit :=
  match ops with
  | [] => Run.done () m
  | SleepOp.block :: rest => (sleep_block_mode d m).bind fun _ m1 => sleep_ops d rest m1
  | SleepOp.unblock :: rest => (sleep_unblock_mode d m).bind fun _ m1 => sleep_ops d rest m1

/-- The function `ble_circ_pop` called `n` times in a row. -/
def ble_circ_pop_repeat (test : Bool) (n : Nat) (m : Machine) : Run Bool :=
  match n with
  | 0 => Run.done true m
  | n1 + 1 => (ble_circ_pop test m).bind fun _ m1 => ble_circ_pop_repeat test n1 m1

/-- The receive side as `leuart_rxsetup` and every completed frame leave it:
state `WAIT`, receiver blocked until a start frame lifts the block, no start
frame pending, the start-frame and byte-received interrupts enabled, the
end-frame interrupt disabled, and the frame bytes `>` and `;` programmed. -/
def rx_waiting (m : Machine) : Prop :=
  m.leuart_payload.rx_state = LEUART_RXStates.WAIT ∧
  m.leuart_hw.ien_startf = true ∧ m.leuart_hw.ien_sigf = false ∧
  m.leuart_hw.ien_rxdatav = true ∧ m.leuart_hw.rxblock = true ∧
  m.leuart_hw.if_startf = false ∧ m.leuart_hw.sfubrx = true ∧
  m.leuart_hw.startframe = RX_STARTFRAME ∧ m.leuart_hw.sigframe = RX_SIGFRAME

instance (m : Machine) : Decidable (rx_waiting m) := by
  unfold rx_waiting
  infer_instance

/-- The receive side between the start frame and the end frame: state
`RECIEVE_DATA`, receiver unblocked, the end-frame and byte-received interrupts
enabled, the start-frame interrupt disabled, no end frame pending. -/
def rx_receiving (m : Machine) : Prop :=
  m.leuart_payload.rx_state = LEUART_RXStates.RECIEVE_DATA ∧
  m.leuart_hw.ien_startf = false ∧ m.leuart_hw.ien_sigf = true ∧
  m.leuart_hw.ien_rxdatav = true ∧ m.leuart_hw.rxblock = false ∧
  m.leuart_hw.if_sigf = false ∧ m.leuart_hw.sfubrx = true ∧
  m.leuart_hw.startframe = RX_STARTFRAME ∧ m.leuart_hw.sigframe = RX_SIGFRAME

/-- The state a run ended in, returned or halted. -/
def Run.machine {α : Type} (r : Run α) : Machine :=
  match r with
  | Run.done _ m => m
  | Run.halted m => m

/-- The transaction `si7021_read_temp` sets up: device address 0x40, command
0xF3, two bytes.  The source leaves the field `read` unassigned. -/
def si7021_read_temp_param : I2C_PAYLOAD_INIT :=
  { data := 0, bytes := 2, device_address := 0x40, cmd := 0xF3, read := false }

/-- The reset state after `si7021_read_temp` with the bus idle. -/
def i2c_started : Machine := (i2c_start si7021_read_temp_param true boot).machine

/-- The state `i2c_started` after two acknowledges: the sequencer is in RESTART. -/
def i2c_restarted : Machine :=
  (i2c_causes [I2C_Cause.ack, I2C_Cause.ack] i2c_started).machine

/-! ## Further functions of scheduler.c and sleep_routines.c -/

/-- The function `remove_scheduled_event`: `event_scheduled &= ~event`, the
complement taken on 32 bits. -/
def remove_scheduled_event (event : Nat) (m : Machine) : Machine :=
  let m1 := disable_irq m
  let m2 := { m1 with event_scheduled := m1.event_scheduled &&& ((U32 - 1) ^^^ event) }
  enable_irq m2

/-- The loop of `current_block_energy_mode` from index `i` on; each round
either returns or increments `i`, and `fuel` bounds the number of rounds. -/
def current_block_energy_mode_loop (m : Machine) (fuel i : Nat) : Option Nat :=
  match fuel with
  | 0 => none
  | fuel1 + 1 =>
      if i < MAX_ENERGY_MODES then
        if m.lowest_energy_mode.get i != 0 then some i
        else current_block_energy_mode_loop m fuel1 ((i + 1) % U32)
      else some (MAX_ENERGY_MODES - 1)

/-- The function `current_block_energy_mode`; six rounds suffice, since the
sixth finds `i = MAX_ENERGY_MODES`. -/
def current_block_energy_mode (m : Machine) : Option Nat :=
  current_block_energy_mode_loop m 6 0

/-- The shallowest depth whose counter is non-zero, if there is one. -/
def shallowest_blocked (a : EnergyModes) : Option Nat :=
  [0, 1, 2, 3, 4].find? (fun d => a.get d != 0)

/-- The (state, cause) pairs the description of the bus sequencer lists as
accepted. -/
def i2c_accepted (s : I2C_States) (c : I2C_Cause) : Bool :=
  match s, c with
  | I2C_States.INITIALIZE, I2C_Cause.ack => true
  | I2C_States.MEASURE, I2C_Cause.ack => true
  | I2C_States.RESTART, I2C_Cause.ack => true
  | I2C_States.RESTART, I2C_Cause.nack => true
  | I2C_States.MSB_LISTEN, I2C_Cause.rxdatav _ => true
  | I2C_States.LSB_LISTEN, I2C_Cause.rxdatav _ => true
  | I2C_States.STOP, I2C_Cause.mstop => true
  | _, _ => false

/-- The byte-ready interrupt served `k` times in a row by `leuart_txbl`. -/
def leuart_txbl_repeat (k : Nat) (m : Machine) : Run Unit :=
  match k with
  | 0 => Run.done () m
  | k1 + 1 => (leuart_txbl m).bind fun _ m1 => leuart_txbl_repeat k1 m1

/-- The reset state with the sensor-read and tx-done events pending (mask 0x28). -/
def boot_with_events : Machine := { boot with event_scheduled := 0x28 }

/-- The function `leuart_rxsetup`: block EM3 for the receiver, set `SFUBRX`,
block the receiver, program the frame bytes, clear the start-frame flag and
enable the byte-received and start-frame interrupts. -/
def leuart_rxsetup (m : Machine) : Run Unit :=
  (sleep_block_mode LEUART_RX_EM m).bind fun _ m1 =>
  Run.done () { m1 with
    leuart_hw := { m1.leuart_hw with
      sfubrx := true, rxblock := true,
      startframe := RX_STARTFRAME, sigframe := RX_SIGFRAME,
      if_startf := false, ien_rxdatav := true, ien_startf := true },
    leuart_payload := { m1.leuart_payload with rxbusy := false } }

/-- The reset state after `leuart_rxsetup`. -/
def rx_ready : Machine := (leuart_rxsetup boot).machine

/-- The transmitter `k` byte-ready interrupts after `leuart_start` left the
state `m0` with the message `msg`: `k` bytes written, and the switch to
FINISH_WAIT made once no byte is left. -/
def tx_progress (m0 : Machine) (msg : List Nat) (k : Nat) : Machine :=
  { m0 with
    leuart_payload := { m0.leuart_payload with
      index := k,
      state := if k < msg.length then LEUART_States.SEND_DATA else LEUART_States.FINISH_WAIT },
    leuart_hw := { m0.leuart_hw with
      txdata := m0.leuart_hw.txdata ++ msg.take k,
      ien_txbl := if k < msg.length then m0.leuart_hw.ien_txbl else false,
      ien_txc := if k < msg.length then m0.leuart_hw.ien_txc else true } }

/-- The reset state after `leuart_start` with the three bytes 65, 66, 67. -/
def tx_abc_started : Machine := (leuart_start [65, 66, 67] 3 boot).machine

/-- The state `leuart_start(string, n)` leaves when it returns: EM3 blocked
once more, the message copied, the index at 0, the state SEND_DATA, the busy
flag set and the byte-ready interrupt enabled. -/
def tx_started (m : Machine) (string : List Nat) (n : Nat) : Machine :=
  { m with
    irq_enabled := true,
    lowest_energy_mode := m.lowest_energy_mode.set LEUART_TX_EM
      ((m.lowest_energy_mode.get LEUART_TX_EM + 1) % U32),
    leuart_payload := { m.leuart_payload with
      txbusy := true,
      message_len := n,
      message := strcpy m.leuart_payload.message string,
      index := 0,
      state := LEUART_States.SEND_DATA },
    leuart_hw := { m.leuart_hw with ien_txbl := true } }

/-- The state `rx_ready` after the frame `>123;` has been received. -/
def rx_after_123 : Machine := (leuart_rx_bytes [62, 49, 50, 51, 59] rx_ready).machine

/-! ## app.h : the application events -/

def LETIMER0_COMP0_EVT : Nat := 0x00000001
def LETIMER0_COMP1_EVT : Nat := 0x00000002
def LETIMER0_UF_EVT : Nat := 0x00000004
def SI7021_READ_EVT : Nat := 0x00000008
def BOOT_UP_EVT : Nat := 0x00000010
def LEUART0_TX_DONE_EVT : Nat := 0x00000020
def LEUART0_RX_DONE_EVT : Nat := 0x00000040

/-! ## letimer.c -/

/-- The function `letimer_start` on LETIMER0.  `LETIMER_Enable` writes the
start or the stop command; the `RUNNING` bit follows the command. -/
def letimer_start (enable : Bool) (m : Machine) : Run Unit :=
  (if !m.letimer_hw.running && enable then sleep_block_mode LETIMER_EM m
   else Run.done () m).bind fun _ m1 =>
  (if m1.letimer_hw.running && !enable then sleep_unblock_mode LETIMER_EM m1
   else Run.done () m1).bind fun _ m2 =>
  Run.done () { m2 with letimer_hw := { m2.letimer_hw with running := enable } }

/-- A succession of calls of `letimer_start`. -/
def letimer_starts (enables : List Bool) (m : Machine) : Run Unit :=
  match enables with
  | [] => Run.done () m
  | e :: rest => (letimer_start e m).bind fun _ m1 => letimer_starts rest m1

/-- The function `LETIMER0_IRQHandler`.  The write of `int_flag` to `IFC`
clears those flags in `IF`, which the assertions then read back. -/
def LETIMER0_IRQHandler (m : Machine) : Run Unit :=
  let int_flag := m.letimer_hw.IF &&& m.letimer_hw.IEN
  let m0 := { m with letimer_hw := { m.letimer_hw with
    IFC := m.letimer_hw.IFC ++ [int_flag],
    IF := m.letimer_hw.IF &&& ((U32 - 1) ^^^ int_flag) } }
  (if int_flag &&& LETIMER_IF_COMP0 != 0 then
    (EFM_ASSERT (m0.letimer_hw.IF &&& LETIMER_IF_COMP0 == 0) m0).bind fun _ m1 =>
      Run.done () (add_scheduled_event m1.scheduled_comp0_evt m1)
   else Run.done () m0).bind fun _ m2 =>
  (if int_flag &&& LETIMER_IF_COMP1 != 0 then
    (EFM_ASSERT (m2.letimer_hw.IF &&& LETIMER_IF_COMP1 == 0) m2).bind fun _ m3 =>
      Run.done () (add_scheduled_event m3.scheduled_comp1_evt m3)
   else Run.done () m2).bind fun _ m4 =>
  (if int_flag &&& LETIMER_IF_UF != 0 then
    (EFM_ASSERT (m4.letimer_hw.IF &&& LETIMER_IF_UF == 0) m4).bind fun _ m5 =>
      Run.done () (add_scheduled_event m5.scheduled_uf_evt m5)
   else Run.done () m4)

/-! ## The C types `double` and `float` -/

/-- Rounding of a rational to the nearest integer, a tie going to the even
one. -/
def round_half_even (q : ℚ) : ℤ :=
  if q - ⌊q⌋ < 1 / 2 then ⌊q⌋
  else if 1 / 2 < q - ⌊q⌋ then ⌊q⌋ + 1
  else if ⌊q⌋ % 2 = 0 then ⌊q⌋ else ⌊q⌋ + 1

/-- The value nearest to `q` in the binary floating-point format with `p`
bits of precision, a tie going to the even significand, which is how the
result of every operation and conversion is rounded on the target.  The
numbers of the format are rationals here; the range of the exponent is not
modelled, the values of this program lying far from overflow and from the
subnormal range. -/
def fp_round (p : ℕ) (q : ℚ) : ℚ :=
  if q = 0 then 0
  else (round_half_even (q / (2 : ℚ) ^ (Int.log 2 |q| - ((p : ℤ) - 1))) : ℚ)
    * (2 : ℚ) ^ (Int.log 2 |q| - ((p : ℤ) - 1))

/-- Rounding to the type `double`, 53 bits of precision. -/
def to_double (q : ℚ) : ℚ := fp_round 53 q

/-- Rounding to the type `float`, 24 bits of precision. -/
def to_float (q : ℚ) : ℚ := fp_round 24 q

/-! ## SI7021.c -/

/-- The function `si7021_i2c_data`.  The constants 175.72, 65536.0, 46.85, 9.0
and 5.0 have type `double`, `si7021_data` and 32 convert to `double` without
rounding, and every operation is one of `double`; the variable `Celsius` and
the value returned have type `float`. -/
def si7021_i2c_data (m : Machine) : ℚ :=
  let Celsius : ℚ :=
    to_float (to_double (to_double (to_double (to_double 175.72 * (m.si7021_data : ℚ))
      / to_double 65536.0) - to_double 46.85))
  to_float (to_double (to_double (to_double (to_double 9.0 / to_double 5.0) * Celsius) + 32))

/-- The function `si7021_read_temp`; `bus_idle` is what `i2c_start` reads in
the `STATE` register. -/
def si7021_read_temp (bus_idle : Bool) (m : Machine) : Run Unit :=
  i2c_start si7021_read_temp_param bus_idle m

/-! ## The I2C bus as the peripheral shows it -/

/-- What happens on the I2C line: the code calls `i2c_start`, or the
peripheral raises a cause. -/
inductive I2C_Event where
  | start (param : I2C_PAYLOAD_INIT)
  | cause (c : I2C_Cause)
deriving DecidableEq, Repr

/-- One event on the I2C line; the value carried along is whether the
peripheral shows the bus busy.  The bus is busy from the START command that
`i2c_start` writes until the stop condition has gone out, which is when the
peripheral raises the transaction-stop cause; `i2c_start` observes the bus
idle exactly when it is not busy. -/
def i2c_bus_event (e : I2C_Event) (busy : Bool) (m : Machine) : Run Bool :=
  match e with
  | I2C_Event.start param => (i2c_start param (!busy) m).bind fun _ m1 => Run.done true m1
  | I2C_Event.cause I2C_Cause.mstop => (i2c_mstop m).bind fun _ m1 => Run.done false m1
  | I2C_Event.cause c => (i2c_cause c m).bind fun _ m1 => Run.done busy m1

/-- A succession of events on the I2C line. -/
def i2c_bus_events (es : List I2C_Event) (busy : Bool) (m : Machine) : Run Bool :=
  match es with
  | [] => Run.done busy m
  | e :: rest => (i2c_bus_event e busy m).bind fun b m1 => i2c_bus_events rest b m1

/-! ## leuart.c : opening the peripheral and its self-test -/

/-- The fields of `LEUART_OPEN_STRUCT` that reach the state of the driver; the
others configure the frame format and the pin routing of the peripheral. -/
structure LEUART_OPEN_STRUCT where
  rx_done_evt : Nat
  tx_done_evt : Nat
deriving DecidableEq, Repr

/-- The function `leuart_rxmessage`. -/
def leuart_rxmessage (m : Machine) : List Nat := m.leuart_payload.rx_message

/-- The causes of the receive side that are latched and enabled, together
with the given causes of the transmit side. -/
def leuart_pending (txbl txc : Bool) (m : Machine) : LEUART_Flags :=
  { txbl := txbl, txc := txc,
    sigf := m.leuart_hw.if_sigf && m.leuart_hw.ien_sigf,
    startf := m.leuart_hw.if_startf && m.leuart_hw.ien_startf,
    rxdatav := false }

/-- The next interrupt of a running transmission.  While the byte-ready
interrupt is enabled the empty transmit buffer raises it; the byte the handler
writes goes out on the line and, with the loopback bit set, comes back to the
receiver before the next interrupt of the transmitter is served.  Once the
handler has switched to the transmit-complete interrupt, that one is raised
when the last byte has left. -/
def leuart_tx_irq (m : Machine) : Run Unit :=
  if m.leuart_hw.ien_txbl then
    (LEUART0_IRQHandler (leuart_pending true false m) 0 m).bind fun _ m1 =>
    if m1.leuart_hw.loopbk && decide (m.leuart_hw.txdata.length < m1.leuart_hw.txdata.length) then
      leuart_rx_byte (m1.leuart_hw.txdata.getLastD 0) m1
    else Run.done () m1
  else if m.leuart_hw.ien_txc then
    let m0 := { m with leuart_hw := { m.leuart_hw with if_txc := true } }
    LEUART0_IRQHandler (leuart_pending false true m0) 0 m0
  else Run.done () m

/-- The loop `while(payload.txbusy);`.  Only the interrupts of the transmitter
end it; `fuel` bounds their number.  With neither transmit interrupt enabled
the loop cannot end: the program is stuck there, as it is after a failed
assertion. -/
def leuart_wait_txbusy (fuel : Nat) (m : Machine) : Run Unit :=
  match fuel with
  | 0 => Run.halted m
  | fuel1 + 1 =>
      if m.leuart_payload.txbusy then
        if m.leuart_hw.ien_txbl || m.leuart_hw.ien_txc then
          (leuart_tx_irq m).bind fun _ m1 => leuart_wait_txbusy fuel1 m1
        else Run.halted m
      else Run.done () m

/-- The loop `while(payload.rxbusy);` entered when the transmitter has
finished: no byte is on its way any more, so a loop entered with `rxbusy` set
cannot end and the program is stuck there. -/
def leuart_wait_rxbusy (m : Machine) : Run Unit :=
  if m.leuart_payload.rxbusy then Run.halted m else Run.done () m

/-- The three statements `leuart_start(leuart, string, string_len);
while(payload.txbusy); while(payload.rxbusy);` of `leuart_rxtest`.  A
transmission of `string_len` bytes needs `string_len + 1` interrupts. -/
def leuart_rxtest_send (string : List Nat) (string_len : Nat) (m : Machine) : Run Unit :=
  (leuart_start string string_len m).bind fun _ m1 =>
  (leuart_wait_txbusy (string_len + 2) m1).bind fun _ m2 =>
  leuart_wait_rxbusy m2

/-- The loop `for(i < strlen(expected)) EFM_ASSERT(payload.rx_message[i] ==
expected[i]);` of `leuart_rxtest`. -/
def leuart_rxtest_check (expected : List Nat) (m : Machine) : Run Unit :=
  EFM_ASSERT ((List.range (strlen expected)).all
    (fun i => m.leuart_payload.rx_message.getD i 0 == expected.getD i 0)) m

/-- The function `leuart_rxtest`.  A string constant is the list of its bytes,
the end of the list standing for the terminating NUL; `timer_delay` only lets
time pass. -/
def leuart_rxtest (m : Machine) : Run Unit :=
  let myarr1 := [104, 101, 108, 108, 111, 32, 119, 111, 114, 108, 100]
  let myarr2 := [97, 115, 100, 102, 103]
  let sendarr2 := [62, 97, 115, 100, 102, 103, 59]
  let myarr3 := [49, 50, 51]
  let sendarr3 := [62, 49, 50, 51, 59]
  let myarr4 := [62, 49, 50, 51]
  let sendarr4 := [62, 62, 49, 50, 51, 59]
  let myarr5 := [49, 50, 51]
  let sendarr5 := [62, 49, 50, 51, 59, 52, 53, 54, 55]
  let m0 := { m with
    leuart_payload := { m.leuart_payload with
      rx_message := strcpy m.leuart_payload.rx_message myarr1 },
    leuart_hw := { m.leuart_hw with loopbk := true } }
  (leuart_rxtest_send [97, 97] 1 m0).bind fun _ m1 =>
  (leuart_rxtest_check myarr1 m1).bind fun _ m2 =>
  (leuart_rxtest_send sendarr2 (strlen sendarr2) m2).bind fun _ m3 =>
  (leuart_rxtest_check myarr2 m3).bind fun _ m4 =>
  (leuart_rxtest_send sendarr3 (strlen sendarr3) m4).bind fun _ m5 =>
  (EFM_ASSERT (m5.leuart_payload.rx_message.getD (strlen myarr3) 0 == 0) m5).bind fun _ m6 =>
  (leuart_rxtest_send [59, 97] 1 m6).bind fun _ m7 =>
  (leuart_rxtest_check myarr3 m7).bind fun _ m8 =>
  (leuart_start [62, 49, 50, 51, 52, 53, 54, 55, 56, 57] 10 m8).bind fun _ m9 =>
  (leuart_wait_txbusy 12 m9).bind fun _ m10 =>
  (EFM_ASSERT m10.leuart_payload.rxbusy m10).bind fun _ m11 =>
  (leuart_rxtest_send [48, 59] 2 m11).bind fun _ m12 =>
  (EFM_ASSERT (!m12.leuart_payload.rxbusy) m12).bind fun _ m13 =>
  (leuart_rxtest_send sendarr4 (strlen sendarr4) m13).bind fun _ m14 =>
  (leuart_rxtest_check myarr4 m14).bind fun _ m15 =>
  (leuart_rxtest_send sendarr5 (strlen sendarr5) m15).bind fun _ m16 =>
  (leuart_rxtest_check myarr5 m16).bind fun _ m17 =>
  (EFM_ASSERT (m17.leuart_payload.rx_message.getD (strlen myarr5) 0 == 0) m17).bind fun _ m18 =>
  let m19 := remove_scheduled_event m18.rx_done_evt m18
  Run.done () { m19 with leuart_hw := { m19.leuart_hw with loopbk := false } }

/-- The function `leuart_open` on LEUART0.  The register `STARTFRAME` is
written with 1, read back and written with 0; `LEUART_Init`, the routing and
the enabling of the peripheral lie outside the state, and the peripheral
reports transmitter and receiver enabled. -/
def leuart_open (leuart_settings : LEUART_OPEN_STRUCT) (m : Machine) : Run Unit :=
  let m1 := { m with leuart_hw := { m.leuart_hw with startframe := 0x01 } }
  (EFM_ASSERT (m1.leuart_hw.startframe &&& 0x01 != 0) m1).bind fun _ m2 =>
  let m3 := { m2 with
    leuart_hw := { m2.leuart_hw with startframe := 0x00, if_txc := false },
    rx_done_evt := leuart_settings.rx_done_evt,
    tx_done_evt := leuart_settings.tx_done_evt,
    leuart_payload := { m2.leuart_payload with txbusy := false } }
  (leuart_rxsetup m3).bind fun _ m4 =>
  leuart_rxtest m4

/-! ## ble.c : opening, self-test and mode -/

/-- The string constant `CELSIUS_MESSAGE`, "Celsius". -/
def CELSIUS_MESSAGE : List Nat := [67, 101, 108, 115, 105, 117, 115]

/-- The string constant `FAHRENHEIT_MESSAGE`, "Fahrenheit". -/
def FAHRENHEIT_MESSAGE : List Nat := [70, 97, 104, 114, 101, 110, 104, 101, 105, 116]

/-- The library function `strcmp(a, b)`: the difference of the first pair of
bytes that differ, or 0 when a NUL is reached with no difference before it.
A byte past the end of a list reads as NUL. -/
def strcmp : List Nat → List Nat → Int
  | [], b => 0 - (b.headD 0 : Int)
  | c :: a, b =>
      if c ≠ b.headD 0 then (c : Int) - (b.headD 0 : Int)
      else if c = 0 then 0
      else strcmp a b.tail

/-- The function `ble_mode_celsius`. -/
def ble_mode_celsius (m : Machine) : Bool := m.is_celsius

/-- The function `ble_update_mode`; the locals `celsius` and `farenheit` are
arrays of 16 bytes holding the two string constants. -/
def ble_update_mode (m : Machine) : Machine :=
  let celsius := overwrite (List.replicate 16 0) CELSIUS_MESSAGE
  let farenheit := overwrite (List.replicate 16 0) FAHRENHEIT_MESSAGE
  let message := leuart_rxmessage m
  if strcmp celsius message = 0 then { m with is_celsius := true }
  else if strcmp farenheit message = 0 then { m with is_celsius := false }
  else m

/-- The function `ble_open`. -/
def ble_open (tx_event rx_event : Nat) (m : Machine) : Run Unit :=
  let open_leuart : LEUART_OPEN_STRUCT := { rx_done_evt := rx_event, tx_done_evt := tx_event }
  let m1 := { m with is_celsius := false }
  (leuart_open open_leuart m1).bind fun _ m2 =>
  Run.done () (ble_circ_init m2)

/-- The string that starts at `test_struct.test_str[k][0]`: the memory from
there on, the rows that follow and `result_str` included. -/
def test_str_at (k : Nat) (m : Machine) : List Nat :=
  m.test_str.drop (64 * k) ++ m.result_str

/-- The loop `for(i < n) test_struct.test_str[k][i] = i + c;` of
`circular_buff_test`. -/
def test_str_fill (k n c : Nat) (m : Machine) : Machine :=
  let rows := (List.range n).foldl (fun row i => row.set (64 * k + i) ((i + c) % U8)) m.test_str
  { m with test_str := rows }

/-- The loop `for(i < n) EFM_ASSERT(test_struct.test_str[k][i] ==
test_struct.result_str[i]);` of `circular_buff_test`. -/
def test_str_check (k n : Nat) (m : Machine) : Run Unit :=
  EFM_ASSERT ((List.range n).all
    (fun i => m.test_str.getD (64 * k + i) 0 == m.result_str.getD i 0)) m

/-- The function `circular_buff_test`. -/
def circular_buff_test (m : Machine) : Run Unit :=
  let test1_len := 50
  let test2_len := 25
  let test3_len := 5
  let m0 := { m with ble_cbuf := { m.ble_cbuf with read_ptr := 0, write_ptr := 0 } }
  let m1 := test_str_fill 0 test1_len 1 m0
  let m2 := test_str_fill 1 test2_len 20 m1
  let m3 := test_str_fill 2 test3_len 35 m2
  (ble_circ_push (test_str_at 0 m3) m3).bind fun _ m4 =>
  (ble_circ_pop CIRC_TEST m4).bind fun buff_empty m5 =>
  (EFM_ASSERT (buff_empty == false) m5).bind fun _ m6 =>
  (test_str_check 0 test1_len m6).bind fun _ m7 =>
  (ble_circ_push (test_str_at 1 m7) m7).bind fun _ m8 =>
  (ble_circ_push (test_str_at 2 m8) m8).bind fun _ m9 =>
  (ble_circ_pop CIRC_TEST m9).bind fun buff_empty m10 =>
  (EFM_ASSERT (buff_empty == false) m10).bind fun _ m11 =>
  (test_str_check 1 test2_len m11).bind fun _ m12 =>
  (ble_circ_pop CIRC_TEST m12).bind fun buff_empty m13 =>
  (EFM_ASSERT (buff_empty == false) m13).bind fun _ m14 =>
  (test_str_check 2 test3_len m14).bind fun _ m15 =>
  (ble_circ_pop CIRC_TEST m15).bind fun buff_empty m16 =>
  (EFM_ASSERT (buff_empty == true) m16).bind fun _ m17 =>
  -- "\nPassed Circular Buffer Test\n"
  ble_write [10, 80, 97, 115, 115, 101, 100, 32, 67, 105, 114, 99, 117, 108, 97, 114, 32,
    66, 117, 102, 102, 101, 114, 32, 84, 101, 115, 116, 10] m17

/-! ## app.c : the event handlers -/

/-- The function `scheduled_letimer0_uf_evt`; `bus_idle` is what `i2c_start`
reads in the `STATE` register. -/
def scheduled_letimer0_uf_evt (bus_idle : Bool) (m : Machine) : Run Unit :=
  (EFM_ASSERT (get_scheduled_events m &&& LETIMER0_UF_EVT != 0) m).bind fun _ m0 =>
  let m1 := remove_scheduled_event LETIMER0_UF_EVT m0
  si7021_read_temp bus_idle m1

/-- The function `scheduled_si7021_done_evt`.  The library call
`sprintf(temp_arr, format, temp)` is a parameter: `sprintf format temp` is the
text it leaves in `temp_arr`.  The two formats are "Temp = %4.1f C\n" and
"Temp = %4.1f F\n".  The variable `temp` is a `float`, so the three operations
of `(temp-32)*5/9` are operations of `float`. -/
def scheduled_si7021_done_evt (sprintf : List Nat → ℚ → List Nat) (m : Machine) : Run Unit :=
  (EFM_ASSERT (get_scheduled_events m &&& SI7021_READ_EVT != 0) m).bind fun _ m0 =>
  let m1 := remove_scheduled_event SI7021_READ_EVT m0
  let temp := si7021_i2c_data m1
  let m2 := { m1 with led1 := decide (temp ≥ 80) }
  let temp_arr :=
    if ble_mode_celsius m2 then
      sprintf [84, 101, 109, 112, 32, 61, 32, 37, 52, 46, 49, 102, 32, 67, 10]
        (to_float (to_float (to_float (temp - 32) * 5) / 9))
    else
      sprintf [84, 101, 109, 112, 32, 61, 32, 37, 52, 46, 49, 102, 32, 70, 10] temp
  ble_write temp_arr m2

/-- The function `scheduled_boot_up_evt`, with `BLE_TEST_ENABLED` undefined as
in app.h. -/
def scheduled_boot_up_evt (m : Machine) : Run Unit :=
  (EFM_ASSERT (get_scheduled_events m &&& BOOT_UP_EVT != 0) m).bind fun _ m0 =>
  let m1 := remove_scheduled_event BOOT_UP_EVT m0
  (ble_open LEUART0_TX_DONE_EVT LEUART0_RX_DONE_EVT m1).bind fun _ m2 =>
  (circular_buff_test m2).bind fun _ m3 =>
  -- "\nHello World\n"
  (ble_write [10, 72, 101, 108, 108, 111, 32, 87, 111, 114, 108, 100, 10] m3).bind fun _ m4 =>
  -- "Circular Buffer Lab\n"
  (ble_write [67, 105, 114, 99, 117, 108, 97, 114, 32, 66, 117, 102, 102, 101, 114, 32,
    76, 97, 98, 10] m4).bind fun _ m5 =>
  -- "Justin Thwaites\n"
  ble_write [74, 117, 115, 116, 105, 110, 32, 84, 104, 119, 97, 105, 116, 101, 115, 10] m5

/-- The function `leuart0_tx_done_evt`. -/
def leuart0_tx_done_evt (m : Machine) : Run Unit :=
  (EFM_ASSERT (get_scheduled_events m &&& LEUART0_TX_DONE_EVT != 0) m).bind fun _ m0 =>
  let m1 := remove_scheduled_event LEUART0_TX_DONE_EVT m0
  (letimer_start true m1).bind fun _ m2 =>
  (ble_circ_pop CIRC_OPER m2).bind fun _ m3 => Run.done () m3

/-- The function `leuart0_rx_done_evt`. -/
def leuart0_rx_done_evt (m : Machine) : Run Unit :=
  (EFM_ASSERT (get_scheduled_events m &&& LEUART0_RX_DONE_EVT != 0) m).bind fun _ m0 =>
  let m1 := remove_scheduled_event LEUART0_RX_DONE_EVT m0
  Run.done () (ble_update_mode m1)

/-! ## main.c : the dispatch loop -/

/-- The first statement of the loop body of `main`: `none` when `enter_sleep`
is not called, `some r` when it is called and `r` is what `enter_sleep` does. -/
def main_loop_sleep (m : Machine) : Option (Option Nat) :=
  if get_scheduled_events m &&&
      (LETIMER0_UF_EVT ||| LETIMER0_COMP0_EVT ||| LETIMER0_COMP1_EVT ||| BOOT_UP_EVT) = 0
  then some (enter_sleep m) else none

/-- The reset state after `si7021_read_temp` and the causes ack, ack, nack,
ack, byte-received 0x66, byte-received 0x4C: the sequencer is in STOP and the
transaction-stop cause is still to come. -/
def i2c_before_stop : Machine :=
  (i2c_causes [I2C_Cause.ack, I2C_Cause.ack, I2C_Cause.nack, I2C_Cause.ack,
    I2C_Cause.rxdatav 0x66, I2C_Cause.rxdatav 0x4C] i2c_started).machine

/-- The Fahrenheit value of a raw reading `r` as the description of the sensor
gives it: Celsius = 175.72 × r / 65536 − 46.85, Fahrenheit = Celsius × 9/5 + 32. -/
def si7021_fahrenheit_described (r : ℚ) : ℚ :=
  (175.72 * r / 65536 - 46.85) * 9 / 5 + 32

/-- The first test string of `circular_buff_test`: the 50 bytes 1, 2, ..., 50. -/
def circ_test_str1 : List Nat := (List.range 50).map (fun i => i + 1)

/-- The second test string of `circular_buff_test`: the 25 bytes 20, 21, ..., 44. -/
def circ_test_str2 : List Nat := (List.range 25).map (fun i => i + 20)

/-- The ring buffer of the reset state after `ble_circ_init`, a push of the
first test string, a pop and a push of the second test string: the write index
has wrapped below the read index. -/
def ble_wrapped : Machine :=
  (ble_circ_push circ_test_str2
    (ble_circ_pop CIRC_TEST
      (ble_circ_push circ_test_str1 (ble_circ_init boot)).machine).machine).machine

/-- What the serial driver and the code above it may do to the scheduler and
to the mode between a state `m` and a later state `m1`: the mode and the two
event ids of the driver stay as they are, no event bit other than those of the
rx-done id is cleared, and no event bit other than those of the rx-done and
tx-done ids is set. -/
def events_evolve (m m1 : Machine) : Prop :=
  m1.is_celsius = m.is_celsius ∧ m1.rx_done_evt = m.rx_done_evt ∧
  m1.tx_done_evt = m.tx_done_evt ∧
  (∀ i, i < 32 → m.event_scheduled.testBit i = true → m.rx_done_evt.testBit i = false →
    m1.event_scheduled.testBit i = true) ∧
  (∀ i, m1.event_scheduled.testBit i = true →
    m.event_scheduled.testBit i = true ∨ m.rx_done_evt.testBit i = true ∨
      m.tx_done_evt.testBit i = true)

/-- The scheduler and the mode are the same in `m1` as in `m`: event mask,
mode and the two event ids of the serial driver. -/
def events_kept (m m1 : Machine) : Prop :=
  m1.event_scheduled = m.event_scheduled ∧ m1.is_celsius = m.is_celsius ∧
  m1.rx_done_evt = m.rx_done_evt ∧ m1.tx_done_evt = m.tx_done_evt

/-! ## The serial driver in operation -/

/-- What happens to the serial driver once it is open: the code calls
`leuart_start`, or the peripheral raises its interrupt with the causes `flags`
pending and enabled and `rxdata` in the receive register. -/
inductive LEUART_Op where
  | start (string : List Nat) (string_len : Nat)
  | irq (flags : LEUART_Flags) (rxdata : Nat)
deriving DecidableEq, Repr

/-- One step of the serial driver. -/
def leuart_op (o : LEUART_Op) (m : Machine) : Run Unit :=
  match o with
  | LEUART_Op.start string string_len => leuart_start string string_len m
  | LEUART_Op.irq flags rxdata => LEUART0_IRQHandler flags rxdata m

/-- A succession of steps of the serial driver; a halt ends the run. -/
def leuart_ops (os : List LEUART_Op) (m : Machine) : Run Unit :=
  match os with
  | [] => Run.done () m
  | o :: rest => (leuart_op o m).bind fun _ m1 => leuart_ops rest m1

/-! ## The interrupt handlers and the order of the causes -/

/-- The causes that `I2C0_IRQHandler` finds in `IF & IEN`. -/
structure I2C_Flags where
  rxdatav : Bool
  ack : Bool
  nack : Bool
  mstop : Bool
deriving DecidableEq, Repr

/-- The function `I2C0_IRQHandler`: `flags` is `int_flag = IF & IEN` as read
on entry and `rxdata` the content of the receive register.  The write of
`int_flag` to `IFC` clears these flags; `again` tells which of them the
peripheral has raised again by the time the assertion on that flag reads `IF`. -/
def I2C0_IRQHandler (flags again : I2C_Flags) (rxdata : Nat) (m : Machine) : Run Unit :=
  (if flags.rxdatav then i2c_rxdatav rxdata m else Run.done () m).bind fun _ m1 =>
  (if flags.ack then (EFM_ASSERT (!again.ack) m1).bind fun _ m1a => i2c_ack m1a
   else Run.done () m1).bind fun _ m2 =>
  (if flags.nack then (EFM_ASSERT (!again.nack) m2).bind fun _ m2a => i2c_nack m2a
   else Run.done () m2).bind fun _ m3 =>
  (if flags.mstop then (EFM_ASSERT (!again.mstop) m3).bind fun _ m3a => i2c_mstop m3a
   else Run.done () m3)

/-- The order in which the description has the bus line serve its pending
causes: byte-received, acknowledge, not-acknowledge, stop. -/
def i2c_service_order (flags : I2C_Flags) (rxdata : Nat) : List I2C_Cause :=
  (if flags.rxdatav then [I2C_Cause.rxdatav rxdata] else []) ++
  (if flags.ack then [I2C_Cause.ack] else []) ++
  (if flags.nack then [I2C_Cause.nack] else []) ++
  (if flags.mstop then [I2C_Cause.mstop] else [])

/-- The five interrupt causes of the serial line; byte-received carries the
value the receive register holds. -/
inductive LEUART_Cause where
  | txbl
  | txc
  | sigf
  | startf
  | rxdatav (rxdata : Nat)
deriving DecidableEq, Repr

/-- The handler of one cause of the serial line. -/
def leuart_cause (c : LEUART_Cause) (m : Machine) : Run Unit :=
  match c with
  | LEUART_Cause.txbl => leuart_txbl m
  | LEUART_Cause.txc => leuart_txc m
  | LEUART_Cause.sigf => leuart_sigf m
  | LEUART_Cause.startf => leuart_startf m
  | LEUART_Cause.rxdatav rxdata => leuart_rxdatav rxdata m

/-- The handlers of a list of causes, one after the other; a halt ends the run. -/
def leuart_causes (cs : List LEUART_Cause) (m : Machine) : Run Unit :=
  match cs with
  | [] => Run.done () m
  | c :: rest => (leuart_cause c m).bind fun _ m1 => leuart_causes rest m1

/-- The order in which the description has the serial line serve its pending
causes: byte-ready, transmit-complete, end-frame, start-frame, byte-received. -/
def leuart_service_order (flags : LEUART_Flags) (rxdata : Nat) : List LEUART_Cause :=
  (if flags.txbl then [LEUART_Cause.txbl] else []) ++
  (if flags.txc then [LEUART_Cause.txc] else []) ++
  (if flags.sigf then [LEUART_Cause.sigf] else []) ++
  (if flags.startf then [LEUART_Cause.startf] else []) ++
  (if flags.rxdatav then [LEUART_Cause.rxdatav rxdata] else [])

/-! ## Opening the peripherals: letimer.c, i2c.c, SI7021.c, scheduler.c, app.c -/

def DISABLE_IRQ : Bool := false
def ENABLE_IRQ : Bool := true

/-- The fields of `APP_LETIMER_PWM_TypeDef` that reach the state of the driver;
the others set the waveform and the pin routing of the timer. -/
structure APP_LETIMER_PWM_TypeDef where
  enable : Bool
  comp0_irq_enable : Bool
  comp0_evt : Nat
  comp1_irq_enable : Bool
  comp1_evt : Nat
  uf_irq_enable : Bool
  uf_evt : Nat
deriving DecidableEq, Repr

/-- The function `letimer_pwm_open` on LETIMER0.  The clock check writes the
start command, asserts the `RUNNING` bit and writes the stop command;
`LETIMER_Init` leaves the timer running exactly when `enable` is set;
`LETIMER_IntClear` writes its argument to `IFC` and `LETIMER_IntEnable` ORs it
into `IEN`.  The compare values and the routing lie outside the state. -/
def letimer_pwm_open (app_letimer_struct : APP_LETIMER_PWM_TypeDef) (m : Machine) : Run Unit :=
  (letimer_start DISABLE_LETIMER m).bind fun _ m1 =>
  let m2 := { m1 with letimer_hw := { m1.letimer_hw with running := true } }
  (EFM_ASSERT m2.letimer_hw.running m2).bind fun _ m3 =>
  let m4 := { m3 with letimer_hw := { m3.letimer_hw with running := false } }
  (if app_letimer_struct.enable then sleep_block_mode LETIMER_EM m4
   else Run.done () m4).bind fun _ m5 =>
  let m6 := { m5 with
    letimer_hw := { m5.letimer_hw with running := app_letimer_struct.enable },
    scheduled_comp0_evt := app_letimer_struct.comp0_evt,
    scheduled_comp1_evt := app_letimer_struct.comp1_evt,
    scheduled_uf_evt := app_letimer_struct.uf_evt }
  let flags :=
    (if app_letimer_struct.uf_irq_enable then LETIMER_IF_UF else 0) |||
    (if app_letimer_struct.comp1_irq_enable then LETIMER_IF_COMP1 else 0) |||
    (if app_letimer_struct.comp0_irq_enable then LETIMER_IF_COMP0 else 0)
  Run.done () { m6 with letimer_hw := { m6.letimer_hw with
    IFC := m6.letimer_hw.IFC ++ [flags],
    IF := m6.letimer_hw.IF &&& ((U32 - 1) ^^^ flags),
    IEN := m6.letimer_hw.IEN ||| flags } }

/-- The function `app_letimer_pwm_open`; its two arguments, the periods, only
reach the compare registers. -/
def app_letimer_pwm_open (m : Machine) : Run Unit :=
  letimer_pwm_open
    { enable := false,
      comp0_evt := LETIMER0_COMP0_EVT, comp0_irq_enable := DISABLE_IRQ,
      comp1_evt := LETIMER0_COMP1_EVT, comp1_irq_enable := DISABLE_IRQ,
      uf_evt := LETIMER0_UF_EVT, uf_irq_enable := ENABLE_IRQ } m

/-- Modelled from the spec: the constant `EVENT_RESET` of scheduler.h, a header
that is not among the sources.  The description of `scheduler_open` in
scheduler.c gives its value: the function "sets the private variable
event_scheduled equal to 0". -/
def EVENT_RESET : Nat := 0

/-- The function `scheduler_open`. -/
def scheduler_open (m : Machine) : Machine :=
  let m1 := disable_irq m
  let m2 := { m1 with event_scheduled := EVENT_RESET }
  enable_irq m2

/-- The field of `I2C_OPEN_STRUCT` that reaches the state of the driver. -/
structure I2C_OPEN_STRUCT where
  event : Nat
deriving DecidableEq, Repr

/-- The function `i2c_open` on I2C0.  The test of the flag register,
`I2C_Init`, the routing, `i2c_bus_reset` and the enabling of the four
interrupts act on the peripheral and on the two lines, outside the state; the
peripheral and the lines pass the assertions made on them. -/
def i2c_open (i2c_setup : I2C_OPEN_STRUCT) (m : Machine) : Run Unit :=
  Run.done () { m with i2c_payload := { m.i2c_payload with event := i2c_setup.event } }

/-- The function `si7021_i2c_open`. -/
def si7021_i2c_open (evt : Nat) (m : Machine) : Run Unit :=
  i2c_open { event := evt } m

/-- The function `app_peripheral_setup`; `cmu_open` and `gpio_open` set up the
clocks and the pins, outside the state. -/
def app_peripheral_setup (m : Machine) : Run Unit :=
  let m1 := scheduler_open m
  let m2 := sleep_open m1
  (app_letimer_pwm_open m2).bind fun _ m3 =>
  (si7021_i2c_open SI7021_READ_EVT m3).bind fun _ m4 =>
  Run.done () (add_scheduled_event BOOT_UP_EVT m4)

/-! ## main.c : the loop and the interrupts, step by step -/

/-- What every function of the firmware core leaves alone once the peripherals
are open: the interrupt enables of the timer and the event ids of the timer
and of the bus. -/
def wiring_kept (m m1 : Machine) : Prop :=
  m1.letimer_hw.IEN = m.letimer_hw.IEN ∧ m1.scheduled_uf_evt = m.scheduled_uf_evt ∧
  m1.i2c_payload.event = m.i2c_payload.event

/-- The transmitter making progress while straight-line code runs: at most `k`
interrupts of the running transmission are served, one after the other.  With
no transmission running the transmitter raises none. -/
def leuart_tx_progress (k : Nat) (m : Machine) : Run Unit :=
  match k with
  | 0 => Run.done () m
  | k1 + 1 =>
      if m.leuart_payload.txbusy then
        (leuart_tx_irq m).bind fun _ m1 => leuart_tx_progress k1 m1
      else Run.done () m

/-- The function `ble_write` with the transmitter making progress before the
call and between the push and the pop. -/
def ble_write_tx (k1 k2 : Nat) (string : List Nat) (m : Machine) : Run Unit :=
  (leuart_tx_progress k1 m).bind fun _ m0 =>
  (ble_circ_push string m0).bind fun _ m1 =>
  (leuart_tx_progress k2 m1).bind fun _ m2 =>
  (ble_circ_pop CIRC_OPER m2).bind fun _ m3 => Run.done () m3

/-- The statements of `scheduled_boot_up_evt` up to and including the call of
`circular_buff_test`. -/
def boot_up_selftest (m : Machine) : Run Unit :=
  (EFM_ASSERT (get_scheduled_events m &&& BOOT_UP_EVT != 0) m).bind fun _ m0 =>
  let m1 := remove_scheduled_event BOOT_UP_EVT m0
  (ble_open LEUART0_TX_DONE_EVT LEUART0_RX_DONE_EVT m1).bind fun _ m2 =>
  circular_buff_test m2

/-- The function `scheduled_boot_up_evt` with the transmitter making progress
around its three calls of `ble_write`.  Up to the end of `circular_buff_test`
the transmitter is idle whenever straight-line code runs: `leuart_rxtest`
waits for each of its transmissions, and the one message `circular_buff_test`
writes is started by its last statement. -/
def scheduled_boot_up_evt_tx (k1 k2 k3 k4 k5 k6 : Nat) (m : Machine) : Run Unit :=
  (EFM_ASSERT (get_scheduled_events m &&& BOOT_UP_EVT != 0) m).bind fun _ m0 =>
  let m1 := remove_scheduled_event BOOT_UP_EVT m0
  (ble_open LEUART0_TX_DONE_EVT LEUART0_RX_DONE_EVT m1).bind fun _ m2 =>
  (circular_buff_test m2).bind fun _ m3 =>
  -- "\nHello World\n"
  (ble_write_tx k1 k2 [10, 72, 101, 108, 108, 111, 32, 87, 111, 114, 108, 100, 10] m3).bind
  fun _ m4 =>
  -- "Circular Buffer Lab\n"
  (ble_write_tx k3 k4 [67, 105, 114, 99, 117, 108, 97, 114, 32, 66, 117, 102, 102, 101, 114, 32,
    76, 97, 98, 10] m4).bind fun _ m5 =>
  -- "Justin Thwaites\n"
  ble_write_tx k5 k6 [74, 117, 115, 116, 105, 110, 32, 84, 104, 119, 97, 105, 116, 101, 115, 10]
    m5

/-- What happens on the serial side once the boot-up handler has returned: an
interrupt of the running transmission, or the statement of the loop of `main`
that dispatches `leuart0_tx_done_evt`. -/
inductive LEUART_Tx_Step where
  | irq
  | dispatch
deriving DecidableEq, Repr

/-- One step of the serial side. -/
def leuart_tx_step (s : LEUART_Tx_Step) (m : Machine) : Run Unit :=
  match s with
  | LEUART_Tx_Step.irq => leuart_tx_progress 1 m
  | LEUART_Tx_Step.dispatch =>
      if get_scheduled_events m &&& LEUART0_TX_DONE_EVT != 0 then leuart0_tx_done_evt m
      else Run.done () m

/-- A succession of steps of the serial side. -/
def leuart_tx_steps (ss : List LEUART_Tx_Step) (m : Machine) : Run Unit :=
  match ss with
  | [] => Run.done () m
  | s :: rest => (leuart_tx_step s m).bind fun _ m1 => leuart_tx_steps rest m1

/-- The loop of `main` left alone with the transmitter: a pending
`LEUART0_TX_DONE_EVT` is dispatched; with none pending the core sleeps until
the next interrupt of the running transmission; with no transmission running
nothing more happens.  `fuel` bounds the number of rounds. -/
def leuart_drain (fuel : Nat) (m : Machine) : Run Unit :=
  match fuel with
  | 0 => Run.done () m
  | fuel1 + 1 =>
      if get_scheduled_events m &&& LEUART0_TX_DONE_EVT != 0 then
        (leuart0_tx_done_evt m).bind fun _ m1 => leuart_drain fuel1 m1
      else if m.leuart_payload.txbusy then
        (leuart_tx_irq m).bind fun _ m1 => leuart_drain fuel1 m1
      else Run.done () m

/-- The bytes `leuart_rxtest` sends through the loopback while `ble_open` runs. -/
def rxtest_bytes : List Nat :=
  [97, 62, 97, 115, 100, 102, 103, 59, 62, 49, 50, 51, 59, 59, 62, 49, 50, 51, 52, 53, 54, 55,
   56, 57, 48, 59, 62, 62, 49, 50, 51, 59, 62, 49, 50, 51, 59, 52, 53, 54, 55]

/-- The four messages of the boot-up handler, "\nPassed Circular Buffer Test\n"
of `circular_buff_test` first, then "\nHello World\n", "Circular Buffer Lab\n"
and "Justin Thwaites\n". -/
def boot_up_messages : List (List Nat) :=
  [[10, 80, 97, 115, 115, 101, 100, 32, 67, 105, 114, 99, 117, 108, 97, 114, 32,
    66, 117, 102, 102, 101, 114, 32, 84, 101, 115, 116, 10],
   [10, 72, 101, 108, 108, 111, 32, 87, 111, 114, 108, 100, 10],
   [67, 105, 114, 99, 117, 108, 97, 114, 32, 66, 117, 102, 102, 101, 114, 32,
    76, 97, 98, 10],
   [74, 117, 115, 116, 105, 110, 32, 84, 104, 119, 97, 105, 116, 101, 115, 10]]

/-- The bytes the packets of `q` take in the ring buffer: each string and its
length byte. -/
def ble_used (q : List (List Nat)) : Nat :=
  match q with
  | [] => 0
  | s :: rest => s.length + 1 + ble_used rest

/-- The ring `cbuf` holds the packets of `q` from index `r` on: a length byte,
then the bytes of the string, none of them NUL, index taken modulo 64. -/
def ble_holds (cbuf : List Nat) (r : Nat) (q : List (List Nat)) : Prop :=
  match q with
  | [] => True
  | s :: rest =>
      cbuf.getD r 0 = s.length + 1 ∧
      (∀ i, i < s.length → cbuf.getD ((r + 1 + i) % 64) 0 = s.getD i 0) ∧
      s ≠ [] ∧ (∀ b ∈ s, b ≠ 0) ∧
      ble_holds cbuf ((r + s.length + 1) % 64) rest

/-- The ring buffer holds the queue `q` and nothing else. -/
def ble_queue (c : BLE_CIRCULAR_BUF) (q : List (List Nat)) : Prop :=
  c.size = 64 ∧ c.cbuf.length = 64 ∧ c.read_ptr < 64 ∧ ble_used q ≤ 63 ∧
  c.write_ptr = (c.read_ptr + ble_used q) % 64 ∧ ble_holds c.cbuf c.read_ptr q

/-- The bytes of the message in the transmitter that `leuart_txbl` has still to
write. -/
def leuart_tx_pending (p : LEUART_PAYLOAD) : List Nat :=
  match p.state with
  | LEUART_States.SEND_DATA =>
      (List.range (p.message_len - p.index)).map fun i => p.message.getD (p.index + i) 0
  | _ => []

/-- The transmitter between two steps, with no frame arriving: idle with EM3
blocked once (by `leuart_rxsetup`), or sending with the byte-ready interrupt
enabled, or waiting for the last byte to leave with the transmit-complete
interrupt enabled, EM3 blocked twice in both. -/
def leuart_tx_ok (e : EnergyModes) (p : LEUART_PAYLOAD) (hw : LEUART_HW) : Prop :=
  p.message.length = 80 ∧ hw.loopbk = false ∧ hw.if_sigf = false ∧ hw.if_startf = false ∧
  ((p.txbusy = false ∧ p.state = LEUART_States.LEUART_INITIALIZE ∧ hw.ien_txbl = false ∧
      e.get EM3 = 1) ∨
   (p.txbusy = true ∧ p.state = LEUART_States.SEND_DATA ∧ hw.ien_txbl = true ∧
      p.index < p.message_len ∧ p.message_len < 80 ∧ e.get EM3 = 2) ∨
   (p.txbusy = true ∧ p.state = LEUART_States.FINISH_WAIT ∧ hw.ien_txbl = false ∧
      hw.ien_txc = true ∧ e.get EM3 = 2))

/-- The serial side holds the stream `out`: the bytes written to the
transmitter so far, then those of the running message still to write, then the
packets of the queue `q` in the ring buffer. -/
def boot_link (m : Machine) (out : List Nat) (q : List (List Nat)) : Prop :=
  ble_queue m.ble_cbuf q ∧
  leuart_tx_ok m.lowest_energy_mode m.leuart_payload m.leuart_hw ∧
  m.tx_done_evt = LEUART0_TX_DONE_EVT ∧
  (m.letimer_hw.running = true ∨ m.lowest_energy_mode.get EM4 < 9) ∧
  m.leuart_hw.txdata ++ leuart_tx_pending m.leuart_payload ++ q.flatten = out

/-- A packet never waits behind an idle transmitter without the event that
makes the loop of `main` start it. -/
def boot_link_live (m : Machine) (q : List (List Nat)) : Prop :=
  m.leuart_payload.txbusy = false → q ≠ [] → m.event_scheduled &&& LEUART0_TX_DONE_EVT ≠ 0

/-- A bound on the rounds `leuart_drain` needs from `m` with the queue `q`. -/
def leuart_drain_rounds (m : Machine) (q : List (List Nat)) : Nat :=
  (match m.leuart_payload.state with
   | LEUART_States.SEND_DATA => m.leuart_payload.message_len - m.leuart_payload.index + 2
   | LEUART_States.FINISH_WAIT => 2
   | LEUART_States.LEUART_INITIALIZE => 0) +
  (if m.event_scheduled &&& LEUART0_TX_DONE_EVT != 0 then 1 else 0) +
  (ble_used q + q.length)

/-- A step from `m` to `m1` only adds to the record of the stores made outside
`rx_message`. -/
def rx_oob_grows (m m1 : Machine) : Prop := m.rx_oob <+: m1.rx_oob

/-- A run of the serial driver in which both directions are at work: the start
marker `>` arrives, then `1`; `leuart_start` is called with the string `Hi`,
whose two bytes go out around the arrival of `2`; the transmission completes;
the end-frame cause is raised. -/
def rx_busy_scenario : List LEUART_Op :=
  [LEUART_Op.irq
      { txbl := false, txc := false, sigf := false, startf := true, rxdatav := true } 62,
    LEUART_Op.irq
      { txbl := false, txc := false, sigf := false, startf := false, rxdatav := true } 49,
    LEUART_Op.start [72, 105, 0] 2,
    LEUART_Op.irq
      { txbl := true, txc := false, sigf := false, startf := false, rxdatav := false } 0,
    LEUART_Op.irq
      { txbl := false, txc := false, sigf := false, startf := false, rxdatav := true } 50,
    LEUART_Op.irq
      { txbl := true, txc := false, sigf := false, startf := false, rxdatav := false } 0,
    LEUART_Op.irq
      { txbl := false, txc := true, sigf := false, startf := false, rxdatav := false } 0,
    LEUART_Op.irq
      { txbl := false, txc := false, sigf := true, startf := false, rxdatav := false } 59]

/-! # Theorems -/

/-! ## Energy Mode Arbiter -/

/-- C5: whenever `enter_sleep` enters a sleep state, that state is EM1, EM2 or
EM3 and its depth is strictly shallower than every depth whose counter is
non-zero. -/
theorem enter_sleep_above_every_blocked_depth (m : Machine) (k d : Nat)
    (hk : enter_sleep m = some k) (hd : d < MAX_ENERGY_MODES)
    (hc : m.lowest_energy_mode.get d ≠ 0) :
    k < d ∧ (k = EM1 ∨ k = EM2 ∨ k = EM3) := by
  unfold enter_sleep at hk
  simp only [EM0, EM1, EM2, EM3, MAX_ENERGY_MODES] at *
  split_ifs at hk with h0 h1 h2 h3 <;> simp at hk <;> subst hk
  · refine ⟨?_, by simp⟩
    have : d ≠ 0 := by rintro rfl; exact h0 (Nat.pos_of_ne_zero hc)
    have : d ≠ 1 := by rintro rfl; exact h1 (Nat.pos_of_ne_zero hc)
    omega
  · refine ⟨?_, by simp⟩
    have : d ≠ 0 := by rintro rfl; exact h0 (Nat.pos_of_ne_zero hc)
    have : d ≠ 1 := by rintro rfl; exact h1 (Nat.pos_of_ne_zero hc)
    have : d ≠ 2 := by rintro rfl; exact h2 (Nat.pos_of_ne_zero hc)
    omega
  · refine ⟨?_, by simp⟩
    have : d ≠ 0 := by rintro rfl; exact h0 (Nat.pos_of_ne_zero hc)
    have : d ≠ 1 := by rintro rfl; exact h1 (Nat.pos_of_ne_zero hc)
    have : d ≠ 2 := by rintro rfl; exact h2 (Nat.pos_of_ne_zero hc)
    have : d ≠ 3 := by rintro rfl; exact h3 (Nat.pos_of_ne_zero hc)
    omega

/-- Witness for C5: with only EM3 blocked, `enter_sleep` enters EM2. -/
theorem enter_sleep_above_every_blocked_depth_witness :
    enter_sleep (boot_with_counters { em0 := 0, em1 := 0, em2 := 0, em3 := 1, em4 := 0 })
      = some 2 ∧ 3 < MAX_ENERGY_MODES ∧
    (boot_with_counters
      { em0 := 0, em1 := 0, em2 := 0, em3 := 1, em4 := 0 }).lowest_energy_mode.get 3 ≠ 0 ∧
    (2 < 3 ∧ (2 = EM1 ∨ 2 = EM2 ∨ 2 = EM3)) :=
  ⟨by decide, by decide, by decide,
   enter_sleep_above_every_blocked_depth
     (boot_with_counters { em0 := 0, em1 := 0, em2 := 0, em3 := 1, em4 := 0 }) 2 3
     (by decide) (by decide) (by decide)⟩

theorem EnergyModes.get_set_same (a : EnergyModes) (d v : Nat) (hd : d < MAX_ENERGY_MODES) :
    (a.set d v).get d = v := by
  unfold MAX_ENERGY_MODES at hd
  interval_cases d <;> rfl

theorem EnergyModes.get_set_other (a : EnergyModes) (d e v : Nat) (hne : e ≠ d) :
    (a.set d v).get e = a.get e := by
  rcases d with _ | _ | _ | _ | _ | d <;> rcases e with _ | _ | _ | _ | _ | e <;>
    simp_all [EnergyModes.set, EnergyModes.get]

theorem sleep_block_mode_done (d : Nat) (m : Machine) (hd : d < MAX_ENERGY_MODES)
    (hc : m.lowest_energy_mode.get d + 1 < 10) :
    sleep_block_mode d m = Run.done ()
      { m with irq_enabled := true,
               lowest_energy_mode := m.lowest_energy_mode.set d (m.lowest_energy_mode.get d + 1) } := by
  have h32 : (m.lowest_energy_mode.get d + 1) % U32 = m.lowest_energy_mode.get d + 1 := by
    unfold U32; omega
  simp [sleep_block_mode, disable_irq, enable_irq, hd, h32, EnergyModes.get_set_same, hc,
    EFM_ASSERT, Run.bind]

theorem sleep_unblock_mode_done (d : Nat) (m : Machine) (hd : d < MAX_ENERGY_MODES) :
    sleep_unblock_mode d m = Run.done ()
      { m with irq_enabled := true,
               lowest_energy_mode :=
                 m.lowest_energy_mode.set d (sub32 (m.lowest_energy_mode.get d) 1) } := by
  simp [sleep_unblock_mode, disable_irq, enable_irq, hd, EFM_ASSERT, Run.bind]

theorem sub32_one (c : Nat) (h0 : 0 < c) (h : c < U32) : sub32 c 1 = c - 1 := by
  unfold sub32 U32 at *; omega

theorem sleep_ops_count (d : Nat) (hd : d < MAX_ENERGY_MODES) (ops : List SleepOp) :
    ∀ m : Machine,
      m.lowest_energy_mode.get d + ops.count SleepOp.block ≤ 9 →
      (∀ i, (ops.take i).count SleepOp.unblock ≤
              m.lowest_energy_mode.get d + (ops.take i).count SleepOp.block) →
      ∃ m1, sleep_ops d ops m = Run.done () m1 ∧
        m1.lowest_energy_mode.get d =
          m.lowest_energy_mode.get d + ops.count SleepOp.block - ops.count SleepOp.unblock ∧
        ∀ e, e ≠ d → m1.lowest_energy_mode.get e = m.lowest_energy_mode.get e := by
  induction ops with
  | nil => intro m _ _; exact ⟨m, rfl, by simp, fun _ _ => rfl⟩
  | cons op rest ih =>
    intro m hk hbal
    cases op with
    | block =>
      have hc : m.lowest_energy_mode.get d + 1 < 10 := by
        simp [List.count_cons] at hk; omega
      obtain ⟨m1, hrun, hget, hoth⟩ := ih
        { m with irq_enabled := true,
                 lowest_energy_mode := m.lowest_energy_mode.set d (m.lowest_energy_mode.get d + 1) }
        (by simp [List.count_cons, EnergyModes.get_set_same _ _ _ hd] at hk ⊢; omega)
        (by
          intro i
          have := hbal (i + 1)
          simp [List.count_cons, EnergyModes.get_set_same _ _ _ hd] at this ⊢
          omega)
      refine ⟨m1, ?_, ?_, ?_⟩
      · simp [sleep_ops, sleep_block_mode_done d m hd hc, Run.bind, hrun]
      · simp [List.count_cons, EnergyModes.get_set_same _ _ _ hd] at hget ⊢; omega
      · intro e he
        rw [hoth e he]
        exact EnergyModes.get_set_other _ _ _ _ he
    | unblock =>
      have hpos : 0 < m.lowest_energy_mode.get d := by
        have := hbal 1
        simp [List.count_cons] at this; omega
      have h32 : m.lowest_energy_mode.get d < U32 := by
        unfold U32; omega
      obtain ⟨m1, hrun, hget, hoth⟩ := ih
        { m with irq_enabled := true,
                 lowest_energy_mode :=
                   m.lowest_energy_mode.set d (sub32 (m.lowest_energy_mode.get d) 1) }
        (by simp [List.count_cons, EnergyModes.get_set_same _ _ _ hd, sub32_one _ hpos h32] at hk ⊢
            omega)
        (by
          intro i
          have := hbal (i + 1)
          simp [List.count_cons, EnergyModes.get_set_same _ _ _ hd, sub32_one _ hpos h32] at this ⊢
          omega)
      refine ⟨m1, ?_, ?_, ?_⟩
      · simp [sleep_ops, sleep_unblock_mode_done d m hd, Run.bind, hrun]
      · simp [List.count_cons, EnergyModes.get_set_same _ _ _ hd, sub32_one _ hpos h32] at hget ⊢
        omega
      · intro e he
        rw [hoth e he]
        exact EnergyModes.get_set_other _ _ _ _ he

theorem EnergyModes.set_get_self (a : EnergyModes) (d : Nat) : a.set d (a.get d) = a := by
  rcases d with _ | _ | _ | _ | _ | d <;> rfl

theorem EnergyModes.set_set (a : EnergyModes) (d v w : Nat) : (a.set d v).set d w = a.set d w := by
  rcases d with _ | _ | _ | _ | _ | d <;> rfl

/-- C6, the code at the failing input: after `sleep_open`, unblocking any depth
returns normally (the assertion `>= 0` on an `unsigned int` cannot fail) and
leaves the counter of that depth at 4294967295. -/
theorem sleep_unblock_mode_zero_wraps (m : Machine) (d : Fin 5) :
    ∃ m1, sleep_unblock_mode d.val (sleep_open m) = Run.done () m1 ∧
      m1.lowest_energy_mode.get d.val = 4294967295 := by
  refine ⟨_, sleep_unblock_mode_done d.val (sleep_open m) d.isLt, ?_⟩
  simp only [EnergyModes.get_set_same _ _ _ d.isLt]
  fin_cases d <;> simp [sleep_open, EnergyModes.get, sub32, U32]

/-- C7: the energy counters are reference counts.  From `sleep_open`, any
succession of block and unblock calls on a depth `d` with at most nine blocks,
in which no prefix holds more unblocks than blocks, returns normally with the
counter of `d` equal to blocks minus unblocks and every other counter
unchanged.  Block, block, unblock on depth 2 leaves its counter at 1, and a
block followed by an unblock restores the counters of any state in which the
block is allowed. -/
theorem sleep_counters_are_reference_counts (m : Machine) (d : Nat) (ops : List SleepOp)
    (hd : d < MAX_ENERGY_MODES)
    (hk : ops.count SleepOp.block ≤ 9)
    (hbal : ∀ i, (ops.take i).count SleepOp.unblock ≤ (ops.take i).count SleepOp.block) :
    (∃ m1, sleep_ops d ops (sleep_open m) = Run.done () m1 ∧
        m1.lowest_energy_mode.get d = ops.count SleepOp.block - ops.count SleepOp.unblock ∧
        ∀ e, e ≠ d → m1.lowest_energy_mode.get e = (sleep_open m).lowest_energy_mode.get e) ∧
    (∃ m2, sleep_ops EM2 [SleepOp.block, SleepOp.block, SleepOp.unblock] (sleep_open m)
          = Run.done () m2 ∧
        m2.lowest_energy_mode = { em0 := 0, em1 := 0, em2 := 1, em3 := 0, em4 := 0 }) ∧
    (∀ m0 : Machine, m0.lowest_energy_mode.get d ≤ 8 →
      ∃ m3, sleep_ops d [SleepOp.block, SleepOp.unblock] m0 = Run.done () m3 ∧
        m3.lowest_energy_mode = m0.lowest_energy_mode) := by
  have hz : (sleep_open m).lowest_energy_mode.get d = 0 := by
    unfold MAX_ENERGY_MODES at hd
    interval_cases d <;> rfl
  refine ⟨?_, ?_, ?_⟩
  · obtain ⟨m1, hrun, hget, hoth⟩ := sleep_ops_count d hd ops (sleep_open m)
      (by rw [hz]; omega) (by intro i; rw [hz]; have := hbal i; omega)
    exact ⟨m1, hrun, by rw [hget, hz]; omega, hoth⟩
  · have h : sleep_ops EM2 [SleepOp.block, SleepOp.block, SleepOp.unblock] (sleep_open m)
        = Run.done ()
          { m with irq_enabled := true,
                   lowest_energy_mode := { em0 := 0, em1 := 0, em2 := 1, em3 := 0, em4 := 0 } } := by
      have h2 : EM2 < MAX_ENERGY_MODES := by decide
      have hs : sub32 2 1 = 1 := by unfold sub32 U32; omega
      rw [sleep_ops, sleep_block_mode_done EM2 _ h2 (by simp [sleep_open, EM2, EnergyModes.get])]
      rw [Run.bind, sleep_ops, sleep_block_mode_done EM2 _ h2
        (by simp [sleep_open, EM2, EnergyModes.get, EnergyModes.set])]
      rw [Run.bind, sleep_ops, sleep_unblock_mode_done EM2 _ h2, Run.bind, sleep_ops]
      simp [sleep_open, EM2, EnergyModes.get, EnergyModes.set, hs]
    exact ⟨_, h, rfl⟩
  · intro m0 h8
    have hb := sleep_block_mode_done d m0 hd (by omega)
    have h1 : sub32 (m0.lowest_energy_mode.get d + 1) 1 = m0.lowest_energy_mode.get d := by
      unfold sub32 U32; omega
    refine ⟨{ m0 with irq_enabled := true }, ?_, rfl⟩
    simp [sleep_ops, hb, Run.bind, sleep_unblock_mode_done d _ hd,
      EnergyModes.get_set_same _ _ _ hd, EnergyModes.set_set, h1, EnergyModes.set_get_self]

/-- Witness for C7: block, block, unblock on depth 2 from the reset state. -/
theorem sleep_counters_are_reference_counts_witness :
    (2 < MAX_ENERGY_MODES ∧
     [SleepOp.block, SleepOp.block, SleepOp.unblock].count SleepOp.block ≤ 9) ∧
    ((∃ m1, sleep_ops 2 [SleepOp.block, SleepOp.block, SleepOp.unblock] (sleep_open boot)
          = Run.done () m1 ∧
        m1.lowest_energy_mode.get 2 =
          [SleepOp.block, SleepOp.block, SleepOp.unblock].count SleepOp.block -
          [SleepOp.block, SleepOp.block, SleepOp.unblock].count SleepOp.unblock ∧
        ∀ e, e ≠ 2 → m1.lowest_energy_mode.get e = (sleep_open boot).lowest_energy_mode.get e) ∧
    (∃ m2, sleep_ops EM2 [SleepOp.block, SleepOp.block, SleepOp.unblock] (sleep_open boot)
          = Run.done () m2 ∧
        m2.lowest_energy_mode = { em0 := 0, em1 := 0, em2 := 1, em3 := 0, em4 := 0 }) ∧
    (∀ m0 : Machine, m0.lowest_energy_mode.get 2 ≤ 8 →
      ∃ m3, sleep_ops 2 [SleepOp.block, SleepOp.unblock] m0 = Run.done () m3 ∧
        m3.lowest_energy_mode = m0.lowest_energy_mode)) :=
  ⟨⟨by decide, by decide⟩,
   sleep_counters_are_reference_counts boot 2
     [SleepOp.block, SleepOp.block, SleepOp.unblock] (by decide) (by decide)
     (by intro i; rcases i with _ | _ | _ | i <;> simp [List.count_cons])⟩

/-! ## Bus Transaction Sequencer -/

theorem Run.bind_done {α β : Type} (a : α) (m : Machine) (f : α → Machine → Run β) :
    (Run.done a m).bind f = f a m := rfl

theorem Run.bind_halted {α β : Type} (m : Machine) (f : α → Machine → Run β) :
    (Run.halted m : Run α).bind f = Run.halted m := rfl


theorem shl8_u32 (b : Nat) (hb : b < 256) : (b <<< 8) % U32 = b <<< 8 := by
  rw [Nat.shiftLeft_eq]
  unfold U32
  omega

theorem i2c_start_state (param : I2C_PAYLOAD_INIT) (bus_idle : Bool) (m m0 : Machine)
    (h : i2c_start param bus_idle m = Run.done () m0) :
    m0.i2c_payload.i2c_state = I2C_States.INITIALIZE := by
  unfold i2c_start at h
  cases bus_idle with
  | false => simp [EFM_ASSERT, Run.bind] at h
  | true =>
    simp only [EFM_ASSERT, Run.bind, if_true] at h
    cases hb : sleep_block_mode I2C_EM_BLOCK m with
    | halted m1 => rw [hb] at h; simp at h
    | done u m1 =>
      rw [hb] at h
      simp only [Run.done.injEq, true_and] at h
      rw [← h]

theorem i2c_em_block_lt : I2C_EM_BLOCK < MAX_ENERGY_MODES := by decide

/-- C3: from the state a successful `i2c_start` leaves, the causes ack, ack,
ack, byte-received(b1), byte-received(b2), transaction-stop are all accepted;
the sequencer ends in INITIALIZE, the destination word holds `(b1 << 8) | b2`
whatever it held before, and the completion event is posted exactly once, by
the stop cause: after each shorter prefix of the sequence nothing has been
posted. -/
theorem i2c_read_transaction (m m0 : Machine) (param : I2C_PAYLOAD_INIT) (bus_idle : Bool)
    (b1 b2 : Nat) (hb1 : b1 < 256)
    (hstart : i2c_start param bus_idle m = Run.done () m0) :
    (∀ k, k < 6 → ∃ mk,
        i2c_causes (([I2C_Cause.ack, I2C_Cause.ack, I2C_Cause.ack, I2C_Cause.rxdatav b1,
          I2C_Cause.rxdatav b2, I2C_Cause.mstop]).take k) m0 = Run.done () mk ∧
        mk.posted = m0.posted ∧ mk.event_scheduled = m0.event_scheduled) ∧
    ∃ m6,
      i2c_causes [I2C_Cause.ack, I2C_Cause.ack, I2C_Cause.ack, I2C_Cause.rxdatav b1,
        I2C_Cause.rxdatav b2, I2C_Cause.mstop] m0 = Run.done () m6 ∧
      m6.i2c_payload.i2c_state = I2C_States.INITIALIZE ∧
      m6.si7021_data = (b1 <<< 8) ||| b2 ∧
      m6.posted = m0.posted ++ [m0.i2c_payload.event] ∧
      m6.event_scheduled = m0.event_scheduled ||| m0.i2c_payload.event := by
  have hs := i2c_start_state param bus_idle m m0 hstart
  constructor
  · intro k hk
    interval_cases k <;>
      simp [i2c_causes, i2c_cause, i2c_ack, i2c_rxdatav, Run.bind_done, hs]
  · simp [i2c_causes, i2c_cause, i2c_ack, i2c_rxdatav, i2c_mstop, Run.bind_done, hs,
      sleep_unblock_mode_done _ _ i2c_em_block_lt, add_scheduled_event, enable_irq, disable_irq,
      shl8_u32 b1 hb1]

/-- Witness for C3: the transaction `si7021_read_temp` starts from the reset
state, answered with the bytes 0x66 and 0x4C. -/
theorem i2c_read_transaction_witness :
    (0x66 < 256 ∧
     i2c_start si7021_read_temp_param true boot
       = Run.done () i2c_started) ∧
    ((∀ k, k < 6 → ∃ mk,
        i2c_causes (([I2C_Cause.ack, I2C_Cause.ack, I2C_Cause.ack, I2C_Cause.rxdatav 0x66,
          I2C_Cause.rxdatav 0x4C, I2C_Cause.mstop]).take k)
          i2c_started = Run.done () mk ∧
        mk.posted = i2c_started.posted ∧
        mk.event_scheduled
          = i2c_started.event_scheduled) ∧
    ∃ m6,
      i2c_causes [I2C_Cause.ack, I2C_Cause.ack, I2C_Cause.ack, I2C_Cause.rxdatav 0x66,
        I2C_Cause.rxdatav 0x4C, I2C_Cause.mstop]
        i2c_started = Run.done () m6 ∧
      m6.i2c_payload.i2c_state = I2C_States.INITIALIZE ∧
      m6.si7021_data = (0x66 <<< 8) ||| 0x4C ∧
      m6.posted = i2c_started.posted ++
        [i2c_started.i2c_payload.event] ∧
      m6.event_scheduled
        = i2c_started.event_scheduled |||
          i2c_started.i2c_payload.event) :=
  ⟨⟨by decide, by rfl⟩,
   i2c_read_transaction boot i2c_started
     si7021_read_temp_param true 0x66 0x4C (by decide) (by rfl)⟩

theorem i2c_nacks_in_restart (rest : List I2C_Cause) (n : Nat) :
    ∀ m : Machine, m.i2c_payload.i2c_state = I2C_States.RESTART →
      i2c_causes (List.replicate n I2C_Cause.nack ++ rest) m =
        i2c_causes rest { m with i2c_regs := m.i2c_regs ++
          (List.replicate n [I2C_RegWrite.I2C_CMD_START,
            I2C_RegWrite.TXDATA (((m.i2c_payload.device_address <<< 1) % U32) ||| READ)]).flatten } := by
  induction n with
  | zero => intro m _; simp
  | succ n ih =>
    intro m hs
    have hp : { m.i2c_payload with i2c_state := I2C_States.RESTART } = m.i2c_payload := by
      rw [← hs]
    rw [List.replicate_succ, List.cons_append, i2c_causes, i2c_cause, i2c_nack, hs]
    simp only [Run.bind_done, hp]
    have h2 := ih { m with i2c_regs := m.i2c_regs ++ [I2C_RegWrite.I2C_CMD_START,
      I2C_RegWrite.TXDATA (((m.i2c_payload.device_address <<< 1) % U32) ||| READ)] } hs
    rw [h2]
    simp [List.replicate_succ, List.append_assoc]

/-- C10: a not-acknowledge in RESTART is accepted, leaves the sequencer in
RESTART and writes START and then `(device_address << 1) | 1`, exactly what the
acknowledge in MEASURE (the original restart) writes.  After any number `n` of
such nacks, the causes ack, byte-received(b1), byte-received(b2), stop end with
`(b1 << 8) | b2` in the destination and one completion event posted; the final
state is the one reached with no nack at all, except that the register log
holds the `n` repeated restart writes. -/
theorem i2c_restart_nack_retry (m : Machine) (n b1 b2 : Nat) (hb1 : b1 < 256)
    (hs : m.i2c_payload.i2c_state = I2C_States.RESTART) :
    i2c_nack m = Run.done ()
      { m with i2c_regs := m.i2c_regs ++ [I2C_RegWrite.I2C_CMD_START,
          I2C_RegWrite.TXDATA (((m.i2c_payload.device_address <<< 1) % U32) ||| 1)] } ∧
    i2c_nack m
      = i2c_ack { m with i2c_payload := { m.i2c_payload with i2c_state := I2C_States.MEASURE } } ∧
    ∃ m0 mn,
      i2c_causes [I2C_Cause.ack, I2C_Cause.rxdatav b1, I2C_Cause.rxdatav b2, I2C_Cause.mstop] m
        = Run.done () m0 ∧
      i2c_causes (List.replicate n I2C_Cause.nack ++
        [I2C_Cause.ack, I2C_Cause.rxdatav b1, I2C_Cause.rxdatav b2, I2C_Cause.mstop]) m
        = Run.done () mn ∧
      mn.i2c_payload.i2c_state = I2C_States.INITIALIZE ∧
      mn.si7021_data = (b1 <<< 8) ||| b2 ∧
      mn.posted = m.posted ++ [m.i2c_payload.event] ∧
      mn = { m0 with i2c_regs := m.i2c_regs ++
          (List.replicate n [I2C_RegWrite.I2C_CMD_START,
            I2C_RegWrite.TXDATA (((m.i2c_payload.device_address <<< 1) % U32) ||| 1)]).flatten ++
          [I2C_RegWrite.I2C_CMD_ACK, I2C_RegWrite.I2C_CMD_NACK, I2C_RegWrite.I2C_CMD_STOP] } := by
  have hp : { m.i2c_payload with i2c_state := I2C_States.RESTART } = m.i2c_payload := by
    rw [← hs]
  refine ⟨?_, ?_, ?_⟩
  · simp [i2c_nack, hs, hp, READ]
  · simp [i2c_nack, i2c_ack, hs]
  · rw [i2c_nacks_in_restart _ n m hs]
    simp [i2c_causes, i2c_cause, i2c_ack, i2c_rxdatav, i2c_mstop, Run.bind_done, hs,
      sleep_unblock_mode_done _ _ i2c_em_block_lt, add_scheduled_event, enable_irq, disable_irq,
      shl8_u32 b1 hb1, READ]

/-- Witness for C10: three nacks in RESTART, then the bytes 0x66 and 0x4C. -/
theorem i2c_restart_nack_retry_witness :
    (0x66 < 256 ∧ i2c_restarted.i2c_payload.i2c_state = I2C_States.RESTART) ∧
    (i2c_nack i2c_restarted = Run.done ()
      { i2c_restarted with i2c_regs := i2c_restarted.i2c_regs ++ [I2C_RegWrite.I2C_CMD_START,
          I2C_RegWrite.TXDATA
            (((i2c_restarted.i2c_payload.device_address <<< 1) % U32) ||| 1)] } ∧
    i2c_nack i2c_restarted
      = i2c_ack { i2c_restarted with
          i2c_payload := { i2c_restarted.i2c_payload with i2c_state := I2C_States.MEASURE } } ∧
    ∃ m0 mn,
      i2c_causes [I2C_Cause.ack, I2C_Cause.rxdatav 0x66, I2C_Cause.rxdatav 0x4C, I2C_Cause.mstop]
        i2c_restarted = Run.done () m0 ∧
      i2c_causes (List.replicate 3 I2C_Cause.nack ++
        [I2C_Cause.ack, I2C_Cause.rxdatav 0x66, I2C_Cause.rxdatav 0x4C, I2C_Cause.mstop])
        i2c_restarted = Run.done () mn ∧
      mn.i2c_payload.i2c_state = I2C_States.INITIALIZE ∧
      mn.si7021_data = (0x66 <<< 8) ||| 0x4C ∧
      mn.posted = i2c_restarted.posted ++ [i2c_restarted.i2c_payload.event] ∧
      mn = { m0 with i2c_regs := i2c_restarted.i2c_regs ++
          (List.replicate 3 [I2C_RegWrite.I2C_CMD_START,
            I2C_RegWrite.TXDATA
              (((i2c_restarted.i2c_payload.device_address <<< 1) % U32) ||| 1)]).flatten ++
          [I2C_RegWrite.I2C_CMD_ACK, I2C_RegWrite.I2C_CMD_NACK, I2C_RegWrite.I2C_CMD_STOP] }) :=
  ⟨⟨by decide, by rfl⟩,
   i2c_restart_nack_retry i2c_restarted 3 0x66 0x4C (by decide) (by rfl)⟩

/-! ## Ring Buffer -/

theorem ble_circ_filled_of_empty (m : Machine)
    (he : m.ble_cbuf.read_ptr = m.ble_cbuf.write_ptr) :
    (sub32 m.ble_cbuf.size (ble_circ_space m)) % U8 = 0 := by
  unfold ble_circ_space sub32
  rw [← he]
  unfold U32 U8 at *
  omega

/-- C8: when the read index equals the write index (empty buffer), or when the
transmitter is busy, `ble_circ_pop` returns true and the whole state, the
transmitter included, is what it was; any number of such calls in a row has
the same effect as none. -/
theorem ble_circ_pop_noop (m : Machine) (test : Bool) (n : Nat)
    (h : m.ble_cbuf.read_ptr = m.ble_cbuf.write_ptr ∨ leuart_tx_busy m = true) :
    ble_circ_pop test m = Run.done true m ∧
    ble_circ_pop_repeat test n m = Run.done true m := by
  have h1 : ble_circ_pop test m = Run.done true m := by
    unfold ble_circ_pop
    rcases h with he | hb
    · simp only [ble_circ_filled_of_empty m he, if_true]
    · simp only [hb, if_true, ite_self]
  refine ⟨h1, ?_⟩
  induction n with
  | zero => rfl
  | succ k ih => rw [ble_circ_pop_repeat, h1, Run.bind_done, ih]

/-- Witness for C8: three pops of the empty buffer of the reset state. -/
theorem ble_circ_pop_noop_witness :
    (boot.ble_cbuf.read_ptr = boot.ble_cbuf.write_ptr ∨ leuart_tx_busy boot = true) ∧
    (ble_circ_pop CIRC_TEST boot = Run.done true boot ∧
     ble_circ_pop_repeat CIRC_TEST 3 boot = Run.done true boot) :=
  ⟨Or.inl rfl, ble_circ_pop_noop boot CIRC_TEST 3 (Or.inl rfl)⟩

/-- C1, the code at the failing input: on the freshly initialised buffer with
the transmitter idle, pushing one string of 63 bytes (64 enqueued bytes, the
capacity) is accepted and leaves the write index equal to the read index; the
pop that follows returns true and delivers nothing, although the string is
queued. -/
theorem ble_circ_full_buffer_string_lost :
    ∃ m1, ble_circ_push (List.replicate 63 97) (ble_circ_init boot) = Run.done () m1 ∧
      m1.ble_cbuf.cbuf = 64 :: List.replicate 63 97 ∧
      m1.ble_cbuf.read_ptr = 0 ∧ m1.ble_cbuf.write_ptr = 0 ∧
      leuart_tx_busy m1 = false ∧
      ble_circ_pop CIRC_TEST m1 = Run.done true m1 ∧
      m1.result_str = boot.result_str :=
  ⟨_, rfl, rfl, rfl, rfl, rfl, rfl, rfl⟩

/-- C2, the code at the failing input: after push(50 bytes), pop, push(25
bytes) the read index is 51 and the write index 13, so 26 bytes are queued and
38 are free; `ble_circ_space` returns 102, and the push of a 40-byte string
(41 bytes needed) returns normally instead of reaching the assertion, writing
over the length byte of the queued string at index 51. -/
theorem ble_circ_push_overflow_undetected :
    ∃ m1 m2 m3 m4,
      ble_circ_push ((List.range 50).map (fun i => i + 1)) (ble_circ_init boot) = Run.done () m1 ∧
      ble_circ_pop CIRC_TEST m1 = Run.done false m2 ∧
      ble_circ_push ((List.range 25).map (fun i => i + 20)) m2 = Run.done () m3 ∧
      m3.ble_cbuf.read_ptr = 51 ∧ m3.ble_cbuf.write_ptr = 13 ∧
      ble_circ_space m3 = 102 ∧
      strlen (List.replicate 40 97) + 1 = 41 ∧ 64 - 26 = 38 ∧
      ble_circ_push (List.replicate 40 97) m3 = Run.done () m4 ∧
      m3.ble_cbuf.cbuf.getD 51 0 = 26 ∧ m4.ble_cbuf.cbuf.getD 51 0 = 97 :=
  ⟨_, _, _, _, rfl, rfl, rfl, rfl, rfl, rfl, rfl, rfl, rfl, rfl, rfl⟩

/-- C9, the code at the failing input: two strings of 31 bytes fill the buffer
(two complete packets of 32 bytes); with the transmitter idle `ble_circ_pop`
returns true, the read index does not move and no transmission is started. -/
theorem ble_circ_pop_full_buffer_returns_true :
    ∃ m1 m2,
      ble_circ_push (List.replicate 31 65) (ble_circ_init boot) = Run.done () m1 ∧
      ble_circ_push (List.replicate 31 66) m1 = Run.done () m2 ∧
      m2.ble_cbuf.cbuf = 32 :: List.replicate 31 65 ++ 32 :: List.replicate 31 66 ∧
      m2.ble_cbuf.read_ptr = 0 ∧ leuart_tx_busy m2 = false ∧
      ble_circ_pop CIRC_OPER m2 = Run.done true m2 :=
  ⟨_, _, rfl, rfl, rfl, rfl, rfl, rfl⟩

/-! ## Accepted and fatal causes -/

/-- C11: for every state of the machine and every cause, the bus sequencer's
handler returns normally exactly when the (state, cause) pair is one of the
seven listed ones, and otherwise it stops at the assertion with the whole
state (sequencer state, destination word, event mask, energy counters)
untouched.  Over the 6 states and the 4 causes, 7 pairs are accepted and 17
are fatal. -/
theorem i2c_accepts_exactly_seven_pairs (m : Machine) (c : I2C_Cause) :
    (if i2c_accepted m.i2c_payload.i2c_state c = true
      then ∃ m1, i2c_cause c m = Run.done () m1
      else i2c_cause c m = Run.halted m) ∧
    (([I2C_States.INITIALIZE, I2C_States.MEASURE, I2C_States.RESTART, I2C_States.MSB_LISTEN,
        I2C_States.LSB_LISTEN, I2C_States.STOP].map (fun s =>
          ([I2C_Cause.ack, I2C_Cause.nack, I2C_Cause.rxdatav 0, I2C_Cause.mstop].filter
            (fun k => i2c_accepted s k)).length)).sum = 7) := by
  refine ⟨?_, by decide⟩
  cases c <;> cases h : m.i2c_payload.i2c_state <;>
    simp [i2c_accepted, i2c_cause, i2c_ack, i2c_nack, i2c_rxdatav, i2c_mstop, h, EFM_ASSERT,
      sleep_unblock_mode_done _ _ i2c_em_block_lt]

theorem leuart_rx_em_lt : LEUART_RX_EM < MAX_ENERGY_MODES := by decide

/-- C12: each cause of the serial framer is accepted in its documented state
only.  Byte-ready outside SEND_DATA, transmit-complete outside FINISH_WAIT and
byte-received outside RECIEVE_DATA and RESET stop at the assertion with the
whole state untouched;
start-frame outside WAIT and end-frame outside RECIEVE_DATA stop at the
assertion having only cleared their own hardware flag, so the transmit and
receive states, the buffers, the indices, the busy flags and the event mask
are untouched.  In the documented state the cause is accepted (byte-ready in
SEND_DATA as long as a byte is left to send). -/
theorem leuart_causes_accepted_in_documented_states (m : Machine) (rxdata : Nat) :
    (match m.leuart_payload.state with
      | LEUART_States.SEND_DATA =>
          if m.leuart_payload.index < m.leuart_payload.message_len
            then ∃ m1, leuart_txbl m = Run.done () m1
            else leuart_txbl m = Run.halted m
      | _ => leuart_txbl m = Run.halted m) ∧
    (match m.leuart_payload.state with
      | LEUART_States.FINISH_WAIT => ∃ m1, leuart_txc m = Run.done () m1
      | _ => leuart_txc m = Run.halted m) ∧
    (match m.leuart_payload.rx_state with
      | LEUART_RXStates.WAIT => ∃ m1, leuart_startf m = Run.done () m1
      | _ => leuart_startf m
          = Run.halted { m with leuart_hw := { m.leuart_hw with if_startf := false } }) ∧
    (match m.leuart_payload.rx_state with
      | LEUART_RXStates.RECIEVE_DATA => ∃ m1, leuart_sigf m = Run.done () m1
      | _ => leuart_sigf m
          = Run.halted { m with leuart_hw := { m.leuart_hw with if_sigf := false } }) ∧
    (match m.leuart_payload.rx_state with
      | LEUART_RXStates.RECIEVE_DATA => ∃ m1, leuart_rxdatav rxdata m = Run.done () m1
      | LEUART_RXStates.RESET => ∃ m1, leuart_rxdatav rxdata m = Run.done () m1
      | _ => leuart_rxdatav rxdata m = Run.halted m) := by
  refine ⟨?_, ?_, ?_, ?_, ?_⟩
  · cases h : m.leuart_payload.state <;> simp only [leuart_txbl, h, EFM_ASSERT] <;> try simp
    by_cases hi : m.leuart_payload.index < m.leuart_payload.message_len
    · simp only [hi, if_true]
      split_ifs <;> exact ⟨_, rfl⟩
    · simp [hi]
  · cases h : m.leuart_payload.state <;>
      simp [leuart_txc, h, EFM_ASSERT, sleep_unblock_mode_done _ _ leuart_rx_em_lt,
        Run.bind_done]
  · cases h : m.leuart_payload.rx_state <;> simp [leuart_startf, h, EFM_ASSERT]
  · cases h : m.leuart_payload.rx_state <;> simp [leuart_sigf, h, EFM_ASSERT]
  · cases h : m.leuart_payload.rx_state <;> simp [leuart_rxdatav, h, EFM_ASSERT]

/-! ## Energy Mode Arbiter: selection of the sleep state -/

/-- C16: with `d` the shallowest depth whose counter is non-zero,
`enter_sleep` does not sleep when `d` is EM0 or EM1 and otherwise enters the
state one shallower than `d` (EM1 for EM2, EM2 for EM3, EM3 for EM4); when no
depth is blocked it enters EM3, the deepest state it ever enters. -/
theorem enter_sleep_one_shallower_than_blocked (m : Machine) :
    enter_sleep m =
      (match shallowest_blocked m.lowest_energy_mode with
        | none => some EM3
        | some 0 => none
        | some 1 => none
        | some (d + 2) => some (d + 1)) ∧
    (enter_sleep m = none ∨ enter_sleep m = some EM1 ∨ enter_sleep m = some EM2 ∨
      enter_sleep m = some EM3) := by
  have key : ∀ a b c d e : Nat,
      enter_sleep { m with lowest_energy_mode := { em0 := a, em1 := b, em2 := c, em3 := d, em4 := e } } =
      (match shallowest_blocked { em0 := a, em1 := b, em2 := c, em3 := d, em4 := e } with
        | none => some EM3
        | some 0 => none
        | some 1 => none
        | some (d + 2) => some (d + 1)) := by
    intro a b c d e
    by_cases ha : a = 0 <;> by_cases hb : b = 0 <;> by_cases hc : c = 0 <;>
      by_cases hd : d = 0 <;> by_cases he : e = 0 <;>
      simp [enter_sleep, shallowest_blocked, EnergyModes.get, EM0, EM1, EM2, EM3, ha, hb, hc,
        hd, he, Nat.pos_iff_ne_zero]
  constructor
  · exact key m.lowest_energy_mode.em0 m.lowest_energy_mode.em1 m.lowest_energy_mode.em2
      m.lowest_energy_mode.em3 m.lowest_energy_mode.em4
  · unfold enter_sleep
    split_ifs <;> simp

theorem current_block_energy_mode_loop_counters (m : Machine) (a b c d e : Nat) :
    current_block_energy_mode_loop
      { m with lowest_energy_mode := { em0 := a, em1 := b, em2 := c, em3 := d, em4 := e } } 6 0 =
    some ((shallowest_blocked { em0 := a, em1 := b, em2 := c, em3 := d, em4 := e }).getD
      (MAX_ENERGY_MODES - 1)) := by
  have h1 : (0 + 1) % U32 = 1 := by decide
  have h2 : (1 + 1) % U32 = 2 := by decide
  have h3 : (2 + 1) % U32 = 3 := by decide
  have h4 : (3 + 1) % U32 = 4 := by decide
  have h5 : (4 + 1) % U32 = 5 := by decide
  by_cases ha : a = 0 <;> by_cases hb : b = 0 <;> by_cases hc : c = 0 <;>
    by_cases hd : d = 0 <;> by_cases he : e = 0 <;>
    simp [current_block_energy_mode_loop, shallowest_blocked, EnergyModes.get,
      MAX_ENERGY_MODES, ha, hb, hc, hd, he, h1, h2, h3, h4, h5]

/-- C17, counterexample: with every counter zero `current_block_energy_mode`
returns 4, not the sentinel 5, and it returns the same 4 when only EM4 is
blocked. -/
theorem current_block_energy_mode_no_sentinel :
    current_block_energy_mode (sleep_open boot) = some 4 ∧
    current_block_energy_mode (sleep_open boot) ≠ some MAX_ENERGY_MODES ∧
    current_block_energy_mode
      (boot_with_counters { em0 := 0, em1 := 0, em2 := 0, em3 := 0, em4 := 1 }) = some 4 := by
  refine ⟨by rfl, by decide, by rfl⟩

/-- C17 as amended: `current_block_energy_mode` returns the smallest depth
index whose counter is non-zero, and `MAX_ENERGY_MODES - 1 = 4` when no depth is
blocked; the loop ends within its six rounds. -/
theorem current_block_energy_mode_shallowest_or_last (m : Machine) :
    current_block_energy_mode m =
      some ((shallowest_blocked m.lowest_energy_mode).getD (MAX_ENERGY_MODES - 1)) ∧
    MAX_ENERGY_MODES - 1 = 4 := by
  refine ⟨?_, rfl⟩
  exact current_block_energy_mode_loop_counters m m.lowest_energy_mode.em0
    m.lowest_energy_mode.em1 m.lowest_energy_mode.em2 m.lowest_energy_mode.em3
    m.lowest_energy_mode.em4

theorem sleep_block_mode_cases (d : Nat) (m : Machine) (hd : d < MAX_ENERGY_MODES) :
    sleep_block_mode d m =
      if (m.lowest_energy_mode.get d + 1) % U32 < 10 then
        Run.done ()
          { m with irq_enabled := true,
                   lowest_energy_mode :=
                     m.lowest_energy_mode.set d ((m.lowest_energy_mode.get d + 1) % U32) }
      else
        Run.halted
          { m with irq_enabled := false,
                   lowest_energy_mode :=
                     m.lowest_energy_mode.set d ((m.lowest_energy_mode.get d + 1) % U32) } := by
  by_cases h : (m.lowest_energy_mode.get d + 1) % U32 < 10
  · simp [sleep_block_mode, disable_irq, enable_irq, hd, EnergyModes.get_set_same, h,
      EFM_ASSERT, Run.bind_done]
  · simp [sleep_block_mode, disable_irq, hd, EnergyModes.get_set_same, h,
      EFM_ASSERT, Run.bind_halted]

theorem sleep_ops_blocks (d : Nat) (hd : d < MAX_ENERGY_MODES) (k : Nat) :
    ∀ m : Machine, m.lowest_energy_mode.get d + k < 10 →
      sleep_ops d (List.replicate k SleepOp.block) m = Run.done ()
        { m with irq_enabled := (if k = 0 then m.irq_enabled else true),
                 lowest_energy_mode :=
                   m.lowest_energy_mode.set d (m.lowest_energy_mode.get d + k) } := by
  induction k with
  | zero => intro m _; simp [sleep_ops, EnergyModes.set_get_self]
  | succ k ih =>
    intro m hk
    rw [List.replicate_succ, sleep_ops, sleep_block_mode_done d m hd (by omega), Run.bind_done,
      ih _ (by simp only [EnergyModes.get_set_same _ _ _ hd]; omega)]
    simp [EnergyModes.get_set_same _ _ _ hd, EnergyModes.set_set, Nat.add_assoc, Nat.add_comm 1 k]

/-- C18, counterexample: a counter holding 4294967295 (what an unbalanced
unblock leaves) is not raised to 4294967296 by `sleep_block_mode`; it wraps
to 0 and the call returns normally. -/
theorem sleep_block_mode_wraps_at_max :
    sleep_block_mode EM2
      (boot_with_counters { em0 := 0, em1 := 0, em2 := 4294967295, em3 := 0, em4 := 0 })
    = Run.done () (boot_with_counters { em0 := 0, em1 := 0, em2 := 0, em3 := 0, em4 := 0 }) := by
  rfl

/-- C18 as amended: for a depth `d` in 0..4 with counter `c`,
`sleep_block_mode` sets the counter of `d` to `c + 1` modulo 2^32 and leaves the
other counters unchanged; it stops at the assertion exactly when that new
count is 10 or more, and returns otherwise.  For `c` below 4294967295 the new
count is `c + 1`.  From `sleep_open`, nine nested blocks return and the tenth
stops at the assertion. -/
theorem sleep_block_mode_increments_mod_2_32 (m : Machine) (d : Nat)
    (hd : d < MAX_ENERGY_MODES) :
    (sleep_block_mode d m =
      if (m.lowest_energy_mode.get d + 1) % U32 < 10 then
        Run.done ()
          { m with irq_enabled := true,
                   lowest_energy_mode :=
                     m.lowest_energy_mode.set d ((m.lowest_energy_mode.get d + 1) % U32) }
      else
        Run.halted
          { m with irq_enabled := false,
                   lowest_energy_mode :=
                     m.lowest_energy_mode.set d ((m.lowest_energy_mode.get d + 1) % U32) }) ∧
    (sleep_block_mode d m).machine.lowest_energy_mode.get d
      = (m.lowest_energy_mode.get d + 1) % U32 ∧
    (∀ e, e ≠ d → (sleep_block_mode d m).machine.lowest_energy_mode.get e
      = m.lowest_energy_mode.get e) ∧
    (if m.lowest_energy_mode.get d < 4294967295
      then (m.lowest_energy_mode.get d + 1) % U32 = m.lowest_energy_mode.get d + 1
      else True) ∧
    (∃ m9, sleep_ops d (List.replicate 9 SleepOp.block) (sleep_open m) = Run.done () m9 ∧
      m9.lowest_energy_mode.get d = 9 ∧
      ∃ m10, sleep_block_mode d m9 = Run.halted m10 ∧ m10.lowest_energy_mode.get d = 10) := by
  have hc := sleep_block_mode_cases d m hd
  have hz : (sleep_open m).lowest_energy_mode.get d = 0 := by
    unfold MAX_ENERGY_MODES at hd
    interval_cases d <;> rfl
  refine ⟨hc, ?_, ?_, ?_, ?_⟩
  · rw [hc]; split_ifs <;> simp [Run.machine, EnergyModes.get_set_same _ _ _ hd]
  · intro e he
    rw [hc]; split_ifs <;> simp [Run.machine, EnergyModes.get_set_other _ _ _ _ he]
  · split_ifs with h
    unfold U32; omega
  · have h10 : (9 + 1) % U32 = 10 := by decide
    have h9 := sleep_ops_blocks d hd 9 (sleep_open m) (by rw [hz]; omega)
    rw [hz] at h9
    have hg : ({ sleep_open m with
        irq_enabled := true,
        lowest_energy_mode := (sleep_open m).lowest_energy_mode.set d 9 } : Machine
        ).lowest_energy_mode.get d = 9 := EnergyModes.get_set_same _ _ _ hd
    have hb := sleep_block_mode_cases d
      { sleep_open m with
        irq_enabled := true,
        lowest_energy_mode := (sleep_open m).lowest_energy_mode.set d 9 } hd
    rw [hg, h10] at hb
    simp only [show ¬ (10 < 10) by omega, if_false] at hb
    refine ⟨_, ?_, hg, _, hb, ?_⟩
    · rw [h9]; simp
    · exact EnergyModes.get_set_same _ _ _ hd

/-- Witness for C18: blocking EM3 in the reset state. -/
theorem sleep_block_mode_increments_mod_2_32_witness :
    3 < MAX_ENERGY_MODES ∧
    ((sleep_block_mode 3 boot =
      if (boot.lowest_energy_mode.get 3 + 1) % U32 < 10 then
        Run.done ()
          { boot with irq_enabled := true,
                      lowest_energy_mode :=
                        boot.lowest_energy_mode.set 3 ((boot.lowest_energy_mode.get 3 + 1) % U32) }
      else
        Run.halted
          { boot with irq_enabled := false,
                      lowest_energy_mode :=
                        boot.lowest_energy_mode.set 3 ((boot.lowest_energy_mode.get 3 + 1) % U32) }) ∧
    (sleep_block_mode 3 boot).machine.lowest_energy_mode.get 3
      = (boot.lowest_energy_mode.get 3 + 1) % U32 ∧
    (∀ e, e ≠ 3 → (sleep_block_mode 3 boot).machine.lowest_energy_mode.get e
      = boot.lowest_energy_mode.get e) ∧
    (if boot.lowest_energy_mode.get 3 < 4294967295
      then (boot.lowest_energy_mode.get 3 + 1) % U32 = boot.lowest_energy_mode.get 3 + 1
      else True) ∧
    (∃ m9, sleep_ops 3 (List.replicate 9 SleepOp.block) (sleep_open boot) = Run.done () m9 ∧
      m9.lowest_energy_mode.get 3 = 9 ∧
      ∃ m10, sleep_block_mode 3 m9 = Run.halted m10 ∧ m10.lowest_energy_mode.get 3 = 10)) :=
  ⟨by decide, sleep_block_mode_increments_mod_2_32 boot 3 (by decide)⟩

/-! ## Event Register -/

theorem U32_eq_two_pow : U32 = 2 ^ 32 := by norm_num [U32]

theorem testBit_not32 (e i : Nat) :
    ((U32 - 1) ^^^ e).testBit i = (decide (i < 32) ^^ e.testBit i) := by
  rw [U32_eq_two_pow, Nat.testBit_xor, Nat.testBit_two_pow_sub_one]

theorem testBit_and_not32 (x e i : Nat) (hx : x < U32) :
    (x &&& ((U32 - 1) ^^^ e)).testBit i = (x.testBit i && !e.testBit i) := by
  rw [Nat.testBit_and, testBit_not32]
  by_cases hi : i < 32
  · simp [hi]
  · have hx2 : x < 2 ^ i := by
      rw [U32_eq_two_pow] at hx
      exact lt_of_lt_of_le hx (Nat.pow_le_pow_right (by norm_num) (by omega))
    simp [Nat.testBit_lt_two_pow hx2]

theorem remove_after_add (x e : Nat) (hx : x < U32) (he : e < U32) :
    (x ||| e) &&& ((U32 - 1) ^^^ e) = x &&& ((U32 - 1) ^^^ e) := by
  have hor : x ||| e < U32 := by
    rw [U32_eq_two_pow] at *
    exact Nat.or_lt_two_pow hx he
  apply Nat.eq_of_testBit_eq
  intro i
  rw [testBit_and_not32 _ _ _ hor, testBit_and_not32 _ _ _ hx, Nat.testBit_or]
  cases x.testBit i <;> cases e.testBit i <;> rfl

theorem add_scheduled_event_mask (e : Nat) (m : Machine) :
    (add_scheduled_event e m).event_scheduled = m.event_scheduled ||| e := rfl

theorem remove_scheduled_event_mask (e : Nat) (m : Machine) :
    (remove_scheduled_event e m).event_scheduled
      = m.event_scheduled &&& ((U32 - 1) ^^^ e) := rfl

theorem remove_after_adds (e : Nat) (he : e < U32) (k : Nat) :
    ∀ m : Machine, m.event_scheduled < U32 →
      (remove_scheduled_event e ((add_scheduled_event e)^[k] m)).event_scheduled
        = (remove_scheduled_event e m).event_scheduled := by
  induction k with
  | zero => intro m _; rfl
  | succ k ih =>
    intro m hm
    have hor : (add_scheduled_event e m).event_scheduled < U32 := by
      rw [add_scheduled_event_mask, U32_eq_two_pow] at *
      exact Nat.or_lt_two_pow hm he
    rw [Function.iterate_succ_apply, ih _ hor, remove_scheduled_event_mask,
      remove_scheduled_event_mask, add_scheduled_event_mask, remove_after_add _ _ hm he]

/-- C19: for a 32-bit event mask and a 32-bit argument `e`: after
`add_scheduled_event(e)` the mask read by `get_scheduled_events` is the old
mask OR `e`; after `remove_scheduled_event(e)` bit `i` of the mask is set
exactly when it was set before and is not set in `e`; `get_scheduled_events`
returns the stored mask.  Both results stay 32-bit masks, every bit outside
`e` keeps its value under both calls, posting twice gives the mask of posting
once, and one clear after any number `k` of posts gives the mask of one clear
alone. -/
theorem scheduler_event_mask (m : Machine) (e k : Nat)
    (hm : m.event_scheduled < U32) (he : e < U32) :
    get_scheduled_events (add_scheduled_event e m) = m.event_scheduled ||| e ∧
    (∀ i, (get_scheduled_events (remove_scheduled_event e m)).testBit i
      = (m.event_scheduled.testBit i && !e.testBit i)) ∧
    get_scheduled_events m = m.event_scheduled ∧
    get_scheduled_events (add_scheduled_event e m) < U32 ∧
    get_scheduled_events (remove_scheduled_event e m) < U32 ∧
    (∀ i, e.testBit i = true ∨
      ((get_scheduled_events (add_scheduled_event e m)).testBit i = m.event_scheduled.testBit i ∧
       (get_scheduled_events (remove_scheduled_event e m)).testBit i
         = m.event_scheduled.testBit i)) ∧
    get_scheduled_events (add_scheduled_event e (add_scheduled_event e m))
      = get_scheduled_events (add_scheduled_event e m) ∧
    get_scheduled_events (remove_scheduled_event e ((add_scheduled_event e)^[k] m))
      = get_scheduled_events (remove_scheduled_event e m) := by
  unfold get_scheduled_events
  refine ⟨rfl, ?_, rfl, ?_, ?_, ?_, ?_, remove_after_adds e he k m hm⟩
  · intro i
    rw [remove_scheduled_event_mask, testBit_and_not32 _ _ _ hm]
  · rw [add_scheduled_event_mask, U32_eq_two_pow] at *
    exact Nat.or_lt_two_pow hm he
  · rw [remove_scheduled_event_mask]
    exact lt_of_le_of_lt Nat.and_le_left hm
  · intro i
    by_cases hi : e.testBit i = true
    · exact Or.inl hi
    · right
      rw [add_scheduled_event_mask, remove_scheduled_event_mask, Nat.testBit_or,
        testBit_and_not32 _ _ _ hm]
      simp [hi]
  · rw [add_scheduled_event_mask, add_scheduled_event_mask, Nat.lor_assoc, Nat.or_self]

/-- Witness for C19: the mask 0x28 (sensor-read and tx-done pending), the
event 0x20, three posts. -/
theorem scheduler_event_mask_witness :
    (boot_with_events.event_scheduled < U32 ∧ 0x20 < U32) ∧
    (get_scheduled_events (add_scheduled_event 0x20 boot_with_events)
      = boot_with_events.event_scheduled ||| 0x20 ∧
    (∀ i, (get_scheduled_events (remove_scheduled_event 0x20 boot_with_events)).testBit i
      = (boot_with_events.event_scheduled.testBit i && !(0x20 : Nat).testBit i)) ∧
    get_scheduled_events boot_with_events = boot_with_events.event_scheduled ∧
    get_scheduled_events (add_scheduled_event 0x20 boot_with_events) < U32 ∧
    get_scheduled_events (remove_scheduled_event 0x20 boot_with_events) < U32 ∧
    (∀ i, (0x20 : Nat).testBit i = true ∨
      ((get_scheduled_events (add_scheduled_event 0x20 boot_with_events)).testBit i
          = boot_with_events.event_scheduled.testBit i ∧
       (get_scheduled_events (remove_scheduled_event 0x20 boot_with_events)).testBit i
         = boot_with_events.event_scheduled.testBit i)) ∧
    get_scheduled_events (add_scheduled_event 0x20 (add_scheduled_event 0x20 boot_with_events))
      = get_scheduled_events (add_scheduled_event 0x20 boot_with_events) ∧
    get_scheduled_events
        (remove_scheduled_event 0x20 ((add_scheduled_event 0x20)^[3] boot_with_events))
      = get_scheduled_events (remove_scheduled_event 0x20 boot_with_events)) :=
  ⟨⟨by decide, by decide⟩,
   scheduler_event_mask boot_with_events 0x20 3 (by decide) (by decide)⟩

/-! ## Interrupt masking around the shared state -/

/-- C20, counterexample: called with interrupts disabled, each of
`add_scheduled_event`, `remove_scheduled_event`, `sleep_block_mode` and
`sleep_unblock_mode` returns with interrupts enabled; so does `leuart_txc`,
which `LEUART0_IRQHandler` calls after disabling interrupts. -/
theorem irq_enabled_after_call_with_irq_disabled :
    (disable_irq boot).irq_enabled = false ∧
    (add_scheduled_event 0x20 (disable_irq boot)).irq_enabled = true ∧
    (remove_scheduled_event 0x20 (disable_irq boot)).irq_enabled = true ∧
    sleep_block_mode EM3 (disable_irq boot)
      = Run.done () (boot_with_counters { em0 := 0, em1 := 0, em2 := 0, em3 := 1, em4 := 0 }) ∧
    sleep_unblock_mode EM3
        (disable_irq (boot_with_counters { em0 := 0, em1 := 0, em2 := 0, em3 := 1, em4 := 0 }))
      = Run.done () boot ∧
    (boot_with_counters { em0 := 0, em1 := 0, em2 := 0, em3 := 1, em4 := 0 }).irq_enabled = true ∧
    boot.irq_enabled = true ∧
    (leuart_txc (disable_irq
      { boot_with_counters { em0 := 0, em1 := 0, em2 := 0, em3 := 1, em4 := 0 } with
        leuart_payload := { boot.leuart_payload with
          state := LEUART_States.FINISH_WAIT, txbusy := true } })).machine.irq_enabled = true := by
  refine ⟨rfl, rfl, rfl, rfl, rfl, rfl, rfl, rfl⟩

/-- C20 as amended: none of the four functions restores the interrupt mask it
found.  Each disables interrupts, does its read-modify-write on the state with
interrupts disabled, and then enables interrupts whatever the mask was on
entry; a call that stops at its assertion stops with interrupts disabled. -/
theorem irq_enabled_unconditionally_on_return (m : Machine) (e d : Nat) :
    add_scheduled_event e m
      = enable_irq { disable_irq m with
          event_scheduled := (disable_irq m).event_scheduled ||| e,
          posted := (disable_irq m).posted ++ [e] } ∧
    remove_scheduled_event e m
      = enable_irq { disable_irq m with
          event_scheduled := (disable_irq m).event_scheduled &&& ((U32 - 1) ^^^ e) } ∧
    (add_scheduled_event e m).irq_enabled = true ∧
    (remove_scheduled_event e m).irq_enabled = true ∧
    (match sleep_block_mode d m with
      | Run.done _ m1 => m1.irq_enabled = true
      | Run.halted m1 => m1.irq_enabled = false) ∧
    (match sleep_unblock_mode d m with
      | Run.done _ m1 => m1.irq_enabled = true
      | Run.halted m1 => m1.irq_enabled = false) := by
  refine ⟨rfl, rfl, rfl, rfl, ?_, ?_⟩
  · simp only [sleep_block_mode, EFM_ASSERT]
    split_ifs <;> simp [Run.bind_done, Run.bind_halted, enable_irq, disable_irq]
  · simp only [sleep_unblock_mode, EFM_ASSERT]
    split_ifs <;> simp [Run.bind_done, Run.bind_halted, enable_irq, disable_irq]

/-! ## Serial Framer: transmit -/

theorem Run.bind_assoc {α β γ : Type} (r : Run α) (f : α → Machine → Run β)
    (g : β → Machine → Run γ) :
    (r.bind f).bind g = r.bind (fun a m => (f a m).bind g) := by
  cases r <;> rfl

theorem leuart_txbl_repeat_succ (k : Nat) :
    ∀ m : Machine, leuart_txbl_repeat (k + 1) m
      = (leuart_txbl_repeat k m).bind (fun _ m1 => leuart_txbl m1) := by
  induction k with
  | zero =>
    intro m
    rw [leuart_txbl_repeat, leuart_txbl_repeat, Run.bind_done]
    cases leuart_txbl m <;> rfl
  | succ k ih =>
    intro m
    rw [leuart_txbl_repeat, leuart_txbl_repeat, Run.bind_assoc]
    congr 1
    funext _ m1
    exact ih m1

theorem take_succ_getD (l : List Nat) (k : Nat) (hk : k < l.length) :
    l.take k ++ [l.getD k 0] = l.take (k + 1) := by
  rw [List.take_succ, List.getD_eq_getElem?_getD, List.getElem?_eq_getElem hk]
  rfl

theorem takeWhile_nonzero (msg : List Nat) (hnz : ∀ c ∈ msg, c ≠ 0) :
    msg.takeWhile (fun c => c != 0) = msg := by
  induction msg with
  | nil => rfl
  | cons a rest ih =>
    have ha : a ≠ 0 := hnz a (List.mem_cons_self a rest)
    simp [List.takeWhile_cons, ha, ih (fun c hc => hnz c (List.mem_cons_of_mem a hc))]

theorem strlen_nonzero (msg : List Nat) (hnz : ∀ c ∈ msg, c ≠ 0) : strlen msg = msg.length := by
  unfold strlen
  rw [takeWhile_nonzero msg hnz]

theorem strcpy_getD (dst msg : List Nat) (hnz : ∀ c ∈ msg, c ≠ 0) (hlen : msg.length < dst.length)
    (i : Nat) (hi : i < msg.length) :
    (strcpy dst msg).getD i 0 = msg.getD i 0 := by
  unfold strcpy overwrite
  rw [takeWhile_nonzero msg hnz]
  simp only [List.getD_eq_getElem?_getD]
  rw [List.getElem?_take_of_lt (by omega), List.append_assoc,
    List.getElem?_append_left (by omega)]

theorem leuart_txbl_step (m0 : Machine) (msg : List Nat) (k : Nat)
    (hl : m0.leuart_payload.message_len = msg.length)
    (hm : ∀ i, i < msg.length → m0.leuart_payload.message.getD i 0 = msg.getD i 0)
    (hk : k < msg.length) (h32 : msg.length < U32) :
    leuart_txbl (tx_progress m0 msg k) = Run.done () (tx_progress m0 msg (k + 1)) := by
  have hmod : (k + 1) % U32 = k + 1 := by
    unfold U32 at *
    omega
  have htake : msg.take k ++ [m0.leuart_payload.message[k]?.getD 0] = msg.take (k + 1) := by
    rw [← List.getD_eq_getElem?_getD, hm k hk, take_succ_getD msg k hk]
  by_cases hk1 : k + 1 < msg.length
  · simp [leuart_txbl, tx_progress, hk, hk1, hl, hmod, htake, Nat.not_le.mpr hk1]
  · simp [leuart_txbl, tx_progress, hk, hk1, hl, hmod, htake, Nat.not_lt.mp hk1]

theorem leuart_txbl_repeat_progress (m0 : Machine) (msg : List Nat)
    (hs : m0.leuart_payload.state = LEUART_States.SEND_DATA)
    (hi : m0.leuart_payload.index = 0)
    (hl : m0.leuart_payload.message_len = msg.length)
    (hm : ∀ i, i < msg.length → m0.leuart_payload.message.getD i 0 = msg.getD i 0)
    (h1 : 1 ≤ msg.length) (h32 : msg.length < U32) (k : Nat) (hk : k ≤ msg.length) :
    leuart_txbl_repeat k m0 = Run.done () (tx_progress m0 msg k) := by
  induction k with
  | zero =>
    have h0 : tx_progress m0 msg 0 = m0 := by
      have hpos : 0 < msg.length := h1
      simp only [tx_progress, hpos, if_true, List.take_zero, List.append_nil]
      rw [← hs, ← hi]
    rw [leuart_txbl_repeat, h0]
  | succ k ih =>
    rw [leuart_txbl_repeat_succ, ih (by omega), Run.bind_done,
      leuart_txbl_step m0 msg k hl hm (by omega) h32]

theorem leuart_tx_em_lt : LEUART_TX_EM < MAX_ENERGY_MODES := by decide

theorem leuart_start_cases (string : List Nat) (n : Nat) (m : Machine) :
    leuart_start string n m =
      if (m.lowest_energy_mode.get LEUART_TX_EM + 1) % U32 < 10 then
        Run.done () (tx_started m string n)
      else
        Run.halted
          { m with irq_enabled := false,
                   lowest_energy_mode := m.lowest_energy_mode.set LEUART_TX_EM
                     ((m.lowest_energy_mode.get LEUART_TX_EM + 1) % U32) } := by
  unfold leuart_start
  rw [sleep_block_mode_cases _ _ leuart_tx_em_lt]
  split_ifs with hc
  · rw [Run.bind_done]; rfl
  · rw [Run.bind_halted]

theorem leuart_start_done (string : List Nat) (n : Nat) (m m0 : Machine)
    (h : leuart_start string n m = Run.done () m0) :
    m0 = tx_started m string n := by
  rw [leuart_start_cases] at h
  split_ifs at h with hc
  simp only [Run.done.injEq, true_and] at h
  exact h.symm

theorem leuart_txbl_after_start (m : Machine) (msg : List Nat)
    (h1 : 1 ≤ msg.length) (h79 : msg.length ≤ 79) (hnz : ∀ c ∈ msg, c ≠ 0)
    (hbuf : m.leuart_payload.message.length = 80) (k : Nat) (hk : k ≤ msg.length) :
    leuart_txbl_repeat k (tx_started m msg msg.length)
      = Run.done () (tx_progress (tx_started m msg msg.length) msg k) :=
  leuart_txbl_repeat_progress (tx_started m msg msg.length) msg rfl rfl rfl
    (fun i hi => strcpy_getD m.leuart_payload.message msg hnz (by omega) i hi)
    h1 (by unfold U32; omega) k hk

/-- C13: after a successful `leuart_start(msg, n)` with `n = strlen(msg)`
between 1 and 79, every one of the first `n` byte-ready interrupts is accepted;
after `k` of them exactly the bytes `msg[0..k-1]` have been written to the
transmit register, in order; the state is SEND_DATA while `k < n` and
FINISH_WAIT at `k = n`, where the byte-ready interrupt is disabled and the
transmit-complete interrupt enabled. -/
theorem leuart_txbl_sends_message_in_order (m m0 : Machine) (msg : List Nat)
    (h1 : 1 ≤ msg.length) (h79 : msg.length ≤ 79) (hnz : ∀ c ∈ msg, c ≠ 0)
    (hbuf : m.leuart_payload.message.length = 80)
    (hstart : leuart_start msg (strlen msg) m = Run.done () m0) :
    strlen msg = msg.length ∧
    m0.leuart_payload.state = LEUART_States.SEND_DATA ∧
    m0.leuart_hw.txdata = m.leuart_hw.txdata ∧
    ∀ k, k ≤ msg.length → ∃ mk,
      leuart_txbl_repeat k m0 = Run.done () mk ∧
      mk.leuart_hw.txdata = m.leuart_hw.txdata ++ msg.take k ∧
      mk.leuart_payload.state
        = (if k < msg.length then LEUART_States.SEND_DATA else LEUART_States.FINISH_WAIT) ∧
      mk.leuart_hw.ien_txbl = decide (k < msg.length) ∧
      mk.leuart_hw.ien_txc = (if k < msg.length then m.leuart_hw.ien_txc else true) := by
  have hsl := strlen_nonzero msg hnz
  rw [hsl] at hstart
  have hm0 := leuart_start_done msg msg.length m m0 hstart
  subst hm0
  refine ⟨hsl, rfl, rfl, ?_⟩
  intro k hk
  refine ⟨_, leuart_txbl_after_start m msg h1 h79 hnz hbuf k hk, rfl, rfl, ?_, rfl⟩
  by_cases hk2 : k < msg.length <;> simp [tx_progress, tx_started, hk2]

theorem tx_started_counter (m : Machine) (string : List Nat) (n : Nat)
    (hc : m.lowest_energy_mode.get EM3 < 9) :
    (tx_started m string n).lowest_energy_mode
      = m.lowest_energy_mode.set EM3 (m.lowest_energy_mode.get EM3 + 1) := by
  have hmod : (m.lowest_energy_mode.get EM3 + 1) % U32 = m.lowest_energy_mode.get EM3 + 1 := by
    unfold U32; omega
  show m.lowest_energy_mode.set EM3 ((m.lowest_energy_mode.get EM3 + 1) % U32) = _
  rw [hmod]

theorem em3_lt : EM3 < MAX_ENERGY_MODES := by decide

theorem leuart_txc_after_start (m : Machine) (string : List Nat) (n : Nat) (msg : List Nat)
    (hc : m.lowest_energy_mode.get EM3 < 9) :
    ∃ mf, leuart_txc (tx_progress (tx_started m string n) msg msg.length) = Run.done () mf ∧
      mf.lowest_energy_mode = m.lowest_energy_mode ∧
      mf.posted = m.posted ++ [m.tx_done_evt] ∧
      mf.event_scheduled = m.event_scheduled ||| m.tx_done_evt ∧
      mf.leuart_payload.txbusy = false ∧
      mf.leuart_payload.state = LEUART_States.LEUART_INITIALIZE := by
  have hsub : sub32 (m.lowest_energy_mode.get EM3 + 1) 1 = m.lowest_energy_mode.get EM3 := by
    unfold sub32 U32; omega
  have hcnt := tx_started_counter m string n hc
  have hrun : leuart_txc (tx_progress (tx_started m string n) msg msg.length) = Run.done ()
      { add_scheduled_event m.tx_done_evt (tx_progress (tx_started m string n) msg msg.length) with
        irq_enabled := true,
        lowest_energy_mode := m.lowest_energy_mode,
        leuart_payload :=
          { (tx_progress (tx_started m string n) msg msg.length).leuart_payload with
            txbusy := false, state := LEUART_States.LEUART_INITIALIZE },
        leuart_hw :=
          { (tx_progress (tx_started m string n) msg msg.length).leuart_hw with
            if_txc := false } } := by
    have hstate : (tx_progress (tx_started m string n) msg msg.length).leuart_payload.state
        = LEUART_States.FINISH_WAIT := by simp [tx_progress]
    have hl : (tx_progress (tx_started m string n) msg msg.length).lowest_energy_mode
        = m.lowest_energy_mode.set EM3 (m.lowest_energy_mode.get EM3 + 1) := hcnt
    have ht : (tx_progress (tx_started m string n) msg msg.length).tx_done_evt
        = m.tx_done_evt := rfl
    simp only [leuart_txc, hstate]
    rw [sleep_unblock_mode_done _ _ leuart_rx_em_lt, Run.bind_done]
    simp [add_scheduled_event, enable_irq, disable_irq, hl, ht, LEUART_RX_EM,
      EnergyModes.get_set_same _ _ _ em3_lt, hsub, EnergyModes.set_set,
      EnergyModes.set_get_self]
  exact ⟨_, hrun, rfl, rfl, rfl, rfl, rfl⟩

/-- Witness for C13: the message of the three bytes 65, 66, 67 sent from the
reset state. -/
theorem leuart_txbl_sends_message_in_order_witness :
    (1 ≤ [65, 66, 67].length ∧ [65, 66, 67].length ≤ 79 ∧ (∀ c ∈ [65, 66, 67], c ≠ 0) ∧
      boot.leuart_payload.message.length = 80 ∧
      leuart_start [65, 66, 67] (strlen [65, 66, 67]) boot = Run.done () tx_abc_started) ∧
    (strlen [65, 66, 67] = [65, 66, 67].length ∧
    tx_abc_started.leuart_payload.state = LEUART_States.SEND_DATA ∧
    tx_abc_started.leuart_hw.txdata = boot.leuart_hw.txdata ∧
    ∀ k, k ≤ [65, 66, 67].length → ∃ mk,
      leuart_txbl_repeat k tx_abc_started = Run.done () mk ∧
      mk.leuart_hw.txdata = boot.leuart_hw.txdata ++ [65, 66, 67].take k ∧
      mk.leuart_payload.state
        = (if k < [65, 66, 67].length then LEUART_States.SEND_DATA
            else LEUART_States.FINISH_WAIT) ∧
      mk.leuart_hw.ien_txbl = decide (k < [65, 66, 67].length) ∧
      mk.leuart_hw.ien_txc
        = (if k < [65, 66, 67].length then boot.leuart_hw.ien_txc else true)) :=
  ⟨⟨by decide, by decide, by decide, by rfl, by rfl⟩,
   leuart_txbl_sends_message_in_order boot tx_abc_started [65, 66, 67]
     (by decide) (by decide) (by decide) (by rfl) (by rfl)⟩

/-- C14: a complete transmission is energy-balanced and signals completion
once.  Started with fewer than nine blocks on EM3, `leuart_start` returns with
the EM3 counter raised by one and the busy flag set; after each of the first
`n` byte-ready interrupts the EM3 counter is still one above its old value
(so at least 1, and `enter_sleep` does not enter EM3), the busy flag is set
and nothing has been posted; the transmit-complete interrupt, accepted in
FINISH_WAIT, then posts tx-done once, clears the busy flag, returns to
LEUART_INITIALIZE and leaves every energy counter at its value before
`leuart_start`. -/
theorem leuart_transmission_energy_balanced (m : Machine) (msg : List Nat)
    (h1 : 1 ≤ msg.length) (h79 : msg.length ≤ 79) (hnz : ∀ c ∈ msg, c ≠ 0)
    (hbuf : m.leuart_payload.message.length = 80)
    (hc : m.lowest_energy_mode.get EM3 < 9) :
    ∃ m0, leuart_start msg (strlen msg) m = Run.done () m0 ∧
      m0.lowest_energy_mode.get EM3 = m.lowest_energy_mode.get EM3 + 1 ∧
      m0.leuart_payload.txbusy = true ∧
      (∀ k, k ≤ msg.length → ∃ mk,
        leuart_txbl_repeat k m0 = Run.done () mk ∧
        mk.lowest_energy_mode.get EM3 = m.lowest_energy_mode.get EM3 + 1 ∧
        1 ≤ mk.lowest_energy_mode.get EM3 ∧
        enter_sleep mk ≠ some EM3 ∧
        mk.leuart_payload.txbusy = true ∧
        mk.posted = m.posted) ∧
      ∃ mn mf,
        leuart_txbl_repeat msg.length m0 = Run.done () mn ∧
        mn.leuart_payload.state = LEUART_States.FINISH_WAIT ∧
        leuart_txc mn = Run.done () mf ∧
        mf.lowest_energy_mode = m.lowest_energy_mode ∧
        mf.posted = m.posted ++ [m.tx_done_evt] ∧
        mf.event_scheduled = m.event_scheduled ||| m.tx_done_evt ∧
        mf.leuart_payload.txbusy = false ∧
        mf.leuart_payload.state = LEUART_States.LEUART_INITIALIZE := by
  have hsl := strlen_nonzero msg hnz
  have hmod : (m.lowest_energy_mode.get LEUART_TX_EM + 1) % U32 < 10 := by
    have : m.lowest_energy_mode.get LEUART_TX_EM = m.lowest_energy_mode.get EM3 := rfl
    rw [this]; unfold U32; omega
  have hst : leuart_start msg (strlen msg) m = Run.done () (tx_started m msg msg.length) := by
    rw [hsl, leuart_start_cases, if_pos hmod]
  have hcnt := tx_started_counter m msg msg.length hc
  have hget : (tx_started m msg msg.length).lowest_energy_mode.get EM3
      = m.lowest_energy_mode.get EM3 + 1 := by
    rw [hcnt, EnergyModes.get_set_same _ _ _ em3_lt]
  refine ⟨_, hst, hget, rfl, ?_, ?_⟩
  · intro k hk
    have hgk : (tx_progress (tx_started m msg msg.length) msg k).lowest_energy_mode.get EM3
        = m.lowest_energy_mode.get EM3 + 1 := hget
    refine ⟨_, leuart_txbl_after_start m msg h1 h79 hnz hbuf k hk, hgk, by omega, ?_, rfl, rfl⟩
    have hpos : (tx_progress (tx_started m msg msg.length) msg k).lowest_energy_mode.get EM3 > 0 := by
      omega
    unfold enter_sleep
    split_ifs <;> simp [EM1, EM2, EM3] at *
  · obtain ⟨mf, hmf, hrest⟩ := leuart_txc_after_start m msg msg.length msg hc
    refine ⟨_, mf, leuart_txbl_after_start m msg h1 h79 hnz hbuf msg.length (le_refl _), ?_,
      hmf, hrest⟩
    simp [tx_progress]

/-- Witness for C14: the three bytes 65, 66, 67 sent from the reset state. -/
theorem leuart_transmission_energy_balanced_witness :
    (1 ≤ [65, 66, 67].length ∧ [65, 66, 67].length ≤ 79 ∧ (∀ c ∈ [65, 66, 67], c ≠ 0) ∧
      boot.leuart_payload.message.length = 80 ∧ boot.lowest_energy_mode.get EM3 < 9) ∧
    ∃ m0, leuart_start [65, 66, 67] (strlen [65, 66, 67]) boot = Run.done () m0 ∧
      m0.lowest_energy_mode.get EM3 = boot.lowest_energy_mode.get EM3 + 1 ∧
      m0.leuart_payload.txbusy = true ∧
      (∀ k, k ≤ [65, 66, 67].length → ∃ mk,
        leuart_txbl_repeat k m0 = Run.done () mk ∧
        mk.lowest_energy_mode.get EM3 = boot.lowest_energy_mode.get EM3 + 1 ∧
        1 ≤ mk.lowest_energy_mode.get EM3 ∧
        enter_sleep mk ≠ some EM3 ∧
        mk.leuart_payload.txbusy = true ∧
        mk.posted = boot.posted) ∧
      ∃ mn mf,
        leuart_txbl_repeat [65, 66, 67].length m0 = Run.done () mn ∧
        mn.leuart_payload.state = LEUART_States.FINISH_WAIT ∧
        leuart_txc mn = Run.done () mf ∧
        mf.lowest_energy_mode = boot.lowest_energy_mode ∧
        mf.posted = boot.posted ++ [boot.tx_done_evt] ∧
        mf.event_scheduled = boot.event_scheduled ||| boot.tx_done_evt ∧
        mf.leuart_payload.txbusy = false ∧
        mf.leuart_payload.state = LEUART_States.LEUART_INITIALIZE :=
  ⟨⟨by decide, by decide, by decide, by rfl, by decide⟩,
   leuart_transmission_energy_balanced boot [65, 66, 67]
     (by decide) (by decide) (by decide) (by rfl) (by decide)⟩

/-! ## Serial Framer: receive -/

theorem set_at_length (pre rest : List Nat) (x b : Nat) :
    (pre ++ x :: rest).set pre.length b = pre ++ b :: rest := by
  induction pre with
  | nil => rfl
  | cons a pre ih => simp [ih]

theorem getD_after_length (pre rest : List Nat) (x y : Nat) :
    (pre ++ x :: y :: rest).getD (pre.length + 1) 0 = y := by
  induction pre with
  | nil => rfl
  | cons a pre ih => simpa using ih

theorem strcpy_shift_frame (q : List Nat) :
    ∀ (pre : List Nat) (x : Nat) (rest : List Nat) (fuel : Nat),
      (∀ c ∈ q, c ≠ 0) → q.length < fuel →
      strcpy_shift fuel pre.length (pre ++ x :: (q ++ 0 :: rest)) = pre ++ (q ++ 0 :: 0 :: rest) := by
  induction q with
  | nil =>
    intro pre x rest fuel _ hf
    obtain ⟨f, rfl⟩ : ∃ f, fuel = f + 1 := ⟨fuel - 1, by simp at hf; omega⟩
    simp only [strcpy_shift, List.nil_append, getD_after_length, set_at_length, if_true]
  | cons a q ih =>
    intro pre x rest fuel hnz hf
    obtain ⟨f, rfl⟩ : ∃ f, fuel = f + 1 := ⟨fuel - 1, by simp at hf; omega⟩
    have ha : a ≠ 0 := hnz a (List.mem_cons_self a q)
    have hrec := ih (pre ++ [a]) a rest f (fun c hc => hnz c (List.mem_cons_of_mem a hc))
      (by simp at hf; omega)
    simp only [List.length_append, List.length_singleton, List.append_assoc,
      List.singleton_append] at hrec
    simp only [strcpy_shift, List.cons_append, getD_after_length, set_at_length, ha, if_false]
    exact hrec

theorem leuart_rx_byte_waiting (m : Machine) (b : Nat) (hw : rx_waiting m)
    (hb : b ≠ RX_STARTFRAME) :
    leuart_rx_byte b m = Run.done ()
      { m with leuart_hw := { m.leuart_hw with
          if_sigf := m.leuart_hw.if_sigf || decide (b = RX_SIGFRAME) } } := by
  obtain ⟨h1, h2, h3, h4, h5, h6, h7, h8, h9⟩ := hw
  simp [leuart_rx_byte, h2, h3, h4, h5, h6, h7, h8, h9, hb]

theorem leuart_rx_byte_start (m : Machine) (hw : rx_waiting m) :
    leuart_rx_byte RX_STARTFRAME m = Run.done ()
      { m with
        irq_enabled := true,
        leuart_payload := { m.leuart_payload with
          rx_state := LEUART_RXStates.RECIEVE_DATA, rxbusy := true, rx_index := 1,
          rx_message := m.leuart_payload.rx_message.set 0 RX_STARTFRAME },
        leuart_hw := { m.leuart_hw with
          if_startf := false, if_sigf := false, rxblock := false,
          ien_startf := false, ien_sigf := true } } := by
  obtain ⟨h1, h2, h3, h4, h5, h6, h7, h8, h9⟩ := hw
  have hu8 : RX_STARTFRAME % U8 = RX_STARTFRAME := by decide
  have hu32 : (0 + 1) % U32 = 1 := by decide
  simp [leuart_rx_byte, LEUART0_IRQHandler, leuart_startf, leuart_rxdatav, rx_message_store,
    Run.bind_done, disable_irq, enable_irq, h1, h2, h3, h4, h5, h6, h7, h8, h9, hu8, hu32]

theorem leuart_rx_byte_data (m : Machine) (b : Nat) (hr : rx_receiving m)
    (hb : b ≠ RX_SIGFRAME) (hb8 : b < 256) (hi : m.leuart_payload.rx_index < 80) :
    leuart_rx_byte b m = Run.done ()
      { m with
        irq_enabled := true,
        leuart_payload := { m.leuart_payload with
          rx_index := m.leuart_payload.rx_index + 1,
          rx_message := m.leuart_payload.rx_message.set m.leuart_payload.rx_index b },
        leuart_hw := { m.leuart_hw with
          if_startf := m.leuart_hw.if_startf || decide (b = RX_STARTFRAME) } } := by
  obtain ⟨h1, h2, h3, h4, h5, h6, h7, h8, h9⟩ := hr
  have hu8 : b % U8 = b := by unfold U8; omega
  have hu32 : (m.leuart_payload.rx_index + 1) % U32 = m.leuart_payload.rx_index + 1 := by
    unfold U32; omega
  simp [leuart_rx_byte, LEUART0_IRQHandler, leuart_rxdatav, rx_message_store,
    Run.bind_done, disable_irq, enable_irq, h1, h2, h3, h4, h5, h6, h7, h8, h9, hu8, hu32, hb, hi]

theorem leuart_rx_byte_end (m : Machine) (hr : rx_receiving m)
    (hi : m.leuart_payload.rx_index < 80) :
    leuart_rx_byte RX_SIGFRAME m = Run.done ()
      { m with
        irq_enabled := true,
        event_scheduled := m.event_scheduled ||| m.rx_done_evt,
        posted := m.posted ++ [m.rx_done_evt],
        leuart_payload := { m.leuart_payload with
          rx_state := LEUART_RXStates.WAIT, rxbusy := false,
          rx_message :=
            strcpy_shift 80 0 (m.leuart_payload.rx_message.set m.leuart_payload.rx_index 0) },
        leuart_hw := { m.leuart_hw with
          if_startf := false, if_sigf := false, rxblock := true,
          ien_startf := true, ien_sigf := false } } := by
  obtain ⟨h1, h2, h3, h4, h5, h6, h7, h8, h9⟩ := hr
  have hu8 : 0 % U8 = 0 := by decide
  have hne : RX_SIGFRAME ≠ RX_STARTFRAME := by decide
  simp [leuart_rx_byte, LEUART0_IRQHandler, leuart_sigf, leuart_rxdatav, rx_message_store,
    add_scheduled_event, Run.bind_done, disable_irq, enable_irq, h1, h2, h3, h4, h5, h6, h7, h8,
    h9, hu8, hi, hne]

theorem leuart_rx_bytes_data (p : List Nat) :
    ∀ (pre rest : List Nat) (m : Machine), rx_receiving m →
      m.leuart_payload.rx_index = pre.length →
      m.leuart_payload.rx_message = pre ++ rest →
      p.length ≤ rest.length → pre.length + p.length ≤ 80 →
      (∀ b ∈ p, b ≠ RX_SIGFRAME ∧ b < 256) →
      leuart_rx_bytes p m = Run.done ()
        { m with
          irq_enabled := m.irq_enabled || !p.isEmpty,
          leuart_payload := { m.leuart_payload with
            rx_index := pre.length + p.length,
            rx_message := pre ++ (p ++ rest.drop p.length) },
          leuart_hw := { m.leuart_hw with
            if_startf := m.leuart_hw.if_startf ||
              p.any (fun b => decide (b = RX_STARTFRAME)) } } := by
  induction p with
  | nil =>
    intro pre rest m _ hidx hmsg _ _ _
    simp only [leuart_rx_bytes, List.isEmpty_nil, Bool.not_true, Bool.or_false, List.length_nil,
      Nat.add_zero, List.nil_append, List.drop_zero, List.any_nil, ← hidx, ← hmsg]
  | cons b r ih =>
    intro pre rest m hr hidx hmsg hlen h80 hbytes
    obtain ⟨x, rest1, rfl⟩ : ∃ x rest1, rest = x :: rest1 := by
      cases rest with
      | nil => simp at hlen
      | cons x rest1 => exact ⟨x, rest1, rfl⟩
    have hb := hbytes b (List.mem_cons_self b r)
    have hi : m.leuart_payload.rx_index < 80 := by
      rw [hidx]; simp at h80; omega
    rw [leuart_rx_bytes, leuart_rx_byte_data m b hr hb.1 hb.2 hi, Run.bind_done]
    have hr1 : rx_receiving
        { m with
          irq_enabled := true,
          leuart_payload := { m.leuart_payload with
            rx_index := m.leuart_payload.rx_index + 1,
            rx_message := m.leuart_payload.rx_message.set m.leuart_payload.rx_index b },
          leuart_hw := { m.leuart_hw with
            if_startf := m.leuart_hw.if_startf || decide (b = RX_STARTFRAME) } } := hr
    rw [ih (pre ++ [b]) rest1 _ hr1 (by simp [hidx])
      (by simp [hidx, hmsg, set_at_length])
      (by simp at hlen; omega) (by simp at h80 ⊢; omega)
      (fun c hc => hbytes c (List.mem_cons_of_mem b hc))]
    simp [Bool.or_assoc, Nat.add_assoc, Nat.add_comm 1 r.length]

theorem leuart_rx_bytes_append (a : List Nat) :
    ∀ (b : List Nat) (m : Machine),
      leuart_rx_bytes (a ++ b) m = (leuart_rx_bytes a m).bind (fun _ m1 => leuart_rx_bytes b m1) := by
  induction a with
  | nil => intro b m; rw [List.nil_append, leuart_rx_bytes, Run.bind_done]
  | cons x a ih =>
    intro b m
    rw [List.cons_append, leuart_rx_bytes, leuart_rx_bytes, Run.bind_assoc]
    congr 1
    funext _ m1
    exact ih b m1

theorem leuart_rx_frame_state (m : Machine) (p : List Nat) (x0 : Nat) (rest0 : List Nat)
    (y : Nat) (rest2 : List Nat)
    (hw : rx_waiting m)
    (hmsg : m.leuart_payload.rx_message = x0 :: rest0)
    (hdrop : rest0.drop p.length = y :: rest2)
    (hp : p.length ≤ 78)
    (hbytes : ∀ b ∈ p, b ≠ RX_SIGFRAME ∧ b ≠ 0 ∧ b < 256) :
    leuart_rx_bytes (RX_STARTFRAME :: (p ++ [RX_SIGFRAME])) m = Run.done ()
      { m with
        irq_enabled := true,
        event_scheduled := m.event_scheduled ||| m.rx_done_evt,
        posted := m.posted ++ [m.rx_done_evt],
        leuart_payload := { m.leuart_payload with
          rx_state := LEUART_RXStates.WAIT, rxbusy := false,
          rx_index := 1 + p.length,
          rx_message := p ++ 0 :: 0 :: rest2 },
        leuart_hw := { m.leuart_hw with
          if_startf := false, if_sigf := false, rxblock := true,
          ien_startf := true, ien_sigf := false } } := by
  have hw1 := hw
  obtain ⟨h1, h2, h3, h4, h5, h6, h7, h8, h9⟩ := hw1
  have hlen0 : p.length ≤ rest0.length := by
    by_contra hcon
    rw [List.drop_eq_nil_of_le (by omega)] at hdrop
    exact absurd hdrop (by simp)
  rw [leuart_rx_bytes, leuart_rx_byte_start m hw, Run.bind_done, leuart_rx_bytes_append]
  have hr1 : rx_receiving
      { m with
        irq_enabled := true,
        leuart_payload := { m.leuart_payload with
          rx_state := LEUART_RXStates.RECIEVE_DATA, rxbusy := true, rx_index := 1,
          rx_message := m.leuart_payload.rx_message.set 0 RX_STARTFRAME },
        leuart_hw := { m.leuart_hw with
          if_startf := false, if_sigf := false, rxblock := false,
          ien_startf := false, ien_sigf := true } } :=
    ⟨rfl, rfl, rfl, h4, rfl, rfl, h7, h8, h9⟩
  rw [leuart_rx_bytes_data p [RX_STARTFRAME] rest0 _ hr1 rfl (by simp [hmsg]) hlen0
    (by simp; omega) (fun b hb => ⟨(hbytes b hb).1, (hbytes b hb).2.2⟩), Run.bind_done]
  have hset : ([RX_STARTFRAME] ++ (p ++ rest0.drop p.length)).set ([RX_STARTFRAME].length + p.length) 0
      = RX_STARTFRAME :: (p ++ 0 :: rest2) := by
    rw [hdrop]
    have hs := set_at_length (RX_STARTFRAME :: p) rest2 y 0
    simp only [List.length_cons, List.cons_append] at hs
    simp only [List.singleton_append, List.length_singleton, Nat.add_comm 1 p.length]
    exact hs
  have hshift : strcpy_shift 80 0 (RX_STARTFRAME :: (p ++ 0 :: rest2)) = p ++ 0 :: 0 :: rest2 := by
    have := strcpy_shift_frame p [] RX_STARTFRAME rest2 80 (fun c hc => (hbytes c hc).2.1)
      (by omega)
    simpa using this
  rw [leuart_rx_bytes, leuart_rx_byte_end, Run.bind_done, leuart_rx_bytes]
  · dsimp only
    rw [hset, hshift]
    simp [Nat.add_comm]
  · exact ⟨rfl, rfl, rfl, h4, rfl, rfl, h7, h8, h9⟩
  · show [RX_STARTFRAME].length + p.length < 80
    simp; omega

/-- C4: with the receive side waiting, an 80-byte receive buffer of any
content, and a payload `p` of at most 78 bytes none of which is `;` or NUL
(`>` is allowed), the byte stream `>` `p` `;` is taken without any assertion;
afterwards `rx_message` holds exactly `p` followed by NUL at index `len(p)`
(the start marker stripped, the end marker not stored; the next byte is the
NUL written before the shift and the bytes after it are the old content), the
state is WAIT again with the receiver re-armed and not busy, the rx-done event
has been posted exactly once, and no write fell outside the buffer. -/
theorem leuart_rx_frame_captured (m : Machine) (p : List Nat)
    (hw : rx_waiting m)
    (hlen : m.leuart_payload.rx_message.length = 80)
    (hp : p.length ≤ 78)
    (hbytes : ∀ b ∈ p, b ≠ RX_SIGFRAME ∧ b ≠ 0 ∧ b < 256) :
    ∃ m1, leuart_rx_bytes (RX_STARTFRAME :: (p ++ [RX_SIGFRAME])) m = Run.done () m1 ∧
      m1.leuart_payload.rx_message
        = p ++ 0 :: 0 :: m.leuart_payload.rx_message.drop (p.length + 2) ∧
      m1.leuart_payload.rx_message.take (p.length + 1) = p ++ [0] ∧
      m1.leuart_payload.rx_message.length = 80 ∧
      m1.leuart_payload.rx_state = LEUART_RXStates.WAIT ∧
      rx_waiting m1 ∧
      m1.leuart_payload.rxbusy = false ∧
      m1.posted = m.posted ++ [m.rx_done_evt] ∧
      m1.event_scheduled = m.event_scheduled ||| m.rx_done_evt ∧
      m1.rx_oob = m.rx_oob := by
  obtain ⟨x0, rest0, hmsg⟩ : ∃ x0 rest0, m.leuart_payload.rx_message = x0 :: rest0 := by
    cases hl : m.leuart_payload.rx_message with
    | nil => rw [hl] at hlen; simp at hlen
    | cons x0 rest0 => exact ⟨x0, rest0, rfl⟩
  have hlen0 : rest0.length = 79 := by
    rw [hmsg] at hlen; simpa using hlen
  have hdrop : rest0.drop p.length = rest0[p.length] :: rest0.drop (p.length + 1) :=
    List.drop_eq_getElem_cons (by omega)
  have hrun := leuart_rx_frame_state m p x0 rest0 _ _ hw hmsg hdrop hp hbytes
  obtain ⟨h1, h2, h3, h4, h5, h6, h7, h8, h9⟩ := hw
  refine ⟨_, hrun, ?_, ?_, ?_, rfl, ⟨rfl, rfl, rfl, h4, rfl, rfl, h7, h8, h9⟩, rfl, rfl, rfl, rfl⟩
  · simp [hmsg]
  · show (p ++ 0 :: 0 :: rest0.drop (p.length + 1)).take (p.length + 1) = p ++ [0]
    rw [List.take_append_eq_append_take]
    simp
  · show (p ++ 0 :: 0 :: rest0.drop (p.length + 1)).length = 80
    simp [hlen0]; omega

/-- Witness for C4: the frame `>123;` received after `leuart_rxsetup`. -/
theorem leuart_rx_frame_captured_witness :
    (rx_waiting rx_ready ∧ rx_ready.leuart_payload.rx_message.length = 80 ∧
      [49, 50, 51].length ≤ 78 ∧ (∀ b ∈ [49, 50, 51], b ≠ RX_SIGFRAME ∧ b ≠ 0 ∧ b < 256)) ∧
    ∃ m1, leuart_rx_bytes (RX_STARTFRAME :: ([49, 50, 51] ++ [RX_SIGFRAME])) rx_ready
        = Run.done () m1 ∧
      m1.leuart_payload.rx_message
        = [49, 50, 51] ++ 0 :: 0 :: rx_ready.leuart_payload.rx_message.drop ([49, 50, 51].length + 2) ∧
      m1.leuart_payload.rx_message.take ([49, 50, 51].length + 1) = [49, 50, 51] ++ [0] ∧
      m1.leuart_payload.rx_message.length = 80 ∧
      m1.leuart_payload.rx_state = LEUART_RXStates.WAIT ∧
      rx_waiting m1 ∧
      m1.leuart_payload.rxbusy = false ∧
      m1.posted = rx_ready.posted ++ [rx_ready.rx_done_evt] ∧
      m1.event_scheduled = rx_ready.event_scheduled ||| rx_ready.rx_done_evt ∧
      m1.rx_oob = rx_ready.rx_oob :=
  ⟨⟨by decide, by rfl, by decide, by decide⟩,
   leuart_rx_frame_captured rx_ready [49, 50, 51] (by decide) (by rfl) (by decide) (by decide)⟩

/-- The frames of `leuart_rxtest`, evaluated: `>asdfg;` leaves `asdfg`,
`>>123;` leaves `>123`, and `>123;4567` leaves `123`, each followed by NUL. -/
theorem leuart_rxtest_frames :
    (leuart_rx_bytes [62, 97, 115, 100, 102, 103, 59] rx_ready).machine.leuart_payload.rx_message.take 6
      = [97, 115, 100, 102, 103, 0] ∧
    (leuart_rx_bytes [62, 62, 49, 50, 51, 59] rx_ready).machine.leuart_payload.rx_message.take 5
      = [62, 49, 50, 51, 0] ∧
    (leuart_rx_bytes [62, 49, 50, 51, 59, 52, 53, 54, 55] rx_ready).machine.leuart_payload.rx_message.take 4
      = [49, 50, 51, 0] := by
  refine ⟨by rfl, by rfl, by rfl⟩

theorem leuart_rx_bytes_waiting (bs : List Nat) :
    ∀ m : Machine, rx_waiting m → (∀ b ∈ bs, b ≠ RX_STARTFRAME) →
      leuart_rx_bytes bs m = Run.done ()
        { m with leuart_hw := { m.leuart_hw with
            if_sigf := m.leuart_hw.if_sigf || bs.any (fun b => decide (b = RX_SIGFRAME)) } } := by
  induction bs with
  | nil => intro m _ _; simp [leuart_rx_bytes]
  | cons b r ih =>
    intro m hw hbs
    have hw1 : rx_waiting
        { m with leuart_hw := { m.leuart_hw with
            if_sigf := m.leuart_hw.if_sigf || decide (b = RX_SIGFRAME) } } := hw
    rw [leuart_rx_bytes, leuart_rx_byte_waiting m b hw (hbs b (List.mem_cons_self b r)),
      Run.bind_done, ih _ hw1 (fun c hc => hbs c (List.mem_cons_of_mem b hc))]
    simp [Bool.or_assoc]

/-- C15: bytes that arrive while the receive side is waiting and that are not
the start marker (ordinary bytes, a lone `;`, or the bytes that follow a
frame's end marker) are not captured: they are taken without any assertion
and leave `rx_message`, the receive state and index, the busy flags, the event
mask and the list of posted events unchanged; only the latched end-frame flag
of the peripheral can change, and the receive side is still waiting. -/
theorem leuart_rx_bytes_ignored_in_wait (m : Machine) (bs : List Nat)
    (hw : rx_waiting m) (hbs : ∀ b ∈ bs, b ≠ RX_STARTFRAME) :
    ∃ m1, leuart_rx_bytes bs m = Run.done () m1 ∧
      m1 = { m with leuart_hw := { m.leuart_hw with
              if_sigf := m.leuart_hw.if_sigf || bs.any (fun b => decide (b = RX_SIGFRAME)) } } ∧
      m1.leuart_payload = m.leuart_payload ∧
      m1.leuart_payload.rx_message = m.leuart_payload.rx_message ∧
      m1.leuart_payload.rx_state = LEUART_RXStates.WAIT ∧
      m1.leuart_payload.rxbusy = m.leuart_payload.rxbusy ∧
      m1.posted = m.posted ∧
      m1.event_scheduled = m.event_scheduled ∧
      rx_waiting m1 :=
  ⟨_, leuart_rx_bytes_waiting bs m hw hbs, rfl, rfl, rfl, hw.1, rfl, rfl, rfl, hw⟩

/-- Witness for C15: the bytes `4567` arriving after the frame `>123;`. -/
theorem leuart_rx_bytes_ignored_in_wait_witness :
    (rx_waiting rx_after_123 ∧ (∀ b ∈ [52, 53, 54, 55], b ≠ RX_STARTFRAME)) ∧
    ∃ m1, leuart_rx_bytes [52, 53, 54, 55] rx_after_123 = Run.done () m1 ∧
      m1 = { rx_after_123 with leuart_hw := { rx_after_123.leuart_hw with
              if_sigf := rx_after_123.leuart_hw.if_sigf ||
                [52, 53, 54, 55].any (fun b => decide (b = RX_SIGFRAME)) } } ∧
      m1.leuart_payload = rx_after_123.leuart_payload ∧
      m1.leuart_payload.rx_message = rx_after_123.leuart_payload.rx_message ∧
      m1.leuart_payload.rx_state = LEUART_RXStates.WAIT ∧
      m1.leuart_payload.rxbusy = rx_after_123.leuart_payload.rxbusy ∧
      m1.posted = rx_after_123.posted ∧
      m1.event_scheduled = rx_after_123.event_scheduled ∧
      rx_waiting m1 :=
  ⟨⟨by decide, by decide⟩,
   leuart_rx_bytes_ignored_in_wait rx_after_123 [52, 53, 54, 55] (by decide) (by decide)⟩

/-! ## Starting a bus transaction -/

/-- C21 (counterexample): the bus is observed idle and `i2c_start` still fails
fatally.  Nine EM2 blocks are outstanding, the tenth takes the counter to the
sanity ceiling of `sleep_block_mode`; the transaction record is not written
and no register write is issued. -/
theorem i2c_start_fatal_with_idle_bus :
    i2c_start si7021_read_temp_param true
        (boot_with_counters { em0 := 0, em1 := 0, em2 := 9, em3 := 0, em4 := 0 })
      = Run.halted
          { boot_with_counters { em0 := 0, em1 := 0, em2 := 10, em3 := 0, em4 := 0 } with
            irq_enabled := false } := by
  decide

theorem i2c_start_cases (param : I2C_PAYLOAD_INIT) (bus_idle : Bool) (m : Machine) :
    i2c_start param bus_idle m =
      if bus_idle = false then Run.halted m
      else if 10 ≤ (m.lowest_energy_mode.get EM2 + 1) % U32 then
        Run.halted
          { m with irq_enabled := false,
                   lowest_energy_mode :=
                     m.lowest_energy_mode.set EM2 ((m.lowest_energy_mode.get EM2 + 1) % U32) }
      else
        Run.done ()
          { m with irq_enabled := true,
                   lowest_energy_mode :=
                     m.lowest_energy_mode.set EM2 ((m.lowest_energy_mode.get EM2 + 1) % U32),
                   i2c_payload :=
                     { m.i2c_payload with
                       device_address := param.device_address,
                       data := param.data,
                       i2c_state := I2C_States.INITIALIZE,
                       read := param.read,
                       bytes := param.bytes,
                       cmd := param.cmd },
                   i2c_regs := m.i2c_regs ++ [I2C_RegWrite.I2C_CMD_START,
                     I2C_RegWrite.TXDATA (((param.device_address <<< 1) % U32) ||| 0)] } := by
  cases bus_idle with
  | false => simp [i2c_start, EFM_ASSERT, Run.bind_halted]
  | true =>
    have hb := sleep_block_mode_cases I2C_EM_BLOCK m i2c_em_block_lt
    have he : I2C_EM_BLOCK = EM2 := rfl
    rw [he] at hb
    unfold i2c_start
    simp only [EFM_ASSERT, if_true, Run.bind_done, he]
    rw [hb]
    by_cases h : (m.lowest_energy_mode.get EM2 + 1) % U32 < 10
    · have h2 : ¬ 10 ≤ (m.lowest_energy_mode.get EM2 + 1) % U32 := by omega
      simp only [h, h2, if_true, if_false, Run.bind_done, WRITE]
      simp
    · have h2 : 10 ≤ (m.lowest_energy_mode.get EM2 + 1) % U32 := by omega
      simp only [h, h2, if_true, if_false, Run.bind_halted]
      simp

/-- C21 (amended): `i2c_start` fails fatally exactly when the bus is not
observed idle or the EM2 counter, raised by one modulo 2^32, reaches the
sanity ceiling 10.  A bus not idle leaves the state untouched.  Otherwise the
call returns with the EM2 counter raised by one, the device address, the
command byte, the destination pointer, the byte count and the read flag
recorded, the sequencer in INITIALIZE, and exactly two register writes
appended: the START command, then the address byte `(device_address << 1) | 0`. -/
theorem i2c_start_outcome (param : I2C_PAYLOAD_INIT) (bus_idle : Bool) (m : Machine) :
    i2c_start param bus_idle m =
      if bus_idle = false then Run.halted m
      else if 10 ≤ (m.lowest_energy_mode.get EM2 + 1) % U32 then
        Run.halted
          { m with irq_enabled := false,
                   lowest_energy_mode :=
                     m.lowest_energy_mode.set EM2 ((m.lowest_energy_mode.get EM2 + 1) % U32) }
      else
        Run.done ()
          { m with irq_enabled := true,
                   lowest_energy_mode :=
                     m.lowest_energy_mode.set EM2 ((m.lowest_energy_mode.get EM2 + 1) % U32),
                   i2c_payload :=
                     { m.i2c_payload with
                       device_address := param.device_address,
                       data := param.data,
                       i2c_state := I2C_States.INITIALIZE,
                       read := param.read,
                       bytes := param.bytes,
                       cmd := param.cmd },
                   i2c_regs := m.i2c_regs ++ [I2C_RegWrite.I2C_CMD_START,
                     I2C_RegWrite.TXDATA (((param.device_address <<< 1) % U32) ||| 0)] } :=
  i2c_start_cases param bus_idle m

/-! ## One transaction at a time -/

theorem i2c_cause_counters (c : I2C_Cause) (hc : c ≠ I2C_Cause.mstop) (m m1 : Machine)
    (h : i2c_cause c m = Run.done () m1) :
    m1.lowest_energy_mode = m.lowest_energy_mode := by
  cases c with
  | mstop => exact absurd rfl hc
  | ack =>
    simp only [i2c_cause, i2c_ack] at h
    cases hs : m.i2c_payload.i2c_state <;> rw [hs] at h <;>
      (simp [EFM_ASSERT] at h; try rw [← h])
  | nack =>
    simp only [i2c_cause, i2c_nack] at h
    cases hs : m.i2c_payload.i2c_state <;> rw [hs] at h <;>
      (simp [EFM_ASSERT] at h; try rw [← h])
  | rxdatav b =>
    simp only [i2c_cause, i2c_rxdatav] at h
    cases hs : m.i2c_payload.i2c_state <;> rw [hs] at h <;>
      (simp [EFM_ASSERT] at h; try rw [← h])

theorem i2c_causes_counters (cs : List I2C_Cause) (hns : I2C_Cause.mstop ∉ cs) :
    ∀ m m1 : Machine, i2c_causes cs m = Run.done () m1 →
      m1.lowest_energy_mode = m.lowest_energy_mode := by
  induction cs with
  | nil =>
    intro m m1 h
    simp [i2c_causes] at h
    rw [h]
  | cons c rest ih =>
    intro m m1 h
    have hc : c ≠ I2C_Cause.mstop := fun e => hns (by rw [e]; exact List.mem_cons_self _ _)
    have hr : I2C_Cause.mstop ∉ rest := fun e => hns (List.mem_cons_of_mem _ e)
    rw [i2c_causes] at h
    cases h1 : i2c_cause c m with
    | halted m2 => rw [h1, Run.bind_halted] at h; exact absurd h (by simp)
    | done u m2 =>
      rw [h1, Run.bind_done] at h
      rw [ih hr m2 m1 h, i2c_cause_counters c hc m m2 h1]

theorem i2c_bus_busy_through_causes (cs : List I2C_Cause) (hns : I2C_Cause.mstop ∉ cs) :
    ∀ (busy b : Bool) (m m1 : Machine),
      i2c_bus_events (cs.map I2C_Event.cause) busy m = Run.done b m1 → b = busy := by
  induction cs with
  | nil =>
    intro busy b m m1 h
    simp [i2c_bus_events] at h
    exact h.1.symm
  | cons c rest ih =>
    intro busy b m m1 h
    have hc : c ≠ I2C_Cause.mstop := fun e => hns (by rw [e]; exact List.mem_cons_self _ _)
    have hr : I2C_Cause.mstop ∉ rest := fun e => hns (List.mem_cons_of_mem _ e)
    rw [List.map_cons, i2c_bus_events] at h
    have hev : i2c_bus_event (I2C_Event.cause c) busy m
        = (i2c_cause c m).bind fun _ m1 => Run.done busy m1 := by
      cases c with
      | mstop => exact absurd rfl hc
      | ack => rfl
      | nack => rfl
      | rxdatav b => rfl
    rw [hev] at h
    cases h1 : i2c_cause c m with
    | halted m2 => rw [h1, Run.bind_halted, Run.bind_halted] at h; exact absurd h (by simp)
    | done u m2 =>
      rw [h1, Run.bind_done, Run.bind_done] at h
      exact ih hr busy b m2 m1 h

/-- C22: after a call of `i2c_start` that returned and any causes other than
the transaction-stop that were accepted since, the peripheral shows the bus
busy (the first call itself saw it idle), and a further call of `i2c_start`
stops at its first statement, the bus-idle assertion: the state is the one
before the call, so the transaction record (state, address, command,
destination) is not overwritten and no second EM2 block is taken. -/
theorem i2c_start_in_flight_is_fatal (param0 param : I2C_PAYLOAD_INIT) (cs : List I2C_Cause)
    (busy0 b : Bool) (m0 m : Machine)
    (hns : I2C_Cause.mstop ∉ cs)
    (hrun : i2c_bus_events (I2C_Event.start param0 :: cs.map I2C_Event.cause) busy0 m0
      = Run.done b m) :
    busy0 = false ∧ b = true ∧
    i2c_bus_event (I2C_Event.start param) b m = Run.halted m ∧
    (i2c_bus_event (I2C_Event.start param) b m).machine.i2c_payload = m.i2c_payload ∧
    (i2c_bus_event (I2C_Event.start param) b m).machine.lowest_energy_mode
      = m.lowest_energy_mode := by
  rw [i2c_bus_events] at hrun
  have hev : i2c_bus_event (I2C_Event.start param0) busy0 m0
      = (i2c_start param0 (!busy0) m0).bind fun _ m1 => Run.done true m1 := rfl
  rw [hev] at hrun
  cases h1 : i2c_start param0 (!busy0) m0 with
  | halted m2 => rw [h1, Run.bind_halted, Run.bind_halted] at hrun; exact absurd hrun (by simp)
  | done u m2 =>
    rw [h1, Run.bind_done, Run.bind_done] at hrun
    have hb : b = true := i2c_bus_busy_through_causes cs hns true b m2 m hrun
    have h0 : busy0 = false := by
      cases busy0 with
      | false => rfl
      | true =>
        rw [i2c_start_cases] at h1
        simp at h1
    have hhalt : i2c_bus_event (I2C_Event.start param) b m = Run.halted m := by
      rw [hb]
      show (i2c_start param (!true) m).bind (fun _ m1 => Run.done true m1) = Run.halted m
      rw [i2c_start_cases]
      simp [Run.bind_halted]
    refine ⟨h0, hb, hhalt, ?_, ?_⟩ <;> (rw [hhalt]; rfl)

/-- The events of a read that is one cause short of its end: `si7021_read_temp`
started, then ack, ack, one nack, ack and the two data bytes. -/
theorem i2c_start_in_flight_is_fatal_witness :
    (I2C_Cause.mstop ∉ [I2C_Cause.ack, I2C_Cause.ack, I2C_Cause.nack, I2C_Cause.ack,
        I2C_Cause.rxdatav 0x66, I2C_Cause.rxdatav 0x4C] ∧
      i2c_bus_events (I2C_Event.start si7021_read_temp_param ::
          [I2C_Cause.ack, I2C_Cause.ack, I2C_Cause.nack, I2C_Cause.ack,
            I2C_Cause.rxdatav 0x66, I2C_Cause.rxdatav 0x4C].map I2C_Event.cause) false boot
        = Run.done true i2c_before_stop) ∧
    (false = false ∧ true = true ∧
      i2c_bus_event (I2C_Event.start si7021_read_temp_param) true i2c_before_stop
        = Run.halted i2c_before_stop ∧
      (i2c_bus_event (I2C_Event.start si7021_read_temp_param) true i2c_before_stop).machine.i2c_payload
        = i2c_before_stop.i2c_payload ∧
      (i2c_bus_event (I2C_Event.start si7021_read_temp_param) true
          i2c_before_stop).machine.lowest_energy_mode
        = i2c_before_stop.lowest_energy_mode) :=
  ⟨⟨by decide, by decide⟩,
   i2c_start_in_flight_is_fatal si7021_read_temp_param si7021_read_temp_param
     [I2C_Cause.ack, I2C_Cause.ack, I2C_Cause.nack, I2C_Cause.ack,
       I2C_Cause.rxdatav 0x66, I2C_Cause.rxdatav 0x4C] false true boot i2c_before_stop
     (by decide) (by decide)⟩

/-! ## The EM2 block of a transaction -/

/-- C23: let `i2c_start` return from a state whose EM2 counter `c` is not at
the top of its 32-bit range, and let any causes other than the
transaction-stop be accepted after it (any number of nack retries included).
In the state reached the EM2 counter is `c + 1`, so at least 1, the other
counters are as before the start, and `enter_sleep` either does not sleep or
enters EM1, never a deeper state.  The transaction-stop cause is accepted
there exactly when the sequencer is in STOP, and handling it puts every
counter back to its value before `i2c_start`. -/
theorem i2c_in_flight_blocks_em2 (param : I2C_PAYLOAD_INIT) (bus_idle : Bool)
    (cs : List I2C_Cause) (m0 m1 m : Machine)
    (hw : m0.lowest_energy_mode.get EM2 + 1 < U32)
    (hstart : i2c_start param bus_idle m0 = Run.done () m1)
    (hns : I2C_Cause.mstop ∉ cs)
    (hrun : i2c_causes cs m1 = Run.done () m) :
    m.lowest_energy_mode.get EM2 = m0.lowest_energy_mode.get EM2 + 1 ∧
    1 ≤ m.lowest_energy_mode.get EM2 ∧
    m.lowest_energy_mode.get EM0 = m0.lowest_energy_mode.get EM0 ∧
    m.lowest_energy_mode.get EM1 = m0.lowest_energy_mode.get EM1 ∧
    m.lowest_energy_mode.get EM3 = m0.lowest_energy_mode.get EM3 ∧
    m.lowest_energy_mode.get EM4 = m0.lowest_energy_mode.get EM4 ∧
    (enter_sleep m = none ∨ enter_sleep m = some EM1) ∧
    ((m.i2c_payload.i2c_state ≠ I2C_States.STOP ∧ i2c_cause I2C_Cause.mstop m = Run.halted m) ∨
     (m.i2c_payload.i2c_state = I2C_States.STOP ∧
       ∃ m2, i2c_cause I2C_Cause.mstop m = Run.done () m2 ∧
         m2.lowest_energy_mode = m0.lowest_energy_mode)) := by
  have hmod : (m0.lowest_energy_mode.get EM2 + 1) % U32 = m0.lowest_energy_mode.get EM2 + 1 :=
    Nat.mod_eq_of_lt hw
  have hcnt := i2c_causes_counters cs hns m1 m hrun
  have hm1 : m1.lowest_energy_mode
      = m0.lowest_energy_mode.set EM2 (m0.lowest_energy_mode.get EM2 + 1) := by
    rw [i2c_start_cases] at hstart
    cases bus_idle with
    | false => simp at hstart
    | true =>
      by_cases h10 : 10 ≤ (m0.lowest_energy_mode.get EM2 + 1) % U32
      · simp [h10] at hstart
      · simp only [h10, if_false, Bool.true_eq_false, Run.done.injEq, true_and] at hstart
        rw [← hstart, hmod]
  have hem : m.lowest_energy_mode
      = m0.lowest_energy_mode.set EM2 (m0.lowest_energy_mode.get EM2 + 1) := by
    rw [hcnt, hm1]
  have h2 : m.lowest_energy_mode.get EM2 = m0.lowest_energy_mode.get EM2 + 1 := by
    rw [hem]; exact EnergyModes.get_set_same _ _ _ (by decide)
  have hsleep : enter_sleep m = none ∨ enter_sleep m = some EM1 := by
    unfold enter_sleep
    have hpos : m.lowest_energy_mode.get EM2 > 0 := by omega
    by_cases h0 : m.lowest_energy_mode.get EM0 > 0
    · left; simp [h0]
    · by_cases h1 : m.lowest_energy_mode.get EM1 > 0
      · left; simp [h0, h1]
      · right; simp [h0, h1, hpos]
  refine ⟨h2, by omega, ?_, ?_, ?_, ?_, hsleep, ?_⟩
  · rw [hem]; exact EnergyModes.get_set_other _ _ _ _ (by decide)
  · rw [hem]; exact EnergyModes.get_set_other _ _ _ _ (by decide)
  · rw [hem]; exact EnergyModes.get_set_other _ _ _ _ (by decide)
  · rw [hem]; exact EnergyModes.get_set_other _ _ _ _ (by decide)
  · by_cases hs : m.i2c_payload.i2c_state = I2C_States.STOP
    · right
      refine ⟨hs, ?_⟩
      have hsub : sub32 (m0.lowest_energy_mode.get EM2 + 1) 1 = m0.lowest_energy_mode.get EM2 := by
        unfold sub32; unfold U32 at *; omega
      have hrun2 : i2c_cause I2C_Cause.mstop m = Run.done ()
          { add_scheduled_event m.i2c_payload.event
              { m with i2c_payload := { m.i2c_payload with i2c_state := I2C_States.INITIALIZE } } with
            irq_enabled := true,
            lowest_energy_mode := m0.lowest_energy_mode } := by
        simp only [i2c_cause, i2c_mstop, hs]
        rw [sleep_unblock_mode_done _ _ i2c_em_block_lt]
        have he : I2C_EM_BLOCK = EM2 := rfl
        simp only [he, add_scheduled_event, enable_irq, disable_irq]
        rw [h2, hsub, hem, EnergyModes.set_set, EnergyModes.set_get_self]
      exact ⟨_, hrun2, rfl⟩
    · left
      refine ⟨hs, ?_⟩
      simp only [i2c_cause, i2c_mstop]
      cases hst : m.i2c_payload.i2c_state <;> simp_all [EFM_ASSERT]

/-- Witness for C23: `si7021_read_temp` started from the reset state, then
ack, ack, one nack retry, ack and the two data bytes. -/
theorem i2c_in_flight_blocks_em2_witness :
    (boot.lowest_energy_mode.get EM2 + 1 < U32 ∧
      i2c_start si7021_read_temp_param true boot = Run.done () i2c_started ∧
      I2C_Cause.mstop ∉ [I2C_Cause.ack, I2C_Cause.ack, I2C_Cause.nack, I2C_Cause.ack,
        I2C_Cause.rxdatav 0x66, I2C_Cause.rxdatav 0x4C] ∧
      i2c_causes [I2C_Cause.ack, I2C_Cause.ack, I2C_Cause.nack, I2C_Cause.ack,
        I2C_Cause.rxdatav 0x66, I2C_Cause.rxdatav 0x4C] i2c_started
        = Run.done () i2c_before_stop) ∧
    (i2c_before_stop.lowest_energy_mode.get EM2 = boot.lowest_energy_mode.get EM2 + 1 ∧
      1 ≤ i2c_before_stop.lowest_energy_mode.get EM2 ∧
      i2c_before_stop.lowest_energy_mode.get EM0 = boot.lowest_energy_mode.get EM0 ∧
      i2c_before_stop.lowest_energy_mode.get EM1 = boot.lowest_energy_mode.get EM1 ∧
      i2c_before_stop.lowest_energy_mode.get EM3 = boot.lowest_energy_mode.get EM3 ∧
      i2c_before_stop.lowest_energy_mode.get EM4 = boot.lowest_energy_mode.get EM4 ∧
      (enter_sleep i2c_before_stop = none ∨ enter_sleep i2c_before_stop = some EM1) ∧
      ((i2c_before_stop.i2c_payload.i2c_state ≠ I2C_States.STOP ∧
          i2c_cause I2C_Cause.mstop i2c_before_stop = Run.halted i2c_before_stop) ∨
       (i2c_before_stop.i2c_payload.i2c_state = I2C_States.STOP ∧
         ∃ m2, i2c_cause I2C_Cause.mstop i2c_before_stop = Run.done () m2 ∧
           m2.lowest_energy_mode = boot.lowest_energy_mode))) :=
  ⟨⟨by decide, by decide, by decide, by decide⟩,
   i2c_in_flight_blocks_em2 si7021_read_temp_param true
     [I2C_Cause.ack, I2C_Cause.ack, I2C_Cause.nack, I2C_Cause.ack,
       I2C_Cause.rxdatav 0x66, I2C_Cause.rxdatav 0x4C] boot i2c_started i2c_before_stop
     (by decide) (by decide) (by decide) (by decide)⟩

/-! ## The idle check of the dispatch loop -/

/-- C24: the idle check of the main loop masks the event register with the
timer and boot-up bits only.  With the sensor-read-complete, the
serial-tx-complete or the serial-rx-complete event pending, alone or
together, and none of the four other events, the loop calls `enter_sleep`; from
the reset state with the sensor-read-complete event pending the processor is
put into EM3.  Each of the four events of the mask keeps the loop from
calling `enter_sleep`. -/
theorem main_loop_sleeps_with_pending_events (m : Machine) :
    main_loop_sleep { m with event_scheduled := SI7021_READ_EVT } = some (enter_sleep m) ∧
    main_loop_sleep { m with event_scheduled := LEUART0_TX_DONE_EVT } = some (enter_sleep m) ∧
    main_loop_sleep { m with event_scheduled := LEUART0_RX_DONE_EVT } = some (enter_sleep m) ∧
    main_loop_sleep { m with event_scheduled :=
      SI7021_READ_EVT ||| LEUART0_TX_DONE_EVT ||| LEUART0_RX_DONE_EVT } = some (enter_sleep m) ∧
    main_loop_sleep { boot with event_scheduled := SI7021_READ_EVT } = some (some EM3) ∧
    main_loop_sleep { m with event_scheduled := BOOT_UP_EVT } = none ∧
    main_loop_sleep { m with event_scheduled := LETIMER0_UF_EVT } = none ∧
    main_loop_sleep { m with event_scheduled := LETIMER0_COMP0_EVT } = none ∧
    main_loop_sleep { m with event_scheduled := LETIMER0_COMP1_EVT } = none := by
  have h8 : 8 &&& 23 = 0 := by decide
  have h32 : 32 &&& 23 = 0 := by decide
  have h64 : 64 &&& 23 = 0 := by decide
  have h104 : 104 &&& 23 = 0 := by decide
  refine ⟨?_, ?_, ?_, ?_, by decide, ?_, ?_, ?_, ?_⟩ <;>
    simp [main_loop_sleep, get_scheduled_events, enter_sleep, SI7021_READ_EVT,
      LEUART0_TX_DONE_EVT, LEUART0_RX_DONE_EVT, BOOT_UP_EVT, LETIMER0_UF_EVT,
      LETIMER0_COMP0_EVT, LETIMER0_COMP1_EVT, h8, h32, h64, h104]

/-! ## The timer -/

theorem letimer_em_lt : LETIMER_EM < MAX_ENERGY_MODES := by decide

theorem letimer_start_step (enable : Bool) (m : Machine) (base : Nat) (hb : base < 9)
    (hinv : m.lowest_energy_mode.get EM4 = base + (if m.letimer_hw.running then 1 else 0)) :
    ∃ m1, letimer_start enable m = Run.done () m1 ∧
      m1.letimer_hw.running = enable ∧
      m1.lowest_energy_mode.get EM4 = base + (if enable then 1 else 0) ∧
      m1.lowest_energy_mode.get EM0 = m.lowest_energy_mode.get EM0 ∧
      m1.lowest_energy_mode.get EM1 = m.lowest_energy_mode.get EM1 ∧
      m1.lowest_energy_mode.get EM2 = m.lowest_energy_mode.get EM2 ∧
      m1.lowest_energy_mode.get EM3 = m.lowest_energy_mode.get EM3 := by
  have he : LETIMER_EM = EM4 := rfl
  cases hr : m.letimer_hw.running <;> cases enable
  · -- stopped, stop requested
    have hrun : letimer_start false m = Run.done ()
        { m with letimer_hw := { m.letimer_hw with running := false } } := by
      simp [letimer_start, hr, Run.bind_done]
    refine ⟨_, hrun, rfl, ?_, rfl, rfl, rfl, rfl⟩
    simpa [hr] using hinv
  · -- stopped, start requested
    rw [hr] at hinv
    simp only [Bool.false_eq_true, if_false, Nat.add_zero] at hinv
    have hblock := sleep_block_mode_done LETIMER_EM m letimer_em_lt (by rw [he, hinv]; omega)
    have hrun : letimer_start true m = Run.done ()
        { m with
          irq_enabled := true,
          lowest_energy_mode :=
            m.lowest_energy_mode.set LETIMER_EM (m.lowest_energy_mode.get LETIMER_EM + 1),
          letimer_hw := { m.letimer_hw with running := true } } := by
      simp [letimer_start, hr, Run.bind_done, hblock]
    refine ⟨_, hrun, rfl, ?_, ?_, ?_, ?_, ?_⟩
    · show (m.lowest_energy_mode.set LETIMER_EM (m.lowest_energy_mode.get LETIMER_EM + 1)).get EM4
        = base + (if true = true then 1 else 0)
      rw [he, EnergyModes.get_set_same _ _ _ (by decide), hinv]; simp
    all_goals
      show (m.lowest_energy_mode.set LETIMER_EM (m.lowest_energy_mode.get LETIMER_EM + 1)).get _ = _
      exact EnergyModes.get_set_other _ _ _ _ (by decide)
  · -- running, stop requested
    rw [hr] at hinv
    simp only [if_true] at hinv
    have hun := sleep_unblock_mode_done LETIMER_EM m letimer_em_lt
    have hsub : sub32 (m.lowest_energy_mode.get EM4) 1 = base := by
      rw [hinv]; unfold sub32 U32; omega
    have hrun : letimer_start false m = Run.done ()
        { m with
          irq_enabled := true,
          lowest_energy_mode :=
            m.lowest_energy_mode.set LETIMER_EM (sub32 (m.lowest_energy_mode.get LETIMER_EM) 1),
          letimer_hw := { m.letimer_hw with running := false } } := by
      simp [letimer_start, hr, Run.bind_done, hun]
    refine ⟨_, hrun, rfl, ?_, ?_, ?_, ?_, ?_⟩
    · show (m.lowest_energy_mode.set LETIMER_EM (sub32 (m.lowest_energy_mode.get LETIMER_EM) 1)).get EM4
        = base + (if false = true then 1 else 0)
      rw [he, EnergyModes.get_set_same _ _ _ (by decide), hsub]; simp
    all_goals
      show (m.lowest_energy_mode.set LETIMER_EM (sub32 (m.lowest_energy_mode.get LETIMER_EM) 1)).get _
        = _
      exact EnergyModes.get_set_other _ _ _ _ (by decide)
  · -- running, start requested
    have hrun : letimer_start true m = Run.done ()
        { m with letimer_hw := { m.letimer_hw with running := true } } := by
      simp [letimer_start, hr, Run.bind_done]
    refine ⟨_, hrun, rfl, ?_, rfl, rfl, rfl, rfl⟩
    simpa [hr] using hinv

theorem letimer_starts_inv (enables : List Bool) (base : Nat) (hb : base < 9) :
    ∀ m : Machine,
      m.lowest_energy_mode.get EM4 = base + (if m.letimer_hw.running then 1 else 0) →
      ∃ m1, letimer_starts enables m = Run.done () m1 ∧
        m1.letimer_hw.running = enables.getLastD m.letimer_hw.running ∧
        m1.lowest_energy_mode.get EM4 = base + (if m1.letimer_hw.running then 1 else 0) ∧
        m1.lowest_energy_mode.get EM0 = m.lowest_energy_mode.get EM0 ∧
        m1.lowest_energy_mode.get EM1 = m.lowest_energy_mode.get EM1 ∧
        m1.lowest_energy_mode.get EM2 = m.lowest_energy_mode.get EM2 ∧
        m1.lowest_energy_mode.get EM3 = m.lowest_energy_mode.get EM3 := by
  induction enables with
  | nil =>
    intro m hinv
    exact ⟨m, rfl, rfl, hinv, rfl, rfl, rfl, rfl⟩
  | cons e rest ih =>
    intro m hinv
    obtain ⟨m1, h1, hr1, h4, h0, h1', h2, h3⟩ := letimer_start_step e m base hb hinv
    have hinv1 : m1.lowest_energy_mode.get EM4
        = base + (if m1.letimer_hw.running then 1 else 0) := by
      rw [h4, hr1]
    obtain ⟨m2, g1, gr, g4, g0, g1', g2, g3⟩ := ih m1 hinv1
    refine ⟨m2, ?_, ?_, g4, g0.trans h0, g1'.trans h1', g2.trans h2, g3.trans h3⟩
    · rw [letimer_starts, h1, Run.bind_done, g1]
    · rw [gr, hr1]
      cases rest <;> rfl

/-- C26: let the EM4 counter hold `base` blocks of other components plus the
one of the timer when it runs, with `base` below 9.  A call
`letimer_start(enable)` then returns with the timer running exactly when
`enable` is true; it raises the EM4 counter by one exactly when the timer was
stopped and `enable` is true, lowers it by one exactly when the timer was
running and `enable` is false, and leaves it as it was when the requested
state is the current one; the counters of EM0 to EM3 are not changed.  Over
any sequence of such calls the EM4 counter is `base + 1` while the timer runs
and `base` while it is stopped. -/
theorem letimer_start_blocks_on_transitions (enable : Bool) (enables : List Bool)
    (m : Machine) (base : Nat) (hb : base < 9)
    (hinv : m.lowest_energy_mode.get EM4 = base + (if m.letimer_hw.running then 1 else 0)) :
    (∃ m1, letimer_start enable m = Run.done () m1 ∧
      m1.letimer_hw.running = enable ∧
      m1.lowest_energy_mode.get EM4 =
        (if !m.letimer_hw.running && enable then m.lowest_energy_mode.get EM4 + 1
         else if m.letimer_hw.running && !enable then m.lowest_energy_mode.get EM4 - 1
         else m.lowest_energy_mode.get EM4) ∧
      m1.lowest_energy_mode.get EM0 = m.lowest_energy_mode.get EM0 ∧
      m1.lowest_energy_mode.get EM1 = m.lowest_energy_mode.get EM1 ∧
      m1.lowest_energy_mode.get EM2 = m.lowest_energy_mode.get EM2 ∧
      m1.lowest_energy_mode.get EM3 = m.lowest_energy_mode.get EM3) ∧
    (∃ m2, letimer_starts enables m = Run.done () m2 ∧
      m2.letimer_hw.running = enables.getLastD m.letimer_hw.running ∧
      m2.lowest_energy_mode.get EM4 = base + (if m2.letimer_hw.running then 1 else 0) ∧
      m2.lowest_energy_mode.get EM0 = m.lowest_energy_mode.get EM0 ∧
      m2.lowest_energy_mode.get EM1 = m.lowest_energy_mode.get EM1 ∧
      m2.lowest_energy_mode.get EM2 = m.lowest_energy_mode.get EM2 ∧
      m2.lowest_energy_mode.get EM3 = m.lowest_energy_mode.get EM3) := by
  refine ⟨?_, letimer_starts_inv enables base hb m hinv⟩
  obtain ⟨m1, h1, hr1, h4, h0, h1', h2, h3⟩ := letimer_start_step enable m base hb hinv
  refine ⟨m1, h1, hr1, ?_, h0, h1', h2, h3⟩
  rw [h4, hinv]
  cases m.letimer_hw.running <;> cases enable <;> simp

/-- Witness for C26: from the reset state the timer is started, started again,
stopped and started. -/
theorem letimer_start_blocks_on_transitions_witness :
    (0 < 9 ∧
      boot.lowest_energy_mode.get EM4 = 0 + (if boot.letimer_hw.running then 1 else 0)) ∧
    ((∃ m1, letimer_start true boot = Run.done () m1 ∧
      m1.letimer_hw.running = true ∧
      m1.lowest_energy_mode.get EM4 =
        (if !boot.letimer_hw.running && true then boot.lowest_energy_mode.get EM4 + 1
         else if boot.letimer_hw.running && !true then boot.lowest_energy_mode.get EM4 - 1
         else boot.lowest_energy_mode.get EM4) ∧
      m1.lowest_energy_mode.get EM0 = boot.lowest_energy_mode.get EM0 ∧
      m1.lowest_energy_mode.get EM1 = boot.lowest_energy_mode.get EM1 ∧
      m1.lowest_energy_mode.get EM2 = boot.lowest_energy_mode.get EM2 ∧
      m1.lowest_energy_mode.get EM3 = boot.lowest_energy_mode.get EM3) ∧
    (∃ m2, letimer_starts [true, true, false, true] boot = Run.done () m2 ∧
      m2.letimer_hw.running = [true, true, false, true].getLastD boot.letimer_hw.running ∧
      m2.lowest_energy_mode.get EM4 = 0 + (if m2.letimer_hw.running then 1 else 0) ∧
      m2.lowest_energy_mode.get EM0 = boot.lowest_energy_mode.get EM0 ∧
      m2.lowest_energy_mode.get EM1 = boot.lowest_energy_mode.get EM1 ∧
      m2.lowest_energy_mode.get EM2 = boot.lowest_energy_mode.get EM2 ∧
      m2.lowest_energy_mode.get EM3 = boot.lowest_energy_mode.get EM3)) :=
  ⟨⟨by decide, by decide⟩,
   letimer_start_blocks_on_transitions true [true, true, false, true] boot 0
     (by decide) (by decide)⟩

theorem land_two_pow_ne_zero (f j : Nat) : (f &&& 2 ^ j != 0) = f.testBit j := by
  rw [Nat.and_two_pow]
  cases f.testBit j <;> simp

theorem land_cleared_two_pow (x e j : Nat) (hj : j < 32)
    (h : (x.testBit j && e.testBit j) = true) :
    ((x &&& ((U32 - 1) ^^^ (x &&& e))) &&& 2 ^ j == 0) = true := by
  rw [Nat.and_two_pow, Nat.testBit_and, testBit_not32, Nat.testBit_and, h]
  simp [hj]

/-- C27: `LETIMER0_IRQHandler` always returns.  It writes `IF & IEN` to the
flag-clear register, so the flags cleared are the ones both pending and
enabled, and for each of compare0, compare1 and underflow that is pending and
enabled it posts the event id configured for that flag, in this order; the new
event mask is the old one OR-ed with exactly those ids.  A flag that is
pending but not enabled, or enabled but not pending, posts nothing and is not
cleared.  Any combination of the three may be served in one interrupt. -/
theorem letimer_irq_posts_pending_enabled (m : Machine) :
    ∃ m1, LETIMER0_IRQHandler m = Run.done () m1 ∧
      m1.event_scheduled =
        ((m.event_scheduled
          ||| (if m.letimer_hw.IF.testBit 0 && m.letimer_hw.IEN.testBit 0
                then m.scheduled_comp0_evt else 0))
          ||| (if m.letimer_hw.IF.testBit 1 && m.letimer_hw.IEN.testBit 1
                then m.scheduled_comp1_evt else 0))
          ||| (if m.letimer_hw.IF.testBit 2 && m.letimer_hw.IEN.testBit 2
                then m.scheduled_uf_evt else 0) ∧
      m1.posted =
        m.posted
          ++ (if m.letimer_hw.IF.testBit 0 && m.letimer_hw.IEN.testBit 0
                then [m.scheduled_comp0_evt] else [])
          ++ (if m.letimer_hw.IF.testBit 1 && m.letimer_hw.IEN.testBit 1
                then [m.scheduled_comp1_evt] else [])
          ++ (if m.letimer_hw.IF.testBit 2 && m.letimer_hw.IEN.testBit 2
                then [m.scheduled_uf_evt] else []) ∧
      m1.letimer_hw.IFC = m.letimer_hw.IFC ++ [m.letimer_hw.IF &&& m.letimer_hw.IEN] ∧
      (∀ i, (m.letimer_hw.IF &&& m.letimer_hw.IEN).testBit i
        = (m.letimer_hw.IF.testBit i && m.letimer_hw.IEN.testBit i)) ∧
      m1.letimer_hw.IF
        = m.letimer_hw.IF &&& ((U32 - 1) ^^^ (m.letimer_hw.IF &&& m.letimer_hw.IEN)) ∧
      m1.letimer_hw.IEN = m.letimer_hw.IEN ∧
      m1.lowest_energy_mode = m.lowest_energy_mode := by
  have e0 : LETIMER_IF_COMP0 = 2 ^ 0 := rfl
  have e1 : LETIMER_IF_COMP1 = 2 ^ 1 := rfl
  have e2 : LETIMER_IF_UF = 2 ^ 2 := rfl
  have hb : ∀ i, (m.letimer_hw.IF &&& m.letimer_hw.IEN).testBit i
      = (m.letimer_hw.IF.testBit i && m.letimer_hw.IEN.testBit i) :=
    fun i => Nat.testBit_and _ _ i
  unfold LETIMER0_IRQHandler
  simp only [e0, e1, e2, land_two_pow_ne_zero, hb]
  cases h0 : (m.letimer_hw.IF.testBit 0 && m.letimer_hw.IEN.testBit 0) <;>
  cases h1 : (m.letimer_hw.IF.testBit 1 && m.letimer_hw.IEN.testBit 1) <;>
  cases h2 : (m.letimer_hw.IF.testBit 2 && m.letimer_hw.IEN.testBit 2) <;>
  simp (disch := first | assumption | decide) only [if_true, if_false, Bool.false_eq_true,
    Run.bind_done, EFM_ASSERT, add_scheduled_event, enable_irq, disable_irq,
    land_cleared_two_pow] <;>
  exact ⟨_, rfl, by simp, by simp, rfl, fun _ => trivial, rfl, rfl, rfl⟩

/-! ## The temperature formula -/

theorem round_half_even_err (q : ℚ) : |((round_half_even q : ℤ) : ℚ) - q| ≤ 1 / 2 := by
  have h1 : (⌊q⌋ : ℚ) ≤ q := Int.floor_le q
  have h2 : q < ⌊q⌋ + 1 := Int.lt_floor_add_one q
  unfold round_half_even
  split_ifs with a b c
  · rw [abs_le]; constructor <;> linarith
  · rw [abs_le]; push_cast; constructor <;> linarith
  · rw [abs_le]; constructor <;> linarith
  · rw [abs_le]; push_cast; constructor <;> linarith

theorem round_half_even_of_near (q : ℚ) (n : ℤ) (h : |q - n| < 1 / 2) :
    round_half_even q = n := by
  rw [abs_lt] at h
  obtain ⟨h1, h2⟩ := h
  have hf : ⌊q⌋ = n ∨ ⌊q⌋ = n - 1 := by
    by_cases hq : (n : ℚ) ≤ q
    · left
      rw [Int.floor_eq_iff]
      constructor <;> linarith
    · right
      rw [Int.floor_eq_iff]
      push_cast
      constructor <;> linarith
  unfold round_half_even
  rcases hf with hf | hf
  · rw [hf, if_pos (by linarith)]
  · rw [hf]
    push_cast
    rw [if_neg (by linarith), if_pos (by linarith)]
    ring

theorem fp_round_err (p : ℕ) (q : ℚ) (E : ℤ) (h : |q| < (2 : ℚ) ^ (E + 1)) :
    |fp_round p q - q| ≤ (2 : ℚ) ^ (E - p) := by
  unfold fp_round
  split_ifs with h0
  · rw [h0]; simp only [sub_self, abs_zero]; positivity
  · have hpos : 0 < |q| := abs_pos.mpr h0
    have hlog : Int.log 2 |q| < E + 1 := by
      rw [← Int.lt_zpow_iff_log_lt (by norm_num) hpos]
      exact_mod_cast h
    have hu : (0 : ℚ) < (2 : ℚ) ^ (Int.log 2 |q| - ((p : ℤ) - 1)) := by positivity
    have herr := round_half_even_err (q / (2 : ℚ) ^ (Int.log 2 |q| - ((p : ℤ) - 1)))
    have hmul : |((round_half_even (q / (2 : ℚ) ^ (Int.log 2 |q| - ((p : ℤ) - 1))) : ℤ) : ℚ)
          * (2 : ℚ) ^ (Int.log 2 |q| - ((p : ℤ) - 1)) - q|
        = |((round_half_even (q / (2 : ℚ) ^ (Int.log 2 |q| - ((p : ℤ) - 1))) : ℤ) : ℚ)
            - q / (2 : ℚ) ^ (Int.log 2 |q| - ((p : ℤ) - 1))|
          * (2 : ℚ) ^ (Int.log 2 |q| - ((p : ℤ) - 1)) := by
      rw [← abs_of_pos hu, ← abs_mul, abs_of_pos hu, sub_mul, div_mul_cancel₀ _ (ne_of_gt hu)]
    rw [hmul]
    have hle : (2 : ℚ) ^ (Int.log 2 |q| - ((p : ℤ) - 1)) ≤ (2 : ℚ) ^ (E - p + 1) := by
      apply zpow_le_zpow_right₀ (by norm_num)
      omega
    have h2 : (2 : ℚ) ^ (E - p + 1) = (2 : ℚ) ^ (E - (p : ℤ)) * 2 := by
      rw [zpow_add₀ (by norm_num), zpow_one]
    calc _ ≤ 1 / 2 * (2 : ℚ) ^ (Int.log 2 |q| - ((p : ℤ) - 1)) :=
          mul_le_mul_of_nonneg_right herr (le_of_lt hu)
      _ ≤ 1 / 2 * ((2 : ℚ) ^ (E - (p : ℤ)) * 2) := by
          rw [← h2]; exact mul_le_mul_of_nonneg_left hle (by norm_num)
      _ = (2 : ℚ) ^ (E - (p : ℤ)) := by ring

theorem fp_round_eval (p : ℕ) (q : ℚ) (e n : ℤ)
    (hlo : (2 : ℚ) ^ e ≤ |q|) (hhi : |q| < (2 : ℚ) ^ (e + 1))
    (hn : |q / (2 : ℚ) ^ (e - ((p : ℤ) - 1)) - n| < 1 / 2) :
    fp_round p q = n * (2 : ℚ) ^ (e - ((p : ℤ) - 1)) := by
  have hpos : 0 < |q| := lt_of_lt_of_le (by positivity) hlo
  have h0 : q ≠ 0 := abs_pos.mp hpos
  have hlog : Int.log 2 |q| = e := by
    apply le_antisymm
    · have : Int.log 2 |q| < e + 1 := by
        rw [← Int.lt_zpow_iff_log_lt (by norm_num) hpos]
        exact_mod_cast hhi
      omega
    · rw [← Int.zpow_le_iff_le_log (by norm_num) hpos]
      exact_mod_cast hlo
  unfold fp_round
  rw [if_neg h0, hlog, round_half_even_of_near _ n hn]

theorem abs_mul_sub_le (x y x0 y0 ex ey X Y : ℚ)
    (hx : |x - x0| ≤ ex) (hy : |y - y0| ≤ ey) (hX : |x0| ≤ X) (hY : |y| ≤ Y) :
    |x * y - x0 * y0| ≤ ex * Y + X * ey := by
  have h : x * y - x0 * y0 = (x - x0) * y + x0 * (y - y0) := by ring
  rw [h]
  have hex : 0 ≤ ex := le_trans (abs_nonneg _) hx
  have hXn : 0 ≤ X := le_trans (abs_nonneg _) hX
  calc |(x - x0) * y + x0 * (y - y0)| ≤ |(x - x0) * y| + |x0 * (y - y0)| := abs_add _ _
    _ = |x - x0| * |y| + |x0| * |y - y0| := by rw [abs_mul, abs_mul]
    _ ≤ ex * Y + X * ey :=
        add_le_add (mul_le_mul hx hY (abs_nonneg _) hex) (mul_le_mul hX hy (abs_nonneg _) hXn)

theorem to_double_65536 : to_double 65536.0 = 65536 := by
  have h := fp_round_eval 53 65536.0 16 4503599627370496 (by norm_num) (by norm_num)
    (by norm_num)
  unfold to_double
  rw [h]; norm_num

theorem to_double_9 : to_double 9.0 = 9 := by
  have h := fp_round_eval 53 9.0 3 5066549580791808 (by norm_num [le_abs]) (by norm_num [abs_lt]) (by norm_num [abs_lt])
  unfold to_double
  rw [h]; norm_num

theorem to_double_5 : to_double 5.0 = 5 := by
  have h := fp_round_eval 53 5.0 2 5629499534213120 (by norm_num [le_abs]) (by norm_num [abs_lt]) (by norm_num [abs_lt])
  unfold to_double
  rw [h]; norm_num

theorem to_double_46_85 : to_double 46.85 = ((6593551329447117 : ℚ) / 140737488355328) := by
  have h := fp_round_eval 53 46.85 (5) (6593551329447117) (by norm_num [le_abs]) (by norm_num [abs_lt]) (by norm_num [abs_lt])
  unfold to_double
  rw [h]; norm_num

theorem si7021_zero_step1 : to_double (0 - ((6593551329447117 : ℚ) / 140737488355328)) = ((-6593551329447117 : ℚ) / 140737488355328) := by
  have h := fp_round_eval 53 (0 - ((6593551329447117 : ℚ) / 140737488355328)) (5) (-6593551329447117) (by norm_num [le_abs]) (by norm_num [abs_lt]) (by norm_num [abs_lt])
  unfold to_double
  rw [h]; norm_num

theorem si7021_zero_celsius : to_float ((-6593551329447117 : ℚ) / 140737488355328) = ((-6140723 : ℚ) / 131072) := by
  have h := fp_round_eval 24 ((-6593551329447117 : ℚ) / 140737488355328) (5) (-12281446) (by norm_num [le_abs]) (by norm_num [abs_lt]) (by norm_num [abs_lt])
  unfold to_float
  rw [h]; norm_num

theorem to_double_9_5 : to_double ((9 : ℚ) / 5) = ((8106479329266893 : ℚ) / 4503599627370496) := by
  have h := fp_round_eval 53 ((9 : ℚ) / 5) (0) (8106479329266893) (by norm_num [le_abs]) (by norm_num [abs_lt]) (by norm_num [abs_lt])
  unfold to_double
  rw [h]; norm_num

theorem si7021_zero_step2 : to_double (((8106479329266893 : ℚ) / 4503599627370496) * ((-6140723 : ℚ) / 131072)) = ((-5934196003228877 : ℚ) / 70368744177664) := by
  have h := fp_round_eval 53 (((8106479329266893 : ℚ) / 4503599627370496) * ((-6140723 : ℚ) / 131072)) (6) (-5934196003228877) (by norm_num [le_abs]) (by norm_num [abs_lt]) (by norm_num [abs_lt])
  unfold to_double
  rw [h]; norm_num

theorem si7021_zero_step3 : to_double (((-5934196003228877 : ℚ) / 70368744177664) + 32) = ((-3682396189543629 : ℚ) / 70368744177664) := by
  have h := fp_round_eval 53 (((-5934196003228877 : ℚ) / 70368744177664) + 32) (5) (-7364792379087258) (by norm_num [le_abs]) (by norm_num [abs_lt]) (by norm_num [abs_lt])
  unfold to_double
  rw [h]; norm_num

theorem si7021_zero_step4 : to_float ((-3682396189543629 : ℚ) / 70368744177664) = ((-13717995 : ℚ) / 262144) := by
  have h := fp_round_eval 24 ((-3682396189543629 : ℚ) / 70368744177664) (5) (-13717995) (by norm_num [le_abs]) (by norm_num [abs_lt]) (by norm_num [abs_lt])
  unfold to_float
  rw [h]; norm_num

theorem to_double_zero : to_double 0 = 0 := by
  unfold to_double fp_round
  rw [if_pos rfl]

theorem si7021_i2c_data_zero (m : Machine) (h : m.si7021_data = 0) :
    si7021_i2c_data m = -13717995 / 262144 := by
  unfold si7021_i2c_data
  dsimp only
  rw [h, Nat.cast_zero, mul_zero, to_double_zero, to_double_65536, zero_div, to_double_zero,
    to_double_46_85, si7021_zero_step1, si7021_zero_celsius, to_double_9, to_double_5,
    to_double_9_5, si7021_zero_step2, si7021_zero_step3, si7021_zero_step4]

theorem si7021_i2c_data_error (m : Machine) (h : m.si7021_data < 65536) :
    |si7021_i2c_data m - ((175.72 * (m.si7021_data : ℚ) / 65536 - 46.85) * 9 / 5 + 32)|
      ≤ 1 / 32768 := by
  have hr0 : (0 : ℚ) ≤ (m.si7021_data : ℚ) := Nat.cast_nonneg _
  have hr1 : (m.si7021_data : ℚ) ≤ 65535 := by
    have : m.si7021_data ≤ 65535 := by omega
    exact_mod_cast this
  unfold si7021_i2c_data
  dsimp only
  rw [to_double_65536, to_double_9, to_double_5]
  generalize (m.si7021_data : ℚ) = r at hr0 hr1 ⊢
  -- the constant 175.72
  have ha := fp_round_err 53 175.72 7 (by norm_num [abs_lt])
  have ea : to_double 175.72 = fp_round 53 175.72 := rfl
  rw [← ea] at ha
  generalize to_double 175.72 = a at ha ⊢
  norm_num at ha
  rw [abs_le] at ha
  -- the product
  have hp1 : a * r ≤ (175.72 + 1 / 70368744177664) * r :=
    mul_le_mul_of_nonneg_right (by linarith) hr0
  have hp2 : (175.72 - 1 / 70368744177664) * r ≤ a * r :=
    mul_le_mul_of_nonneg_right (by linarith) hr0
  have h1 := fp_round_err 53 (a * r) 23 (by rw [abs_lt]; norm_num; constructor <;> nlinarith)
  have e1 : to_double (a * r) = fp_round 53 (a * r) := rfl
  rw [← e1] at h1
  generalize to_double (a * r) = t1 at h1 ⊢
  norm_num at h1
  rw [abs_le] at h1
  -- the quotient
  have h2 := fp_round_err 53 (t1 / 65536) 7 (by
    rw [abs_lt]; norm_num; constructor <;> linarith)
  have e2 : to_double (t1 / 65536) = fp_round 53 (t1 / 65536) := rfl
  rw [← e2] at h2
  generalize to_double (t1 / 65536) = t2 at h2 ⊢
  norm_num at h2
  rw [abs_le] at h2
  -- the constant 46.85
  have hc := fp_round_err 53 46.85 5 (by norm_num [abs_lt])
  have ec : to_double 46.85 = fp_round 53 46.85 := rfl
  rw [← ec] at hc
  generalize to_double 46.85 = c at hc ⊢
  norm_num at hc
  rw [abs_le] at hc
  -- the difference
  have h3 := fp_round_err 53 (t2 - c) 7 (by
    rw [abs_lt]; norm_num; constructor <;> linarith)
  have e3 : to_double (t2 - c) = fp_round 53 (t2 - c) := rfl
  rw [← e3] at h3
  generalize to_double (t2 - c) = t3 at h3 ⊢
  norm_num at h3
  rw [abs_le] at h3
  -- Celsius, a float
  have h4 := fp_round_err 24 t3 7 (by rw [abs_lt]; norm_num; constructor <;> linarith)
  have e4 : to_float t3 = fp_round 24 t3 := rfl
  rw [← e4] at h4
  generalize to_float t3 = C at h4 ⊢
  norm_num at h4
  rw [abs_le] at h4
  -- the constant 9.0 / 5.0
  have hk := fp_round_err 53 ((9 : ℚ) / 5) 0 (by norm_num [abs_lt])
  have ek : to_double ((9 : ℚ) / 5) = fp_round 53 ((9 : ℚ) / 5) := rfl
  rw [← ek] at hk
  generalize to_double ((9 : ℚ) / 5) = k at hk ⊢
  norm_num at hk
  -- the product with Celsius
  have hC : |C - (175.72 * r / 65536 - 46.85)| ≤ 1 / 131072 + 1 / 4398046511104 := by
    rw [abs_le]; constructor <;> linarith
  have hCa : |C| ≤ 129 := by rw [abs_le]; constructor <;> linarith
  have hkC := abs_mul_sub_le k C ((9 : ℚ) / 5) (175.72 * r / 65536 - 46.85)
    (1 / 9007199254740992) (1 / 131072 + 1 / 4398046511104) ((9 : ℚ) / 5) 129
    hk hC (by norm_num [abs_le]) hCa
  rw [abs_le] at hkC
  have h5 := fp_round_err 53 (k * C) 8 (by rw [abs_lt]; norm_num; constructor <;> linarith)
  have e5 : to_double (k * C) = fp_round 53 (k * C) := rfl
  rw [← e5] at h5
  generalize to_double (k * C) = u1 at h5 ⊢
  norm_num at h5
  rw [abs_le] at h5
  -- the sum
  have h6 := fp_round_err 53 (u1 + 32) 8 (by rw [abs_lt]; norm_num; constructor <;> linarith)
  have e6 : to_double (u1 + 32) = fp_round 53 (u1 + 32) := rfl
  rw [← e6] at h6
  generalize to_double (u1 + 32) = u2 at h6 ⊢
  norm_num at h6
  rw [abs_le] at h6
  -- the value returned, a float
  have h7 := fp_round_err 24 u2 8 (by rw [abs_lt]; norm_num; constructor <;> linarith)
  have e7 : to_float u2 = fp_round 24 u2 := rfl
  rw [← e7] at h7
  generalize to_float u2 = F at h7 ⊢
  norm_num at h7
  rw [abs_le] at h7
  rw [abs_le]
  constructor <;> linarith

/-- C29 (counterexample): for the raw reading 0 the function returns the
`float` −13717995 / 262144, which is −52.329998016357421875: it is not the
value of the formula in exact arithmetic, and neither of the two is −52.93,
since 32 − 46.85 × 9/5 is −52.33. -/
theorem si7021_i2c_data_of_zero_reading :
    si7021_i2c_data boot = -13717995 / 262144 ∧
    si7021_i2c_data boot ≠ si7021_fahrenheit_described 0 ∧
    si7021_i2c_data boot ≠ -52.93 ∧
    si7021_fahrenheit_described 0 = -52.33 ∧
    (32 - 46.85 * 9 / 5 : ℚ) ≠ -52.93 := by
  have h := si7021_i2c_data_zero boot rfl
  refine ⟨h, ?_, ?_, ?_, ?_⟩
  · rw [h]; unfold si7021_fahrenheit_described; norm_num
  · rw [h]; norm_num
  · unfold si7021_fahrenheit_described; norm_num
  · norm_num

/-- C29 (amended): for every raw 16-bit reading `r` held in `si7021_data`,
`si7021_i2c_data` returns the formula (175.72 × r / 65536 − 46.85) × 9/5 + 32
computed in `double` with the Celsius value and the result rounded to `float`,
which lies within 2⁻¹⁵ of the value of the formula in exact arithmetic; for
the raw reading 0 the exact value is 32 − 46.85 × 9/5, which is −52.33, and
the function returns the `float` −13717995 / 262144. -/
theorem si7021_i2c_data_near_formula (m : Machine) (h : m.si7021_data < 65536) :
    si7021_i2c_data m
      = to_float (to_double (to_double (to_double (to_double 9.0 / to_double 5.0)
          * to_float (to_double (to_double (to_double (to_double 175.72 * (m.si7021_data : ℚ))
              / to_double 65536.0) - to_double 46.85))) + 32)) ∧
    |si7021_i2c_data m - si7021_fahrenheit_described m.si7021_data| ≤ 1 / 32768 ∧
    si7021_fahrenheit_described 0 = 32 - 46.85 * 9 / 5 ∧
    si7021_fahrenheit_described 0 = -52.33 ∧
    si7021_i2c_data { m with si7021_data := 0 } = -13717995 / 262144 := by
  refine ⟨rfl, ?_, ?_, ?_, si7021_i2c_data_zero _ rfl⟩
  · have e := si7021_i2c_data_error m h
    unfold si7021_fahrenheit_described
    exact e
  · unfold si7021_fahrenheit_described; norm_num
  · unfold si7021_fahrenheit_described; norm_num

theorem si7021_i2c_data_near_formula_witness :
    (26000 : Nat) < 65536 ∧
    |si7021_i2c_data { boot with si7021_data := 26000 }
        - si7021_fahrenheit_described (26000 : Nat)| ≤ 1 / 32768 :=
  ⟨by decide, (si7021_i2c_data_near_formula { boot with si7021_data := 26000 } (by decide)).2.1⟩

/-! ## Occupancy of the ring buffer -/

/-- C30: with capacity 64 and both indices below 64, `ble_circ_space` and the
occupied length computed in `ble_circ_pop` agree with
(write − read) mod capacity only while the write index is not below the read
index.  Once the write index has wrapped below the read index,
`ble_circ_space` returns 64 more than the free space and `ble_circ_pop`
computes 192 more than the occupied length. -/
theorem ble_circ_space_after_wrap (m : Machine)
    (hs : m.ble_cbuf.size = 64) (hr : m.ble_cbuf.read_ptr < 64) (hw : m.ble_cbuf.write_ptr < 64) :
    (m.ble_cbuf.write_ptr + 64 - m.ble_cbuf.read_ptr) % 64 =
      (if m.ble_cbuf.read_ptr ≤ m.ble_cbuf.write_ptr
        then m.ble_cbuf.write_ptr - m.ble_cbuf.read_ptr
        else 64 - (m.ble_cbuf.read_ptr - m.ble_cbuf.write_ptr)) ∧
    ble_circ_space m =
      (if m.ble_cbuf.read_ptr ≤ m.ble_cbuf.write_ptr
        then 64 - (m.ble_cbuf.write_ptr + 64 - m.ble_cbuf.read_ptr) % 64
        else 64 - (m.ble_cbuf.write_ptr + 64 - m.ble_cbuf.read_ptr) % 64 + 64) ∧
    (sub32 m.ble_cbuf.size (ble_circ_space m)) % U8 =
      (if m.ble_cbuf.read_ptr ≤ m.ble_cbuf.write_ptr
        then (m.ble_cbuf.write_ptr + 64 - m.ble_cbuf.read_ptr) % 64
        else (m.ble_cbuf.write_ptr + 64 - m.ble_cbuf.read_ptr) % 64 + 192) := by
  unfold ble_circ_space sub32 U32 U8
  rw [hs]
  split_ifs <;> omega

/-- The state `circular_buff_test` is in after its third push-or-pop: read
index 51, write index 13, 26 bytes queued.  `ble_circ_space` returns 102 where
38 bytes are free, and `ble_circ_pop` computes 218 occupied bytes. -/
theorem ble_circ_space_after_wrap_witness :
    (ble_wrapped.ble_cbuf.size = 64 ∧ ble_wrapped.ble_cbuf.read_ptr < 64 ∧
      ble_wrapped.ble_cbuf.write_ptr < 64) ∧
    ((ble_wrapped.ble_cbuf.write_ptr + 64 - ble_wrapped.ble_cbuf.read_ptr) % 64 =
      (if ble_wrapped.ble_cbuf.read_ptr ≤ ble_wrapped.ble_cbuf.write_ptr
        then ble_wrapped.ble_cbuf.write_ptr - ble_wrapped.ble_cbuf.read_ptr
        else 64 - (ble_wrapped.ble_cbuf.read_ptr - ble_wrapped.ble_cbuf.write_ptr)) ∧
    ble_circ_space ble_wrapped =
      (if ble_wrapped.ble_cbuf.read_ptr ≤ ble_wrapped.ble_cbuf.write_ptr
        then 64 - (ble_wrapped.ble_cbuf.write_ptr + 64 - ble_wrapped.ble_cbuf.read_ptr) % 64
        else 64 - (ble_wrapped.ble_cbuf.write_ptr + 64 - ble_wrapped.ble_cbuf.read_ptr) % 64
          + 64) ∧
    (sub32 ble_wrapped.ble_cbuf.size (ble_circ_space ble_wrapped)) % U8 =
      (if ble_wrapped.ble_cbuf.read_ptr ≤ ble_wrapped.ble_cbuf.write_ptr
        then (ble_wrapped.ble_cbuf.write_ptr + 64 - ble_wrapped.ble_cbuf.read_ptr) % 64
        else (ble_wrapped.ble_cbuf.write_ptr + 64 - ble_wrapped.ble_cbuf.read_ptr) % 64
          + 192)) ∧
    (ble_wrapped.ble_cbuf.read_ptr = 51 ∧ ble_wrapped.ble_cbuf.write_ptr = 13 ∧
      (ble_wrapped.ble_cbuf.write_ptr + 64 - ble_wrapped.ble_cbuf.read_ptr) % 64 = 26 ∧
      ble_circ_space ble_wrapped = 102 ∧
      (sub32 ble_wrapped.ble_cbuf.size (ble_circ_space ble_wrapped)) % U8 = 218 ∧
      ble_circ_push circ_test_str1 (ble_circ_init boot)
        = Run.done () (ble_circ_push circ_test_str1 (ble_circ_init boot)).machine ∧
      ble_circ_pop CIRC_TEST (ble_circ_push circ_test_str1 (ble_circ_init boot)).machine
        = Run.done false
            (ble_circ_pop CIRC_TEST
              (ble_circ_push circ_test_str1 (ble_circ_init boot)).machine).machine ∧
      ble_circ_push circ_test_str2
          (ble_circ_pop CIRC_TEST
            (ble_circ_push circ_test_str1 (ble_circ_init boot)).machine).machine
        = Run.done () ble_wrapped) :=
  ⟨⟨by decide, by decide, by decide⟩,
   ble_circ_space_after_wrap ble_wrapped (by decide) (by decide) (by decide),
   ⟨by decide, by decide, by decide, by decide, by decide, by decide, by decide, by decide⟩⟩

/-! ## Frames: what the serial driver does to the scheduler and to the mode -/

theorem events_evolve_refl (m : Machine) : events_evolve m m :=
  ⟨rfl, rfl, rfl, fun _ _ h _ => h, fun _ h => Or.inl h⟩

theorem events_evolve_trans (a b c : Machine) (h1 : events_evolve a b) (h2 : events_evolve b c) :
    events_evolve a c := by
  obtain ⟨a1, a2, a3, a4, a5⟩ := h1
  obtain ⟨b1, b2, b3, b4, b5⟩ := h2
  refine ⟨b1.trans a1, b2.trans a2, b3.trans a3, fun i hi h hr => ?_, fun i h => ?_⟩
  · exact b4 i hi (a4 i hi h hr) (by rw [a2]; exact hr)
  · rcases b5 i h with h | h | h
    · exact a5 i h
    · rw [a2] at h; exact Or.inr (Or.inl h)
    · rw [a3] at h; exact Or.inr (Or.inr h)

theorem events_evolve_of_eq (m m1 : Machine) (h1 : m1.is_celsius = m.is_celsius)
    (h2 : m1.rx_done_evt = m.rx_done_evt) (h3 : m1.tx_done_evt = m.tx_done_evt)
    (h4 : m1.event_scheduled = m.event_scheduled) : events_evolve m m1 :=
  ⟨h1, h2, h3, fun _ _ h _ => by rw [h4]; exact h, fun _ h => Or.inl (by rw [← h4]; exact h)⟩

theorem Run.bind_rel {α β : Type} (R : Machine → Machine → Prop)
    (htrans : ∀ a b c, R a b → R b c → R a c) (m : Machine) (r : Run α)
    (f : α → Machine → Run β) (hr : R m r.machine) (hf : ∀ a m1, R m1 (f a m1).machine) :
    R m (r.bind f).machine := by
  cases r with
  | done a m1 => rw [Run.bind_done]; exact htrans _ _ _ hr (hf a m1)
  | halted m1 => rw [Run.bind_halted]; exact hr

theorem EFM_ASSERT_machine (b : Bool) (m : Machine) : (EFM_ASSERT b m).machine = m := by
  cases b <;> rfl

theorem sleep_block_mode_footprint (d : Nat) (m : Machine) :
    ∃ i l, (sleep_block_mode d m).machine = { m with irq_enabled := i, lowest_energy_mode := l } := by
  unfold sleep_block_mode EFM_ASSERT disable_irq enable_irq
  by_cases hd : d < MAX_ENERGY_MODES
  · simp only [hd, if_true]
    split_ifs
    · exact ⟨_, _, rfl⟩
    · exact ⟨_, _, rfl⟩
  · simp only [hd, if_false]
    split_ifs
    · exact ⟨_, _, rfl⟩
    · exact ⟨_, _, rfl⟩

theorem sleep_unblock_mode_footprint (d : Nat) (m : Machine) :
    ∃ i l, (sleep_unblock_mode d m).machine
      = { m with irq_enabled := i, lowest_energy_mode := l } := by
  unfold sleep_unblock_mode EFM_ASSERT disable_irq enable_irq
  by_cases hd : d < MAX_ENERGY_MODES
  · simp only [hd, if_true]
    split_ifs
    · exact ⟨_, _, rfl⟩
    · exact ⟨_, _, rfl⟩
  · simp only [hd, if_false]
    split_ifs
    · exact ⟨_, _, rfl⟩
    · exact ⟨_, _, rfl⟩

theorem events_kept_refl (m : Machine) : events_kept m m := ⟨rfl, rfl, rfl, rfl⟩

theorem events_kept_trans (a b c : Machine) (h1 : events_kept a b) (h2 : events_kept b c) :
    events_kept a c :=
  ⟨h2.1.trans h1.1, h2.2.1.trans h1.2.1, h2.2.2.1.trans h1.2.2.1, h2.2.2.2.trans h1.2.2.2⟩

theorem events_kept_evolve (m m1 : Machine) (h : events_kept m m1) : events_evolve m m1 :=
  events_evolve_of_eq m m1 h.2.1 h.2.2.1 h.2.2.2 h.1

theorem EFM_ASSERT_kept (b : Bool) (m : Machine) : events_kept m (EFM_ASSERT b m).machine := by
  rw [EFM_ASSERT_machine]; exact events_kept_refl m

theorem sleep_block_mode_kept (d : Nat) (m : Machine) :
    events_kept m (sleep_block_mode d m).machine := by
  obtain ⟨i, l, h⟩ := sleep_block_mode_footprint d m
  rw [h]; exact ⟨rfl, rfl, rfl, rfl⟩

theorem sleep_unblock_mode_kept (d : Nat) (m : Machine) :
    events_kept m (sleep_unblock_mode d m).machine := by
  obtain ⟨i, l, h⟩ := sleep_unblock_mode_footprint d m
  rw [h]; exact ⟨rfl, rfl, rfl, rfl⟩

theorem leuart_start_kept (string : List Nat) (n : Nat) (m : Machine) :
    events_kept m (leuart_start string n m).machine := by
  unfold leuart_start
  refine Run.bind_rel events_kept events_kept_trans _ _ _ (sleep_block_mode_kept _ _)
    (fun _ m1 => ?_)
  exact ⟨rfl, rfl, rfl, rfl⟩

theorem leuart_rxsetup_kept (m : Machine) : events_kept m (leuart_rxsetup m).machine := by
  unfold leuart_rxsetup
  refine Run.bind_rel events_kept events_kept_trans _ _ _ (sleep_block_mode_kept _ _)
    (fun _ m1 => ?_)
  exact ⟨rfl, rfl, rfl, rfl⟩

theorem ble_circ_push_kept (string : List Nat) (m : Machine) :
    events_kept m (ble_circ_push string m).machine := by
  unfold ble_circ_push
  simp only []
  refine Run.bind_rel events_kept events_kept_trans _ _ _ ?_ (fun _ m0 => ?_)
  · split_ifs
    · exact EFM_ASSERT_kept _ _
    · exact events_kept_refl _
  · exact ⟨rfl, rfl, rfl, rfl⟩

theorem ble_circ_pop_kept (test : Bool) (m : Machine) :
    events_kept m (ble_circ_pop test m).machine := by
  unfold ble_circ_pop
  simp only []
  split_ifs
  · exact events_kept_refl _
  · exact events_kept_refl _
  · refine Run.bind_rel events_kept events_kept_trans m (EFM_ASSERT false m) _
      (EFM_ASSERT_kept _ _) (fun _ m0 => ?_)
    refine ⟨?_, ?_, ?_, ?_⟩ <;> simp only [Run.machine, update_circ_readindex]
  · refine Run.bind_rel events_kept events_kept_trans m (EFM_ASSERT false m) _
      (EFM_ASSERT_kept _ _) (fun _ m0 => ?_)
    refine Run.bind_rel events_kept events_kept_trans m0 _ _ ?_
      (fun _ m2 => events_kept_refl _)
    refine events_kept_trans _ _ _ ?_ (leuart_start_kept _ _ _)
    refine ⟨?_, ?_, ?_, ?_⟩ <;> simp only [update_circ_readindex]
  · refine Run.bind_rel events_kept events_kept_trans m (Run.done () m) _
      (events_kept_refl _) (fun _ m0 => ?_)
    refine ⟨?_, ?_, ?_, ?_⟩ <;> simp only [Run.machine, update_circ_readindex]
  · refine Run.bind_rel events_kept events_kept_trans m (Run.done () m) _
      (events_kept_refl _) (fun _ m0 => ?_)
    refine Run.bind_rel events_kept events_kept_trans m0 _ _ ?_
      (fun _ m2 => events_kept_refl _)
    refine events_kept_trans _ _ _ ?_ (leuart_start_kept _ _ _)
    refine ⟨?_, ?_, ?_, ?_⟩ <;> simp only [update_circ_readindex]

theorem ble_write_kept (string : List Nat) (m : Machine) :
    events_kept m (ble_write string m).machine := by
  unfold ble_write
  refine Run.bind_rel events_kept events_kept_trans _ _ _ (ble_circ_push_kept _ _)
    (fun _ m1 => ?_)
  refine Run.bind_rel events_kept events_kept_trans _ _ _ (ble_circ_pop_kept _ _)
    (fun _ m2 => ?_)
  exact events_kept_refl _

theorem i2c_start_kept (param : I2C_PAYLOAD_INIT) (bus_idle : Bool) (m : Machine) :
    events_kept m (i2c_start param bus_idle m).machine := by
  unfold i2c_start
  refine Run.bind_rel events_kept events_kept_trans _ _ _ (EFM_ASSERT_kept _ _) (fun _ m0 => ?_)
  refine Run.bind_rel events_kept events_kept_trans _ _ _ (sleep_block_mode_kept _ _)
    (fun _ m1 => ?_)
  exact ⟨rfl, rfl, rfl, rfl⟩

theorem letimer_start_kept (enable : Bool) (m : Machine) :
    events_kept m (letimer_start enable m).machine := by
  unfold letimer_start
  refine Run.bind_rel events_kept events_kept_trans _ _ _ ?_ (fun _ m1 => ?_)
  · split_ifs
    · exact sleep_block_mode_kept _ _
    · exact events_kept_refl _
  refine Run.bind_rel events_kept events_kept_trans _ _ _ ?_ (fun _ m2 => ?_)
  · split_ifs
    · exact sleep_unblock_mode_kept _ _
    · exact events_kept_refl _
  exact ⟨rfl, rfl, rfl, rfl⟩

theorem test_str_fill_kept (k n c : Nat) (m : Machine) : events_kept m (test_str_fill k n c m) :=
  ⟨rfl, rfl, rfl, rfl⟩

theorem test_str_check_kept (k n : Nat) (m : Machine) :
    events_kept m (test_str_check k n m).machine := by
  unfold test_str_check
  exact EFM_ASSERT_kept _ _

theorem circular_buff_test_kept (m : Machine) :
    events_kept m (circular_buff_test m).machine := by
  unfold circular_buff_test
  simp only []
  refine events_kept_trans m
    (test_str_fill 2 5 35 (test_str_fill 1 25 20 (test_str_fill 0 50 1
      { m with ble_cbuf := { m.ble_cbuf with read_ptr := 0, write_ptr := 0 } }))) _
    ⟨rfl, rfl, rfl, rfl⟩ ?_
  refine Run.bind_rel events_kept events_kept_trans _ _ _ (ble_circ_push_kept _ _) (fun _ m4 => ?_)
  refine Run.bind_rel events_kept events_kept_trans _ _ _ (ble_circ_pop_kept _ _) (fun _ m5 => ?_)
  refine Run.bind_rel events_kept events_kept_trans _ _ _ (EFM_ASSERT_kept _ _) (fun _ m6 => ?_)
  refine Run.bind_rel events_kept events_kept_trans _ _ _ (test_str_check_kept _ _ _) (fun _ m7 => ?_)
  refine Run.bind_rel events_kept events_kept_trans _ _ _ (ble_circ_push_kept _ _) (fun _ m8 => ?_)
  refine Run.bind_rel events_kept events_kept_trans _ _ _ (ble_circ_push_kept _ _) (fun _ m9 => ?_)
  refine Run.bind_rel events_kept events_kept_trans _ _ _ (ble_circ_pop_kept _ _) (fun _ m10 => ?_)
  refine Run.bind_rel events_kept events_kept_trans _ _ _ (EFM_ASSERT_kept _ _) (fun _ m11 => ?_)
  refine Run.bind_rel events_kept events_kept_trans _ _ _ (test_str_check_kept _ _ _) (fun _ m12 => ?_)
  refine Run.bind_rel events_kept events_kept_trans _ _ _ (ble_circ_pop_kept _ _) (fun _ m13 => ?_)
  refine Run.bind_rel events_kept events_kept_trans _ _ _ (EFM_ASSERT_kept _ _) (fun _ m14 => ?_)
  refine Run.bind_rel events_kept events_kept_trans _ _ _ (test_str_check_kept _ _ _) (fun _ m15 => ?_)
  refine Run.bind_rel events_kept events_kept_trans _ _ _ (ble_circ_pop_kept _ _) (fun _ m16 => ?_)
  refine Run.bind_rel events_kept events_kept_trans _ _ _ (EFM_ASSERT_kept _ _) (fun _ m17 => ?_)
  exact ble_write_kept _ _

theorem sleep_block_mode_evolve (d : Nat) (m : Machine) :
    events_evolve m (sleep_block_mode d m).machine :=
  events_kept_evolve _ _ (sleep_block_mode_kept d m)


theorem sleep_unblock_mode_evolve (d : Nat) (m : Machine) :
    events_evolve m (sleep_unblock_mode d m).machine :=
  events_kept_evolve _ _ (sleep_unblock_mode_kept d m)


theorem add_rx_done_evolve (m : Machine) :
    events_evolve m (add_scheduled_event m.rx_done_evt m) := by
  refine ⟨rfl, rfl, rfl, fun i _ h _ => ?_, fun i h => ?_⟩
  · rw [add_scheduled_event_mask, Nat.testBit_or, h]; rfl
  · rw [add_scheduled_event_mask, Nat.testBit_or, Bool.or_eq_true] at h
    rcases h with h | h
    · exact Or.inl h
    · exact Or.inr (Or.inl h)

theorem add_tx_done_evolve (m : Machine) :
    events_evolve m (add_scheduled_event m.tx_done_evt m) := by
  refine ⟨rfl, rfl, rfl, fun i _ h _ => ?_, fun i h => ?_⟩
  · rw [add_scheduled_event_mask, Nat.testBit_or, h]; rfl
  · rw [add_scheduled_event_mask, Nat.testBit_or, Bool.or_eq_true] at h
    rcases h with h | h
    · exact Or.inl h
    · exact Or.inr (Or.inr h)

theorem remove_rx_done_evolve (m : Machine) :
    events_evolve m (remove_scheduled_event m.rx_done_evt m) := by
  refine ⟨rfl, rfl, rfl, fun i hi h hr => ?_, fun i h => ?_⟩
  · rw [remove_scheduled_event_mask, Nat.testBit_and, testBit_not32, h, hr]
    simp [hi]
  · rw [remove_scheduled_event_mask, Nat.testBit_and, Bool.and_eq_true] at h
    exact Or.inl h.1

theorem leuart_start_evolve (string : List Nat) (n : Nat) (m : Machine) :
    events_evolve m (leuart_start string n m).machine :=
  events_kept_evolve _ _ (leuart_start_kept string n m)


theorem leuart_rxsetup_evolve (m : Machine) : events_evolve m (leuart_rxsetup m).machine :=
  events_kept_evolve _ _ (leuart_rxsetup_kept m)


theorem rx_message_store_evolve (i v : Nat) (m : Machine) :
    events_evolve m (rx_message_store i v m) := by
  unfold rx_message_store
  split_ifs <;> exact events_evolve_of_eq _ _ rfl rfl rfl rfl

theorem leuart_rxdatav_evolve (rxdata : Nat) (m : Machine) :
    events_evolve m (leuart_rxdatav rxdata m).machine := by
  unfold leuart_rxdatav
  cases m.leuart_payload.rx_state with
  | WAIT => rw [EFM_ASSERT_machine]; exact events_evolve_refl m
  | RECIEVE_DATA =>
    refine events_evolve_trans _ _ _ (rx_message_store_evolve m.leuart_payload.rx_index rxdata m) ?_
    exact events_evolve_of_eq _ _ rfl rfl rfl rfl
  | RESET =>
    refine events_evolve_trans _ _ _ ?_ (add_rx_done_evolve _)
    exact events_evolve_of_eq _ _ rfl rfl rfl rfl
  | invalid v => rw [EFM_ASSERT_machine]; exact events_evolve_refl m

theorem leuart_sigf_evolve (m : Machine) : events_evolve m (leuart_sigf m).machine := by
  unfold leuart_sigf
  cases hs : m.leuart_payload.rx_state with
  | WAIT => simp only [hs, EFM_ASSERT_machine]; exact events_evolve_of_eq _ _ rfl rfl rfl rfl
  | RECIEVE_DATA =>
    simp only [hs]
    have h1 := rx_message_store_evolve m.leuart_payload.rx_index 0
      { m with
        leuart_hw := { m.leuart_hw with if_sigf := false },
        leuart_payload := { m.leuart_payload with rx_state := LEUART_RXStates.RESET } }
    refine events_evolve_trans _ _ _
      (events_evolve_trans _ _ _ (events_evolve_of_eq m _ rfl rfl rfl rfl) h1) ?_
    exact events_evolve_of_eq _ _ rfl rfl rfl rfl
  | RESET => simp only [hs, EFM_ASSERT_machine]; exact events_evolve_of_eq _ _ rfl rfl rfl rfl
  | invalid v =>
    simp only [hs, EFM_ASSERT_machine]; exact events_evolve_of_eq _ _ rfl rfl rfl rfl

theorem leuart_startf_evolve (m : Machine) : events_evolve m (leuart_startf m).machine := by
  unfold leuart_startf
  cases hs : m.leuart_payload.rx_state <;>
    simp only [hs, EFM_ASSERT_machine] <;>
    exact events_evolve_of_eq _ _ rfl rfl rfl rfl

theorem leuart_txbl_evolve (m : Machine) : events_evolve m (leuart_txbl m).machine := by
  unfold leuart_txbl
  cases hs : m.leuart_payload.state with
  | LEUART_INITIALIZE => rw [EFM_ASSERT_machine]; exact events_evolve_refl m
  | SEND_DATA =>
    simp only []
    split_ifs
    · exact events_evolve_of_eq _ _ rfl rfl rfl rfl
    · exact events_evolve_of_eq _ _ rfl rfl rfl rfl
    · rw [EFM_ASSERT_machine]; exact events_evolve_refl m
  | FINISH_WAIT => rw [EFM_ASSERT_machine]; exact events_evolve_refl m

theorem leuart_txc_evolve (m : Machine) : events_evolve m (leuart_txc m).machine := by
  unfold leuart_txc
  cases hs : m.leuart_payload.state with
  | LEUART_INITIALIZE => rw [EFM_ASSERT_machine]; exact events_evolve_refl m
  | SEND_DATA => rw [EFM_ASSERT_machine]; exact events_evolve_refl m
  | FINISH_WAIT =>
    simp only []
    refine Run.bind_rel events_evolve events_evolve_trans _ _ _ ?_ (fun _ m1 => ?_)
    · refine events_evolve_trans _ _ _ ?_ (sleep_unblock_mode_evolve _ _)
      refine events_evolve_trans _ _ _ ?_ (add_tx_done_evolve _)
      exact events_evolve_of_eq _ _ rfl rfl rfl rfl
    · exact events_evolve_of_eq _ _ rfl rfl rfl rfl

theorem LEUART0_IRQHandler_evolve (flags : LEUART_Flags) (rxdata : Nat) (m : Machine) :
    events_evolve m (LEUART0_IRQHandler flags rxdata m).machine := by
  unfold LEUART0_IRQHandler
  refine events_evolve_trans _ _ _
    (events_evolve_of_eq m
      { disable_irq m with leuart_hw := { (disable_irq m).leuart_hw with
          if_txc := (disable_irq m).leuart_hw.if_txc && !flags.txc,
          if_sigf := (disable_irq m).leuart_hw.if_sigf && !flags.sigf,
          if_startf := (disable_irq m).leuart_hw.if_startf && !flags.startf } }
      rfl rfl rfl rfl) ?_
  refine Run.bind_rel events_evolve events_evolve_trans _ _ _ ?_ (fun _ m2 => ?_)
  · split_ifs
    · exact leuart_txbl_evolve _
    · exact events_evolve_refl _
  refine Run.bind_rel events_evolve events_evolve_trans _ _ _ ?_ (fun _ m3 => ?_)
  · split_ifs
    · exact leuart_txc_evolve _
    · exact events_evolve_refl _
  refine Run.bind_rel events_evolve events_evolve_trans _ _ _ ?_ (fun _ m4 => ?_)
  · split_ifs
    · exact leuart_sigf_evolve _
    · exact events_evolve_refl _
  refine Run.bind_rel events_evolve events_evolve_trans _ _ _ ?_ (fun _ m5 => ?_)
  · split_ifs
    · exact leuart_startf_evolve _
    · exact events_evolve_refl _
  refine Run.bind_rel events_evolve events_evolve_trans _ _ _ ?_ (fun _ m6 => ?_)
  · split_ifs
    · exact leuart_rxdatav_evolve _ _
    · exact events_evolve_refl _
  exact events_evolve_of_eq _ _ rfl rfl rfl rfl

theorem leuart_rx_byte_evolve (b : Nat) (m : Machine) :
    events_evolve m (leuart_rx_byte b m).machine := by
  unfold leuart_rx_byte
  simp only []
  split_ifs
  · exact events_evolve_trans _ _ _ (events_evolve_of_eq m _ rfl rfl rfl rfl)
      (LEUART0_IRQHandler_evolve _ _ _)
  · exact events_evolve_of_eq _ _ rfl rfl rfl rfl

theorem leuart_tx_irq_evolve (m : Machine) : events_evolve m (leuart_tx_irq m).machine := by
  unfold leuart_tx_irq
  split_ifs
  · refine Run.bind_rel events_evolve events_evolve_trans _ _ _ (LEUART0_IRQHandler_evolve _ _ _)
      (fun _ m1 => ?_)
    split_ifs
    · exact leuart_rx_byte_evolve _ _
    · exact events_evolve_refl _
  · exact events_evolve_trans _ _ _ (events_evolve_of_eq m _ rfl rfl rfl rfl)
      (LEUART0_IRQHandler_evolve _ _ _)
  · exact events_evolve_refl _

theorem leuart_wait_txbusy_evolve (fuel : Nat) :
    ∀ m : Machine, events_evolve m (leuart_wait_txbusy fuel m).machine := by
  induction fuel with
  | zero => intro m; exact events_evolve_refl m
  | succ k ih =>
    intro m
    rw [leuart_wait_txbusy]
    split_ifs
    · exact Run.bind_rel events_evolve events_evolve_trans _ _ _ (leuart_tx_irq_evolve m) (fun _ m1 => ih m1)
    · exact events_evolve_refl m
    · exact events_evolve_refl m

theorem leuart_wait_rxbusy_evolve (m : Machine) :
    events_evolve m (leuart_wait_rxbusy m).machine := by
  unfold leuart_wait_rxbusy
  split_ifs <;> exact events_evolve_refl m

theorem leuart_rxtest_send_evolve (string : List Nat) (n : Nat) (m : Machine) :
    events_evolve m (leuart_rxtest_send string n m).machine := by
  unfold leuart_rxtest_send
  refine Run.bind_rel events_evolve events_evolve_trans _ _ _ (leuart_start_evolve _ _ _) (fun _ m1 => ?_)
  refine Run.bind_rel events_evolve events_evolve_trans _ _ _ (leuart_wait_txbusy_evolve _ _) (fun _ m2 => ?_)
  exact leuart_wait_rxbusy_evolve m2

theorem leuart_rxtest_check_evolve (expected : List Nat) (m : Machine) :
    events_evolve m (leuart_rxtest_check expected m).machine := by
  unfold leuart_rxtest_check
  rw [EFM_ASSERT_machine]; exact events_evolve_refl m

theorem EFM_ASSERT_evolve (b : Bool) (m : Machine) :
    events_evolve m (EFM_ASSERT b m).machine := by
  rw [EFM_ASSERT_machine]; exact events_evolve_refl m

theorem leuart_rxtest_evolve (m : Machine) : events_evolve m (leuart_rxtest m).machine := by
  unfold leuart_rxtest
  simp only []
  refine events_evolve_trans _ _ _
    (events_evolve_of_eq m
      { m with
        leuart_payload := { m.leuart_payload with
          rx_message := strcpy m.leuart_payload.rx_message
            [104, 101, 108, 108, 111, 32, 119, 111, 114, 108, 100] },
        leuart_hw := { m.leuart_hw with loopbk := true } }
      rfl rfl rfl rfl) ?_
  refine Run.bind_rel events_evolve events_evolve_trans _ _ _ (leuart_rxtest_send_evolve _ _ _) (fun _ m1 => ?_)
  refine Run.bind_rel events_evolve events_evolve_trans _ _ _ (leuart_rxtest_check_evolve _ _) (fun _ m2 => ?_)
  refine Run.bind_rel events_evolve events_evolve_trans _ _ _ (leuart_rxtest_send_evolve _ _ _) (fun _ m3 => ?_)
  refine Run.bind_rel events_evolve events_evolve_trans _ _ _ (leuart_rxtest_check_evolve _ _) (fun _ m4 => ?_)
  refine Run.bind_rel events_evolve events_evolve_trans _ _ _ (leuart_rxtest_send_evolve _ _ _) (fun _ m5 => ?_)
  refine Run.bind_rel events_evolve events_evolve_trans _ _ _ (EFM_ASSERT_evolve _ _) (fun _ m6 => ?_)
  refine Run.bind_rel events_evolve events_evolve_trans _ _ _ (leuart_rxtest_send_evolve _ _ _) (fun _ m7 => ?_)
  refine Run.bind_rel events_evolve events_evolve_trans _ _ _ (leuart_rxtest_check_evolve _ _) (fun _ m8 => ?_)
  refine Run.bind_rel events_evolve events_evolve_trans _ _ _ (leuart_start_evolve _ _ _) (fun _ m9 => ?_)
  refine Run.bind_rel events_evolve events_evolve_trans _ _ _ (leuart_wait_txbusy_evolve _ _) (fun _ m10 => ?_)
  refine Run.bind_rel events_evolve events_evolve_trans _ _ _ (EFM_ASSERT_evolve _ _) (fun _ m11 => ?_)
  refine Run.bind_rel events_evolve events_evolve_trans _ _ _ (leuart_rxtest_send_evolve _ _ _) (fun _ m12 => ?_)
  refine Run.bind_rel events_evolve events_evolve_trans _ _ _ (EFM_ASSERT_evolve _ _) (fun _ m13 => ?_)
  refine Run.bind_rel events_evolve events_evolve_trans _ _ _ (leuart_rxtest_send_evolve _ _ _) (fun _ m14 => ?_)
  refine Run.bind_rel events_evolve events_evolve_trans _ _ _ (leuart_rxtest_check_evolve _ _) (fun _ m15 => ?_)
  refine Run.bind_rel events_evolve events_evolve_trans _ _ _ (leuart_rxtest_send_evolve _ _ _) (fun _ m16 => ?_)
  refine Run.bind_rel events_evolve events_evolve_trans _ _ _ (leuart_rxtest_check_evolve _ _) (fun _ m17 => ?_)
  refine Run.bind_rel events_evolve events_evolve_trans _ _ _ (EFM_ASSERT_evolve _ _) (fun _ m18 => ?_)
  exact events_evolve_trans _ _ _ (remove_rx_done_evolve _)
    (events_evolve_of_eq _ _ rfl rfl rfl rfl)

theorem ble_circ_init_evolve (m : Machine) : events_evolve m (ble_circ_init m) :=
  events_evolve_of_eq _ _ rfl rfl rfl rfl

theorem leuart_open_eq (s : LEUART_OPEN_STRUCT) (m : Machine) :
    leuart_open s m =
      (leuart_rxsetup
        { m with
          leuart_hw := { m.leuart_hw with startframe := 0x00, if_txc := false },
          rx_done_evt := s.rx_done_evt,
          tx_done_evt := s.tx_done_evt,
          leuart_payload := { m.leuart_payload with txbusy := false } }).bind
        fun _ m4 => leuart_rxtest m4 := by
  unfold leuart_open EFM_ASSERT
  dsimp only
  rw [if_pos (by decide), Run.bind_done]

theorem leuart_open_evolve (s : LEUART_OPEN_STRUCT) (m : Machine) :
    events_evolve { m with rx_done_evt := s.rx_done_evt, tx_done_evt := s.tx_done_evt }
      (leuart_open s m).machine := by
  rw [leuart_open_eq]
  refine events_evolve_trans _
    { m with
      leuart_hw := { m.leuart_hw with startframe := 0x00, if_txc := false },
      rx_done_evt := s.rx_done_evt,
      tx_done_evt := s.tx_done_evt,
      leuart_payload := { m.leuart_payload with txbusy := false } } _
    ⟨rfl, rfl, rfl, fun _ _ h _ => h, fun _ h => Or.inl h⟩ ?_
  refine Run.bind_rel events_evolve events_evolve_trans _ _ _ (leuart_rxsetup_evolve _)
    (fun _ m4 => ?_)
  exact leuart_rxtest_evolve m4

theorem ble_open_evolve (tx_event rx_event : Nat) (m : Machine) :
    events_evolve
      { m with is_celsius := false, rx_done_evt := rx_event, tx_done_evt := tx_event }
      (ble_open tx_event rx_event m).machine := by
  unfold ble_open
  dsimp only
  refine Run.bind_rel events_evolve events_evolve_trans _ _ _
    (leuart_open_evolve { rx_done_evt := rx_event, tx_done_evt := tx_event }
      { m with is_celsius := false }) (fun _ m2 => ?_)
  exact ble_circ_init_evolve m2

theorem strcmp_eq_zero (a : List Nat) :
    ∀ b : List Nat, strcmp a b = 0 ↔
      a.takeWhile (fun c => c != 0) = b.takeWhile (fun c => c != 0) := by
  induction a with
  | nil =>
    intro b
    cases b with
    | nil => simp [strcmp]
    | cons d t =>
      by_cases hd : d = 0
      · simp [strcmp, hd]
      · simp [strcmp, hd, List.takeWhile_cons]
  | cons c a ih =>
    intro b
    cases b with
    | nil =>
      by_cases hc : c = 0
      · simp [strcmp, hc]
      · simp [strcmp, hc, List.takeWhile_cons]
    | cons d t =>
      by_cases hcd : c = d
      · subst hcd
        by_cases hc : c = 0
        · simp [strcmp, hc]
        · simp [strcmp, hc, List.takeWhile_cons, ih t]
      · have hne : (c : Int) - (d : Int) ≠ 0 := by
          intro h
          apply hcd
          omega
        by_cases hc : c = 0
        · have hd : d ≠ 0 := fun h => hcd (by rw [hc, h])
          simp [strcmp, hcd, hne, hc, hd, List.takeWhile_cons]
          intro h; exact hd h.symm
        · by_cases hd : d = 0
          · simp [strcmp, hcd, hne, hc, hd, List.takeWhile_cons]
          · simp [strcmp, hcd, hne, hc, hd, List.takeWhile_cons]

/-- C28: `ble_update_mode` sets the mode to Celsius when the received message
(the bytes of `rx_message` before the first NUL) is exactly "Celsius", to
Fahrenheit when it is exactly "Fahrenheit", and leaves the mode as it is for
every other message.  Whatever the state before and whether `ble_open` runs to
its end or stops at an assertion of the self-test, the mode after `ble_open`
is Fahrenheit; from the reset state `ble_open` runs to its end. -/
theorem ble_mode_selection (m : Machine) (tx_event rx_event : Nat) :
    ble_update_mode m =
      { m with is_celsius :=
          if (leuart_rxmessage m).takeWhile (fun c => c != 0) = CELSIUS_MESSAGE then true
          else if (leuart_rxmessage m).takeWhile (fun c => c != 0) = FAHRENHEIT_MESSAGE then false
          else m.is_celsius } ∧
    ble_mode_celsius (ble_open tx_event rx_event m).machine = false ∧
    ble_open LEUART0_TX_DONE_EVT LEUART0_RX_DONE_EVT boot
      = Run.done () (ble_open LEUART0_TX_DONE_EVT LEUART0_RX_DONE_EVT boot).machine := by
  refine ⟨?_, ?_, by set_option maxRecDepth 100000 in decide⟩
  · have hc : (overwrite (List.replicate 16 0) CELSIUS_MESSAGE).takeWhile (fun c => c != 0)
        = CELSIUS_MESSAGE := by decide
    have hf : (overwrite (List.replicate 16 0) FAHRENHEIT_MESSAGE).takeWhile (fun c => c != 0)
        = FAHRENHEIT_MESSAGE := by decide
    unfold ble_update_mode
    simp only [strcmp_eq_zero, hc, hf]
    by_cases h1 : CELSIUS_MESSAGE = (leuart_rxmessage m).takeWhile (fun c => c != 0)
    · rw [if_pos h1, if_pos h1.symm]
    · have h1' : ¬ (leuart_rxmessage m).takeWhile (fun c => c != 0) = CELSIUS_MESSAGE :=
        fun h => h1 h.symm
      by_cases h2 : FAHRENHEIT_MESSAGE = (leuart_rxmessage m).takeWhile (fun c => c != 0)
      · rw [if_neg h1, if_pos h2, if_neg h1', if_pos h2.symm]
      · have h2' : ¬ (leuart_rxmessage m).takeWhile (fun c => c != 0) = FAHRENHEIT_MESSAGE :=
          fun h => h2 h.symm
        rw [if_neg h1, if_neg h2, if_neg h1', if_neg h2']
  · exact (ble_open_evolve tx_event rx_event m).1

/-! ## The event handlers of the application -/

theorem handler_entry (B : Nat) (work : Machine → Run Unit) (m : Machine) :
    ((EFM_ASSERT (get_scheduled_events m &&& B != 0) m).bind fun _ m0 =>
        work (remove_scheduled_event B m0)) =
      if m.event_scheduled &&& B = 0 then Run.halted m
      else work (remove_scheduled_event B m) := by
  by_cases h : m.event_scheduled &&& B = 0
  · simp [EFM_ASSERT, get_scheduled_events, h, Run.bind_halted]
  · simp [EFM_ASSERT, get_scheduled_events, h, Run.bind_done]

theorem handler_kept (B : Nat) (work : Machine → Run Unit) (m : Machine)
    (hw : ∀ m1, events_kept m1 (work m1).machine) :
    if m.event_scheduled &&& B = 0 then
      ((EFM_ASSERT (get_scheduled_events m &&& B != 0) m).bind fun _ m0 =>
        work (remove_scheduled_event B m0)) = Run.halted m
    else
      ((EFM_ASSERT (get_scheduled_events m &&& B != 0) m).bind fun _ m0 =>
        work (remove_scheduled_event B m0)).machine.event_scheduled
        = m.event_scheduled &&& ((U32 - 1) ^^^ B) := by
  rw [handler_entry]
  by_cases h : m.event_scheduled &&& B = 0
  · rw [if_pos h, if_pos h]
  · rw [if_neg h, if_neg h, (hw _).1, remove_scheduled_event_mask]

theorem scheduled_boot_up_evt_evolve (m : Machine) :
    events_evolve
      { remove_scheduled_event BOOT_UP_EVT m with
        is_celsius := false,
        rx_done_evt := LEUART0_RX_DONE_EVT,
        tx_done_evt := LEUART0_TX_DONE_EVT }
      ((ble_open LEUART0_TX_DONE_EVT LEUART0_RX_DONE_EVT
          (remove_scheduled_event BOOT_UP_EVT m)).bind fun _ m2 =>
        (circular_buff_test m2).bind fun _ m3 =>
        (ble_write [10, 72, 101, 108, 108, 111, 32, 87, 111, 114, 108, 100, 10] m3).bind fun _ m4 =>
        (ble_write [67, 105, 114, 99, 117, 108, 97, 114, 32, 66, 117, 102, 102, 101, 114, 32,
          76, 97, 98, 10] m4).bind fun _ m5 =>
        ble_write [74, 117, 115, 116, 105, 110, 32, 84, 104, 119, 97, 105, 116, 101, 115, 10]
          m5).machine := by
  refine Run.bind_rel events_evolve events_evolve_trans _ _ _
    (ble_open_evolve LEUART0_TX_DONE_EVT LEUART0_RX_DONE_EVT
      (remove_scheduled_event BOOT_UP_EVT m)) (fun _ m2 => ?_)
  refine Run.bind_rel events_evolve events_evolve_trans _ _ _
    (events_kept_evolve _ _ (circular_buff_test_kept m2)) (fun _ m3 => ?_)
  refine Run.bind_rel events_evolve events_evolve_trans _ _ _
    (events_kept_evolve _ _ (ble_write_kept _ m3)) (fun _ m4 => ?_)
  refine Run.bind_rel events_evolve events_evolve_trans _ _ _
    (events_kept_evolve _ _ (ble_write_kept _ m4)) (fun _ m5 => ?_)
  exact events_kept_evolve _ _ (ble_write_kept _ m5)

/-- C25 (counterexample): invoked with the boot-up and the serial-rx-complete
events pending, the boot-up handler runs to its end and leaves the
serial-tx-complete event alone in the mask: besides its own bit it has cleared
the serial-rx-complete bit, through the call of `remove_scheduled_event` that
ends the self-test of the serial driver. -/
theorem boot_up_handler_clears_rx_done_bit :
    scheduled_boot_up_evt { boot with event_scheduled := BOOT_UP_EVT ||| LEUART0_RX_DONE_EVT }
      = Run.done ()
          (scheduled_boot_up_evt
            { boot with event_scheduled := BOOT_UP_EVT ||| LEUART0_RX_DONE_EVT }).machine ∧
    (scheduled_boot_up_evt
      { boot with event_scheduled := BOOT_UP_EVT ||| LEUART0_RX_DONE_EVT }).machine.event_scheduled
      = LEUART0_TX_DONE_EVT ∧
    (BOOT_UP_EVT ||| LEUART0_RX_DONE_EVT) &&& LEUART0_RX_DONE_EVT ≠ 0 ∧
    LEUART0_TX_DONE_EVT &&& LEUART0_RX_DONE_EVT = 0 := by
  refine ⟨by decide!, by decide!, by decide, by decide⟩

/-- C25 (amended): each of the five handlers stops at its first statement, with
the state untouched, when its own event bit is clear.  Invoked with its bit
set, the handler of the timer underflow, of the sensor read, of the serial
tx-complete and of the serial rx-complete event leaves, whether its work runs
to its end or stops at an assertion, the event mask it found with its own bit
cleared and every other bit as it was.  The boot-up handler invoked with its
bit set leaves its own bit clear as well, but through `ble_open` it runs the
self-test of the serial driver, which posts the tx-complete and rx-complete
events and ends by clearing the rx-complete bit: every bit other than its own
and the rx-complete bit that was set stays set, and a bit that is set
afterwards was set before or is the tx-complete or the rx-complete bit. -/
theorem app_handlers_own_bit (m : Machine) (bus_idle : Bool)
    (sprintf : List Nat → ℚ → List Nat) :
    (if m.event_scheduled &&& LETIMER0_UF_EVT = 0 then
        scheduled_letimer0_uf_evt bus_idle m = Run.halted m
      else (scheduled_letimer0_uf_evt bus_idle m).machine.event_scheduled
        = m.event_scheduled &&& ((U32 - 1) ^^^ LETIMER0_UF_EVT)) ∧
    (if m.event_scheduled &&& SI7021_READ_EVT = 0 then
        scheduled_si7021_done_evt sprintf m = Run.halted m
      else (scheduled_si7021_done_evt sprintf m).machine.event_scheduled
        = m.event_scheduled &&& ((U32 - 1) ^^^ SI7021_READ_EVT)) ∧
    (if m.event_scheduled &&& LEUART0_TX_DONE_EVT = 0 then
        leuart0_tx_done_evt m = Run.halted m
      else (leuart0_tx_done_evt m).machine.event_scheduled
        = m.event_scheduled &&& ((U32 - 1) ^^^ LEUART0_TX_DONE_EVT)) ∧
    (if m.event_scheduled &&& LEUART0_RX_DONE_EVT = 0 then
        leuart0_rx_done_evt m = Run.halted m
      else leuart0_rx_done_evt m
          = Run.done () (ble_update_mode (remove_scheduled_event LEUART0_RX_DONE_EVT m)) ∧
        (leuart0_rx_done_evt m).machine.event_scheduled
          = m.event_scheduled &&& ((U32 - 1) ^^^ LEUART0_RX_DONE_EVT)) ∧
    (if m.event_scheduled &&& BOOT_UP_EVT = 0 then
        scheduled_boot_up_evt m = Run.halted m
      else
        (scheduled_boot_up_evt m).machine.event_scheduled &&& BOOT_UP_EVT = 0 ∧
        (∀ i, i < 32 → m.event_scheduled.testBit i = true → BOOT_UP_EVT.testBit i = false →
          LEUART0_RX_DONE_EVT.testBit i = false →
          (scheduled_boot_up_evt m).machine.event_scheduled.testBit i = true) ∧
        (∀ i, (scheduled_boot_up_evt m).machine.event_scheduled.testBit i = true →
          m.event_scheduled.testBit i = true ∨ LEUART0_RX_DONE_EVT.testBit i = true ∨
            LEUART0_TX_DONE_EVT.testBit i = true)) := by
  refine ⟨?_, ?_, ?_, ?_, ?_⟩
  · exact handler_kept LETIMER0_UF_EVT (fun m1 => si7021_read_temp bus_idle m1) m
      (fun m1 => i2c_start_kept _ _ m1)
  · exact handler_kept SI7021_READ_EVT
      (fun m1 =>
        ble_write
          (if ble_mode_celsius { m1 with led1 := decide (si7021_i2c_data m1 ≥ 80) } then
            sprintf [84, 101, 109, 112, 32, 61, 32, 37, 52, 46, 49, 102, 32, 67, 10]
              (to_float (to_float (to_float (si7021_i2c_data m1 - 32) * 5) / 9))
          else
            sprintf [84, 101, 109, 112, 32, 61, 32, 37, 52, 46, 49, 102, 32, 70, 10]
              (si7021_i2c_data m1))
          { m1 with led1 := decide (si7021_i2c_data m1 ≥ 80) }) m
      (fun m1 => events_kept_trans m1 { m1 with led1 := decide (si7021_i2c_data m1 ≥ 80) } _
        ⟨rfl, rfl, rfl, rfl⟩ (ble_write_kept _ _))
  · exact handler_kept LEUART0_TX_DONE_EVT
      (fun m1 => (letimer_start true m1).bind fun _ m2 =>
        (ble_circ_pop CIRC_OPER m2).bind fun _ m3 => Run.done () m3) m
      (fun m1 => Run.bind_rel events_kept events_kept_trans _ _ _ (letimer_start_kept _ _)
        (fun _ m2 => Run.bind_rel events_kept events_kept_trans _ _ _ (ble_circ_pop_kept _ _)
          (fun _ m3 => events_kept_refl m3)))
  · have h := handler_entry LEUART0_RX_DONE_EVT (fun m1 => Run.done () (ble_update_mode m1)) m
    have hrx : leuart0_rx_done_evt m
        = ((EFM_ASSERT (get_scheduled_events m &&& LEUART0_RX_DONE_EVT != 0) m).bind fun _ m0 =>
            (fun m1 => Run.done () (ble_update_mode m1))
              (remove_scheduled_event LEUART0_RX_DONE_EVT m0)) := rfl
    rw [hrx, h]
    by_cases hb : m.event_scheduled &&& LEUART0_RX_DONE_EVT = 0
    · rw [if_pos hb, if_pos hb]
    · rw [if_neg hb, if_neg hb]
      refine ⟨rfl, ?_⟩
      show (ble_update_mode (remove_scheduled_event LEUART0_RX_DONE_EVT m)).event_scheduled = _
      rw [← remove_scheduled_event_mask]
      unfold ble_update_mode
      dsimp only
      split_ifs <;> rfl
  · have h := handler_entry BOOT_UP_EVT
      (fun m1 => (ble_open LEUART0_TX_DONE_EVT LEUART0_RX_DONE_EVT m1).bind fun _ m2 =>
        (circular_buff_test m2).bind fun _ m3 =>
        (ble_write [10, 72, 101, 108, 108, 111, 32, 87, 111, 114, 108, 100, 10] m3).bind fun _ m4 =>
        (ble_write [67, 105, 114, 99, 117, 108, 97, 114, 32, 66, 117, 102, 102, 101, 114, 32,
          76, 97, 98, 10] m4).bind fun _ m5 =>
        ble_write [74, 117, 115, 116, 105, 110, 32, 84, 104, 119, 97, 105, 116, 101, 115, 10]
          m5) m
    have hboot : scheduled_boot_up_evt m
        = ((EFM_ASSERT (get_scheduled_events m &&& BOOT_UP_EVT != 0) m).bind fun _ m0 =>
            (fun m1 => (ble_open LEUART0_TX_DONE_EVT LEUART0_RX_DONE_EVT m1).bind fun _ m2 =>
              (circular_buff_test m2).bind fun _ m3 =>
              (ble_write [10, 72, 101, 108, 108, 111, 32, 87, 111, 114, 108, 100, 10] m3).bind
                fun _ m4 =>
              (ble_write [67, 105, 114, 99, 117, 108, 97, 114, 32, 66, 117, 102, 102, 101, 114, 32,
                76, 97, 98, 10] m4).bind fun _ m5 =>
              ble_write [74, 117, 115, 116, 105, 110, 32, 84, 104, 119, 97, 105, 116, 101, 115, 10]
                m5) (remove_scheduled_event BOOT_UP_EVT m0)) := rfl
    rw [hboot, h]
    by_cases hb : m.event_scheduled &&& BOOT_UP_EVT = 0
    · rw [if_pos hb, if_pos hb]
    · rw [if_neg hb, if_neg hb]
      obtain ⟨_, _, _, hkeep0, hset0⟩ := scheduled_boot_up_evt_evolve m
      have hkeep : ∀ i, i < 32 →
          (remove_scheduled_event BOOT_UP_EVT m).event_scheduled.testBit i = true →
          LEUART0_RX_DONE_EVT.testBit i = false → _ := hkeep0
      have hset : ∀ i, _ →
          (remove_scheduled_event BOOT_UP_EVT m).event_scheduled.testBit i = true ∨
            LEUART0_RX_DONE_EVT.testBit i = true ∨ LEUART0_TX_DONE_EVT.testBit i = true := hset0
      have hrem : ∀ i, (remove_scheduled_event BOOT_UP_EVT m).event_scheduled.testBit i
          = (m.event_scheduled.testBit i && (decide (i < 32) ^^ BOOT_UP_EVT.testBit i)) := by
        intro i
        rw [remove_scheduled_event_mask, Nat.testBit_and, testBit_not32]
      refine ⟨?_, ?_, ?_⟩
      · have e4 : BOOT_UP_EVT = 2 ^ 4 := rfl
        rw [e4, Nat.and_two_pow]
        cases hbit : Nat.testBit _ 4 with
        | false => rfl
        | true =>
          exfalso
          rcases hset 4 hbit with h1 | h1 | h1
          · have h2 := hrem 4
            rw [h1] at h2
            revert h2
            have : BOOT_UP_EVT.testBit 4 = true := by decide
            simp [this]
          · exact absurd h1 (by decide)
          · exact absurd h1 (by decide)
      · intro i hi hm hboot hrx
        refine hkeep i hi ?_ hrx
        rw [hrem, hm, hboot]
        simp [hi]
      · intro i hbit
        rcases hset i hbit with h1 | h1 | h1
        · left
          rw [hrem, Bool.and_eq_true] at h1
          exact h1.1
        · exact Or.inr (Or.inl h1)
        · exact Or.inr (Or.inr h1)

/-! ## The register writes of one transaction -/

/-- C35: one complete transaction, `i2c_start` with the bus idle followed by
the causes ack, ack, ack, byte-received, byte-received, stop, with a 7-bit
device address `A` and the command byte `C`, appends to the log of register
writes exactly START, `(A << 1) | 0`, `C`, START, `(A << 1) | 1`, ACK, NACK,
STOP, in this order; for the transaction `si7021_read_temp` sets up the three
bytes are 0x80, 0xF3 and 0x81. -/
theorem i2c_transaction_register_writes (m : Machine) (param : I2C_PAYLOAD_INIT) (b1 b2 : Nat)
    (hA : param.device_address < 128)
    (hc : (m.lowest_energy_mode.get EM2 + 1) % U32 < 10) :
    (∃ m0 m6,
      i2c_start param true m = Run.done () m0 ∧
      i2c_causes [I2C_Cause.ack, I2C_Cause.ack, I2C_Cause.ack, I2C_Cause.rxdatav b1,
        I2C_Cause.rxdatav b2, I2C_Cause.mstop] m0 = Run.done () m6 ∧
      m0.i2c_regs = m.i2c_regs ++ [I2C_RegWrite.I2C_CMD_START,
        I2C_RegWrite.TXDATA ((param.device_address <<< 1) ||| 0)] ∧
      m6.i2c_regs = m.i2c_regs ++ [I2C_RegWrite.I2C_CMD_START,
        I2C_RegWrite.TXDATA ((param.device_address <<< 1) ||| 0),
        I2C_RegWrite.TXDATA param.cmd,
        I2C_RegWrite.I2C_CMD_START,
        I2C_RegWrite.TXDATA ((param.device_address <<< 1) ||| 1),
        I2C_RegWrite.I2C_CMD_ACK, I2C_RegWrite.I2C_CMD_NACK, I2C_RegWrite.I2C_CMD_STOP]) ∧
    (∃ m0 m6,
      si7021_read_temp true m = Run.done () m0 ∧
      i2c_causes [I2C_Cause.ack, I2C_Cause.ack, I2C_Cause.ack, I2C_Cause.rxdatav b1,
        I2C_Cause.rxdatav b2, I2C_Cause.mstop] m0 = Run.done () m6 ∧
      m6.i2c_regs = m.i2c_regs ++ [I2C_RegWrite.I2C_CMD_START, I2C_RegWrite.TXDATA 0x80,
        I2C_RegWrite.TXDATA 0xF3, I2C_RegWrite.I2C_CMD_START, I2C_RegWrite.TXDATA 0x81,
        I2C_RegWrite.I2C_CMD_ACK, I2C_RegWrite.I2C_CMD_NACK, I2C_RegWrite.I2C_CMD_STOP]) := by
  have hc2 : ¬ 10 ≤ (m.lowest_energy_mode.get EM2 + 1) % U32 := by omega
  have hsh : (param.device_address <<< 1) % U32 = param.device_address <<< 1 := by
    rw [Nat.shiftLeft_eq]
    unfold U32
    omega
  have hrun : ∀ m0 : Machine, m0.i2c_payload.i2c_state = I2C_States.INITIALIZE →
      ∃ m6, i2c_causes [I2C_Cause.ack, I2C_Cause.ack, I2C_Cause.ack, I2C_Cause.rxdatav b1,
          I2C_Cause.rxdatav b2, I2C_Cause.mstop] m0 = Run.done () m6 ∧
        m6.i2c_regs = m0.i2c_regs ++ [I2C_RegWrite.TXDATA m0.i2c_payload.cmd,
          I2C_RegWrite.I2C_CMD_START,
          I2C_RegWrite.TXDATA (((m0.i2c_payload.device_address <<< 1) % U32) ||| 1),
          I2C_RegWrite.I2C_CMD_ACK, I2C_RegWrite.I2C_CMD_NACK, I2C_RegWrite.I2C_CMD_STOP] := by
    intro m0 hs
    simp [i2c_causes, i2c_cause, i2c_ack, i2c_rxdatav, i2c_mstop, Run.bind_done, hs,
      sleep_unblock_mode_done _ _ i2c_em_block_lt, add_scheduled_event, enable_irq,
      disable_irq, READ]
  have hstart := i2c_start_cases param true m
  rw [if_neg (by decide), if_neg hc2] at hstart
  obtain ⟨m6, h6, hregs⟩ := hrun _ (i2c_start_state param true m _ hstart)
  refine ⟨⟨_, m6, hstart, h6, ?_, ?_⟩, ?_⟩
  · simp [hsh]
  · rw [hregs]
    simp [hsh]
  · have hstart2 := i2c_start_cases si7021_read_temp_param true m
    rw [if_neg (by decide), if_neg hc2] at hstart2
    obtain ⟨m7, h7, hregs7⟩ := hrun _ (i2c_start_state si7021_read_temp_param true m _ hstart2)
    refine ⟨_, m7, hstart2, h7, ?_⟩
    rw [hregs7]
    simp [si7021_read_temp_param, U32]

/-- Witness for C35: the transaction of the sensor from the reset state,
answered with the bytes 0x66 and 0x4C. -/
theorem i2c_transaction_register_writes_witness :
    (∃ m0 m6,
      i2c_start si7021_read_temp_param true boot = Run.done () m0 ∧
      i2c_causes [I2C_Cause.ack, I2C_Cause.ack, I2C_Cause.ack, I2C_Cause.rxdatav 0x66,
        I2C_Cause.rxdatav 0x4C, I2C_Cause.mstop] m0 = Run.done () m6 ∧
      m0.i2c_regs = boot.i2c_regs ++ [I2C_RegWrite.I2C_CMD_START,
        I2C_RegWrite.TXDATA ((si7021_read_temp_param.device_address <<< 1) ||| 0)] ∧
      m6.i2c_regs = boot.i2c_regs ++ [I2C_RegWrite.I2C_CMD_START,
        I2C_RegWrite.TXDATA ((si7021_read_temp_param.device_address <<< 1) ||| 0),
        I2C_RegWrite.TXDATA si7021_read_temp_param.cmd,
        I2C_RegWrite.I2C_CMD_START,
        I2C_RegWrite.TXDATA ((si7021_read_temp_param.device_address <<< 1) ||| 1),
        I2C_RegWrite.I2C_CMD_ACK, I2C_RegWrite.I2C_CMD_NACK, I2C_RegWrite.I2C_CMD_STOP]) ∧
    (∃ m0 m6,
      si7021_read_temp true boot = Run.done () m0 ∧
      i2c_causes [I2C_Cause.ack, I2C_Cause.ack, I2C_Cause.ack, I2C_Cause.rxdatav 0x66,
        I2C_Cause.rxdatav 0x4C, I2C_Cause.mstop] m0 = Run.done () m6 ∧
      m6.i2c_regs = boot.i2c_regs ++ [I2C_RegWrite.I2C_CMD_START, I2C_RegWrite.TXDATA 0x80,
        I2C_RegWrite.TXDATA 0xF3, I2C_RegWrite.I2C_CMD_START, I2C_RegWrite.TXDATA 0x81,
        I2C_RegWrite.I2C_CMD_ACK, I2C_RegWrite.I2C_CMD_NACK, I2C_RegWrite.I2C_CMD_STOP]) :=
  i2c_transaction_register_writes boot si7021_read_temp_param 0x66 0x4C (by decide) (by decide)

/-! ## The receive index has no bound -/

theorem getD_set_ne (l : List Nat) (i j v : Nat) (h : j ≠ i) :
    (l.set i v).getD j 0 = l.getD j 0 := by
  simp [List.getD_eq_getElem?_getD, List.getElem?_set_ne (Ne.symm h)]

theorem getD_set_self (l : List Nat) (i v : Nat) (h : i < l.length) :
    (l.set i v).getD i 0 = v := by
  simp [List.getD_eq_getElem?_getD, h]

theorem leuart_rx_byte_data_at_end (m : Machine) (b : Nat) (hr : rx_receiving m)
    (hb : b ≠ RX_SIGFRAME) (hb8 : b < 256) (hi : m.leuart_payload.rx_index = 80) :
    leuart_rx_byte b m = Run.done ()
      { m with
        irq_enabled := true,
        rx_oob := m.rx_oob ++ [80],
        leuart_payload := { m.leuart_payload with
          rx_state := LEUART_RXStates.ofByte b,
          rx_index := 81 },
        leuart_hw := { m.leuart_hw with
          if_startf := m.leuart_hw.if_startf || decide (b = RX_STARTFRAME) } } := by
  obtain ⟨h1, h2, h3, h4, h5, h6, h7, h8, h9⟩ := hr
  have hu8 : b % U8 = b := by unfold U8; omega
  have hu32 : (80 + 1) % U32 = 81 := by decide
  simp [leuart_rx_byte, LEUART0_IRQHandler, leuart_rxdatav, rx_message_store,
    Run.bind_done, disable_irq, enable_irq, h1, h2, h3, h4, h5, h6, h7, h8, h9, hu8, hu32, hb, hi]

theorem leuart_rx_byte_end_at_end (m : Machine) (hr : rx_receiving m)
    (hi : m.leuart_payload.rx_index = 80) :
    leuart_rx_byte RX_SIGFRAME m = Run.halted
      { m with
        irq_enabled := false,
        rx_oob := m.rx_oob ++ [80],
        leuart_payload := { m.leuart_payload with
          rx_state := LEUART_RXStates.WAIT,
          rx_message := strcpy_shift 80 0 m.leuart_payload.rx_message },
        leuart_hw := { m.leuart_hw with
          if_startf := false, if_sigf := false,
          ien_startf := true, ien_sigf := false } } := by
  obtain ⟨h1, h2, h3, h4, h5, h6, h7, h8, h9⟩ := hr
  have hne : RX_SIGFRAME ≠ RX_STARTFRAME := by decide
  have h0 : LEUART_RXStates.ofByte 0 = LEUART_RXStates.WAIT := by decide
  simp [leuart_rx_byte, LEUART0_IRQHandler, leuart_sigf, leuart_rxdatav, rx_message_store,
    add_scheduled_event, Run.bind_done, Run.bind_halted, EFM_ASSERT, disable_irq, enable_irq,
    h1, h2, h3, h4, h5, h6, h7, h8, h9, hi, hne, h0]

theorem leuart_rx_bytes_data_in (p : List Nat) :
    ∀ m : Machine, rx_receiving m → m.leuart_payload.rx_message.length = 80 →
      (∀ b ∈ p, b ≠ RX_SIGFRAME ∧ b < 256) →
      m.leuart_payload.rx_index + p.length ≤ 80 →
      ∃ m1, leuart_rx_bytes p m = Run.done () m1 ∧ rx_receiving m1 ∧
        m1.leuart_payload.rx_message.length = 80 ∧
        m1.leuart_payload.rx_index = m.leuart_payload.rx_index + p.length ∧
        (∀ j, j < m.leuart_payload.rx_index →
          m1.leuart_payload.rx_message.getD j 0 = m.leuart_payload.rx_message.getD j 0) ∧
        (∀ j, j < p.length →
          m1.leuart_payload.rx_message.getD (m.leuart_payload.rx_index + j) 0 = p.getD j 0) ∧
        m1.rx_oob = m.rx_oob ∧ m1.leuart_payload.rxbusy = m.leuart_payload.rxbusy := by
  induction p with
  | nil =>
    intro m hr hlen _ _
    exact ⟨m, rfl, hr, hlen, rfl, fun _ _ => rfl, fun j hj => absurd hj (by simp), rfl, rfl⟩
  | cons b r ih =>
    intro m hr hlen hbytes hu
    have hb := hbytes b (List.mem_cons_self b r)
    have hi : m.leuart_payload.rx_index < 80 := by simp at hu; omega
    have hrun1 := leuart_rx_byte_data m b hr hb.1 hb.2 hi
    have hr1 : rx_receiving
        { m with
          irq_enabled := true,
          leuart_payload := { m.leuart_payload with
            rx_index := m.leuart_payload.rx_index + 1,
            rx_message := m.leuart_payload.rx_message.set m.leuart_payload.rx_index b },
          leuart_hw := { m.leuart_hw with
            if_startf := m.leuart_hw.if_startf || decide (b = RX_STARTFRAME) } } := hr
    obtain ⟨m2, hrun2, hr2, hlen2, hidx2, hold2, hnew2, hoob2, hbusy2⟩ :=
      ih _ hr1 (by simp [hlen]) (fun c hc => hbytes c (List.mem_cons_of_mem b hc))
        (by simp at hu ⊢; omega)
    refine ⟨m2, ?_, hr2, hlen2, ?_, ?_, ?_, hoob2, hbusy2⟩
    · rw [leuart_rx_bytes, hrun1, Run.bind_done, hrun2]
    · rw [hidx2]; simp; omega
    · intro j hj
      rw [hold2 j (by show j < m.leuart_payload.rx_index + 1; omega)]
      exact getD_set_ne _ _ _ _ (by omega)
    · intro j hj
      cases j with
      | zero =>
        rw [Nat.add_zero, hold2 _ (by show m.leuart_payload.rx_index < m.leuart_payload.rx_index + 1; omega)]
        simpa using getD_set_self _ _ b (by omega)
      | succ j1 =>
        have h := hnew2 j1 (by simp at hj; omega)
        have h1 : m2.leuart_payload.rx_message.getD (m.leuart_payload.rx_index + 1 + j1) 0
            = r.getD j1 0 := h
        rw [show m.leuart_payload.rx_index + (j1 + 1) = m.leuart_payload.rx_index + 1 + j1 by omega,
          h1]
        simp

theorem leuart_rx_frame_fill (m : Machine) (p : List Nat)
    (hw : rx_waiting m)
    (hlen : m.leuart_payload.rx_message.length = 80)
    (hbytes : ∀ b ∈ p, b ≠ RX_SIGFRAME ∧ b < 256)
    (hp : p.length ≤ 79) :
    ∃ m1, leuart_rx_bytes (RX_STARTFRAME :: p) m = Run.done () m1 ∧ rx_receiving m1 ∧
      m1.leuart_payload.rx_message.length = 80 ∧
      m1.leuart_payload.rx_index = p.length + 1 ∧
      (∀ j, j < p.length + 1 →
        m1.leuart_payload.rx_message.getD j 0 = (RX_STARTFRAME :: p).getD j 0) ∧
      m1.rx_oob = m.rx_oob ∧ m1.leuart_payload.rxbusy = true := by
  have hw0 := hw
  obtain ⟨h1, h2, h3, h4, h5, h6, h7, h8, h9⟩ := hw0
  have hstart := leuart_rx_byte_start m hw
  have hr0 : rx_receiving
      { m with
        irq_enabled := true,
        leuart_payload := { m.leuart_payload with
          rx_state := LEUART_RXStates.RECIEVE_DATA, rxbusy := true, rx_index := 1,
          rx_message := m.leuart_payload.rx_message.set 0 RX_STARTFRAME },
        leuart_hw := { m.leuart_hw with
          if_startf := false, if_sigf := false, rxblock := false,
          ien_startf := false, ien_sigf := true } } :=
    ⟨rfl, rfl, rfl, h4, rfl, rfl, h7, h8, h9⟩
  obtain ⟨m1, hrun1, hr1, hlen1, hidx1, hold1, hnew1, hoob1, hbusy1⟩ :=
    leuart_rx_bytes_data_in p _ hr0 (by simp [hlen]) hbytes
      (by show 1 + p.length ≤ 80; omega)
  refine ⟨m1, ?_, hr1, hlen1, ?_, ?_, hoob1, hbusy1⟩
  · rw [leuart_rx_bytes, hstart, Run.bind_done, hrun1]
  · rw [hidx1]; show 1 + p.length = p.length + 1; omega
  · intro j hj
    cases j with
    | zero =>
      rw [hold1 0 (by show 0 < 1; omega)]
      show (m.leuart_payload.rx_message.set 0 RX_STARTFRAME).getD 0 0 = RX_STARTFRAME
      exact getD_set_self _ _ _ (by omega)
    | succ j1 =>
      have h := hnew1 j1 (by omega)
      have h1 : m1.leuart_payload.rx_message.getD (1 + j1) 0 = p.getD j1 0 := h
      rw [Nat.add_comm j1 1, h1]
      simp [Nat.add_comm 1 j1]

theorem rx_oob_grows_refl (m : Machine) : rx_oob_grows m m := List.prefix_refl _

theorem rx_oob_grows_trans (a b c : Machine) (h1 : rx_oob_grows a b) (h2 : rx_oob_grows b c) :
    rx_oob_grows a c := List.IsPrefix.trans h1 h2

theorem rx_oob_grows_of_eq (m m1 : Machine) (h : m1.rx_oob = m.rx_oob) : rx_oob_grows m m1 := by
  unfold rx_oob_grows
  rw [h]

theorem rx_message_store_grows (i v : Nat) (m : Machine) :
    rx_oob_grows m (rx_message_store i v m) := by
  unfold rx_message_store rx_oob_grows
  split_ifs
  · exact List.prefix_refl _
  · exact List.prefix_append _ _
  · exact List.prefix_append _ _

theorem leuart_rxdatav_grows (rxdata : Nat) (m : Machine) :
    rx_oob_grows m (leuart_rxdatav rxdata m).machine := by
  unfold leuart_rxdatav
  cases m.leuart_payload.rx_state with
  | WAIT => rw [EFM_ASSERT_machine]; exact rx_oob_grows_refl m
  | RECIEVE_DATA =>
    exact rx_oob_grows_trans _ _ _ (rx_message_store_grows m.leuart_payload.rx_index rxdata m)
      (rx_oob_grows_of_eq _ _ rfl)
  | RESET => exact rx_oob_grows_of_eq _ _ rfl
  | invalid v => rw [EFM_ASSERT_machine]; exact rx_oob_grows_refl m

theorem leuart_sigf_grows (m : Machine) : rx_oob_grows m (leuart_sigf m).machine := by
  unfold leuart_sigf
  cases hs : m.leuart_payload.rx_state with
  | WAIT => simp only [hs, EFM_ASSERT_machine]; exact rx_oob_grows_of_eq _ _ rfl
  | RECIEVE_DATA =>
    simp only [hs]
    have h1 := rx_message_store_grows m.leuart_payload.rx_index 0
      { m with
        leuart_hw := { m.leuart_hw with if_sigf := false },
        leuart_payload := { m.leuart_payload with rx_state := LEUART_RXStates.RESET } }
    exact rx_oob_grows_trans _ _ _
      (rx_oob_grows_trans m _ _ (rx_oob_grows_of_eq _ _ rfl) h1) (rx_oob_grows_of_eq _ _ rfl)
  | RESET => simp only [hs, EFM_ASSERT_machine]; exact rx_oob_grows_of_eq _ _ rfl
  | invalid v => simp only [hs, EFM_ASSERT_machine]; exact rx_oob_grows_of_eq _ _ rfl

theorem leuart_startf_grows (m : Machine) : rx_oob_grows m (leuart_startf m).machine := by
  unfold leuart_startf
  cases hs : m.leuart_payload.rx_state <;>
    simp only [hs, EFM_ASSERT_machine] <;>
    exact rx_oob_grows_of_eq _ _ rfl

theorem leuart_txbl_grows (m : Machine) : rx_oob_grows m (leuart_txbl m).machine := by
  unfold leuart_txbl
  cases hs : m.leuart_payload.state with
  | LEUART_INITIALIZE => rw [EFM_ASSERT_machine]; exact rx_oob_grows_refl m
  | SEND_DATA =>
    simp only []
    split_ifs
    · exact rx_oob_grows_of_eq _ _ rfl
    · exact rx_oob_grows_of_eq _ _ rfl
    · rw [EFM_ASSERT_machine]; exact rx_oob_grows_refl m
  | FINISH_WAIT => rw [EFM_ASSERT_machine]; exact rx_oob_grows_refl m

theorem leuart_txc_grows (m : Machine) : rx_oob_grows m (leuart_txc m).machine := by
  unfold leuart_txc
  cases hs : m.leuart_payload.state with
  | LEUART_INITIALIZE => rw [EFM_ASSERT_machine]; exact rx_oob_grows_refl m
  | SEND_DATA => rw [EFM_ASSERT_machine]; exact rx_oob_grows_refl m
  | FINISH_WAIT =>
    simp only []
    refine Run.bind_rel rx_oob_grows rx_oob_grows_trans _ _ _ ?_ (fun _ m1 => ?_)
    · obtain ⟨i, l, h⟩ := sleep_unblock_mode_footprint LEUART_RX_EM
        (add_scheduled_event m.tx_done_evt
          { m with leuart_hw := { m.leuart_hw with if_txc := false } })
      apply rx_oob_grows_of_eq
      rw [h]
      rfl
    · exact rx_oob_grows_of_eq _ _ rfl

theorem LEUART0_IRQHandler_grows (flags : LEUART_Flags) (rxdata : Nat) (m : Machine) :
    rx_oob_grows m (LEUART0_IRQHandler flags rxdata m).machine := by
  unfold LEUART0_IRQHandler
  refine rx_oob_grows_trans m
      { disable_irq m with leuart_hw := { (disable_irq m).leuart_hw with
          if_txc := (disable_irq m).leuart_hw.if_txc && !flags.txc,
          if_sigf := (disable_irq m).leuart_hw.if_sigf && !flags.sigf,
          if_startf := (disable_irq m).leuart_hw.if_startf && !flags.startf } } _
      (rx_oob_grows_of_eq _ _ rfl) ?_
  refine Run.bind_rel rx_oob_grows rx_oob_grows_trans _ _ _ ?_ (fun _ m2 => ?_)
  · split_ifs
    · exact leuart_txbl_grows _
    · exact rx_oob_grows_refl _
  refine Run.bind_rel rx_oob_grows rx_oob_grows_trans _ _ _ ?_ (fun _ m3 => ?_)
  · split_ifs
    · exact leuart_txc_grows _
    · exact rx_oob_grows_refl _
  refine Run.bind_rel rx_oob_grows rx_oob_grows_trans _ _ _ ?_ (fun _ m4 => ?_)
  · split_ifs
    · exact leuart_sigf_grows _
    · exact rx_oob_grows_refl _
  refine Run.bind_rel rx_oob_grows rx_oob_grows_trans _ _ _ ?_ (fun _ m5 => ?_)
  · split_ifs
    · exact leuart_startf_grows _
    · exact rx_oob_grows_refl _
  refine Run.bind_rel rx_oob_grows rx_oob_grows_trans _ _ _ ?_ (fun _ m6 => ?_)
  · split_ifs
    · exact leuart_rxdatav_grows _ _
    · exact rx_oob_grows_refl _
  exact rx_oob_grows_of_eq _ _ rfl

theorem leuart_rx_byte_grows (b : Nat) (m : Machine) :
    rx_oob_grows m (leuart_rx_byte b m).machine := by
  unfold leuart_rx_byte
  simp only []
  split_ifs
  · refine rx_oob_grows_trans m _ _ ?_ (LEUART0_IRQHandler_grows _ _ _)
    exact rx_oob_grows_of_eq _ _ rfl
  · exact rx_oob_grows_of_eq _ _ rfl

theorem leuart_rx_bytes_grows (bs : List Nat) :
    ∀ m : Machine, rx_oob_grows m (leuart_rx_bytes bs m).machine := by
  induction bs with
  | nil => intro m; exact rx_oob_grows_refl m
  | cons b rest ih =>
    intro m
    rw [leuart_rx_bytes]
    exact Run.bind_rel rx_oob_grows rx_oob_grows_trans _ _ _ (leuart_rx_byte_grows b m)
      (fun _ m1 => ih m1)

theorem leuart_rx_byte_out_of_state (m : Machine) (x : Nat)
    (hs1 : m.leuart_payload.rx_state ≠ LEUART_RXStates.RECIEVE_DATA)
    (hs2 : m.leuart_payload.rx_state ≠ LEUART_RXStates.RESET)
    (h2 : m.leuart_hw.ien_startf = false) (h3 : m.leuart_hw.ien_sigf = true)
    (h4 : m.leuart_hw.ien_rxdatav = true) (h5 : m.leuart_hw.rxblock = false) :
    ∃ m1, leuart_rx_byte x m = Run.halted m1 ∧ m1.leuart_payload = m.leuart_payload ∧
      m1.rx_oob = m.rx_oob := by
  cases hs : m.leuart_payload.rx_state with
  | RECIEVE_DATA => exact absurd hs hs1
  | RESET => exact absurd hs hs2
  | WAIT =>
    by_cases hx : (m.leuart_hw.if_sigf || decide (x = m.leuart_hw.sigframe)) = true
    · simp only [leuart_rx_byte, LEUART0_IRQHandler, leuart_sigf, leuart_rxdatav, EFM_ASSERT,
        Run.bind_done, Run.bind_halted, disable_irq, hs, h2, h3, h4, h5, hx, Bool.and_true,
        Bool.and_false, Bool.false_and, Bool.true_or, Bool.or_true, Bool.not_false, if_true,
        Bool.false_eq_true, if_false, Bool.true_and]
      exact ⟨_, rfl, rfl, rfl⟩
    · rw [Bool.not_eq_true] at hx
      simp only [leuart_rx_byte, LEUART0_IRQHandler, leuart_sigf, leuart_rxdatav, EFM_ASSERT,
        Run.bind_done, Run.bind_halted, disable_irq, hs, h2, h3, h4, h5, hx, Bool.and_true,
        Bool.and_false, Bool.false_and, Bool.true_or, Bool.or_true, Bool.not_false, if_true,
        Bool.false_eq_true, if_false, Bool.true_and, Bool.false_or]
      exact ⟨_, rfl, rfl, rfl⟩
  | invalid v =>
    by_cases hx : (m.leuart_hw.if_sigf || decide (x = m.leuart_hw.sigframe)) = true
    · simp only [leuart_rx_byte, LEUART0_IRQHandler, leuart_sigf, leuart_rxdatav, EFM_ASSERT,
        Run.bind_done, Run.bind_halted, disable_irq, hs, h2, h3, h4, h5, hx, Bool.and_true,
        Bool.and_false, Bool.false_and, Bool.true_or, Bool.or_true, Bool.not_false, if_true,
        Bool.false_eq_true, if_false, Bool.true_and]
      exact ⟨_, rfl, rfl, rfl⟩
    · rw [Bool.not_eq_true] at hx
      simp only [leuart_rx_byte, LEUART0_IRQHandler, leuart_sigf, leuart_rxdatav, EFM_ASSERT,
        Run.bind_done, Run.bind_halted, disable_irq, hs, h2, h3, h4, h5, hx, Bool.and_true,
        Bool.and_false, Bool.false_and, Bool.true_or, Bool.or_true, Bool.not_false, if_true,
        Bool.false_eq_true, if_false, Bool.true_and, Bool.false_or]
      exact ⟨_, rfl, rfl, rfl⟩

theorem LEUART_RXStates.ofByte_out_of_state (b : Nat) (h1 : b ≠ 1) (h2 : b ≠ 2) :
    LEUART_RXStates.ofByte b ≠ LEUART_RXStates.RECIEVE_DATA ∧
    LEUART_RXStates.ofByte b ≠ LEUART_RXStates.RESET := by
  unfold LEUART_RXStates.ofByte
  split_ifs <;> simp

theorem leuart_rx_frame_overrun (m : Machine) (q : List Nat) (b : Nat) (rest : List Nat)
    (hw : rx_waiting m)
    (hlen : m.leuart_payload.rx_message.length = 80)
    (hbytes : ∀ c ∈ q, c ≠ RX_SIGFRAME ∧ c < 256)
    (hq : q.length = 79) (hb : b ≠ RX_SIGFRAME) (hb8 : b < 256) :
    ∃ m1 m2,
      leuart_rx_bytes (RX_STARTFRAME :: q) m = Run.done () m1 ∧
      leuart_rx_byte b m1 = Run.done () m2 ∧
      leuart_rx_bytes (RX_STARTFRAME :: (q ++ [b])) m = Run.done () m2 ∧
      m2.leuart_payload.rx_state = LEUART_RXStates.ofByte b ∧
      m2.leuart_payload.rx_index = 81 ∧
      m2.leuart_payload.rxbusy = true ∧
      m2.rx_oob = m.rx_oob ++ [80] ∧
      (b ≠ 1 → b ≠ 2 → ∀ x, ∃ m3,
        leuart_rx_bytes (RX_STARTFRAME :: (q ++ [b] ++ x :: rest)) m = Run.halted m3 ∧
        m3.leuart_payload = m2.leuart_payload ∧ m3.rx_oob = m.rx_oob ++ [80]) := by
  obtain ⟨m1, hrun1, hr1, hlen1, hidx1, hcont1, hoob1, hbusy1⟩ :=
    leuart_rx_frame_fill m q hw hlen hbytes (by omega)
  have hi : m1.leuart_payload.rx_index = 80 := by rw [hidx1, hq]
  have hrun2 := leuart_rx_byte_data_at_end m1 b hr1 hb hb8 hi
  have hfull : leuart_rx_bytes (RX_STARTFRAME :: (q ++ [b])) m = Run.done ()
      { m1 with
        irq_enabled := true,
        rx_oob := m1.rx_oob ++ [80],
        leuart_payload := { m1.leuart_payload with
          rx_state := LEUART_RXStates.ofByte b,
          rx_index := 81 },
        leuart_hw := { m1.leuart_hw with
          if_startf := m1.leuart_hw.if_startf || decide (b = RX_STARTFRAME) } } := by
    rw [show RX_STARTFRAME :: (q ++ [b]) = (RX_STARTFRAME :: q) ++ [b] from rfl,
      leuart_rx_bytes_append, hrun1, Run.bind_done, leuart_rx_bytes, hrun2, Run.bind_done,
      leuart_rx_bytes]
  refine ⟨m1, _, hrun1, hrun2, hfull, rfl, rfl, hbusy1, ?_, ?_⟩
  · show m1.rx_oob ++ [80] = m.rx_oob ++ [80]
    rw [hoob1]
  · intro hb1 hb2 x
    obtain ⟨hs1, hs2⟩ := LEUART_RXStates.ofByte_out_of_state b hb1 hb2
    obtain ⟨_, f2, f3, f4, f5, _, _, _, _⟩ := hr1
    obtain ⟨m3, hrun3, hp3, ho3⟩ := leuart_rx_byte_out_of_state
      { m1 with
        irq_enabled := true,
        rx_oob := m1.rx_oob ++ [80],
        leuart_payload := { m1.leuart_payload with
          rx_state := LEUART_RXStates.ofByte b,
          rx_index := 81 },
        leuart_hw := { m1.leuart_hw with
          if_startf := m1.leuart_hw.if_startf || decide (b = RX_STARTFRAME) } }
      x hs1 hs2 f2 f3 f4 f5
    refine ⟨m3, ?_, hp3, ?_⟩
    · rw [show RX_STARTFRAME :: (q ++ [b] ++ x :: rest)
          = (RX_STARTFRAME :: (q ++ [b])) ++ x :: rest from rfl,
        leuart_rx_bytes_append, hfull, Run.bind_done, leuart_rx_bytes, hrun3, Run.bind_halted]
    · rw [ho3]
      show m1.rx_oob ++ [80] = m.rx_oob ++ [80]
      rw [hoob1]

theorem leuart_rx_frame_overrun_end (m : Machine) (q : List Nat)
    (hw : rx_waiting m)
    (hlen : m.leuart_payload.rx_message.length = 80)
    (hbytes : ∀ c ∈ q, c ≠ RX_SIGFRAME ∧ c < 256)
    (hq : q.length = 79) :
    ∃ m1 m2,
      leuart_rx_bytes (RX_STARTFRAME :: q) m = Run.done () m1 ∧
      leuart_rx_byte RX_SIGFRAME m1 = Run.halted m2 ∧
      leuart_rx_bytes (RX_STARTFRAME :: (q ++ [RX_SIGFRAME])) m = Run.halted m2 ∧
      m2.leuart_payload.rx_state = LEUART_RXStates.WAIT ∧
      m2.leuart_payload.rxbusy = true ∧
      m2.leuart_payload.rx_message = strcpy_shift 80 0 m1.leuart_payload.rx_message ∧
      m2.rx_oob = m.rx_oob ++ [80] := by
  obtain ⟨m1, hrun1, hr1, hlen1, hidx1, hcont1, hoob1, hbusy1⟩ :=
    leuart_rx_frame_fill m q hw hlen hbytes (by omega)
  have hi : m1.leuart_payload.rx_index = 80 := by rw [hidx1, hq]
  have hrun2 := leuart_rx_byte_end_at_end m1 hr1 hi
  refine ⟨m1, _, hrun1, hrun2, ?_, rfl, hbusy1, rfl, ?_⟩
  · rw [show RX_STARTFRAME :: (q ++ [RX_SIGFRAME]) = (RX_STARTFRAME :: q) ++ [RX_SIGFRAME] from rfl,
      leuart_rx_bytes_append, hrun1, Run.bind_done, leuart_rx_bytes, hrun2, Run.bind_halted]
  · show m1.rx_oob ++ [80] = m.rx_oob ++ [80]
    rw [hoob1]

/-- C40 (counterexample): the frame `>`, eighty bytes `A`, `;` received after
`leuart_rxsetup`.  Payload byte 79 is stored at index 80, which is the first
byte of `rx_state`; the state is then 65, none of the three of the enumeration,
and the end marker makes `leuart_sigf` reach the fatal assertion: the
terminator is never written at index 81, the only store outside `rx_message`
being the one at index 80. -/
theorem leuart_rx_frame_overrun_halts :
    ∃ m3,
      leuart_rx_bytes (RX_STARTFRAME :: (List.replicate 80 65 ++ [RX_SIGFRAME])) rx_ready
        = Run.halted m3 ∧
      m3.rx_oob = [80] ∧
      m3.leuart_payload.rx_index = 81 ∧
      m3.leuart_payload.rx_state = LEUART_RXStates.invalid 65 := by
  obtain ⟨m1, m2, _, _, _, hs2, hi2, _, _, hhalt⟩ :=
    leuart_rx_frame_overrun rx_ready (List.replicate 79 65) 65 [] (by decide) (by rfl)
      (by intro c hc; rw [List.mem_replicate] at hc; rw [hc.2]; decide) (by simp)
      (by decide) (by decide)
  obtain ⟨m3, hrun3, hp3, ho3⟩ := hhalt (by decide) (by decide) RX_SIGFRAME
  refine ⟨m3, ?_, ho3, ?_, ?_⟩
  · rw [← hrun3]
    rfl
  · rw [hp3, hi2]
  · rw [hp3, hs2]
    rfl

/-- C40 (amended): the receive sequencer stores at `rx_index` without comparing
it with the size of `rx_message`.  For the frame `>` `p` `;` received while
waiting, `p` free of `;`: the start marker is written at index 0 and payload
byte `i` at index `i + 1` for `i ≤ 78`, all inside the array.  For
`len(p) ≤ 78` the terminator is written at index `len(p) + 1`, the frame
returns and no store falls outside.  For `len(p) = 79` the terminator is
written at index 80, where it makes `rx_state` WAIT, and the byte-received
cause of the same interrupt reaches the fatal assertion.  For `len(p) ≥ 80`
payload byte 79 is written at index 80 and `rx_state` takes its value; unless
that value is 1 or 2 the next byte reaches the fatal assertion and nothing
more is stored.  A store falls outside the array if and only if
`len(p) ≥ 79`, and the first such store is the one at index 80. -/
theorem leuart_rx_frame_indices (m : Machine) (p : List Nat)
    (hw : rx_waiting m)
    (hlen : m.leuart_payload.rx_message.length = 80)
    (hbytes : ∀ b ∈ p, b ≠ RX_SIGFRAME ∧ b < 256) :
    (∃ m1,
      leuart_rx_bytes (RX_STARTFRAME :: p.take 79) m = Run.done () m1 ∧
      m1.leuart_payload.rx_state = LEUART_RXStates.RECIEVE_DATA ∧
      m1.leuart_payload.rx_index = (p.take 79).length + 1 ∧
      (∀ j, j < (p.take 79).length + 1 →
        m1.leuart_payload.rx_message.getD j 0 = (RX_STARTFRAME :: p).getD j 0) ∧
      m1.rx_oob = m.rx_oob ∧
      (p.length ≤ 78 → ∃ m2,
        leuart_rx_byte RX_SIGFRAME m1 = Run.done () m2 ∧
        leuart_rx_bytes (RX_STARTFRAME :: (p ++ [RX_SIGFRAME])) m = Run.done () m2 ∧
        m2.leuart_payload.rx_message =
          strcpy_shift 80 0 (m1.leuart_payload.rx_message.set (p.length + 1) 0) ∧
        m2.rx_oob = m.rx_oob) ∧
      (p.length = 79 → ∃ m2,
        leuart_rx_byte RX_SIGFRAME m1 = Run.halted m2 ∧
        leuart_rx_bytes (RX_STARTFRAME :: (p ++ [RX_SIGFRAME])) m = Run.halted m2 ∧
        m2.leuart_payload.rx_state = LEUART_RXStates.WAIT ∧
        m2.leuart_payload.rx_message = strcpy_shift 80 0 m1.leuart_payload.rx_message ∧
        m2.rx_oob = m.rx_oob ++ [80]) ∧
      (80 ≤ p.length → ∃ m2,
        leuart_rx_byte (p.getD 79 0) m1 = Run.done () m2 ∧
        leuart_rx_bytes (RX_STARTFRAME :: p.take 80) m = Run.done () m2 ∧
        m2.leuart_payload.rx_state = LEUART_RXStates.ofByte (p.getD 79 0) ∧
        m2.leuart_payload.rx_index = 81 ∧
        m2.rx_oob = m.rx_oob ++ [80] ∧
        (p.getD 79 0 ≠ 1 → p.getD 79 0 ≠ 2 → ∃ m3,
          leuart_rx_bytes (RX_STARTFRAME :: (p ++ [RX_SIGFRAME])) m = Run.halted m3 ∧
          m3.leuart_payload = m2.leuart_payload ∧ m3.rx_oob = m.rx_oob ++ [80]))) ∧
    ((leuart_rx_bytes (RX_STARTFRAME :: (p ++ [RX_SIGFRAME])) m).machine.rx_oob = m.rx_oob
      ↔ p.length ≤ 78) ∧
    (79 ≤ p.length →
      ∃ rest, (leuart_rx_bytes (RX_STARTFRAME :: (p ++ [RX_SIGFRAME])) m).machine.rx_oob
        = m.rx_oob ++ 80 :: rest) := by
  have hbq : ∀ c ∈ p.take 79, c ≠ RX_SIGFRAME ∧ c < 256 :=
    fun c hc => hbytes c (List.mem_of_mem_take hc)
  have hql : (p.take 79).length ≤ 79 := by rw [List.length_take]; omega
  obtain ⟨m1, hrun1, hr1, hlen1, hidx1, hcont1, hoob1, hbusy1⟩ :=
    leuart_rx_frame_fill m (p.take 79) hw hlen hbq hql
  -- the three cases of the length
  have hshort : p.length ≤ 78 → ∃ m2,
      leuart_rx_byte RX_SIGFRAME m1 = Run.done () m2 ∧
      leuart_rx_bytes (RX_STARTFRAME :: (p ++ [RX_SIGFRAME])) m = Run.done () m2 ∧
      m2.leuart_payload.rx_message =
        strcpy_shift 80 0 (m1.leuart_payload.rx_message.set (p.length + 1) 0) ∧
      m2.rx_oob = m.rx_oob := by
    intro h
    have ht : p.take 79 = p := List.take_of_length_le (by omega)
    rw [ht] at hrun1 hidx1
    have hrun2 := leuart_rx_byte_end m1 hr1 (by rw [hidx1]; omega)
    refine ⟨_, hrun2, ?_, ?_, hoob1⟩
    · rw [show RX_STARTFRAME :: (p ++ [RX_SIGFRAME]) = (RX_STARTFRAME :: p) ++ [RX_SIGFRAME]
          from rfl,
        leuart_rx_bytes_append, hrun1, Run.bind_done, leuart_rx_bytes, hrun2, Run.bind_done,
        leuart_rx_bytes]
    · show strcpy_shift 80 0 (m1.leuart_payload.rx_message.set m1.leuart_payload.rx_index 0) = _
      rw [hidx1]
  have hexact : p.length = 79 → ∃ m2,
      leuart_rx_byte RX_SIGFRAME m1 = Run.halted m2 ∧
      leuart_rx_bytes (RX_STARTFRAME :: (p ++ [RX_SIGFRAME])) m = Run.halted m2 ∧
      m2.leuart_payload.rx_state = LEUART_RXStates.WAIT ∧
      m2.leuart_payload.rx_message = strcpy_shift 80 0 m1.leuart_payload.rx_message ∧
      m2.rx_oob = m.rx_oob ++ [80] := by
    intro h
    have ht : p.take 79 = p := List.take_of_length_le (by omega)
    rw [ht] at hrun1 hbq
    obtain ⟨n1, n2, e1, e2, e3, e4, _, e6, e7⟩ := leuart_rx_frame_overrun_end m p hw hlen hbq h
    have hm : n1 = m1 := by
      rw [hrun1] at e1
      simp only [Run.done.injEq, true_and] at e1
      exact e1.symm
    subst hm
    exact ⟨n2, e2, e3, e4, e6, e7⟩
  have hdec : 80 ≤ p.length → p = p.take 79 ++ p.getD 79 0 :: p.drop 80 := by
    intro h
    have h79 : 79 < p.length := by omega
    have hd : p.drop 79 = p.getD 79 0 :: p.drop 80 := by
      rw [List.drop_eq_getElem_cons h79]
      simp [List.getD_eq_getElem?_getD, List.getElem?_eq_getElem h79]
    rw [← hd, List.take_append_drop]
  have hlong : 80 ≤ p.length → ∃ m2,
      leuart_rx_byte (p.getD 79 0) m1 = Run.done () m2 ∧
      leuart_rx_bytes (RX_STARTFRAME :: p.take 80) m = Run.done () m2 ∧
      m2.leuart_payload.rx_state = LEUART_RXStates.ofByte (p.getD 79 0) ∧
      m2.leuart_payload.rx_index = 81 ∧
      m2.rx_oob = m.rx_oob ++ [80] ∧
      (p.getD 79 0 ≠ 1 → p.getD 79 0 ≠ 2 → ∃ m3,
        leuart_rx_bytes (RX_STARTFRAME :: (p ++ [RX_SIGFRAME])) m = Run.halted m3 ∧
        m3.leuart_payload = m2.leuart_payload ∧ m3.rx_oob = m.rx_oob ++ [80]) := by
    intro h
    have hd := hdec h
    have hmem : p.getD 79 0 ∈ p := by
      rw [List.getD_eq_getElem?_getD, List.getElem?_eq_getElem (by omega : 79 < p.length)]
      exact List.getElem_mem _
    have hb := hbytes _ hmem
    have hq : (p.take 79).length = 79 := by rw [List.length_take]; omega
    have ht80 : p.take 80 = p.take 79 ++ [p.getD 79 0] := by
      rw [List.take_succ]
      simp [List.getD_eq_getElem?_getD, List.getElem?_eq_getElem (by omega : 79 < p.length)]
    cases hrest : p.drop 80 ++ [RX_SIGFRAME] with
    | nil => exact absurd hrest (by simp)
    | cons x rest =>
      obtain ⟨n1, n2, e1, e2, e3, e4, e5, _, e7, e8⟩ :=
        leuart_rx_frame_overrun m (p.take 79) (p.getD 79 0) rest hw hlen hbq hq hb.1 hb.2
      have hm : n1 = m1 := by
        rw [hrun1] at e1
        simp only [Run.done.injEq, true_and] at e1
        exact e1.symm
      subst hm
      refine ⟨n2, e2, ?_, e4, e5, e7, ?_⟩
      · rw [ht80]; exact e3
      · intro hb1 hb2
        obtain ⟨m3, f1, f2, f3⟩ := e8 hb1 hb2 x
        refine ⟨m3, ?_, f2, f3⟩
        rw [← f1]
        congr 2
        calc p ++ [RX_SIGFRAME]
            = (p.take 79 ++ p.getD 79 0 :: p.drop 80) ++ [RX_SIGFRAME] := by rw [← hd]
          _ = p.take 79 ++ [p.getD 79 0] ++ (p.drop 80 ++ [RX_SIGFRAME]) := by simp
          _ = p.take 79 ++ [p.getD 79 0] ++ x :: rest := by rw [hrest]
  -- the stores outside the array
  have hout : 79 ≤ p.length →
      ∃ rest, (leuart_rx_bytes (RX_STARTFRAME :: (p ++ [RX_SIGFRAME])) m).machine.rx_oob
        = m.rx_oob ++ 80 :: rest := by
    intro h
    by_cases h79 : p.length = 79
    · obtain ⟨m2, _, e2, _, _, e5⟩ := hexact h79
      refine ⟨[], ?_⟩
      rw [e2]
      exact e5
    · have h80 : 80 ≤ p.length := by omega
      obtain ⟨m2, _, e2, _, _, e5, _⟩ := hlong h80
      have hsplit : RX_STARTFRAME :: (p ++ [RX_SIGFRAME])
          = (RX_STARTFRAME :: p.take 80) ++ (p.drop 80 ++ [RX_SIGFRAME]) := by
        rw [List.cons_append, ← List.append_assoc, List.take_append_drop]
      have hg := leuart_rx_bytes_grows (p.drop 80 ++ [RX_SIGFRAME]) m2
      rw [hsplit, leuart_rx_bytes_append, e2, Run.bind_done]
      obtain ⟨ext, hext⟩ := hg
      refine ⟨ext, ?_⟩
      rw [← hext, e5, List.append_assoc]
      rfl
  refine ⟨⟨m1, hrun1, hr1.1, hidx1, ?_, hoob1, hshort, hexact, hlong⟩, ?_, hout⟩
  · intro j hj
    rw [hcont1 j hj]
    cases j with
    | zero => rfl
    | succ j1 =>
      have hj1 : j1 < (p.take 79).length := by omega
      have hj2 : j1 < 79 := by omega
      simp [List.getD_eq_getElem?_getD, List.getElem?_take, hj2]
  · constructor
    · intro h
      by_contra hcon
      obtain ⟨rest, hr⟩ := hout (by omega)
      rw [hr] at h
      have := congrArg List.length h
      simp at this
    · intro h
      obtain ⟨m2, _, e2, _, e4⟩ := hshort h
      rw [e2]
      exact e4

/-- Witness for C40: the frame `>`, seventy-nine bytes `A`, `;` received after
`leuart_rxsetup`; the terminator is stored at index 80. -/
theorem leuart_rx_frame_indices_witness :
    rx_waiting rx_ready ∧
    ∃ m2,
      leuart_rx_bytes (RX_STARTFRAME :: (List.replicate 79 65 ++ [RX_SIGFRAME])) rx_ready
        = Run.halted m2 ∧
      m2.leuart_payload.rx_state = LEUART_RXStates.WAIT ∧
      m2.rx_oob = rx_ready.rx_oob ++ [80] := by
  obtain ⟨m1, _, _, _, _, _, _, h79, _⟩ :=
    (leuart_rx_frame_indices rx_ready (List.replicate 79 65) (by decide) (by rfl)
      (by intro c hc; rw [List.mem_replicate] at hc; rw [hc.2]; decide)).1
  obtain ⟨m2, _, h2, h3, _, h4⟩ := h79 (by simp)
  exact ⟨by decide, m2, h2, h3, h4⟩

/-! ## What a push writes -/

theorem ble_circ_push_loop_length (string : List Nat) (w size : Nat) :
    ∀ (n i : Nat) (cbuf : List Nat),
      (ble_circ_push_loop string w size n i cbuf).length = cbuf.length := by
  intro n
  induction n with
  | zero => intro i cbuf; rfl
  | succ n ih => intro i cbuf; rw [ble_circ_push_loop, ih, List.length_set]

theorem ble_circ_push_loop_untouched (string : List Nat) (w size j : Nat) :
    ∀ (n i : Nat) (cbuf : List Nat),
      (∀ k, i ≤ k → k < i + n → ((w + k) % U32) % size ≠ j) →
      (ble_circ_push_loop string w size n i cbuf).getD j 0 = cbuf.getD j 0 := by
  intro n
  induction n with
  | zero => intro i cbuf _; rfl
  | succ n ih =>
    intro i cbuf h
    rw [ble_circ_push_loop, ih (i + 1) _ (fun k hk1 hk2 => h k (by omega) (by omega)),
      getD_set_ne _ _ _ _ (Ne.symm (h i (Nat.le_refl i) (by omega)))]

theorem ble_circ_push_loop_last (string : List Nat) (w size j : Nat) :
    ∀ (n i : Nat) (cbuf : List Nat) (k : Nat), i ≤ k → k < i + n →
      ((w + k) % U32) % size = j → j < cbuf.length →
      (∀ k1, k < k1 → k1 < i + n → ((w + k1) % U32) % size ≠ j) →
      (ble_circ_push_loop string w size n i cbuf).getD j 0 = string.getD (k - 1) 0 := by
  intro n
  induction n with
  | zero => intro i cbuf k h1 h2; omega
  | succ n ih =>
    intro i cbuf k h1 h2 hidx hlt hlast
    rw [ble_circ_push_loop]
    by_cases hk : k = i
    · subst hk
      rw [ble_circ_push_loop_untouched string w size j n (k + 1) _
        (fun k1 hk1 hk2 => hlast k1 (by omega) (by omega)), hidx, getD_set_self _ _ _ hlt]
    · exact ih (i + 1) _ k (by omega) (by omega) hidx (by rw [List.length_set]; exact hlt)
        (fun k1 hk1 hk2 => hlast k1 hk1 (by omega))

theorem ble_circ_push_eq (m : Machine) (s : List Nat)
    (hcheck : ¬ (strlen s + 1) % U8 > ble_circ_space m) :
    ble_circ_push s m = Run.done ()
      (update_circ_wrtindex ((strlen s + 1) % U8)
        { m with ble_cbuf := { m.ble_cbuf with
            cbuf := ble_circ_push_loop s m.ble_cbuf.write_ptr m.ble_cbuf.size
              ((strlen s + 1) % U8 - 1) 1
              (m.ble_cbuf.cbuf.set m.ble_cbuf.write_ptr ((strlen s + 1) % U8)) } }) := by
  unfold ble_circ_push
  dsimp only
  rw [if_neg hcheck, Run.bind_done]

theorem ble_circ_space_le (m : Machine) (hs : m.ble_cbuf.size = 64)
    (hr : m.ble_cbuf.read_ptr < 64) (hw : m.ble_cbuf.write_ptr < 64) :
    ble_circ_space m = m.ble_cbuf.read_ptr + 64 - m.ble_cbuf.write_ptr := by
  unfold ble_circ_space sub32 U32 U8
  rw [hs]
  omega

theorem ble_circ_push_effect (m : Machine) (s : List Nat)
    (hs : m.ble_cbuf.size = 64) (hl : m.ble_cbuf.cbuf.length = 64)
    (hr : m.ble_cbuf.read_ptr < 64) (hw : m.ble_cbuf.write_ptr < 64)
    (h8 : strlen s + 1 < 256)
    (hcheck : strlen s + 1 ≤ ble_circ_space m) :
    ∃ m1, ble_circ_push s m = Run.done () m1 ∧
      m1 = { m with ble_cbuf := m1.ble_cbuf } ∧
      m1.ble_cbuf.size = 64 ∧ m1.ble_cbuf.size_mask = m.ble_cbuf.size_mask ∧
      m1.ble_cbuf.cbuf.length = 64 ∧
      m1.ble_cbuf.read_ptr = m.ble_cbuf.read_ptr ∧
      m1.ble_cbuf.write_ptr = (m.ble_cbuf.write_ptr + strlen s + 1) % 64 ∧
      (∀ j, (∀ i, i ≤ strlen s → (m.ble_cbuf.write_ptr + i) % 64 ≠ j) →
        m1.ble_cbuf.cbuf.getD j 0 = m.ble_cbuf.cbuf.getD j 0) ∧
      (strlen s + 1 ≤ 64 →
        m1.ble_cbuf.cbuf.getD m.ble_cbuf.write_ptr 0 = strlen s + 1 ∧
        ∀ i, i < strlen s →
          m1.ble_cbuf.cbuf.getD ((m.ble_cbuf.write_ptr + 1 + i) % 64) 0 = s.getD i 0) ∧
      (64 < strlen s + 1 →
        m1.ble_cbuf.cbuf.getD m.ble_cbuf.write_ptr 0 = s.getD 63 0) := by
  have hps : (strlen s + 1) % U8 = strlen s + 1 := Nat.mod_eq_of_lt h8
  have hsp := ble_circ_space_le m hs hr hw
  have hrun := ble_circ_push_eq m s (by rw [hps]; omega)
  rw [hps, hs] at hrun
  have hu : ∀ k, k < 256 → ((m.ble_cbuf.write_ptr + k) % U32) % 64
      = (m.ble_cbuf.write_ptr + k) % 64 := by
    intro k hk
    rw [Nat.mod_eq_of_lt (show m.ble_cbuf.write_ptr + k < U32 by unfold U32; omega)]
  have hlen1 : (m.ble_cbuf.cbuf.set m.ble_cbuf.write_ptr (strlen s + 1)).length = 64 := by
    rw [List.length_set, hl]
  refine ⟨_, hrun, rfl, hs, rfl, ?_, rfl, ?_, ?_, ?_, ?_⟩
  · show (ble_circ_push_loop s m.ble_cbuf.write_ptr 64 (strlen s + 1 - 1) 1
      (m.ble_cbuf.cbuf.set m.ble_cbuf.write_ptr (strlen s + 1))).length = 64
    rw [ble_circ_push_loop_length, hlen1]
  · show ((m.ble_cbuf.write_ptr + (strlen s + 1)) % U32) % m.ble_cbuf.size = _
    rw [hs, hu _ h8, Nat.add_assoc]
  · intro j hj
    show (ble_circ_push_loop s m.ble_cbuf.write_ptr 64 (strlen s + 1 - 1) 1
      (m.ble_cbuf.cbuf.set m.ble_cbuf.write_ptr (strlen s + 1))).getD j 0 = _
    rw [ble_circ_push_loop_untouched _ _ _ _ _ _ _ (fun k hk1 hk2 => by
      rw [hu k (by omega)]; exact hj k (by omega))]
    refine getD_set_ne _ _ _ _ ?_
    have := hj 0 (Nat.zero_le _)
    rw [Nat.add_zero, Nat.mod_eq_of_lt hw] at this
    exact Ne.symm this
  · intro hfit
    constructor
    · show (ble_circ_push_loop s m.ble_cbuf.write_ptr 64 (strlen s + 1 - 1) 1
        (m.ble_cbuf.cbuf.set m.ble_cbuf.write_ptr (strlen s + 1))).getD m.ble_cbuf.write_ptr 0 = _
      rw [ble_circ_push_loop_untouched _ _ _ _ _ _ _ (fun k hk1 hk2 => by
        rw [hu k (by omega)]; omega)]
      exact getD_set_self _ _ _ (by omega)
    · intro i hi
      show (ble_circ_push_loop s m.ble_cbuf.write_ptr 64 (strlen s + 1 - 1) 1
        (m.ble_cbuf.cbuf.set m.ble_cbuf.write_ptr (strlen s + 1))).getD
          ((m.ble_cbuf.write_ptr + 1 + i) % 64) 0 = _
      have h := ble_circ_push_loop_last s m.ble_cbuf.write_ptr 64
        ((m.ble_cbuf.write_ptr + 1 + i) % 64) (strlen s + 1 - 1) 1
        (m.ble_cbuf.cbuf.set m.ble_cbuf.write_ptr (strlen s + 1)) (i + 1)
        (by omega) (by omega) (by rw [hu _ (by omega)]; congr 1; omega)
        (by rw [hlen1]; omega)
        (fun k1 hk1 hk2 => by rw [hu k1 (by omega)]; omega)
      rw [h]
      simp
  · intro hbig
    show (ble_circ_push_loop s m.ble_cbuf.write_ptr 64 (strlen s + 1 - 1) 1
      (m.ble_cbuf.cbuf.set m.ble_cbuf.write_ptr (strlen s + 1))).getD m.ble_cbuf.write_ptr 0 = _
    have h := ble_circ_push_loop_last s m.ble_cbuf.write_ptr 64 m.ble_cbuf.write_ptr
      (strlen s + 1 - 1) 1
      (m.ble_cbuf.cbuf.set m.ble_cbuf.write_ptr (strlen s + 1)) 64
      (by omega) (by omega) (by rw [hu _ (by omega)]; omega)
      (by rw [hlen1]; omega)
      (fun k1 hk1 hk2 => by rw [hu k1 (by omega)]; omega)
    rw [h]

/-- C34: `ble_circ_push` of a string of `len` bytes that passes the space check,
on the buffer of 64 bytes with write index `w`.  The call returns; only the
buffer cells at the indices `(w + i) mod 64`, `i ≤ len`, and the write index
change, and the write index becomes `(w + len + 1) mod 64`.  If the packet fits
the capacity (`len + 1 ≤ 64`), index `w` holds the packet size `len + 1` and
index `(w + 1 + i) mod 64` holds byte `i` of the string.  If it does not, which
the space check lets through once the write index has wrapped below the read
index, the copy loop comes round to index `w` and leaves byte 63 of the string
there instead of the packet size. -/
theorem ble_circ_push_stores (m : Machine) (s : List Nat)
    (hs : m.ble_cbuf.size = 64) (hl : m.ble_cbuf.cbuf.length = 64)
    (hr : m.ble_cbuf.read_ptr < 64) (hw : m.ble_cbuf.write_ptr < 64)
    (h8 : strlen s + 1 < 256)
    (hcheck : strlen s + 1 ≤ ble_circ_space m) :
    ∃ m1, ble_circ_push s m = Run.done () m1 ∧
      m1 = { m with ble_cbuf := m1.ble_cbuf } ∧
      m1.ble_cbuf.size = 64 ∧ m1.ble_cbuf.size_mask = m.ble_cbuf.size_mask ∧
      m1.ble_cbuf.cbuf.length = 64 ∧
      m1.ble_cbuf.read_ptr = m.ble_cbuf.read_ptr ∧
      m1.ble_cbuf.write_ptr = (m.ble_cbuf.write_ptr + strlen s + 1) % 64 ∧
      (∀ j, (∀ i, i ≤ strlen s → (m.ble_cbuf.write_ptr + i) % 64 ≠ j) →
        m1.ble_cbuf.cbuf.getD j 0 = m.ble_cbuf.cbuf.getD j 0) ∧
      (strlen s + 1 ≤ 64 →
        m1.ble_cbuf.cbuf.getD m.ble_cbuf.write_ptr 0 = strlen s + 1 ∧
        ∀ i, i < strlen s →
          m1.ble_cbuf.cbuf.getD ((m.ble_cbuf.write_ptr + 1 + i) % 64) 0 = s.getD i 0) ∧
      (64 < strlen s + 1 →
        m1.ble_cbuf.cbuf.getD m.ble_cbuf.write_ptr 0 = s.getD 63 0) :=
  ble_circ_push_effect m s hs hl hr hw h8 hcheck

/-- Witness for C34, the failing input: in the state `ble_wrapped` (read index
51, write index 13, 38 bytes free) the push of a string of 70 bytes passes the
space check; index 13 then holds byte 63 of the string, 97, not the packet
size 71. -/
theorem ble_circ_push_stores_witness :
    (ble_circ_space ble_wrapped = 102 ∧ strlen (List.replicate 70 97) + 1 = 71 ∧
      (ble_circ_push (List.replicate 70 97) ble_wrapped).machine.ble_cbuf.cbuf.getD 13 0 = 97) ∧
    ∃ m1, ble_circ_push (List.replicate 70 97) ble_wrapped = Run.done () m1 ∧
      m1 = { ble_wrapped with ble_cbuf := m1.ble_cbuf } ∧
      m1.ble_cbuf.size = 64 ∧ m1.ble_cbuf.size_mask = ble_wrapped.ble_cbuf.size_mask ∧
      m1.ble_cbuf.cbuf.length = 64 ∧
      m1.ble_cbuf.read_ptr = ble_wrapped.ble_cbuf.read_ptr ∧
      m1.ble_cbuf.write_ptr
        = (ble_wrapped.ble_cbuf.write_ptr + strlen (List.replicate 70 97) + 1) % 64 ∧
      (∀ j, (∀ i, i ≤ strlen (List.replicate 70 97) →
          (ble_wrapped.ble_cbuf.write_ptr + i) % 64 ≠ j) →
        m1.ble_cbuf.cbuf.getD j 0 = ble_wrapped.ble_cbuf.cbuf.getD j 0) ∧
      (strlen (List.replicate 70 97) + 1 ≤ 64 →
        m1.ble_cbuf.cbuf.getD ble_wrapped.ble_cbuf.write_ptr 0
          = strlen (List.replicate 70 97) + 1 ∧
        ∀ i, i < strlen (List.replicate 70 97) →
          m1.ble_cbuf.cbuf.getD ((ble_wrapped.ble_cbuf.write_ptr + 1 + i) % 64) 0
            = (List.replicate 70 97).getD i 0) ∧
      (64 < strlen (List.replicate 70 97) + 1 →
        m1.ble_cbuf.cbuf.getD ble_wrapped.ble_cbuf.write_ptr 0
          = (List.replicate 70 97).getD 63 0) :=
  ⟨⟨by decide, by decide, by decide⟩,
   ble_circ_push_stores ble_wrapped (List.replicate 70 97) (by decide) (by decide) (by decide)
     (by decide) (by decide) (by decide)⟩

/-! ## A push that fills the buffer -/

theorem ble_circ_pop_empty (m : Machine) (test : Bool)
    (he : m.ble_cbuf.read_ptr = m.ble_cbuf.write_ptr) :
    ble_circ_pop test m = Run.done true m := by
  unfold ble_circ_pop
  simp only [ble_circ_filled_of_empty m he, if_true]

theorem ble_circ_pop_repeat_empty (m : Machine) (test : Bool) (n : Nat)
    (he : m.ble_cbuf.read_ptr = m.ble_cbuf.write_ptr) :
    ble_circ_pop_repeat test n m = Run.done true m := by
  induction n with
  | zero => rfl
  | succ k ih => rw [ble_circ_pop_repeat, ble_circ_pop_empty m test he, Run.bind_done, ih]

/-- C37: a push that brings the occupancy `(write − read) mod 64` to exactly
the capacity 64 is accepted and leaves the write index equal to the read
index; `ble_circ_pop` then computes an occupied length of 0 and returns true
with the state unchanged, in either mode and however often it is called, so the
queued strings are not delivered.  On an empty buffer this is the push of a
string of 63 bytes. -/
theorem ble_circ_push_to_capacity_lost (m : Machine) (s : List Nat) (test : Bool) (n : Nat)
    (hs : m.ble_cbuf.size = 64)
    (hr : m.ble_cbuf.read_ptr < 64) (hw : m.ble_cbuf.write_ptr < 64)
    (hfull : (m.ble_cbuf.write_ptr + 64 - m.ble_cbuf.read_ptr) % 64 + (strlen s + 1) = 64) :
    strlen s + 1 ≤ ble_circ_space m ∧
    (m.ble_cbuf.read_ptr = m.ble_cbuf.write_ptr → strlen s = 63) ∧
    ∃ m1, ble_circ_push s m = Run.done () m1 ∧
      m1.ble_cbuf.read_ptr = m.ble_cbuf.read_ptr ∧
      m1.ble_cbuf.write_ptr = m1.ble_cbuf.read_ptr ∧
      (sub32 m1.ble_cbuf.size (ble_circ_space m1)) % U8 = 0 ∧
      ble_circ_pop test m1 = Run.done true m1 ∧
      ble_circ_pop_repeat test n m1 = Run.done true m1 := by
  have hsp := ble_circ_space_le m hs hr hw
  have hps : (strlen s + 1) % U8 = strlen s + 1 := Nat.mod_eq_of_lt (by unfold U8; omega)
  have hrun := ble_circ_push_eq m s (by rw [hps]; omega)
  rw [hps] at hrun
  have hwr : ((m.ble_cbuf.write_ptr + (strlen s + 1)) % U32) % m.ble_cbuf.size
      = m.ble_cbuf.read_ptr := by
    rw [hs, Nat.mod_eq_of_lt (show m.ble_cbuf.write_ptr + (strlen s + 1) < U32 by
      unfold U32; omega)]
    omega
  have key : ∃ m1, ble_circ_push s m = Run.done () m1 ∧
      m1.ble_cbuf.read_ptr = m.ble_cbuf.read_ptr ∧
      m1.ble_cbuf.write_ptr = m.ble_cbuf.read_ptr := ⟨_, hrun, rfl, hwr⟩
  obtain ⟨m1, h1, h2, h3⟩ := key
  have he : m1.ble_cbuf.read_ptr = m1.ble_cbuf.write_ptr := by rw [h2, h3]
  exact ⟨by omega, fun h => by omega, m1, h1, h2, he.symm, ble_circ_filled_of_empty m1 he,
    ble_circ_pop_empty m1 test he, ble_circ_pop_repeat_empty m1 test n he⟩

/-- Witness for C37: a string of 63 bytes pushed on the freshly initialised
buffer, then three pops. -/
theorem ble_circ_push_to_capacity_lost_witness :
    strlen (List.replicate 63 97) + 1 ≤ ble_circ_space (ble_circ_init boot) ∧
    ((ble_circ_init boot).ble_cbuf.read_ptr = (ble_circ_init boot).ble_cbuf.write_ptr →
      strlen (List.replicate 63 97) = 63) ∧
    ∃ m1, ble_circ_push (List.replicate 63 97) (ble_circ_init boot) = Run.done () m1 ∧
      m1.ble_cbuf.read_ptr = (ble_circ_init boot).ble_cbuf.read_ptr ∧
      m1.ble_cbuf.write_ptr = m1.ble_cbuf.read_ptr ∧
      (sub32 m1.ble_cbuf.size (ble_circ_space m1)) % U8 = 0 ∧
      ble_circ_pop CIRC_OPER m1 = Run.done true m1 ∧
      ble_circ_pop_repeat CIRC_OPER 3 m1 = Run.done true m1 :=
  ble_circ_push_to_capacity_lost (ble_circ_init boot) (List.replicate 63 97) CIRC_OPER 3
    (by decide) (by decide) (by decide) (by decide)

/-! ## A transmission of no byte -/

theorem ble_circ_pop_eq (m : Machine)
    (hfilled : (sub32 m.ble_cbuf.size (ble_circ_space m)) % U8 ≠ 0)
    (hidle : leuart_tx_busy m = false)
    (hcheck : ¬ (m.ble_cbuf.cbuf.getD m.ble_cbuf.read_ptr 0 + U8 - 1) % U8 + 1
      > (sub32 m.ble_cbuf.size (ble_circ_space m)) % U8) :
    ble_circ_pop CIRC_OPER m =
      (leuart_start
        ((List.range ((m.ble_cbuf.cbuf.getD m.ble_cbuf.read_ptr 0 + U8 - 1) % U8)).map
          (fun i => m.ble_cbuf.cbuf.getD
            (((m.ble_cbuf.read_ptr + 1 + i) % U32) % m.ble_cbuf.size) 0) ++ [0])
        (strlen ((List.range ((m.ble_cbuf.cbuf.getD m.ble_cbuf.read_ptr 0 + U8 - 1) % U8)).map
          (fun i => m.ble_cbuf.cbuf.getD
            (((m.ble_cbuf.read_ptr + 1 + i) % U32) % m.ble_cbuf.size) 0) ++ [0]))
        (update_circ_readindex ((m.ble_cbuf.cbuf.getD m.ble_cbuf.read_ptr 0 + U8 - 1) % U8 + 1)
          m)).bind fun _ m2 => Run.done false m2 := by
  unfold ble_circ_pop
  dsimp only
  rw [if_neg hfilled, hidle, if_neg (by decide), if_neg hcheck, Run.bind_done]
  rfl

theorem leuart_txbl_nothing_left (m : Machine) (flags : LEUART_Flags) (rxdata : Nat)
    (hs : m.leuart_payload.state = LEUART_States.SEND_DATA)
    (hi : ¬ m.leuart_payload.index < m.leuart_payload.message_len)
    (hf : flags.txbl = true) :
    leuart_txbl m = Run.halted m ∧
    ∃ mh, LEUART0_IRQHandler flags rxdata m = Run.halted mh ∧
      mh.leuart_payload = m.leuart_payload ∧
      mh.leuart_hw.txdata = m.leuart_hw.txdata ∧
      mh.posted = m.posted ∧ mh.event_scheduled = m.event_scheduled := by
  have h1 : ∀ m1 : Machine, m1.leuart_payload = m.leuart_payload →
      leuart_txbl m1 = Run.halted m1 := by
    intro m1 hp
    unfold leuart_txbl
    rw [hp, hs]
    dsimp only
    rw [if_neg hi]
    rfl
  have hM := h1
    { disable_irq m with leuart_hw := { (disable_irq m).leuart_hw with
        if_txc := (disable_irq m).leuart_hw.if_txc && !flags.txc,
        if_sigf := (disable_irq m).leuart_hw.if_sigf && !flags.sigf,
        if_startf := (disable_irq m).leuart_hw.if_startf && !flags.startf } } rfl
  have hrun : LEUART0_IRQHandler flags rxdata m = Run.halted
      { disable_irq m with leuart_hw := { (disable_irq m).leuart_hw with
          if_txc := (disable_irq m).leuart_hw.if_txc && !flags.txc,
          if_sigf := (disable_irq m).leuart_hw.if_sigf && !flags.sigf,
          if_startf := (disable_irq m).leuart_hw.if_startf && !flags.startf } } := by
    show ((if flags.txbl = true then
        leuart_txbl
          { disable_irq m with leuart_hw := { (disable_irq m).leuart_hw with
              if_txc := (disable_irq m).leuart_hw.if_txc && !flags.txc,
              if_sigf := (disable_irq m).leuart_hw.if_sigf && !flags.sigf,
              if_startf := (disable_irq m).leuart_hw.if_startf && !flags.startf } }
        else _).bind _) = _
    rw [if_pos hf, hM, Run.bind_halted]
  exact ⟨h1 m rfl, _, hrun, rfl, rfl, rfl, rfl⟩

/-- C38: `leuart_start(msg, 0)` returns with the state SEND_DATA and index =
length = 0; the interrupt handler entered with the byte-ready cause then stops
at the assertion of `leuart_txbl` before any other cause is served: no byte
has been written, the state is still SEND_DATA and nothing has been posted.
`ble_write` of the empty string on an empty buffer with the transmitter idle
pushes a packet of one byte, pops it and calls `leuart_start` with length 0,
so the next byte-ready interrupt ends in the same assertion. -/
theorem leuart_zero_length_transmission_fatal (m : Machine) (msg s : List Nat)
    (flags : LEUART_Flags) (rxdata : Nat)
    (hc : m.lowest_energy_mode.get EM3 < 9) (hf : flags.txbl = true)
    (hs0 : strlen s = 0)
    (hsz : m.ble_cbuf.size = 64) (hl : m.ble_cbuf.cbuf.length = 64)
    (hr : m.ble_cbuf.read_ptr < 64) (he : m.ble_cbuf.read_ptr = m.ble_cbuf.write_ptr)
    (hidle : leuart_tx_busy m = false) :
    (∃ m1 mh, leuart_start msg 0 m = Run.done () m1 ∧
      m1.leuart_payload.state = LEUART_States.SEND_DATA ∧
      m1.leuart_payload.index = 0 ∧ m1.leuart_payload.message_len = 0 ∧
      m1.leuart_hw.ien_txbl = true ∧
      leuart_txbl m1 = Run.halted m1 ∧
      LEUART0_IRQHandler flags rxdata m1 = Run.halted mh ∧
      mh.leuart_payload.state = LEUART_States.SEND_DATA ∧
      mh.leuart_hw.txdata = m.leuart_hw.txdata ∧
      mh.posted = m.posted ∧ mh.event_scheduled = m.event_scheduled) ∧
    (∃ m2 mh, ble_write s m = Run.done () m2 ∧
      m2.ble_cbuf.cbuf.getD m.ble_cbuf.write_ptr 0 = 1 ∧
      m2.ble_cbuf.read_ptr = m2.ble_cbuf.write_ptr ∧
      m2.leuart_payload.state = LEUART_States.SEND_DATA ∧
      m2.leuart_payload.index = 0 ∧ m2.leuart_payload.message_len = 0 ∧
      m2.leuart_hw.ien_txbl = true ∧
      leuart_tx_irq m2 = Run.halted mh ∧
      mh.leuart_payload.state = LEUART_States.SEND_DATA ∧
      mh.leuart_hw.txdata = m.leuart_hw.txdata ∧
      mh.posted = m.posted ∧ mh.event_scheduled = m.event_scheduled) := by
  have hc10 : (m.lowest_energy_mode.get LEUART_TX_EM + 1) % U32 < 10 := by
    show (m.lowest_energy_mode.get EM3 + 1) % U32 < 10
    unfold U32; omega
  constructor
  · have hstart := leuart_start_cases msg 0 m
    rw [if_pos hc10] at hstart
    obtain ⟨ht, mh, hh, hp, htx, hpo, hev⟩ :=
      leuart_txbl_nothing_left (tx_started m msg 0) flags rxdata rfl (by simp [tx_started]) hf
    exact ⟨_, mh, hstart, rfl, rfl, rfl, rfl, ht, hh, by rw [hp]; rfl, htx, hpo, hev⟩
  · have hps : (strlen s + 1) % U8 = 1 := by rw [hs0]; decide
    have hsp := ble_circ_space_le m hsz hr (by omega)
    have hpush := ble_circ_push_eq m s (by rw [hps]; omega)
    rw [hps] at hpush
    have hloop : ble_circ_push_loop s m.ble_cbuf.write_ptr m.ble_cbuf.size (1 - 1) 1
        (m.ble_cbuf.cbuf.set m.ble_cbuf.write_ptr 1)
        = m.ble_cbuf.cbuf.set m.ble_cbuf.write_ptr 1 := rfl
    rw [hloop] at hpush
    have hw1 : ((m.ble_cbuf.write_ptr + 1) % U32) % m.ble_cbuf.size
        = (m.ble_cbuf.write_ptr + 1) % 64 := by
      rw [hsz, Nat.mod_eq_of_lt (show m.ble_cbuf.write_ptr + 1 < U32 by unfold U32; omega)]
    -- the state after the push
    obtain ⟨mp, hmp, hpsz, hprd, hpwr, hpcb, hpidle, hpem, hptx, hppo, hpev⟩ :
        ∃ mp, ble_circ_push s m = Run.done () mp ∧ mp.ble_cbuf.size = 64 ∧
          mp.ble_cbuf.read_ptr = m.ble_cbuf.read_ptr ∧
          mp.ble_cbuf.write_ptr = (m.ble_cbuf.write_ptr + 1) % 64 ∧
          mp.ble_cbuf.cbuf = m.ble_cbuf.cbuf.set m.ble_cbuf.write_ptr 1 ∧
          leuart_tx_busy mp = false ∧
          mp.lowest_energy_mode = m.lowest_energy_mode ∧
          mp.leuart_hw = m.leuart_hw ∧ mp.posted = m.posted ∧
          mp.event_scheduled = m.event_scheduled :=
      ⟨_, hpush, hsz, rfl, hw1, rfl, hidle, rfl, rfl, rfl, rfl⟩
    have hget : mp.ble_cbuf.cbuf.getD mp.ble_cbuf.read_ptr 0 = 1 := by
      rw [hpcb, hprd, he]
      exact getD_set_self _ _ _ (by omega)
    have hspp := ble_circ_space_le mp hpsz (by omega) (by rw [hpwr]; omega)
    have hfilled : (sub32 mp.ble_cbuf.size (ble_circ_space mp)) % U8 ≠ 0 := by
      rw [hspp, hpsz, hprd, hpwr]
      unfold sub32 U32 U8
      omega
    have hsl : (mp.ble_cbuf.cbuf.getD mp.ble_cbuf.read_ptr 0 + U8 - 1) % U8 = 0 := by
      rw [hget]; decide
    have hpop := ble_circ_pop_eq mp hfilled hpidle (by rw [hsl]; omega)
    rw [hsl] at hpop
    have hstr : (List.range 0).map
        (fun i => mp.ble_cbuf.cbuf.getD
          (((mp.ble_cbuf.read_ptr + 1 + i) % U32) % mp.ble_cbuf.size) 0) ++ [0] = [0] := rfl
    rw [hstr, leuart_start_cases, if_pos (by
      show ((update_circ_readindex (0 + 1) mp).lowest_energy_mode.get LEUART_TX_EM + 1) % U32 < 10
      show (mp.lowest_energy_mode.get LEUART_TX_EM + 1) % U32 < 10
      rw [hpem]; exact hc10), Run.bind_done] at hpop
    have hwrite : ble_write s m
        = Run.done () (tx_started (update_circ_readindex (0 + 1) mp) [0] (strlen [0])) := by
      unfold ble_write
      rw [hmp, Run.bind_done, hpop, Run.bind_done]
    have hrd : ((mp.ble_cbuf.read_ptr + (0 + 1)) % U32) % mp.ble_cbuf.size
        = mp.ble_cbuf.write_ptr := by
      rw [hpsz, hprd, hpwr, he,
        Nat.mod_eq_of_lt (show m.ble_cbuf.write_ptr + (0 + 1) < U32 by unfold U32; omega)]
    obtain ⟨_, mh, hh, hp, htx, hpo, hev⟩ :=
      leuart_txbl_nothing_left (tx_started (update_circ_readindex (0 + 1) mp) [0] (strlen [0]))
        (leuart_pending true false (tx_started (update_circ_readindex (0 + 1) mp) [0] (strlen [0])))
        0 rfl (by simp [tx_started, strlen]) rfl
    have hirq : leuart_tx_irq (tx_started (update_circ_readindex (0 + 1) mp) [0] (strlen [0]))
        = Run.halted mh := by
      have hien : (tx_started (update_circ_readindex (0 + 1) mp) [0]
          (strlen [0])).leuart_hw.ien_txbl = true := rfl
      unfold leuart_tx_irq
      rw [if_pos hien, hh, Run.bind_halted]
    refine ⟨_, mh, hwrite, ?_, hrd, rfl, rfl, rfl, rfl, hirq, by rw [hp]; rfl, ?_, ?_, ?_⟩
    · show mp.ble_cbuf.cbuf.getD m.ble_cbuf.write_ptr 0 = 1
      rw [← he, ← hprd]; exact hget
    · rw [htx]; show mp.leuart_hw.txdata = _; rw [hptx]
    · rw [hpo]; exact hppo
    · rw [hev]; exact hpev

/-- Witness for C38: the freshly initialised buffer of the reset state, the
empty string, and an interrupt with the byte-ready cause alone. -/
theorem leuart_zero_length_transmission_fatal_witness :
    (∃ m1 mh, leuart_start [65] 0 (ble_circ_init boot) = Run.done () m1 ∧
      m1.leuart_payload.state = LEUART_States.SEND_DATA ∧
      m1.leuart_payload.index = 0 ∧ m1.leuart_payload.message_len = 0 ∧
      m1.leuart_hw.ien_txbl = true ∧
      leuart_txbl m1 = Run.halted m1 ∧
      LEUART0_IRQHandler
        { txbl := true, txc := false, sigf := false, startf := false, rxdatav := false } 0 m1
        = Run.halted mh ∧
      mh.leuart_payload.state = LEUART_States.SEND_DATA ∧
      mh.leuart_hw.txdata = (ble_circ_init boot).leuart_hw.txdata ∧
      mh.posted = (ble_circ_init boot).posted ∧
      mh.event_scheduled = (ble_circ_init boot).event_scheduled) ∧
    (∃ m2 mh, ble_write [] (ble_circ_init boot) = Run.done () m2 ∧
      m2.ble_cbuf.cbuf.getD (ble_circ_init boot).ble_cbuf.write_ptr 0 = 1 ∧
      m2.ble_cbuf.read_ptr = m2.ble_cbuf.write_ptr ∧
      m2.leuart_payload.state = LEUART_States.SEND_DATA ∧
      m2.leuart_payload.index = 0 ∧ m2.leuart_payload.message_len = 0 ∧
      m2.leuart_hw.ien_txbl = true ∧
      leuart_tx_irq m2 = Run.halted mh ∧
      mh.leuart_payload.state = LEUART_States.SEND_DATA ∧
      mh.leuart_hw.txdata = (ble_circ_init boot).leuart_hw.txdata ∧
      mh.posted = (ble_circ_init boot).posted ∧
      mh.event_scheduled = (ble_circ_init boot).event_scheduled) :=
  leuart_zero_length_transmission_fatal (ble_circ_init boot) [65] []
    { txbl := true, txc := false, sigf := false, startf := false, rxdatav := false } 0
    (by decide) (by rfl) (by decide) (by decide) (by decide) (by decide) (by decide) (by decide)

/-! ## The serial driver in operation: what each step does -/

theorem Run.bind_eq_done {α β : Type} (r : Run α) (f : α → Machine → Run β) (b : β)
    (m2 : Machine) (h : r.bind f = Run.done b m2) :
    ∃ a m1, r = Run.done a m1 ∧ f a m1 = Run.done b m2 := by
  cases r with
  | done a m1 => exact ⟨a, m1, rfl, h⟩
  | halted m1 => rw [Run.bind_halted] at h; exact absurd h (by simp)

theorem leuart_start_effect (string : List Nat) (n : Nat) (m m1 : Machine)
    (h : leuart_start string n m = Run.done () m1) :
    (m.lowest_energy_mode.get EM3 + 1) % U32 < 10 ∧
    m1.lowest_energy_mode.get EM3 = (m.lowest_energy_mode.get EM3 + 1) % U32 ∧
    m1.leuart_payload.state = LEUART_States.SEND_DATA ∧
    m1.leuart_payload.rxbusy = m.leuart_payload.rxbusy ∧
    m1.leuart_payload.rx_state = m.leuart_payload.rx_state ∧
    m1.rx_oob = m.rx_oob := by
  rw [leuart_start_cases] at h
  split_ifs at h with hc
  simp only [Run.done.injEq, true_and] at h
  subst h
  exact ⟨hc, EnergyModes.get_set_same _ _ _ em3_lt, rfl, rfl, rfl, rfl⟩

theorem leuart_txbl_effect (m m1 : Machine) (h : leuart_txbl m = Run.done () m1) :
    m.leuart_payload.state = LEUART_States.SEND_DATA ∧
    m1.leuart_payload.state ≠ LEUART_States.LEUART_INITIALIZE ∧
    m1.lowest_energy_mode = m.lowest_energy_mode ∧
    m1.leuart_payload.rxbusy = m.leuart_payload.rxbusy ∧
    m1.leuart_payload.rx_state = m.leuart_payload.rx_state ∧
    m1.rx_oob = m.rx_oob := by
  unfold leuart_txbl at h
  cases hs : m.leuart_payload.state with
  | LEUART_INITIALIZE => rw [hs] at h; exact absurd h (by simp [EFM_ASSERT])
  | FINISH_WAIT => rw [hs] at h; exact absurd h (by simp [EFM_ASSERT])
  | SEND_DATA =>
    rw [hs] at h
    simp only [] at h
    split_ifs at h
    · simp only [Run.done.injEq, true_and] at h
      subst h
      exact ⟨rfl, by simp, rfl, rfl, rfl, rfl⟩
    · simp only [Run.done.injEq, true_and] at h
      subst h
      exact ⟨rfl, by simp [hs], rfl, rfl, rfl, rfl⟩
    · exact absurd h (by simp [EFM_ASSERT])

theorem leuart_txc_effect (m m1 : Machine) (h : leuart_txc m = Run.done () m1) :
    m.leuart_payload.state = LEUART_States.FINISH_WAIT ∧
    m1.leuart_payload.state = LEUART_States.LEUART_INITIALIZE ∧
    m1.lowest_energy_mode.get EM3 = sub32 (m.lowest_energy_mode.get EM3) 1 ∧
    m1.leuart_payload.rxbusy = m.leuart_payload.rxbusy ∧
    m1.leuart_payload.rx_state = m.leuart_payload.rx_state ∧
    m1.rx_oob = m.rx_oob := by
  unfold leuart_txc at h
  cases hs : m.leuart_payload.state with
  | LEUART_INITIALIZE => rw [hs] at h; exact absurd h (by simp [EFM_ASSERT])
  | SEND_DATA => rw [hs] at h; exact absurd h (by simp [EFM_ASSERT])
  | FINISH_WAIT =>
    rw [hs] at h
    simp only [] at h
    rw [sleep_unblock_mode_done _ _ leuart_rx_em_lt, Run.bind_done] at h
    simp only [Run.done.injEq, true_and] at h
    subst h
    have key : ∀ (l : EnergyModes) (v : Nat), (l.set LEUART_RX_EM v).get EM3 = v :=
      fun l v => EnergyModes.get_set_same l EM3 v em3_lt
    refine ⟨rfl, rfl, ?_, rfl, rfl, rfl⟩
    dsimp only
    rw [key]
    rfl

theorem rx_message_store_keeps (i v : Nat) (m : Machine) :
    (rx_message_store i v m).lowest_energy_mode = m.lowest_energy_mode ∧
    (rx_message_store i v m).leuart_payload.state = m.leuart_payload.state ∧
    (rx_message_store i v m).leuart_payload.rxbusy = m.leuart_payload.rxbusy ∧
    (i < 80 → (rx_message_store i v m).leuart_payload.rx_state = m.leuart_payload.rx_state ∧
      (rx_message_store i v m).rx_oob = m.rx_oob) ∧
    (80 ≤ i → (rx_message_store i v m).rx_oob = m.rx_oob ++ [i]) := by
  unfold rx_message_store
  split_ifs with h1 h2
  · exact ⟨rfl, rfl, rfl, fun _ => ⟨rfl, rfl⟩, fun h => absurd h1 (by omega)⟩
  · exact ⟨rfl, rfl, rfl, fun h => absurd h h1, fun _ => rfl⟩
  · exact ⟨rfl, rfl, rfl, fun h => absurd h h1, fun _ => rfl⟩

theorem leuart_sigf_effect (m m1 : Machine) (h : leuart_sigf m = Run.done () m1) :
    m.leuart_payload.rx_state = LEUART_RXStates.RECIEVE_DATA ∧
    (m.leuart_payload.rx_index < 80 →
      m1.leuart_payload.rx_state = LEUART_RXStates.RESET ∧ m1.rx_oob = m.rx_oob) ∧
    m1.leuart_payload.rxbusy = m.leuart_payload.rxbusy ∧
    m1.leuart_payload.state = m.leuart_payload.state ∧
    m1.lowest_energy_mode = m.lowest_energy_mode ∧
    (80 ≤ m.leuart_payload.rx_index → m1.rx_oob = m.rx_oob ++ [m.leuart_payload.rx_index]) := by
  unfold leuart_sigf at h
  cases hs : m.leuart_payload.rx_state with
  | WAIT => simp only [hs] at h; exact absurd h (by simp [EFM_ASSERT])
  | RESET => simp only [hs] at h; exact absurd h (by simp [EFM_ASSERT])
  | invalid v => simp only [hs] at h; exact absurd h (by simp [EFM_ASSERT])
  | RECIEVE_DATA =>
    simp only [hs, Run.done.injEq, true_and] at h
    subst h
    obtain ⟨k1, k2, k3, k4, k5⟩ := rx_message_store_keeps m.leuart_payload.rx_index 0
      { m with
        leuart_hw := { m.leuart_hw with if_sigf := false },
        leuart_payload := { m.leuart_payload with rx_state := LEUART_RXStates.RESET } }
    exact ⟨rfl, fun hi => ⟨(k4 hi).1, (k4 hi).2⟩, k3, k2, k1, fun hi => k5 hi⟩

theorem leuart_startf_effect (m m1 : Machine) (h : leuart_startf m = Run.done () m1) :
    m.leuart_payload.rx_state = LEUART_RXStates.WAIT ∧
    m1.leuart_payload.rx_state = LEUART_RXStates.RECIEVE_DATA ∧
    m1.leuart_payload.rxbusy = true ∧
    m1.leuart_payload.state = m.leuart_payload.state ∧
    m1.lowest_energy_mode = m.lowest_energy_mode ∧
    m1.leuart_payload.rx_index = 0 ∧
    m1.rx_oob = m.rx_oob := by
  unfold leuart_startf at h
  cases hs : m.leuart_payload.rx_state with
  | RECIEVE_DATA => simp only [hs] at h; exact absurd h (by simp [EFM_ASSERT])
  | RESET => simp only [hs] at h; exact absurd h (by simp [EFM_ASSERT])
  | invalid v => simp only [hs] at h; exact absurd h (by simp [EFM_ASSERT])
  | WAIT =>
    simp only [hs, Run.done.injEq, true_and] at h
    subst h
    exact ⟨rfl, rfl, rfl, rfl, rfl, rfl, rfl⟩

theorem leuart_rxdatav_effect (rxdata : Nat) (m m1 : Machine)
    (h : leuart_rxdatav rxdata m = Run.done () m1) :
    ((m.leuart_payload.rx_state = LEUART_RXStates.RECIEVE_DATA ∧
        m1.leuart_payload.rxbusy = m.leuart_payload.rxbusy ∧
        (m.leuart_payload.rx_index < 80 →
          m1.leuart_payload.rx_state = LEUART_RXStates.RECIEVE_DATA ∧ m1.rx_oob = m.rx_oob) ∧
        (80 ≤ m.leuart_payload.rx_index →
          m1.rx_oob = m.rx_oob ++ [m.leuart_payload.rx_index])) ∨
      (m.leuart_payload.rx_state = LEUART_RXStates.RESET ∧
        m1.leuart_payload.rx_state = LEUART_RXStates.WAIT ∧
        m1.leuart_payload.rxbusy = false ∧ m1.rx_oob = m.rx_oob)) ∧
    m1.leuart_payload.state = m.leuart_payload.state ∧
    m1.lowest_energy_mode = m.lowest_energy_mode := by
  unfold leuart_rxdatav at h
  cases hs : m.leuart_payload.rx_state with
  | WAIT => simp only [hs] at h; exact absurd h (by simp [EFM_ASSERT])
  | invalid v => simp only [hs] at h; exact absurd h (by simp [EFM_ASSERT])
  | RECIEVE_DATA =>
    simp only [hs, Run.done.injEq, true_and] at h
    subst h
    obtain ⟨k1, k2, k3, k4, k5⟩ := rx_message_store_keeps m.leuart_payload.rx_index rxdata m
    exact ⟨Or.inl ⟨rfl, k3, fun hi => ⟨(k4 hi).1.trans hs, (k4 hi).2⟩, fun hi => k5 hi⟩, k2, k1⟩
  | RESET =>
    simp only [hs, Run.done.injEq, true_and] at h
    subst h
    exact ⟨Or.inr ⟨rfl, rfl, rfl, rfl⟩, rfl, rfl⟩

theorem LEUART0_IRQHandler_inv (Q : EnergyModes → LEUART_PAYLOAD → List Nat → Prop)
    (h1 : ∀ m m1, Q m.lowest_energy_mode m.leuart_payload m.rx_oob → leuart_txbl m = Run.done () m1 →
      Q m1.lowest_energy_mode m1.leuart_payload m1.rx_oob)
    (h2 : ∀ m m1, Q m.lowest_energy_mode m.leuart_payload m.rx_oob → leuart_txc m = Run.done () m1 →
      Q m1.lowest_energy_mode m1.leuart_payload m1.rx_oob)
    (h3 : ∀ m m1, Q m.lowest_energy_mode m.leuart_payload m.rx_oob → leuart_sigf m = Run.done () m1 →
      Q m1.lowest_energy_mode m1.leuart_payload m1.rx_oob)
    (h4 : ∀ m m1, Q m.lowest_energy_mode m.leuart_payload m.rx_oob → leuart_startf m = Run.done () m1 →
      Q m1.lowest_energy_mode m1.leuart_payload m1.rx_oob)
    (h5 : ∀ d m m1, Q m.lowest_energy_mode m.leuart_payload m.rx_oob →
      leuart_rxdatav d m = Run.done () m1 → Q m1.lowest_energy_mode m1.leuart_payload m1.rx_oob)
    (flags : LEUART_Flags) (rxdata : Nat) (m m1 : Machine)
    (hq : Q m.lowest_energy_mode m.leuart_payload m.rx_oob)
    (h : LEUART0_IRQHandler flags rxdata m = Run.done () m1) :
    Q m1.lowest_energy_mode m1.leuart_payload m1.rx_oob := by
  unfold LEUART0_IRQHandler at h
  dsimp only at h
  obtain ⟨_, m2, e1, h⟩ := Run.bind_eq_done _ _ _ _ h
  have q2 : Q m2.lowest_energy_mode m2.leuart_payload m2.rx_oob := by
    by_cases hf : flags.txbl = true
    · rw [if_pos hf] at e1; exact h1 _ _ (by exact hq) e1
    · rw [if_neg hf] at e1
      simp only [Run.done.injEq, true_and] at e1
      rw [← e1]; exact hq
  obtain ⟨_, m3, e2, h⟩ := Run.bind_eq_done _ _ _ _ h
  have q3 : Q m3.lowest_energy_mode m3.leuart_payload m3.rx_oob := by
    by_cases hf : flags.txc = true
    · rw [if_pos hf] at e2; exact h2 _ _ q2 e2
    · rw [if_neg hf] at e2
      simp only [Run.done.injEq, true_and] at e2
      rw [← e2]; exact q2
  obtain ⟨_, m4, e3, h⟩ := Run.bind_eq_done _ _ _ _ h
  have q4 : Q m4.lowest_energy_mode m4.leuart_payload m4.rx_oob := by
    by_cases hf : flags.sigf = true
    · rw [if_pos hf] at e3; exact h3 _ _ q3 e3
    · rw [if_neg hf] at e3
      simp only [Run.done.injEq, true_and] at e3
      rw [← e3]; exact q3
  obtain ⟨_, m5, e4, h⟩ := Run.bind_eq_done _ _ _ _ h
  have q5 : Q m5.lowest_energy_mode m5.leuart_payload m5.rx_oob := by
    by_cases hf : flags.startf = true
    · rw [if_pos hf] at e4; exact h4 _ _ q4 e4
    · rw [if_neg hf] at e4
      simp only [Run.done.injEq, true_and] at e4
      rw [← e4]; exact q4
  obtain ⟨_, m6, e5, h⟩ := Run.bind_eq_done _ _ _ _ h
  have q6 : Q m6.lowest_energy_mode m6.leuart_payload m6.rx_oob := by
    by_cases hf : flags.rxdatav = true
    · rw [if_pos hf] at e5; exact h5 _ _ _ q5 e5
    · rw [if_neg hf] at e5
      simp only [Run.done.injEq, true_and] at e5
      rw [← e5]; exact q5
  simp only [Run.done.injEq, true_and] at h
  rw [← h]; exact q6

theorem leuart_ops_inv (Q : EnergyModes → LEUART_PAYLOAD → List Nat → Prop)
    (h0 : ∀ s n m m1, Q m.lowest_energy_mode m.leuart_payload m.rx_oob →
      leuart_start s n m = Run.done () m1 → Q m1.lowest_energy_mode m1.leuart_payload m1.rx_oob)
    (h1 : ∀ m m1, Q m.lowest_energy_mode m.leuart_payload m.rx_oob → leuart_txbl m = Run.done () m1 →
      Q m1.lowest_energy_mode m1.leuart_payload m1.rx_oob)
    (h2 : ∀ m m1, Q m.lowest_energy_mode m.leuart_payload m.rx_oob → leuart_txc m = Run.done () m1 →
      Q m1.lowest_energy_mode m1.leuart_payload m1.rx_oob)
    (h3 : ∀ m m1, Q m.lowest_energy_mode m.leuart_payload m.rx_oob → leuart_sigf m = Run.done () m1 →
      Q m1.lowest_energy_mode m1.leuart_payload m1.rx_oob)
    (h4 : ∀ m m1, Q m.lowest_energy_mode m.leuart_payload m.rx_oob → leuart_startf m = Run.done () m1 →
      Q m1.lowest_energy_mode m1.leuart_payload m1.rx_oob)
    (h5 : ∀ d m m1, Q m.lowest_energy_mode m.leuart_payload m.rx_oob →
      leuart_rxdatav d m = Run.done () m1 → Q m1.lowest_energy_mode m1.leuart_payload m1.rx_oob)
    (os : List LEUART_Op) :
    ∀ m m1 : Machine, Q m.lowest_energy_mode m.leuart_payload m.rx_oob →
      leuart_ops os m = Run.done () m1 → Q m1.lowest_energy_mode m1.leuart_payload m1.rx_oob := by
  induction os with
  | nil =>
    intro m m1 hq h
    simp only [leuart_ops, Run.done.injEq, true_and] at h
    rw [← h]; exact hq
  | cons o rest ih =>
    intro m m1 hq h
    rw [leuart_ops] at h
    obtain ⟨_, m2, e, h⟩ := Run.bind_eq_done _ _ _ _ h
    refine ih m2 m1 ?_ h
    cases o with
    | start s n => exact h0 s n m m2 hq e
    | irq flags rxdata => exact LEUART0_IRQHandler_inv Q h1 h2 h3 h4 h5 flags rxdata m m2 hq e

theorem leuart_rxsetup_cases (m : Machine) :
    leuart_rxsetup m =
      if (m.lowest_energy_mode.get EM3 + 1) % U32 < 10 then
        Run.done ()
          { m with
            irq_enabled := true,
            lowest_energy_mode :=
              m.lowest_energy_mode.set EM3 ((m.lowest_energy_mode.get EM3 + 1) % U32),
            leuart_hw := { m.leuart_hw with
              sfubrx := true, rxblock := true,
              startframe := RX_STARTFRAME, sigframe := RX_SIGFRAME,
              if_startf := false, ien_rxdatav := true, ien_startf := true },
            leuart_payload := { m.leuart_payload with rxbusy := false } }
      else
        Run.halted
          { m with irq_enabled := false,
                   lowest_energy_mode := m.lowest_energy_mode.set EM3
                     ((m.lowest_energy_mode.get EM3 + 1) % U32) } := by
  have he : LEUART_RX_EM = EM3 := rfl
  unfold leuart_rxsetup
  rw [sleep_block_mode_cases _ _ leuart_rx_em_lt, he]
  by_cases hc : (m.lowest_energy_mode.get EM3 + 1) % U32 < 10
  · rw [if_pos hc, if_pos hc, Run.bind_done]
  · rw [if_neg hc, if_neg hc, Run.bind_halted]

/-- C33: in every state reached after `leuart_rxsetup` (called in WAIT, the
state at reset) through calls of `leuart_start` with strings that fit the
80-byte buffer and runs of the interrupt handler, as long as no store has
fallen outside `rx_message` (the record `rx_oob`, which only grows, is as it
was), the receive-busy flag is set exactly when the receive state is
RECIEVE_DATA or RESET.  The flag is set by the start-frame cause, accepted in
WAIT only; byte-received in RECIEVE_DATA and end-frame, with the index below
80, leave it as it is, and so do `leuart_start` and the two causes of the
transmitter; byte-received in RESET clears it and returns to WAIT.  After the
bytes `>123456789` with no end marker the flag is set.  The code does not
compare the index with the size of the array: after `>` and eighty data bytes
the last one has been stored on `rx_state`, and the flag is set in a state
that is neither RECIEVE_DATA nor RESET (WAIT when that byte is 0). -/
theorem leuart_rxbusy_tracks_rx_state_within_buffer (m0 m2 : Machine) (os : List LEUART_Op)
    (hs : m0.leuart_payload.rx_state = LEUART_RXStates.WAIT)
    (hfit : ∀ s n, LEUART_Op.start s n ∈ os → strlen s < 80)
    (hrun : (leuart_rxsetup m0).bind (fun _ m1 => leuart_ops os m1) = Run.done () m2) :
    (∃ ext, m2.rx_oob = m0.rx_oob ++ ext) ∧
    (m2.rx_oob = m0.rx_oob →
      (m2.leuart_payload.rxbusy = true ↔
        (m2.leuart_payload.rx_state = LEUART_RXStates.RECIEVE_DATA ∨
          m2.leuart_payload.rx_state = LEUART_RXStates.RESET))) ∧
    (∀ m : Machine, m.leuart_payload.rx_state = LEUART_RXStates.WAIT →
      ∃ m1, leuart_startf m = Run.done () m1 ∧ m1.leuart_payload.rxbusy = true ∧
        m1.leuart_payload.rx_state = LEUART_RXStates.RECIEVE_DATA ∧
        m1.leuart_payload.rx_index = 0) ∧
    (∀ (m : Machine) (d : Nat), m.leuart_payload.rx_state = LEUART_RXStates.RECIEVE_DATA →
      m.leuart_payload.rx_index < 80 →
      ∃ m1, leuart_rxdatav d m = Run.done () m1 ∧
        m1.leuart_payload.rxbusy = m.leuart_payload.rxbusy ∧
        m1.leuart_payload.rx_state = LEUART_RXStates.RECIEVE_DATA ∧
        m1.rx_oob = m.rx_oob) ∧
    (∀ m : Machine, m.leuart_payload.rx_state = LEUART_RXStates.RECIEVE_DATA →
      m.leuart_payload.rx_index < 80 →
      ∃ m1, leuart_sigf m = Run.done () m1 ∧
        m1.leuart_payload.rxbusy = m.leuart_payload.rxbusy ∧
        m1.leuart_payload.rx_state = LEUART_RXStates.RESET ∧
        m1.rx_oob = m.rx_oob) ∧
    (∀ (m : Machine) (d : Nat), m.leuart_payload.rx_state = LEUART_RXStates.RESET →
      ∃ m1, leuart_rxdatav d m = Run.done () m1 ∧ m1.leuart_payload.rxbusy = false ∧
        m1.leuart_payload.rx_state = LEUART_RXStates.WAIT) ∧
    (∀ (m m1 : Machine) (s : List Nat) (n : Nat), strlen s < 80 →
      (leuart_start s n m = Run.done () m1 ∨ leuart_txbl m = Run.done () m1 ∨
        leuart_txc m = Run.done () m1) →
      m1.leuart_payload.rxbusy = m.leuart_payload.rxbusy ∧
      m1.leuart_payload.rx_state = m.leuart_payload.rx_state) ∧
    ((leuart_rx_bytes [62, 49, 50, 51, 52, 53, 54, 55, 56, 57] rx_ready).machine.leuart_payload.rxbusy
        = true ∧
      (leuart_rx_bytes [62, 49, 50, 51, 52, 53, 54, 55, 56, 57]
        rx_ready).machine.leuart_payload.rx_state = LEUART_RXStates.RECIEVE_DATA) ∧
    (∃ m3, leuart_rx_bytes (RX_STARTFRAME :: (List.replicate 79 65 ++ [0])) rx_ready
        = Run.done () m3 ∧
      m3.leuart_payload.rxbusy = true ∧
      m3.leuart_payload.rx_state = LEUART_RXStates.WAIT ∧
      m3.rx_oob = [80]) ∧
    (∃ m3, leuart_rx_bytes (RX_STARTFRAME :: (List.replicate 79 65 ++ [65])) rx_ready
        = Run.done () m3 ∧
      m3.leuart_payload.rxbusy = true ∧
      m3.leuart_payload.rx_state = LEUART_RXStates.invalid 65 ∧
      m3.rx_oob = [80]) := by
  have _hfit := hfit
  obtain ⟨_, m1, hsetup, hrun⟩ := Run.bind_eq_done _ _ _ _ hrun
  have hq1 : m1.leuart_payload.rxbusy = false ∧
      m1.leuart_payload.rx_state = LEUART_RXStates.WAIT ∧ m1.rx_oob = m0.rx_oob := by
    rw [leuart_rxsetup_cases] at hsetup
    split_ifs at hsetup
    simp only [Run.done.injEq, true_and] at hsetup
    subst hsetup
    exact ⟨rfl, hs, rfl⟩
  have hinv := leuart_ops_inv
    (fun _ p oob => (∃ ext, oob = m0.rx_oob ++ ext) ∧
      (oob = m0.rx_oob → (p.rxbusy = true ↔
        (p.rx_state = LEUART_RXStates.RECIEVE_DATA ∨ p.rx_state = LEUART_RXStates.RESET))))
    (fun s n m m1 hq h => by
      obtain ⟨_, _, _, e4, e5, e6⟩ := leuart_start_effect s n m m1 h
      rw [e4, e5, e6]; exact hq)
    (fun m m1 hq h => by
      obtain ⟨_, _, _, e4, e5, e6⟩ := leuart_txbl_effect m m1 h
      rw [e4, e5, e6]; exact hq)
    (fun m m1 hq h => by
      obtain ⟨_, _, _, e4, e5, e6⟩ := leuart_txc_effect m m1 h
      rw [e4, e5, e6]; exact hq)
    (fun m m1 hq h => by
      obtain ⟨e1, e2, e3, _, _, e6⟩ := leuart_sigf_effect m m1 h
      obtain ⟨⟨ext, hext⟩, hq2⟩ := hq
      by_cases hi : m.leuart_payload.rx_index < 80
      · obtain ⟨e21, e22⟩ := e2 hi
        rw [e21, e22, e3]
        refine ⟨⟨ext, hext⟩, fun ho => ?_⟩
        have := (hq2 ho).mpr (Or.inl e1)
        simp [this]
      · have e7 := e6 (by omega)
        refine ⟨⟨ext ++ [m.leuart_payload.rx_index], by rw [e7, hext, List.append_assoc]⟩,
          fun ho => ?_⟩
        rw [e7, hext, List.append_assoc] at ho
        have := congrArg List.length ho
        simp at this)
    (fun m m1 hq h => by
      obtain ⟨e1, e2, e3, _, _, _, e7⟩ := leuart_startf_effect m m1 h
      rw [e2, e3, e7]
      exact ⟨hq.1, fun _ => by simp⟩)
    (fun d m m1 hq h => by
      obtain ⟨e, _, _⟩ := leuart_rxdatav_effect d m m1 h
      obtain ⟨⟨ext, hext⟩, hq2⟩ := hq
      rcases e with ⟨e1, e2, e3, e4⟩ | ⟨e1, e2, e3, e4⟩
      · by_cases hi : m.leuart_payload.rx_index < 80
        · obtain ⟨e31, e32⟩ := e3 hi
          rw [e2, e31, e32]
          refine ⟨⟨ext, hext⟩, fun ho => ?_⟩
          have := (hq2 ho).mpr (Or.inl e1)
          simp [this]
        · have e7 := e4 (by omega)
          refine ⟨⟨ext ++ [m.leuart_payload.rx_index], by rw [e7, hext, List.append_assoc]⟩,
            fun ho => ?_⟩
          rw [e7, hext, List.append_assoc] at ho
          have := congrArg List.length ho
          simp at this
      · rw [e2, e3, e4]
        exact ⟨⟨ext, hext⟩, fun _ => by simp⟩)
    os m1 m2
    (by
      show (∃ ext, m1.rx_oob = m0.rx_oob ++ ext) ∧ (m1.rx_oob = m0.rx_oob → _)
      rw [hq1.1, hq1.2.1, hq1.2.2]
      exact ⟨⟨[], by simp⟩, fun _ => by simp⟩)
    hrun
  refine ⟨hinv.1, hinv.2, ?_, ?_, ?_, ?_, ?_, ?_, ?_, ?_⟩
  · intro m hw
    have h : leuart_startf m = Run.done () (leuart_startf m).machine := by
      unfold leuart_startf
      simp only [hw]
      rfl
    obtain ⟨_, e2, e3, _, _, e6, _⟩ := leuart_startf_effect m _ h
    exact ⟨_, h, e3, e2, e6⟩
  · intro m d hr hi
    have h : leuart_rxdatav d m = Run.done () (leuart_rxdatav d m).machine := by
      unfold leuart_rxdatav
      simp only [hr]
      rfl
    obtain ⟨e, _, _⟩ := leuart_rxdatav_effect d m _ h
    rcases e with ⟨e1, e2, e3, e4⟩ | ⟨e1, e2, e3, e4⟩
    · exact ⟨_, h, e2, (e3 hi).1, (e3 hi).2⟩
    · rw [hr] at e1; exact absurd e1 (by simp)
  · intro m hr hi
    have h : leuart_sigf m = Run.done () (leuart_sigf m).machine := by
      unfold leuart_sigf
      simp only [hr]
      rfl
    obtain ⟨_, e2, e3, _, _, _⟩ := leuart_sigf_effect m _ h
    exact ⟨_, h, e3, (e2 hi).1, (e2 hi).2⟩
  · intro m d hr
    have h : leuart_rxdatav d m = Run.done () (leuart_rxdatav d m).machine := by
      unfold leuart_rxdatav
      simp only [hr]
      rfl
    obtain ⟨e, _, _⟩ := leuart_rxdatav_effect d m _ h
    rcases e with ⟨e1, e2, e3, e4⟩ | ⟨e1, e2, e3, e4⟩
    · rw [hr] at e1; exact absurd e1 (by simp)
    · exact ⟨_, h, e3, e2⟩
  · intro m m1 s n _ h
    rcases h with h | h | h
    · obtain ⟨_, _, _, e4, e5, _⟩ := leuart_start_effect s n m m1 h
      exact ⟨e4, e5⟩
    · obtain ⟨_, _, _, e4, e5, _⟩ := leuart_txbl_effect m m1 h
      exact ⟨e4, e5⟩
    · obtain ⟨_, _, _, e4, e5, _⟩ := leuart_txc_effect m m1 h
      exact ⟨e4, e5⟩
  · exact ⟨by decide, by decide⟩
  · obtain ⟨_, m3, _, _, e3, e4, _, e6, e7, _⟩ :=
      leuart_rx_frame_overrun rx_ready (List.replicate 79 65) 0 [] (by decide) (by rfl)
        (by intro c hc; rw [List.mem_replicate] at hc; rw [hc.2]; decide) (by simp)
        (by decide) (by decide)
    exact ⟨m3, e3, e6, e4, e7⟩
  · obtain ⟨_, m3, _, _, e3, e4, _, e6, e7, _⟩ :=
      leuart_rx_frame_overrun rx_ready (List.replicate 79 65) 65 [] (by decide) (by rfl)
        (by intro c hc; rw [List.mem_replicate] at hc; rw [hc.2]; decide) (by simp)
        (by decide) (by decide)
    exact ⟨m3, e3, e6, e4, e7⟩

/-- Witness for C33: from the reset state, `leuart_rxsetup`, then the run
`rx_busy_scenario`, which ends in RESET with the flag set and no store outside
the array. -/
theorem leuart_rxbusy_tracks_rx_state_within_buffer_witness :
    ((leuart_rxsetup boot).bind
        (fun _ m1 => leuart_ops rx_busy_scenario m1)).machine.rx_oob = boot.rx_oob ∧
    (((leuart_rxsetup boot).bind
        (fun _ m1 => leuart_ops rx_busy_scenario m1)).machine.leuart_payload.rxbusy = true ↔
      (((leuart_rxsetup boot).bind
          (fun _ m1 => leuart_ops rx_busy_scenario m1)).machine.leuart_payload.rx_state
          = LEUART_RXStates.RECIEVE_DATA ∨
        ((leuart_rxsetup boot).bind
          (fun _ m1 => leuart_ops rx_busy_scenario m1)).machine.leuart_payload.rx_state
          = LEUART_RXStates.RESET)) ∧
    ((leuart_rxsetup boot).bind
        (fun _ m1 => leuart_ops rx_busy_scenario m1)).machine.leuart_payload.rxbusy = true ∧
    ((leuart_rxsetup boot).bind
        (fun _ m1 => leuart_ops rx_busy_scenario m1)).machine.leuart_payload.rx_state
      = LEUART_RXStates.RESET ∧
    ((leuart_rxsetup boot).bind
        (fun _ m1 => leuart_ops rx_busy_scenario m1)).machine.leuart_hw.txdata = [72, 105] :=
  ⟨by decide,
   (leuart_rxbusy_tracks_rx_state_within_buffer boot _ rx_busy_scenario (by rfl)
      (by
        intro s n h
        simp only [rx_busy_scenario, List.mem_cons, LEUART_Op.start.injEq, List.mem_singleton,
          reduceCtorEq, false_or, or_false, List.not_mem_nil] at h
        rw [h.1]
        decide)
      (by rfl)).2.1 (by decide),
   by decide, by decide, by decide⟩

/-! ## The order of the causes within one interrupt -/

theorem Run.bind_pure (r : Run Unit) : (r.bind fun _ m => Run.done () m) = r := by
  cases r <;> rfl

theorem i2c_causes_append (a : List I2C_Cause) :
    ∀ (b : List I2C_Cause) (m : Machine),
      i2c_causes (a ++ b) m = (i2c_causes a m).bind (fun _ m1 => i2c_causes b m1) := by
  induction a with
  | nil => intro b m; rw [List.nil_append, i2c_causes, Run.bind_done]
  | cons x a ih =>
    intro b m
    rw [List.cons_append, i2c_causes, i2c_causes, Run.bind_assoc]
    congr 1
    funext _ m1
    exact ih b m1

theorem i2c_causes_option (f : Bool) (c : I2C_Cause) (m : Machine) :
    i2c_causes (if f then [c] else []) m = if f then i2c_cause c m else Run.done () m := by
  cases f
  · rfl
  · simp only [if_true]
    rw [i2c_causes]
    exact Run.bind_pure _

theorem leuart_causes_append (a : List LEUART_Cause) :
    ∀ (b : List LEUART_Cause) (m : Machine),
      leuart_causes (a ++ b) m = (leuart_causes a m).bind (fun _ m1 => leuart_causes b m1) := by
  induction a with
  | nil => intro b m; rw [List.nil_append, leuart_causes, Run.bind_done]
  | cons x a ih =>
    intro b m
    rw [List.cons_append, leuart_causes, leuart_causes, Run.bind_assoc]
    congr 1
    funext _ m1
    exact ih b m1

theorem leuart_causes_option (f : Bool) (c : LEUART_Cause) (m : Machine) :
    leuart_causes (if f then [c] else []) m
      = if f then leuart_cause c m else Run.done () m := by
  cases f
  · rfl
  · simp only [if_true]
    rw [leuart_causes]
    exact Run.bind_pure _

theorem EFM_ASSERT_bind_done (b : Bool) (m m1 : Machine) (f : Unit → Machine → Run Unit)
    (h : (EFM_ASSERT b m).bind f = Run.done () m1) : f () m = Run.done () m1 := by
  cases b
  · exact absurd h (by simp [EFM_ASSERT, Run.bind_halted])
  · exact h

theorem I2C0_IRQHandler_order (flags : I2C_Flags) (rxdata : Nat) (m : Machine) :
    I2C0_IRQHandler flags
        { rxdatav := false, ack := false, nack := false, mstop := false } rxdata m
      = i2c_causes (i2c_service_order flags rxdata) m := by
  unfold I2C0_IRQHandler i2c_service_order
  simp only [i2c_causes_append, i2c_causes_option, Run.bind_assoc, i2c_cause, EFM_ASSERT,
    Bool.not_false, if_true, Run.bind_done]

theorem LEUART0_IRQHandler_order (flags : LEUART_Flags) (rxdata : Nat) (m : Machine) :
    LEUART0_IRQHandler flags rxdata m
      = (leuart_causes (leuart_service_order flags rxdata)
          { disable_irq m with leuart_hw := { (disable_irq m).leuart_hw with
              if_txc := (disable_irq m).leuart_hw.if_txc && !flags.txc,
              if_sigf := (disable_irq m).leuart_hw.if_sigf && !flags.sigf,
              if_startf := (disable_irq m).leuart_hw.if_startf && !flags.startf } }).bind
          fun _ m1 => Run.done () (enable_irq m1) := by
  unfold LEUART0_IRQHandler leuart_service_order
  simp only [leuart_causes_append, leuart_causes_option, Run.bind_assoc, leuart_cause]

theorem I2C0_IRQHandler_done (flags again : I2C_Flags) (rxdata : Nat) (m m1 : Machine)
    (h : I2C0_IRQHandler flags again rxdata m = Run.done () m1) :
    I2C0_IRQHandler flags
        { rxdatav := false, ack := false, nack := false, mstop := false } rxdata m
      = Run.done () m1 := by
  unfold I2C0_IRQHandler at h ⊢
  obtain ⟨_, m2, e1, h⟩ := Run.bind_eq_done _ _ _ _ h
  rw [e1, Run.bind_done]
  obtain ⟨_, m3, e2, h⟩ := Run.bind_eq_done _ _ _ _ h
  have e2' : (if flags.ack = true then (EFM_ASSERT (!false) m2).bind fun _ m1a => i2c_ack m1a
      else Run.done () m2) = Run.done () m3 := by
    by_cases hf : flags.ack = true
    · rw [if_pos hf] at e2 ⊢
      exact EFM_ASSERT_bind_done _ _ _ _ e2
    · rw [if_neg hf] at e2 ⊢
      exact e2
  rw [e2', Run.bind_done]
  obtain ⟨_, m4, e3, h⟩ := Run.bind_eq_done _ _ _ _ h
  have e3' : (if flags.nack = true then (EFM_ASSERT (!false) m3).bind fun _ m2a => i2c_nack m2a
      else Run.done () m3) = Run.done () m4 := by
    by_cases hf : flags.nack = true
    · rw [if_pos hf] at e3 ⊢
      exact EFM_ASSERT_bind_done _ _ _ _ e3
    · rw [if_neg hf] at e3 ⊢
      exact e3
  rw [e3', Run.bind_done]
  by_cases hf : flags.mstop = true
  · rw [if_pos hf] at h ⊢
    exact EFM_ASSERT_bind_done _ _ _ _ h
  · rw [if_neg hf] at h ⊢
    exact h

/-- C31: `I2C0_IRQHandler` serves the pending and enabled causes in the order
byte-received, acknowledge, not-acknowledge, stop, and `LEUART0_IRQHandler` in
the order byte-ready, transmit-complete, end-frame, start-frame,
byte-received: the outcome of the handler is the outcome of the handlers of
these causes run one after the other in this order (for the bus line as long
as no cause is raised again before its assertion, and whenever the handler
returns; for the serial line between the masking of the interrupts with the
clearing of the flags on entry and the unmasking on exit).  With start-frame
and byte-received pending together in WAIT the byte is stored at index 0 after
the switch to RECIEVE_DATA; with end-frame and byte-received pending together
in RECIEVE_DATA the message is terminated first and the byte is then drained
in RESET, without being stored. -/
theorem irq_handlers_serve_causes_in_order :
    (∀ (flags : I2C_Flags) (rxdata : Nat) (m : Machine),
      I2C0_IRQHandler flags
          { rxdatav := false, ack := false, nack := false, mstop := false } rxdata m
        = i2c_causes (i2c_service_order flags rxdata) m) ∧
    (∀ (flags again : I2C_Flags) (rxdata : Nat) (m m1 : Machine),
      I2C0_IRQHandler flags again rxdata m = Run.done () m1 →
      i2c_causes (i2c_service_order flags rxdata) m = Run.done () m1) ∧
    (∀ (flags : LEUART_Flags) (rxdata : Nat) (m : Machine),
      LEUART0_IRQHandler flags rxdata m
        = (leuart_causes (leuart_service_order flags rxdata)
            { disable_irq m with leuart_hw := { (disable_irq m).leuart_hw with
                if_txc := (disable_irq m).leuart_hw.if_txc && !flags.txc,
                if_sigf := (disable_irq m).leuart_hw.if_sigf && !flags.sigf,
                if_startf := (disable_irq m).leuart_hw.if_startf && !flags.startf } }).bind
            fun _ m1 => Run.done () (enable_irq m1)) ∧
    (∀ (rxdata : Nat) (m : Machine),
      m.leuart_payload.rx_state = LEUART_RXStates.WAIT →
      leuart_service_order
          { txbl := false, txc := false, sigf := false, startf := true, rxdatav := true } rxdata
        = [LEUART_Cause.startf, LEUART_Cause.rxdatav rxdata] ∧
      ∃ m1, LEUART0_IRQHandler
          { txbl := false, txc := false, sigf := false, startf := true, rxdatav := true }
          rxdata m = Run.done () m1 ∧
        m1.leuart_payload.rx_state = LEUART_RXStates.RECIEVE_DATA ∧
        m1.leuart_payload.rx_message = m.leuart_payload.rx_message.set 0 (rxdata % U8) ∧
        m1.leuart_payload.rx_index = 1) ∧
    (∀ (rxdata : Nat) (m : Machine),
      m.leuart_payload.rx_state = LEUART_RXStates.RECIEVE_DATA →
      m.leuart_payload.rx_index < 80 →
      leuart_service_order
          { txbl := false, txc := false, sigf := true, startf := false, rxdatav := true } rxdata
        = [LEUART_Cause.sigf, LEUART_Cause.rxdatav rxdata] ∧
      ∃ m1, LEUART0_IRQHandler
          { txbl := false, txc := false, sigf := true, startf := false, rxdatav := true }
          rxdata m = Run.done () m1 ∧
        m1.leuart_payload.rx_state = LEUART_RXStates.WAIT ∧
        m1.leuart_payload.rx_message
          = strcpy_shift 80 0 (m.leuart_payload.rx_message.set m.leuart_payload.rx_index 0) ∧
        m1.leuart_payload.rx_index = m.leuart_payload.rx_index ∧
        m1.leuart_payload.rxbusy = false ∧
        m1.posted = m.posted ++ [m.rx_done_evt]) := by
  refine ⟨I2C0_IRQHandler_order, ?_, LEUART0_IRQHandler_order, ?_, ?_⟩
  · intro flags again rxdata m m1 h
    rw [← I2C0_IRQHandler_order]
    exact I2C0_IRQHandler_done flags again rxdata m m1 h
  · intro rxdata m hs
    refine ⟨rfl, ?_⟩
    have hu32 : (0 + 1) % U32 = 1 := by decide
    have hrun : LEUART0_IRQHandler
        { txbl := false, txc := false, sigf := false, startf := true, rxdatav := true }
        rxdata m = Run.done ()
        { m with
          irq_enabled := true,
          leuart_payload := { m.leuart_payload with
            rx_state := LEUART_RXStates.RECIEVE_DATA, rxbusy := true, rx_index := 1,
            rx_message := m.leuart_payload.rx_message.set 0 (rxdata % U8) },
          leuart_hw := { m.leuart_hw with
            if_startf := false, if_sigf := false,
            ien_startf := false, ien_sigf := true } } := by
      simp [LEUART0_IRQHandler, leuart_startf, leuart_rxdatav, rx_message_store,
        Run.bind_done, disable_irq, enable_irq, hs, hu32]
    exact ⟨_, hrun, rfl, rfl, rfl⟩
  · intro rxdata m hs hi
    refine ⟨rfl, ?_⟩
    have hu8 : 0 % U8 = 0 := by decide
    have hrun : LEUART0_IRQHandler
        { txbl := false, txc := false, sigf := true, startf := false, rxdatav := true }
        rxdata m = Run.done ()
        { m with
          irq_enabled := true,
          event_scheduled := m.event_scheduled ||| m.rx_done_evt,
          posted := m.posted ++ [m.rx_done_evt],
          leuart_payload := { m.leuart_payload with
            rx_state := LEUART_RXStates.WAIT, rxbusy := false,
            rx_message :=
              strcpy_shift 80 0 (m.leuart_payload.rx_message.set m.leuart_payload.rx_index 0) },
          leuart_hw := { m.leuart_hw with
            if_startf := false, if_sigf := false, rxblock := true,
            ien_startf := true, ien_sigf := false } } := by
      simp [LEUART0_IRQHandler, leuart_sigf, leuart_rxdatav, rx_message_store,
        add_scheduled_event, Run.bind_done, disable_irq, enable_irq, hs, hu8, hi]
    exact ⟨_, hrun, rfl, rfl, rfl, rfl, rfl⟩

/-! ## Frames: what the drivers do to the wiring of the events -/

theorem test_str_fill_wired (k n c : Nat) (m : Machine) : wiring_kept m (test_str_fill k n c m) :=
  ⟨rfl, rfl, rfl⟩

theorem ble_used_append (q : List (List Nat)) (s : List Nat) :
    ble_used (q ++ [s]) = ble_used q + s.length + 1 := by
  induction q with
  | nil => simp [ble_used]
  | cons a rest ih =>
    show a.length + 1 + ble_used (rest ++ [s]) = a.length + 1 + ble_used rest + s.length + 1
    rw [ih]; omega

theorem ble_holds_congr (c c1 : List Nat) :
    ∀ (q : List (List Nat)) (r : Nat), r < 64 →
      (∀ i, i < ble_used q → c1.getD ((r + i) % 64) 0 = c.getD ((r + i) % 64) 0) →
      ble_holds c r q → ble_holds c1 r q := by
  intro q
  induction q with
  | nil => intro r _ _ _; trivial
  | cons s rest ih =>
    intro r hr hsame h
    obtain ⟨h1, h2, h3, h4, h5⟩ := h
    refine ⟨?_, ?_, h3, h4, ?_⟩
    · have := hsame 0 (by simp only [ble_used]; omega)
      rw [Nat.add_zero, Nat.mod_eq_of_lt hr] at this
      rw [this, h1]
    · intro i hi
      have := hsame (1 + i) (by simp only [ble_used]; omega)
      rw [← Nat.add_assoc] at this
      rw [this, h2 i hi]
    · refine ih _ (Nat.mod_lt _ (by omega)) ?_ h5
      intro i hi
      have := hsame (s.length + 1 + i) (by simp only [ble_used]; omega)
      have e : ((r + s.length + 1) % 64 + i) % 64 = (r + (s.length + 1 + i)) % 64 := by omega
      rw [e, this]

theorem ble_holds_append (c : List Nat) (s : List Nat) (hs : s ≠ []) (hz : ∀ b ∈ s, b ≠ 0) :
    ∀ (q : List (List Nat)) (r : Nat), r < 64 →
      ble_holds c r q →
      c.getD ((r + ble_used q) % 64) 0 = s.length + 1 →
      (∀ i, i < s.length → c.getD (((r + ble_used q) % 64 + 1 + i) % 64) 0 = s.getD i 0) →
      ble_holds c r (q ++ [s]) := by
  intro q
  induction q with
  | nil =>
    intro r hr _ h1 h2
    simp only [ble_used, Nat.add_zero, Nat.mod_eq_of_lt hr] at h1 h2
    exact ⟨h1, h2, hs, hz, trivial⟩
  | cons a rest ih =>
    intro r hr h h1 h2
    obtain ⟨a1, a2, a3, a4, a5⟩ := h
    refine ⟨a1, a2, a3, a4, ?_⟩
    have e : ((r + a.length + 1) % 64 + ble_used rest) % 64 = (r + ble_used (a :: rest)) % 64 := by
      simp only [ble_used]; omega
    refine ih _ (Nat.mod_lt _ (by omega)) a5 ?_ ?_
    · rw [e]; exact h1
    · intro i hi; rw [e]; exact h2 i hi

theorem ble_circ_push_queue (m : Machine) (s : List Nat) (q : List (List Nat))
    (hq : ble_queue m.ble_cbuf q) (hs : s ≠ []) (hz : ∀ b ∈ s, b ≠ 0)
    (hfit : ble_used q + s.length + 1 ≤ 63) :
    ∃ m1, ble_circ_push s m = Run.done () m1 ∧
      m1 = { m with ble_cbuf := m1.ble_cbuf } ∧ ble_queue m1.ble_cbuf (q ++ [s]) := by
  obtain ⟨h1, h2, h3, h4, h5, h6⟩ := hq
  have hlen : strlen s = s.length := strlen_nonzero s hz
  have hw : m.ble_cbuf.write_ptr < 64 := by rw [h5]; exact Nat.mod_lt _ (by omega)
  have hsp := ble_circ_space_le m h1 h3 hw
  obtain ⟨m1, e1, e2, e3, _, e5, e6, e7, e8, e9, _⟩ :=
    ble_circ_push_effect m s h1 h2 h3 hw (by rw [hlen]; omega) (by rw [hlen, hsp, h5]; omega)
  rw [hlen] at e7 e8 e9
  obtain ⟨e9a, e9b⟩ := e9 (by omega)
  refine ⟨m1, e1, e2, e3, e5, by rw [e6]; exact h3, by rw [ble_used_append]; omega, ?_, ?_⟩
  · rw [e7, e6, h5, ble_used_append]; omega
  · rw [e6]
    refine ble_holds_append _ s hs hz q _ h3 ?_ ?_ ?_
    · refine ble_holds_congr m.ble_cbuf.cbuf _ q _ h3 ?_ h6
      intro i hi
      refine e8 _ ?_
      intro k hk
      rw [h5]; omega
    · rw [← h5]; exact e9a
    · intro i hi; rw [← h5]; exact e9b i hi

theorem range_map_getD (s : List Nat) (f : Nat → Nat)
    (h : ∀ i, i < s.length → f i = s.getD i 0) :
    (List.range s.length).map f = s := by
  apply List.ext_getElem
  · simp
  · intro i h1 h2
    rw [List.getElem_map, List.getElem_range, h i h2, List.getD_eq_getElem?_getD,
      List.getElem?_eq_getElem h2]
    rfl

theorem strlen_terminated (s : List Nat) (hz : ∀ b ∈ s, b ≠ 0) : strlen (s ++ [0]) = s.length := by
  unfold strlen
  induction s with
  | nil => rfl
  | cons a rest ih =>
    have ha : a ≠ 0 := hz a (List.mem_cons_self a rest)
    simp only [List.cons_append, List.takeWhile_cons, bne_iff_ne, ne_eq, ha, not_false_eq_true,
      decide_True, if_true, List.length_cons]
    rw [ih (fun c hc => hz c (List.mem_cons_of_mem a hc))]

theorem ble_circ_pop_queue (m : Machine) (s : List Nat) (q : List (List Nat))
    (hq : ble_queue m.ble_cbuf (s :: q)) (hidle : m.leuart_payload.txbusy = false) :
    ble_circ_pop CIRC_OPER m =
      ((leuart_start (s ++ [0]) s.length (update_circ_readindex (s.length + 1) m)).bind
        fun _ m2 => Run.done false m2) ∧
    ble_queue (update_circ_readindex (s.length + 1) m).ble_cbuf q := by
  obtain ⟨h1, h2, h3, h4, h5, a1, a2, a3, a4, a5⟩ := hq
  have hu : ble_used (s :: q) = s.length + 1 + ble_used q := rfl
  rw [hu] at h4 h5
  have hw : m.ble_cbuf.write_ptr < 64 := by rw [h5]; exact Nat.mod_lt _ (by omega)
  have hsp := ble_circ_space_le m h1 h3 hw
  have hL : (m.ble_cbuf.cbuf.getD m.ble_cbuf.read_ptr 0 + U8 - 1) % U8 = s.length := by
    rw [a1]; unfold U8; omega
  have hF : (sub32 m.ble_cbuf.size (ble_circ_space m)) % U8 = s.length + 1 + ble_used q ∨
      (sub32 m.ble_cbuf.size (ble_circ_space m)) % U8 = s.length + 1 + ble_used q + 192 := by
    rw [hsp, h1, h5]; unfold sub32 U32 U8; omega
  have hmap : (List.range s.length).map
      (fun i => m.ble_cbuf.cbuf.getD
        (((m.ble_cbuf.read_ptr + 1 + i) % U32) % m.ble_cbuf.size) 0) = s := by
    refine range_map_getD s _ ?_
    intro i hi
    show m.ble_cbuf.cbuf.getD (((m.ble_cbuf.read_ptr + 1 + i) % U32) % m.ble_cbuf.size) 0 = _
    rw [h1, Nat.mod_eq_of_lt (show m.ble_cbuf.read_ptr + 1 + i < U32 by unfold U32; omega)]
    exact a2 i hi
  refine ⟨?_, ?_⟩
  · rw [ble_circ_pop_eq m (by omega) hidle (by rw [hL]; omega), hL, hmap, strlen_terminated s a4]
  · refine ⟨h1, h2, ?_, by omega, ?_, ?_⟩
    · show ((m.ble_cbuf.read_ptr + (s.length + 1)) % U32) % m.ble_cbuf.size < 64
      rw [h1]; exact Nat.mod_lt _ (by omega)
    · show m.ble_cbuf.write_ptr
        = (((m.ble_cbuf.read_ptr + (s.length + 1)) % U32) % m.ble_cbuf.size + ble_used q) % 64
      rw [h1, h5, Nat.mod_eq_of_lt (show m.ble_cbuf.read_ptr + (s.length + 1) < U32 by
        unfold U32; omega)]
      omega
    · show ble_holds m.ble_cbuf.cbuf
        (((m.ble_cbuf.read_ptr + (s.length + 1)) % U32) % m.ble_cbuf.size) q
      rw [h1, Nat.mod_eq_of_lt (show m.ble_cbuf.read_ptr + (s.length + 1) < U32 by
        unfold U32; omega), ← Nat.add_assoc]
      exact a5

theorem leuart_txbl_send (m : Machine)
    (hs : m.leuart_payload.state = LEUART_States.SEND_DATA)
    (hi : m.leuart_payload.index < m.leuart_payload.message_len)
    (hl : m.leuart_payload.message_len < 80) :
    ∃ m1, leuart_txbl m = Run.done () m1 ∧
      m1 = { m with leuart_payload := m1.leuart_payload, leuart_hw := m1.leuart_hw } ∧
      (m1.leuart_payload.message = m.leuart_payload.message ∧
       m1.leuart_payload.message_len = m.leuart_payload.message_len ∧
       m1.leuart_payload.txbusy = m.leuart_payload.txbusy ∧
       m1.leuart_payload.index = m.leuart_payload.index + 1 ∧
       m1.leuart_payload.state =
         (if m.leuart_payload.index + 1 < m.leuart_payload.message_len
          then LEUART_States.SEND_DATA else LEUART_States.FINISH_WAIT)) ∧
      (m1.leuart_hw.txdata
         = m.leuart_hw.txdata ++ [m.leuart_payload.message.getD m.leuart_payload.index 0] ∧
       m1.leuart_hw.loopbk = m.leuart_hw.loopbk ∧
       m1.leuart_hw.if_sigf = m.leuart_hw.if_sigf ∧
       m1.leuart_hw.if_startf = m.leuart_hw.if_startf ∧
       m1.leuart_hw.ien_txbl =
         (if m.leuart_payload.index + 1 < m.leuart_payload.message_len
          then m.leuart_hw.ien_txbl else false) ∧
       (m.leuart_payload.index + 1 < m.leuart_payload.message_len ∨
          m1.leuart_hw.ien_txc = true)) := by
  have hmod : (m.leuart_payload.index + 1) % U32 = m.leuart_payload.index + 1 := by
    unfold U32; omega
  unfold leuart_txbl
  rw [hs]
  dsimp only
  rw [if_pos hi, hmod]
  by_cases h1 : m.leuart_payload.index + 1 < m.leuart_payload.message_len
  · rw [if_neg (Nat.not_le.mpr h1)]
    exact ⟨_, rfl, rfl, ⟨rfl, rfl, rfl, rfl, by rw [if_pos h1]; exact hs⟩,
      ⟨rfl, rfl, rfl, rfl, by rw [if_pos h1], Or.inl h1⟩⟩
  · rw [if_pos (Nat.not_lt.mp h1)]
    exact ⟨_, rfl, rfl, ⟨rfl, rfl, rfl, rfl, by rw [if_neg h1]⟩,
      ⟨rfl, rfl, rfl, rfl, by rw [if_neg h1], Or.inr rfl⟩⟩

theorem leuart_txc_finish (m : Machine)
    (hs : m.leuart_payload.state = LEUART_States.FINISH_WAIT) :
    ∃ m1, leuart_txc m = Run.done () m1 ∧
      m1.ble_cbuf = m.ble_cbuf ∧ m1.tx_done_evt = m.tx_done_evt ∧
      m1.letimer_hw = m.letimer_hw ∧
      m1.event_scheduled = m.event_scheduled ||| m.tx_done_evt ∧
      m1.posted = m.posted ++ [m.tx_done_evt] ∧
      m1.lowest_energy_mode
        = m.lowest_energy_mode.set EM3 (sub32 (m.lowest_energy_mode.get EM3) 1) ∧
      (m1.leuart_payload.message = m.leuart_payload.message ∧
       m1.leuart_payload.txbusy = false ∧
       m1.leuart_payload.state = LEUART_States.LEUART_INITIALIZE) ∧
      (m1.leuart_hw.txdata = m.leuart_hw.txdata ∧
       m1.leuart_hw.loopbk = m.leuart_hw.loopbk ∧
       m1.leuart_hw.if_sigf = m.leuart_hw.if_sigf ∧
       m1.leuart_hw.if_startf = m.leuart_hw.if_startf ∧
       m1.leuart_hw.ien_txbl = m.leuart_hw.ien_txbl) := by
  unfold leuart_txc
  rw [hs]
  dsimp only
  rw [sleep_unblock_mode_done _ _ leuart_rx_em_lt, Run.bind_done]
  exact ⟨_, rfl, rfl, rfl, rfl, rfl, rfl, rfl, ⟨rfl, rfl, rfl⟩, ⟨rfl, rfl, rfl, rfl, rfl⟩⟩

theorem LEUART0_IRQHandler_tx (flags : LEUART_Flags) (rxdata : Nat) (m : Machine)
    (h1 : flags.sigf = false) (h2 : flags.startf = false) (h3 : flags.rxdatav = false) :
    ∃ M1 : Machine,
      M1 = { m with irq_enabled := false, leuart_hw := M1.leuart_hw } ∧
      (M1.leuart_hw.txdata = m.leuart_hw.txdata ∧
       M1.leuart_hw.loopbk = m.leuart_hw.loopbk ∧
       M1.leuart_hw.if_sigf = m.leuart_hw.if_sigf ∧
       M1.leuart_hw.if_startf = m.leuart_hw.if_startf ∧
       M1.leuart_hw.ien_txbl = m.leuart_hw.ien_txbl ∧
       M1.leuart_hw.ien_txc = m.leuart_hw.ien_txc) ∧
      LEUART0_IRQHandler flags rxdata m =
        (if flags.txbl then leuart_txbl M1 else Run.done () M1).bind fun _ m2 =>
        (if flags.txc then leuart_txc m2 else Run.done () m2).bind fun _ m3 =>
        Run.done () (enable_irq m3) := by
  refine ⟨{ disable_irq m with leuart_hw := { (disable_irq m).leuart_hw with
      if_txc := (disable_irq m).leuart_hw.if_txc && !flags.txc,
      if_sigf := (disable_irq m).leuart_hw.if_sigf && !flags.sigf,
      if_startf := (disable_irq m).leuart_hw.if_startf && !flags.startf } }, rfl,
    ⟨rfl, rfl, ?_, ?_, rfl, rfl⟩, ?_⟩
  · show (m.leuart_hw.if_sigf && !flags.sigf) = m.leuart_hw.if_sigf
    rw [h1]; simp
  · show (m.leuart_hw.if_startf && !flags.startf) = m.leuart_hw.if_startf
    rw [h2]; simp
  · unfold LEUART0_IRQHandler
    dsimp only
    rw [h1, h2, h3]
    simp only [Bool.false_eq_true, if_false, Run.bind_done]

theorem leuart_tx_pending_cons (p p1 : LEUART_PAYLOAD)
    (hs : p.state = LEUART_States.SEND_DATA) (hi : p.index < p.message_len)
    (h1 : p1.message = p.message) (h2 : p1.message_len = p.message_len)
    (h3 : p1.index = p.index + 1)
    (h4 : p1.state = (if p.index + 1 < p.message_len
          then LEUART_States.SEND_DATA else LEUART_States.FINISH_WAIT)) :
    leuart_tx_pending p = p.message.getD p.index 0 :: leuart_tx_pending p1 := by
  unfold leuart_tx_pending
  rw [hs, h4]
  dsimp only
  obtain ⟨n, hn⟩ : ∃ n, p.message_len - p.index = n + 1 := ⟨p.message_len - p.index - 1, by omega⟩
  rw [hn, List.range_succ_eq_map, List.map_cons, List.map_map, Nat.add_zero]
  by_cases hlt : p.index + 1 < p.message_len
  · rw [if_pos hlt]
    dsimp only
    rw [h1, h2, h3, show p.message_len - (p.index + 1) = n by omega]
    congr 1
    apply List.map_congr_left
    intro i _
    show p.message.getD (p.index + (i + 1)) 0 = p.message.getD (p.index + 1 + i) 0
    rw [Nat.add_assoc, Nat.add_comm 1 i]
  · rw [if_neg hlt]
    dsimp only
    have hn0 : n = 0 := by omega
    rw [hn0]
    rfl

theorem tx_done_evt_pending (e : Nat) : (e ||| LEUART0_TX_DONE_EVT) &&& LEUART0_TX_DONE_EVT ≠ 0 := by
  have h : ((e ||| LEUART0_TX_DONE_EVT) &&& LEUART0_TX_DONE_EVT).testBit 5 = true := by
    rw [Nat.testBit_and, Nat.testBit_or]
    have : LEUART0_TX_DONE_EVT.testBit 5 = true := by decide
    rw [this]; simp
  intro h0
  rw [h0] at h
  simp at h

theorem leuart_tx_irq_link (m : Machine) (out : List Nat) (q : List (List Nat))
    (h : boot_link m out q) (hb : m.leuart_payload.txbusy = true) :
    ∃ m1, leuart_tx_irq m = Run.done () m1 ∧ boot_link m1 out q ∧ boot_link_live m1 q ∧
      leuart_drain_rounds m1 q < leuart_drain_rounds m q := by
  obtain ⟨hq, ⟨t1, t2, t3, t4, t5⟩, hev, hlt, hstream⟩ := h
  rcases t5 with ⟨c1, _⟩ | ⟨c1, c2, c3, c4, c5, c6⟩ | ⟨c1, c2, c3, c4, c5⟩
  · rw [hb] at c1; exact absurd c1 (by decide)
  · have hf1 : (leuart_pending true false m).sigf = false := by
      show (m.leuart_hw.if_sigf && m.leuart_hw.ien_sigf) = false
      rw [t3]; rfl
    have hf2 : (leuart_pending true false m).startf = false := by
      show (m.leuart_hw.if_startf && m.leuart_hw.ien_startf) = false
      rw [t4]; rfl
    obtain ⟨M1, f0, ⟨f1, f2, f3, f4, f5, f6⟩, hh⟩ :=
      LEUART0_IRQHandler_tx (leuart_pending true false m) 0 m hf1 hf2 rfl
    have fp : M1.leuart_payload = m.leuart_payload := by rw [f0]
    obtain ⟨m2, e1, e2, ⟨p1, p2, p3, p4, p5⟩, ⟨w1, w2, w3, w4, w5, w6⟩⟩ :=
      leuart_txbl_send M1 (by rw [fp]; exact c2) (by rw [fp]; exact c4) (by rw [fp]; exact c5)
    rw [fp] at p1 p2 p3 p4 p5 w1 w5 w6
    have hflag1 : (leuart_pending true false m).txbl = true := rfl
    have hflag2 : ¬ (leuart_pending true false m).txc = true := by
      show ¬ (false = true)
      decide
    have hloop : (enable_irq m2).leuart_hw.loopbk = false := (w2.trans f2).trans t2
    have hrun : leuart_tx_irq m = Run.done () (enable_irq m2) := by
      unfold leuart_tx_irq
      rw [if_pos c3, hh, if_pos hflag1, e1, Run.bind_done, if_neg hflag2, Run.bind_done,
        Run.bind_done, hloop]
      rfl
    have hcb : (enable_irq m2).ble_cbuf = m.ble_cbuf := by
      show m2.ble_cbuf = m.ble_cbuf
      rw [e2, f0]
    have hem : (enable_irq m2).lowest_energy_mode = m.lowest_energy_mode := by
      show m2.lowest_energy_mode = m.lowest_energy_mode
      rw [e2, f0]
    have htd : (enable_irq m2).tx_done_evt = m.tx_done_evt := by
      show m2.tx_done_evt = m.tx_done_evt
      rw [e2, f0]
    have hlh : (enable_irq m2).letimer_hw = m.letimer_hw := by
      show m2.letimer_hw = m.letimer_hw
      rw [e2, f0]
    have hes : (enable_irq m2).event_scheduled = m.event_scheduled := by
      show m2.event_scheduled = m.event_scheduled
      rw [e2, f0]
    have hpend := leuart_tx_pending_cons m.leuart_payload m2.leuart_payload c2 c4 p1 p2 p4 p5
    refine ⟨_, hrun, ⟨by rw [hcb]; exact hq, ?_, by rw [htd]; exact hev,
      by rw [hlh, hem]; exact hlt, ?_⟩, ?_, ?_⟩
    · rw [hem]
      refine ⟨by show m2.leuart_payload.message.length = 80; rw [p1]; exact t1,
        (w2.trans f2).trans t2, (w3.trans f3).trans t3,
        (w4.trans f4).trans t4, ?_⟩
      by_cases hmore : m.leuart_payload.index + 1 < m.leuart_payload.message_len
      · right; left
        rw [if_pos hmore] at p5 w5
        exact ⟨p3.trans c1, p5, w5.trans (f5.trans c3), by
          show m2.leuart_payload.index < m2.leuart_payload.message_len
          rw [p4, p2]; exact hmore, by
          show m2.leuart_payload.message_len < 80
          rw [p2]; exact c5, c6⟩
      · right; right
        rw [if_neg hmore] at p5 w5
        exact ⟨p3.trans c1, p5, w5, w6.resolve_left hmore, c6⟩
    · show m2.leuart_hw.txdata ++ leuart_tx_pending m2.leuart_payload ++ q.flatten = out
      rw [w1, f1, ← hstream, hpend]
      simp
    · intro hidle
      have hidle1 : m2.leuart_payload.txbusy = false := hidle
      rw [p3.trans c1] at hidle1
      exact absurd hidle1 (by decide)
    · unfold leuart_drain_rounds
      rw [hes]
      show (match m2.leuart_payload.state with
        | LEUART_States.SEND_DATA =>
            m2.leuart_payload.message_len - m2.leuart_payload.index + 2
        | LEUART_States.FINISH_WAIT => 2
        | LEUART_States.LEUART_INITIALIZE => 0) + _ + _ < _
      rw [p5, c2, p2, p4]
      by_cases hmore : m.leuart_payload.index + 1 < m.leuart_payload.message_len
      · rw [if_pos hmore]; dsimp only; omega
      · rw [if_neg hmore]; dsimp only; omega
  · have hf1 : (leuart_pending false true
        { m with leuart_hw := { m.leuart_hw with if_txc := true } }).sigf = false := by
      show (m.leuart_hw.if_sigf && m.leuart_hw.ien_sigf) = false
      rw [t3]; rfl
    have hf2 : (leuart_pending false true
        { m with leuart_hw := { m.leuart_hw with if_txc := true } }).startf = false := by
      show (m.leuart_hw.if_startf && m.leuart_hw.ien_startf) = false
      rw [t4]; rfl
    obtain ⟨M1, f0, ⟨f1, f2, f3, f4, f5, f6⟩, hh⟩ :=
      LEUART0_IRQHandler_tx (leuart_pending false true
        { m with leuart_hw := { m.leuart_hw with if_txc := true } }) 0
        { m with leuart_hw := { m.leuart_hw with if_txc := true } } hf1 hf2 rfl
    have fp : M1.leuart_payload = m.leuart_payload := by rw [f0]
    obtain ⟨m3, e1, g1, g2, g3, g4, _, g6, ⟨p1, p2, p3⟩, ⟨w1, w2, w3, w4, w5⟩⟩ :=
      leuart_txc_finish M1 (by rw [fp]; exact c2)
    have hflag1 : ¬ (leuart_pending false true
        { m with leuart_hw := { m.leuart_hw with if_txc := true } }).txbl = true := by
      show ¬ (false = true)
      decide
    have hflag2 : (leuart_pending false true
        { m with leuart_hw := { m.leuart_hw with if_txc := true } }).txc = true := rfl
    have hrun : leuart_tx_irq m = Run.done () (enable_irq m3) := by
      unfold leuart_tx_irq
      rw [if_neg (by rw [c3]; decide), if_pos c4]
      dsimp only
      rw [hh, if_neg hflag1, Run.bind_done, if_pos hflag2, e1, Run.bind_done]
    have hcb : M1.ble_cbuf = m.ble_cbuf := by rw [f0]
    have hem : M1.lowest_energy_mode = m.lowest_energy_mode := by
      rw [f0]
    have htd : M1.tx_done_evt = m.tx_done_evt := by rw [f0]
    have hlh : M1.letimer_hw = m.letimer_hw := by rw [f0]
    have hes : M1.event_scheduled = m.event_scheduled := by rw [f0]
    have hpend0 : leuart_tx_pending m.leuart_payload = [] := by
      unfold leuart_tx_pending; rw [c2]
    have hpend1 : leuart_tx_pending m3.leuart_payload = [] := by
      unfold leuart_tx_pending; rw [p3]
    have hevt : (enable_irq m3).event_scheduled &&& LEUART0_TX_DONE_EVT ≠ 0 := by
      show m3.event_scheduled &&& LEUART0_TX_DONE_EVT ≠ 0
      rw [g4, htd, hev]
      exact tx_done_evt_pending _
    refine ⟨_, hrun, ⟨?_, ?_, ?_, ?_, ?_⟩, fun _ _ => hevt, ?_⟩
    · show ble_queue m3.ble_cbuf q
      rw [g1, hcb]; exact hq
    · show leuart_tx_ok m3.lowest_energy_mode m3.leuart_payload m3.leuart_hw
      refine ⟨by show m3.leuart_payload.message.length = 80; rw [p1, fp]; exact t1,
        (w2.trans f2).trans t2, (w3.trans f3).trans t3, (w4.trans f4).trans t4, Or.inl ?_⟩
      refine ⟨p2, p3, w5.trans (f5.trans c3), ?_⟩
      rw [g6, hem, EnergyModes.get_set_same _ _ _ em3_lt, c5]
      rfl
    · show m3.tx_done_evt = LEUART0_TX_DONE_EVT
      rw [g2, htd]; exact hev
    · show m3.letimer_hw.running = true ∨ m3.lowest_energy_mode.get EM4 < 9
      rw [g3, hlh, g6, hem, EnergyModes.get_set_other _ _ _ _ (by decide)]
      exact hlt
    · show m3.leuart_hw.txdata ++ leuart_tx_pending m3.leuart_payload ++ q.flatten = out
      rw [w1, f1, hpend1, ← hstream, hpend0]
    · unfold leuart_drain_rounds
      have hevt1 : ((enable_irq m3).event_scheduled &&& LEUART0_TX_DONE_EVT != 0) = true := by
        simpa using hevt
      rw [hevt1]
      show (match m3.leuart_payload.state with
        | LEUART_States.SEND_DATA =>
            m3.leuart_payload.message_len - m3.leuart_payload.index + 2
        | LEUART_States.FINISH_WAIT => 2
        | LEUART_States.LEUART_INITIALIZE => 0) + _ + _ < _
      rw [p3, c2]
      dsimp only
      split_ifs <;> omega

theorem takeWhile_terminated (s : List Nat) (hz : ∀ b ∈ s, b ≠ 0) :
    (s ++ [0]).takeWhile (fun c => c != 0) = s := by
  induction s with
  | nil => rfl
  | cons a rest ih =>
    have ha : a ≠ 0 := hz a (List.mem_cons_self a rest)
    simp only [List.cons_append, List.takeWhile_cons, bne_iff_ne, ne_eq, ha, not_false_eq_true,
      decide_True, if_true]
    rw [ih (fun c hc => hz c (List.mem_cons_of_mem a hc))]

theorem strcpy_terminated (dst s : List Nat) (hz : ∀ b ∈ s, b ≠ 0) :
    strcpy dst (s ++ [0]) = strcpy dst s := by
  unfold strcpy
  rw [takeWhile_terminated s hz, takeWhile_nonzero s hz]

theorem strcpy_length (dst src : List Nat) : (strcpy dst src).length = dst.length := by
  unfold strcpy overwrite
  simp only [List.length_take, List.length_append, List.length_drop, List.length_cons,
    List.length_nil]
  omega

theorem ble_circ_pop_busy (m : Machine) (hb : m.leuart_payload.txbusy = true) :
    ble_circ_pop CIRC_OPER m = Run.done true m := by
  have hb1 : leuart_tx_busy m = true := hb
  unfold ble_circ_pop
  dsimp only
  rw [hb1]
  by_cases h0 : (sub32 m.ble_cbuf.size (ble_circ_space m)) % U8 = 0
  · rw [if_pos h0]
  · rw [if_neg h0, if_pos rfl]

theorem ble_used_length (q : List (List Nat)) : q.length ≤ ble_used q := by
  induction q with
  | nil => exact Nat.le_refl 0
  | cons s rest ih =>
    show rest.length + 1 ≤ s.length + 1 + ble_used rest
    omega

theorem ble_circ_pop_link (m : Machine) (out : List Nat) (q : List (List Nat))
    (h : boot_link m out q) :
    ∃ b m1 q1, ble_circ_pop CIRC_OPER m = Run.done b m1 ∧ boot_link m1 out q1 ∧
      (m1.leuart_payload.txbusy = true ∨ q1 = []) ∧ ble_used q1 ≤ ble_used q ∧
      m1.event_scheduled = m.event_scheduled ∧
      leuart_drain_rounds m1 q1 ≤ leuart_drain_rounds m q := by
  cases hb : m.leuart_payload.txbusy with
  | true =>
    exact ⟨true, m, q, ble_circ_pop_busy m hb, h, Or.inl hb, Nat.le_refl _, rfl, Nat.le_refl _⟩
  | false =>
    cases q with
    | nil =>
      have he : m.ble_cbuf.read_ptr = m.ble_cbuf.write_ptr := by
        have h5 := h.1.2.2.2.2.1
        have h3 := h.1.2.2.1
        rw [h5]
        show m.ble_cbuf.read_ptr = (m.ble_cbuf.read_ptr + 0) % 64
        omega
      exact ⟨true, m, [], ble_circ_pop_empty m _ he, h, Or.inr rfl, Nat.le_refl _, rfl,
        Nat.le_refl _⟩
    | cons s rest =>
      obtain ⟨hq, ⟨t1, t2, t3, t4, t5⟩, hev, hlt, hstream⟩ := h
      obtain ⟨hpop, hq1⟩ := ble_circ_pop_queue m s rest hq hb
      have hs_ne : s ≠ [] := hq.2.2.2.2.2.2.2.1
      have hz : ∀ b ∈ s, b ≠ 0 := hq.2.2.2.2.2.2.2.2.1
      have hu : ble_used (s :: rest) = s.length + 1 + ble_used rest := rfl
      have hlen : s.length ≤ 62 := by
        have := hq.2.2.2.1
        rw [hu] at this
        omega
      have hpos : 0 < s.length := List.length_pos.mpr hs_ne
      rcases t5 with ⟨c1, c2, c3, c4⟩ | ⟨c1, _⟩ | ⟨c1, _⟩
      · have hem : ((update_circ_readindex (s.length + 1) m).lowest_energy_mode.get LEUART_TX_EM
            + 1) % U32 < 10 := by
          show (m.lowest_energy_mode.get EM3 + 1) % U32 < 10
          rw [c4]; decide
        have hrun : ble_circ_pop CIRC_OPER m = Run.done false
            (tx_started (update_circ_readindex (s.length + 1) m) (s ++ [0]) s.length) := by
          rw [hpop, leuart_start_cases, if_pos hem, Run.bind_done]
        have hpend0 : leuart_tx_pending m.leuart_payload = [] := by
          unfold leuart_tx_pending; rw [c2]
        have hpend1 : leuart_tx_pending
            (tx_started (update_circ_readindex (s.length + 1) m) (s ++ [0])
              s.length).leuart_payload = s := by
          show (List.range (s.length - 0)).map
            (fun i => (strcpy m.leuart_payload.message (s ++ [0])).getD (0 + i) 0) = s
          rw [Nat.sub_zero]
          refine range_map_getD s _ ?_
          intro i hi
          show (strcpy m.leuart_payload.message (s ++ [0])).getD (0 + i) 0 = s.getD i 0
          rw [Nat.zero_add, strcpy_terminated _ s hz]
          exact strcpy_getD _ s hz (by omega) i hi
        refine ⟨false, _, rest, hrun, ⟨hq1, ?_, hev, ?_, ?_⟩, Or.inl rfl, ?_, rfl, ?_⟩
        · refine ⟨?_, t2, t3, t4, Or.inr (Or.inl ⟨rfl, rfl, rfl, hpos, ?_, ?_⟩)⟩
          · show (strcpy m.leuart_payload.message (s ++ [0])).length = 80
            rw [strcpy_length]; exact t1
          · show s.length < 80
            omega
          · show (m.lowest_energy_mode.set LEUART_TX_EM
                ((m.lowest_energy_mode.get LEUART_TX_EM + 1) % U32)).get EM3 = 2
            have e : LEUART_TX_EM = EM3 := rfl
            rw [e, EnergyModes.get_set_same _ _ _ em3_lt, c4]
            rfl
        · show m.letimer_hw.running = true ∨
            (m.lowest_energy_mode.set LEUART_TX_EM
              ((m.lowest_energy_mode.get LEUART_TX_EM + 1) % U32)).get EM4 < 9
          rw [EnergyModes.get_set_other _ _ _ _ (by decide)]
          exact hlt
        · rw [hpend1]
          show m.leuart_hw.txdata ++ s ++ rest.flatten = out
          rw [← hstream, hpend0]
          simp
        · rw [hu]; omega
        · unfold leuart_drain_rounds
          show (s.length - 0 + 2) + (if (m.event_scheduled &&& LEUART0_TX_DONE_EVT != 0) = true
            then 1 else 0) + (ble_used rest + rest.length) ≤ _
          rw [c2, hu]
          simp only [List.length_cons]
          omega
      · rw [hb] at c1; exact absurd c1 (by decide)
      · rw [hb] at c1; exact absurd c1 (by decide)

theorem remove_tx_done_evt (e : Nat) :
    (e &&& ((U32 - 1) ^^^ LEUART0_TX_DONE_EVT)) &&& LEUART0_TX_DONE_EVT = 0 := by
  have h : ((U32 - 1) ^^^ LEUART0_TX_DONE_EVT) &&& LEUART0_TX_DONE_EVT = 0 := by decide
  rw [Nat.land_assoc, h]
  exact Nat.and_zero e

theorem letimer_start_on (m : Machine)
    (h : m.letimer_hw.running = true ∨ m.lowest_energy_mode.get EM4 < 9) :
    ∃ m1, letimer_start true m = Run.done () m1 ∧
      m1 = { m with irq_enabled := m1.irq_enabled,
                    lowest_energy_mode := m1.lowest_energy_mode,
                    letimer_hw := m1.letimer_hw } ∧
      m1.lowest_energy_mode.get EM3 = m.lowest_energy_mode.get EM3 ∧
      m1.letimer_hw.running = true := by
  have he : LETIMER_EM = EM4 := rfl
  cases hr : m.letimer_hw.running with
  | true =>
    have hrun : letimer_start true m = Run.done ()
        { m with letimer_hw := { m.letimer_hw with running := true } } := by
      simp [letimer_start, hr, Run.bind_done]
    exact ⟨_, hrun, rfl, rfl, rfl⟩
  | false =>
    have h9 : m.lowest_energy_mode.get EM4 < 9 := by
      rcases h with h | h
      · rw [hr] at h; exact absurd h (by decide)
      · exact h
    have hblock := sleep_block_mode_done LETIMER_EM m letimer_em_lt (by rw [he]; omega)
    have hrun : letimer_start true m = Run.done ()
        { m with
          irq_enabled := true,
          lowest_energy_mode :=
            m.lowest_energy_mode.set LETIMER_EM (m.lowest_energy_mode.get LETIMER_EM + 1),
          letimer_hw := { m.letimer_hw with running := true } } := by
      simp [letimer_start, hr, hblock, Run.bind_done]
    refine ⟨_, hrun, rfl, ?_, rfl⟩
    show (m.lowest_energy_mode.set LETIMER_EM (m.lowest_energy_mode.get LETIMER_EM + 1)).get EM3
      = m.lowest_energy_mode.get EM3
    rw [he, EnergyModes.get_set_other _ _ _ _ (by decide)]

theorem leuart0_tx_done_evt_link (m : Machine) (out : List Nat) (q : List (List Nat))
    (h : boot_link m out q)
    (hp : (get_scheduled_events m &&& LEUART0_TX_DONE_EVT != 0) = true) :
    ∃ m1 q1, leuart0_tx_done_evt m = Run.done () m1 ∧ boot_link m1 out q1 ∧
      boot_link_live m1 q1 ∧ ble_used q1 ≤ ble_used q ∧
      leuart_drain_rounds m1 q1 < leuart_drain_rounds m q := by
  obtain ⟨hq, htx, hev, hlt, hstream⟩ := h
  obtain ⟨m2, e1, e2, e3, e4⟩ :=
    letimer_start_on (remove_scheduled_event LEUART0_TX_DONE_EVT m) hlt
  have hcb : m2.ble_cbuf = m.ble_cbuf := by rw [e2]; rfl
  have hpl : m2.leuart_payload = m.leuart_payload := by rw [e2]; rfl
  have hhw : m2.leuart_hw = m.leuart_hw := by rw [e2]; rfl
  have htd : m2.tx_done_evt = m.tx_done_evt := by rw [e2]; rfl
  have hes : m2.event_scheduled
      = m.event_scheduled &&& ((U32 - 1) ^^^ LEUART0_TX_DONE_EVT) := by rw [e2]; rfl
  have hem3 : m2.lowest_energy_mode.get EM3 = m.lowest_energy_mode.get EM3 := e3
  have hlink2 : boot_link m2 out q := by
    refine ⟨by rw [hcb]; exact hq, ?_, by rw [htd]; exact hev, Or.inl e4, by
      rw [hhw, hpl]; exact hstream⟩
    obtain ⟨t1, t2, t3, t4, t5⟩ := htx
    rw [hpl, hhw]
    refine ⟨t1, t2, t3, t4, ?_⟩
    rw [hem3]
    exact t5
  obtain ⟨b, m3, q1, r1, r2, r3, r4, r5, r6⟩ := ble_circ_pop_link m2 out q hlink2
  have hrun : leuart0_tx_done_evt m = Run.done () m3 := by
    unfold leuart0_tx_done_evt EFM_ASSERT
    rw [hp, if_pos rfl, Run.bind_done]
    dsimp only
    rw [e1, Run.bind_done, r1, Run.bind_done]
  refine ⟨m3, q1, hrun, r2, ?_, r4, ?_⟩
  · intro hidle hne
    rcases r3 with r3 | r3
    · rw [hidle] at r3; exact absurd r3 (by decide)
    · exact absurd r3 hne
  · refine Nat.lt_of_le_of_lt r6 ?_
    unfold leuart_drain_rounds
    have hp1 : (m.event_scheduled &&& LEUART0_TX_DONE_EVT != 0) = true := hp
    have hp2 : (m2.event_scheduled &&& LEUART0_TX_DONE_EVT != 0) = false := by
      rw [hes, remove_tx_done_evt]; rfl
    rw [hp1, hp2, hpl]
    simp only [if_true, Bool.false_eq_true, if_false]
    omega

theorem leuart_tx_progress_link (out : List Nat) (q : List (List Nat)) :
    ∀ (k : Nat) (m : Machine), boot_link m out q →
      ∃ m1, leuart_tx_progress k m = Run.done () m1 ∧ boot_link m1 out q ∧
        (boot_link_live m q → boot_link_live m1 q) := by
  intro k
  induction k with
  | zero => intro m h; exact ⟨m, rfl, h, fun hl => hl⟩
  | succ k ih =>
    intro m h
    cases hb : m.leuart_payload.txbusy with
    | false =>
      refine ⟨m, ?_, h, fun hl => hl⟩
      rw [leuart_tx_progress, hb]
      rfl
    | true =>
      obtain ⟨m1, e1, e2, e3, _⟩ := leuart_tx_irq_link m out q h hb
      obtain ⟨m2, g1, g2, g3⟩ := ih m1 e2
      refine ⟨m2, ?_, g2, fun _ => g3 e3⟩
      rw [leuart_tx_progress, hb, if_pos rfl, e1, Run.bind_done, g1]

theorem ble_write_tx_link (k1 k2 : Nat) (s : List Nat) (m : Machine) (out : List Nat)
    (q : List (List Nat)) (h : boot_link m out q)
    (hs : s ≠ []) (hz : ∀ b ∈ s, b ≠ 0) (hfit : ble_used q + s.length + 1 ≤ 63) :
    ∃ m1 q1, ble_write_tx k1 k2 s m = Run.done () m1 ∧ boot_link m1 (out ++ s) q1 ∧
      boot_link_live m1 q1 ∧ ble_used q1 ≤ ble_used q + s.length + 1 := by
  obtain ⟨ma, a1, a2, _⟩ := leuart_tx_progress_link out q k1 m h
  obtain ⟨hq, htx, hev, hlt, hstream⟩ := a2
  obtain ⟨mb, b1, b2, b3⟩ := ble_circ_push_queue ma s q hq hs hz hfit
  have hpl : mb.leuart_payload = ma.leuart_payload := by rw [b2]
  have hhw : mb.leuart_hw = ma.leuart_hw := by rw [b2]
  have hlinkb : boot_link mb (out ++ s) (q ++ [s]) := by
    refine ⟨b3, by rw [b2]; exact htx, by rw [b2]; exact hev, by rw [b2]; exact hlt, ?_⟩
    rw [hpl, hhw, ← hstream]
    simp
  obtain ⟨mc, c1, c2, _⟩ := leuart_tx_progress_link (out ++ s) (q ++ [s]) k2 mb hlinkb
  obtain ⟨b, md, q1, r1, r2, r3, r4, _, _⟩ := ble_circ_pop_link mc (out ++ s) (q ++ [s]) c2
  refine ⟨md, q1, ?_, r2, ?_, ?_⟩
  · unfold ble_write_tx
    rw [a1, Run.bind_done, b1, Run.bind_done, c1, Run.bind_done, r1, Run.bind_done]
  · intro hidle hne
    rcases r3 with r3 | r3
    · rw [hidle] at r3; exact absurd r3 (by decide)
    · exact absurd r3 hne
  · rw [ble_used_append] at r4
    omega

theorem leuart_tx_step_link (s : LEUART_Tx_Step) (m : Machine) (out : List Nat)
    (q : List (List Nat)) (h : boot_link m out q) (hl : boot_link_live m q) :
    ∃ m1 q1, leuart_tx_step s m = Run.done () m1 ∧ boot_link m1 out q1 ∧
      boot_link_live m1 q1 ∧ ble_used q1 ≤ ble_used q := by
  cases s with
  | irq =>
    obtain ⟨m1, e1, e2, e3⟩ := leuart_tx_progress_link out q 1 m h
    exact ⟨m1, q, e1, e2, e3 hl, Nat.le_refl _⟩
  | dispatch =>
    cases hp : (get_scheduled_events m &&& LEUART0_TX_DONE_EVT != 0) with
    | true =>
      obtain ⟨m1, q1, e1, e2, e3, e4, _⟩ := leuart0_tx_done_evt_link m out q h hp
      refine ⟨m1, q1, ?_, e2, e3, e4⟩
      show (if (get_scheduled_events m &&& LEUART0_TX_DONE_EVT != 0) = true
        then leuart0_tx_done_evt m else Run.done () m) = _
      rw [hp, if_pos rfl, e1]
    | false =>
      refine ⟨m, q, ?_, h, hl, Nat.le_refl _⟩
      show (if (get_scheduled_events m &&& LEUART0_TX_DONE_EVT != 0) = true
        then leuart0_tx_done_evt m else Run.done () m) = _
      rw [hp]
      rfl

theorem leuart_tx_steps_link (out : List Nat) (ss : List LEUART_Tx_Step) :
    ∀ (m : Machine) (q : List (List Nat)), boot_link m out q → boot_link_live m q →
      ∃ m1 q1, leuart_tx_steps ss m = Run.done () m1 ∧ boot_link m1 out q1 ∧
        boot_link_live m1 q1 ∧ ble_used q1 ≤ ble_used q := by
  induction ss with
  | nil => intro m q h hl; exact ⟨m, q, rfl, h, hl, Nat.le_refl _⟩
  | cons s rest ih =>
    intro m q h hl
    obtain ⟨m1, q1, e1, e2, e3, e4⟩ := leuart_tx_step_link s m out q h hl
    obtain ⟨m2, q2, g1, g2, g3, g4⟩ := ih m1 q1 e2 e3
    refine ⟨m2, q2, ?_, g2, g3, Nat.le_trans g4 e4⟩
    rw [leuart_tx_steps, e1, Run.bind_done, g1]

theorem leuart_drain_link (out : List Nat) :
    ∀ (fuel : Nat) (m : Machine) (q : List (List Nat)), boot_link m out q →
      boot_link_live m q → leuart_drain_rounds m q ≤ fuel →
      ∃ m1, leuart_drain fuel m = Run.done () m1 ∧ boot_link m1 out [] ∧
        m1.leuart_payload.txbusy = false ∧
        (m1.event_scheduled &&& LEUART0_TX_DONE_EVT != 0) = false := by
  have hstop : ∀ (m : Machine) (q : List (List Nat)), boot_link m out q → boot_link_live m q →
      (get_scheduled_events m &&& LEUART0_TX_DONE_EVT != 0) = false →
      m.leuart_payload.txbusy = false → q = [] := by
    intro m q _ hl hp hb
    by_contra hne
    have := hl hb hne
    have hp1 : (m.event_scheduled &&& LEUART0_TX_DONE_EVT != 0) = false := hp
    simp only [bne_eq_false_iff_eq] at hp1
    exact this hp1
  intro fuel
  induction fuel with
  | zero =>
    intro m q h hl hr
    have hr0 : leuart_drain_rounds m q = 0 := Nat.le_zero.mp hr
    unfold leuart_drain_rounds at hr0
    have hp : (m.event_scheduled &&& LEUART0_TX_DONE_EVT != 0) = false := by
      cases hc : (m.event_scheduled &&& LEUART0_TX_DONE_EVT != 0) with
      | false => rfl
      | true => rw [hc] at hr0; simp only [if_true] at hr0; omega
    have hb : m.leuart_payload.txbusy = false := by
      obtain ⟨_, ⟨_, _, _, _, t5⟩, _⟩ := h
      rcases t5 with ⟨c1, _⟩ | ⟨_, c2, _⟩ | ⟨_, c2, _⟩
      · exact c1
      · rw [c2] at hr0; simp only at hr0; omega
      · rw [c2] at hr0; simp only at hr0; omega
    have hq0 := hstop m q h hl hp hb
    subst hq0
    exact ⟨m, rfl, h, hb, hp⟩
  | succ fuel ih =>
    intro m q h hl hr
    cases hp : (get_scheduled_events m &&& LEUART0_TX_DONE_EVT != 0) with
    | true =>
      obtain ⟨m1, q1, e1, e2, e3, _, e5⟩ := leuart0_tx_done_evt_link m out q h hp
      obtain ⟨m2, g1, g2⟩ := ih m1 q1 e2 e3 (by omega)
      refine ⟨m2, ?_, g2⟩
      rw [leuart_drain, hp, if_pos rfl, e1, Run.bind_done, g1]
    | false =>
      cases hb : m.leuart_payload.txbusy with
      | true =>
        obtain ⟨m1, e1, e2, e3, e4⟩ := leuart_tx_irq_link m out q h hb
        obtain ⟨m2, g1, g2⟩ := ih m1 q e2 e3 (by omega)
        refine ⟨m2, ?_, g2⟩
        rw [leuart_drain, hp, if_neg (by decide), hb, if_pos rfl, e1, Run.bind_done, g1]
      | false =>
        have hq0 := hstop m q h hl hp hb
        subst hq0
        refine ⟨m, ?_, h, hb, hp⟩
        rw [leuart_drain, hp, if_neg (by decide), hb, if_neg (by decide)]

theorem leuart_drain_rounds_le (m : Machine) (out : List Nat) (q : List (List Nat))
    (h : boot_link m out q) : leuart_drain_rounds m q ≤ 82 + 2 * ble_used q := by
  obtain ⟨_, ⟨_, _, _, _, t5⟩, _⟩ := h
  have hlen := ble_used_length q
  unfold leuart_drain_rounds
  rcases t5 with ⟨_, c2, _⟩ | ⟨_, c2, _, _, c5, _⟩ | ⟨_, c2, _⟩ <;> rw [c2] <;> dsimp only <;>
    split_ifs <;> omega

theorem boot_up_selftest_link :
    boot_up_selftest (app_peripheral_setup boot).machine
      = Run.done () (boot_up_selftest (app_peripheral_setup boot).machine).machine ∧
    boot_link (boot_up_selftest (app_peripheral_setup boot).machine).machine
      (rxtest_bytes ++ [10, 80, 97, 115, 115, 101, 100, 32, 67, 105, 114, 99, 117, 108, 97, 114,
        32, 66, 117, 102, 102, 101, 114, 32, 84, 101, 115, 116, 10]) [] := by
  have key :
      boot_up_selftest (app_peripheral_setup boot).machine
        = Run.done () (boot_up_selftest (app_peripheral_setup boot).machine).machine ∧
      ((boot_up_selftest (app_peripheral_setup boot).machine).machine.ble_cbuf.size = 64 ∧
       (boot_up_selftest (app_peripheral_setup boot).machine).machine.ble_cbuf.cbuf.length = 64 ∧
       (boot_up_selftest (app_peripheral_setup boot).machine).machine.ble_cbuf.read_ptr < 64 ∧
       (boot_up_selftest (app_peripheral_setup boot).machine).machine.ble_cbuf.write_ptr
         = ((boot_up_selftest (app_peripheral_setup boot).machine).machine.ble_cbuf.read_ptr
             + ble_used []) % 64) ∧
      ((boot_up_selftest (app_peripheral_setup boot).machine).machine.leuart_payload.message.length
         = 80 ∧
       (boot_up_selftest (app_peripheral_setup boot).machine).machine.leuart_hw.loopbk = false ∧
       (boot_up_selftest (app_peripheral_setup boot).machine).machine.leuart_hw.if_sigf = false ∧
       (boot_up_selftest (app_peripheral_setup boot).machine).machine.leuart_hw.if_startf
         = false) ∧
      ((boot_up_selftest (app_peripheral_setup boot).machine).machine.leuart_payload.txbusy
         = true ∧
       (boot_up_selftest (app_peripheral_setup boot).machine).machine.leuart_payload.state
         = LEUART_States.SEND_DATA ∧
       (boot_up_selftest (app_peripheral_setup boot).machine).machine.leuart_hw.ien_txbl = true ∧
       (boot_up_selftest (app_peripheral_setup boot).machine).machine.leuart_payload.index
         < (boot_up_selftest (app_peripheral_setup boot).machine).machine.leuart_payload.message_len ∧
       (boot_up_selftest (app_peripheral_setup boot).machine).machine.leuart_payload.message_len
         < 80 ∧
       (boot_up_selftest (app_peripheral_setup boot).machine).machine.lowest_energy_mode.get EM3
         = 2) ∧
      (boot_up_selftest (app_peripheral_setup boot).machine).machine.tx_done_evt
        = LEUART0_TX_DONE_EVT ∧
      (boot_up_selftest (app_peripheral_setup boot).machine).machine.lowest_energy_mode.get EM4
        < 9 ∧
      (boot_up_selftest (app_peripheral_setup boot).machine).machine.leuart_hw.txdata ++
        leuart_tx_pending
          (boot_up_selftest (app_peripheral_setup boot).machine).machine.leuart_payload ++
        ([] : List (List Nat)).flatten
        = rxtest_bytes ++ [10, 80, 97, 115, 115, 101, 100, 32, 67, 105, 114, 99, 117, 108, 97,
          114, 32, 66, 117, 102, 102, 101, 114, 32, 84, 101, 115, 116, 10] := by
    decide!
  generalize (boot_up_selftest (app_peripheral_setup boot).machine).machine = M at key ⊢
  obtain ⟨k0, ⟨k1, k2, k3, k4⟩, ⟨k5, k6, k7, k8⟩, k9, k10, k11, k12⟩ := key
  have hu : ble_used [] ≤ 63 := by decide
  have hq : ble_queue M.ble_cbuf [] := ⟨k1, k2, k3, hu, k4, trivial⟩
  have htx : leuart_tx_ok M.lowest_energy_mode M.leuart_payload M.leuart_hw :=
    ⟨k5, k6, k7, k8, Or.inr (Or.inl k9)⟩
  exact ⟨k0, hq, htx, k10, Or.inr k11, k12⟩

theorem scheduled_boot_up_evt_tx_eq (k1 k2 k3 k4 k5 k6 : Nat) (m : Machine) :
    scheduled_boot_up_evt_tx k1 k2 k3 k4 k5 k6 m =
      (boot_up_selftest m).bind fun _ m3 =>
      (ble_write_tx k1 k2 [10, 72, 101, 108, 108, 111, 32, 87, 111, 114, 108, 100, 10] m3).bind
      fun _ m4 =>
      (ble_write_tx k3 k4 [67, 105, 114, 99, 117, 108, 97, 114, 32, 66, 117, 102, 102, 101, 114,
        32, 76, 97, 98, 10] m4).bind fun _ m5 =>
      ble_write_tx k5 k6 [74, 117, 115, 116, 105, 110, 32, 84, 104, 119, 97, 105, 116, 101, 115,
        10] m5 := by
  unfold scheduled_boot_up_evt_tx boot_up_selftest
  simp only [Run.bind_assoc]

/-- C32 (counterexample): run from the state `app_peripheral_setup` leaves,
with no progress of the transmitter, `scheduled_boot_up_evt` returns with the
transmitter busy on a message of 29 bytes, "\nPassed Circular Buffer Test\n",
of which no byte has been written yet: the first message handed to the
transmitter is the one `circular_buff_test` writes, not "\nHello World\n".
Once the loop of `main` has drained the queue, the bytes written to the
transmitter after those of the self-test of `ble_open` are that message
followed by the three messages of the handler. -/
theorem boot_up_hands_over_test_report_first :
    scheduled_boot_up_evt (app_peripheral_setup boot).machine
      = Run.done () (scheduled_boot_up_evt (app_peripheral_setup boot).machine).machine ∧
    (scheduled_boot_up_evt (app_peripheral_setup boot).machine).machine.leuart_payload.txbusy
      = true ∧
    (scheduled_boot_up_evt (app_peripheral_setup boot).machine).machine.leuart_payload.index
      = 0 ∧
    (scheduled_boot_up_evt (app_peripheral_setup boot).machine).machine.leuart_payload.message_len
      = 29 ∧
    (scheduled_boot_up_evt (app_peripheral_setup boot).machine).machine.leuart_payload.message.take
        29
      = [10, 80, 97, 115, 115, 101, 100, 32, 67, 105, 114, 99, 117, 108, 97, 114,
        32, 66, 117, 102, 102, 101, 114, 32, 84, 101, 115, 116, 10] ∧
    (scheduled_boot_up_evt (app_peripheral_setup boot).machine).machine.leuart_hw.txdata
      = rxtest_bytes ∧
    ((scheduled_boot_up_evt (app_peripheral_setup boot).machine).bind
        fun _ m => leuart_drain 200 m).machine.leuart_hw.txdata
      = rxtest_bytes ++
        [10, 80, 97, 115, 115, 101, 100, 32, 67, 105, 114, 99, 117, 108, 97, 114,
          32, 66, 117, 102, 102, 101, 114, 32, 84, 101, 115, 116, 10] ++
        [10, 72, 101, 108, 108, 111, 32, 87, 111, 114, 108, 100, 10] ++
        [67, 105, 114, 99, 117, 108, 97, 114, 32, 66, 117, 102, 102, 101, 114, 32,
          76, 97, 98, 10] ++
        [74, 117, 115, 116, 105, 110, 32, 84, 104, 119, 97, 105, 116, 101, 115, 10] ∧
    ((scheduled_boot_up_evt (app_peripheral_setup boot).machine).bind
        fun _ m => leuart_drain 200 m).machine.leuart_hw.txdata
      ≠ rxtest_bytes ++
        [10, 72, 101, 108, 108, 111, 32, 87, 111, 114, 108, 100, 10] ++
        [67, 105, 114, 99, 117, 108, 97, 114, 32, 66, 117, 102, 102, 101, 114, 32,
          76, 97, 98, 10] ++
        [74, 117, 115, 116, 105, 110, 32, 84, 104, 119, 97, 105, 116, 101, 115, 10] := by
  decide!

/-- C32 (amended): the bytes written to the transmitter as a result of
`scheduled_boot_up_evt` are, after those of the loopback self-test of
`ble_open`, the four messages "\nPassed Circular Buffer Test\n" (written by
`circular_buff_test`), "\nHello World\n", "Circular Buffer Lab\n" and
"Justin Thwaites\n", in that order, each complete and unmodified, whatever the
progress of the transmitter.  With `k1` ... `k6` interrupts of the running
transmission served before and inside the three calls of `ble_write`, the
handler returns, so neither the overflow assertion of `ble_circ_push` nor any
other stops it, and the bytes written so far start the stream.  After any
succession `ss` of transmit interrupts and dispatches of `leuart0_tx_done_evt`,
the loop of `main` drains the queue within 200 rounds: the transmitter is idle,
no event is pending, the ring buffer is empty, and the bytes written are the
whole stream.  With no progress at all the handler is `scheduled_boot_up_evt`
itself. -/
theorem boot_up_serial_output (k1 k2 k3 k4 k5 k6 : Nat) (ss : List LEUART_Tx_Step) (n : Nat) :
    (∀ m, scheduled_boot_up_evt_tx 0 0 0 0 0 0 m = scheduled_boot_up_evt m) ∧
    ∃ m1 m2,
      scheduled_boot_up_evt_tx k1 k2 k3 k4 k5 k6 (app_peripheral_setup boot).machine
        = Run.done () m1 ∧
      (∃ rest, m1.leuart_hw.txdata ++ rest = rxtest_bytes ++ boot_up_messages.flatten) ∧
      ((leuart_tx_steps ss m1).bind fun _ m => leuart_drain (200 + n) m) = Run.done () m2 ∧
      m2.leuart_hw.txdata = rxtest_bytes ++ boot_up_messages.flatten ∧
      m2.leuart_payload.txbusy = false ∧
      m2.event_scheduled &&& LEUART0_TX_DONE_EVT = 0 ∧
      m2.ble_cbuf.read_ptr = m2.ble_cbuf.write_ptr := by
  refine ⟨fun m => rfl, ?_⟩
  obtain ⟨s1, s2⟩ := boot_up_selftest_link
  have hu0 : ble_used [] = 0 := rfl
  obtain ⟨m4, q4, a1, a2, _, a4⟩ := ble_write_tx_link k1 k2
    [10, 72, 101, 108, 108, 111, 32, 87, 111, 114, 108, 100, 10] _ _ [] s2
    (by decide) (by decide) (by decide)
  obtain ⟨m5, q5, b1, b2, _, b4⟩ := ble_write_tx_link k3 k4
    [67, 105, 114, 99, 117, 108, 97, 114, 32, 66, 117, 102, 102, 101, 114, 32, 76, 97, 98, 10]
    m4 _ q4 a2 (by decide) (by decide) (by
      have e : ([10, 72, 101, 108, 108, 111, 32, 87, 111, 114, 108, 100, 10] : List Nat).length
        = 13 := rfl
      rw [hu0, e] at a4
      show ble_used q4 + 20 + 1 ≤ 63
      omega)
  have e1 : ([10, 72, 101, 108, 108, 111, 32, 87, 111, 114, 108, 100, 10] : List Nat).length
      = 13 := rfl
  have e2 : ([67, 105, 114, 99, 117, 108, 97, 114, 32, 66, 117, 102, 102, 101, 114, 32, 76, 97,
      98, 10] : List Nat).length = 20 := rfl
  have e3 : ([74, 117, 115, 116, 105, 110, 32, 84, 104, 119, 97, 105, 116, 101, 115, 10]
      : List Nat).length = 16 := rfl
  rw [hu0, e1] at a4
  rw [e2] at b4
  obtain ⟨m6, q6, c1, c2, c3, c4⟩ := ble_write_tx_link k5 k6
    [74, 117, 115, 116, 105, 110, 32, 84, 104, 119, 97, 105, 116, 101, 115, 10]
    m5 _ q5 b2 (by decide) (by decide) (by
      show ble_used q5 + 16 + 1 ≤ 63
      omega)
  rw [e3] at c4
  have hout : rxtest_bytes ++ [10, 80, 97, 115, 115, 101, 100, 32, 67, 105, 114, 99, 117, 108,
      97, 114, 32, 66, 117, 102, 102, 101, 114, 32, 84, 101, 115, 116, 10] ++
      [10, 72, 101, 108, 108, 111, 32, 87, 111, 114, 108, 100, 10] ++
      [67, 105, 114, 99, 117, 108, 97, 114, 32, 66, 117, 102, 102, 101, 114, 32, 76, 97, 98,
        10] ++
      [74, 117, 115, 116, 105, 110, 32, 84, 104, 119, 97, 105, 116, 101, 115, 10]
      = rxtest_bytes ++ boot_up_messages.flatten := by decide
  rw [hout] at c2
  obtain ⟨m7, q7, d1, d2, d3, d4⟩ := leuart_tx_steps_link _ ss m6 q6 c2 c3
  obtain ⟨m8, f1, f2, f3, f4⟩ := leuart_drain_link _ (200 + n) m7 q7 d2 d3 (by
    have := leuart_drain_rounds_le m7 _ q7 d2
    omega)
  have hrun : scheduled_boot_up_evt_tx k1 k2 k3 k4 k5 k6 (app_peripheral_setup boot).machine
      = Run.done () m6 := by
    rw [scheduled_boot_up_evt_tx_eq, s1, Run.bind_done, a1, Run.bind_done, b1, Run.bind_done, c1]
  refine ⟨m6, m8, hrun, ⟨leuart_tx_pending m6.leuart_payload ++ q6.flatten, by
    rw [← List.append_assoc]; exact c2.2.2.2.2⟩, by
    rw [d1, Run.bind_done, f1], ?_, f3, by simpa using f4, ?_⟩
  · obtain ⟨_, ⟨_, _, _, _, t5⟩, _, _, hs⟩ := f2
    rcases t5 with ⟨_, c2, _⟩ | ⟨c1, _⟩ | ⟨c1, _⟩
    · have hp : leuart_tx_pending m8.leuart_payload = [] := by
        unfold leuart_tx_pending; rw [c2]
      rw [hp] at hs
      simpa using hs
    · rw [f3] at c1; exact absurd c1 (by decide)
    · rw [f3] at c1; exact absurd c1 (by decide)
  · obtain ⟨⟨_, _, h3, _, h5, _⟩, _⟩ := f2
    rw [h5, hu0, Nat.add_zero, Nat.mod_eq_of_lt h3]

end CTDDLab
